import Mathlib

/-!
# NFCKey — MIN / Modbus slave firmware

Shallow embedding of the frame receiver (`MinUart.c`), the CRC-16 engine, the
hardware receive buffer (`IoTranslate.c`), the interrupt handlers
(`driver_isr.c`), the command dispatcher (`MinSlave.c`), the NFC access functions
(`NFC.c`) and the write scheduler (`Scheduler.c`).

Conventions of the embedding
* every C integer is a `Nat`; an assignment to a `uint8_t` / `uint16_t` object is
  reduced `% 256` / `% 65536` wherever the C expression can leave the range of
  the object; reads are taken as they are;
* every C array is a function `Nat → Nat` (index ↦ cell); a store is
  `Function.update`.  The embedding therefore gives a meaning to accesses past
  the declared array size (the cell simply exists); where a claim is about the
  bound itself the index of the store is exposed separately;
* module level objects (`oMinSlave`, `oNFC`, `txBuf`, the receive buffer of
  `IoTranslate.c`, the data register of the USART, the NFC memory) are fields of
  one explicit state record that is passed through.
-/

namespace NFCKey

/-! ## Constants (`MinUart.h`, `Build.h`, `IoTranslate.h`, `NFC.h`, `MinSlave.h`) -/

abbrev FALSE : Nat := 0
abbrev TRUE : Nat := 1

abbrev WAIT_FOR_RESYNC : Nat := 0
abbrev PARSE_INCOMING : Nat := 1

abbrev MIN_SLAVE_ADDRESS_INDEX : Nat := 0
abbrev MIN_FUNCTION_CODE_INDEX : Nat := 1
abbrev MIN_FC03_BYTES_REPLY_INDEX : Nat := 2
abbrev MIN_FC03_START_ADDR_INDEX : Nat := 3
abbrev MIN_FC03_NUM_REG_INDEX : Nat := 6
abbrev MIN_FC_CRCL_INDEX : Nat := 6
abbrev MIN_FC_CRCH_INDEX : Nat := 7
abbrev MIN_MASTER_BROADCAST : Nat := 0
abbrev MIN_BYTES_PER_REG : Nat := 2
abbrev MIN_CRC_LENGTH : Nat := 2
abbrev MIN_FC03_DATA_START : Nat := 3
abbrev MIN_FC_WRITE_REPLY_LENGTH : Nat := 6
abbrev MIN_FC16_BYTES_TO_RX_INDEX : Nat := 6
abbrev MIN_FC65_TYPE_CODE_INDEX : Nat := 2
abbrev MIN_FC65_NO_RESPONSE_CODE : Nat := 0
abbrev MIN_FC65_SETPOINT_RESPONSE_CODE : Nat := 1
abbrev MIN_FC65_SETPOINT_RESPONSE_PREFIX_LENGTH : Nat := 6
abbrev MIN_FC65_NO_RESPONSE_LENGTH : Nat := 5
abbrev MIN_FC69_BYTES_TO_RX_INDEX : Nat := 2
abbrev MIN_FC69_DATA_START_INDEX : Nat := 3
abbrev MIN_FC69_DATA_LENGTH_INDEX : Nat := 5
abbrev MIN_FC70_BYTES_TO_RX_INDEX : Nat := 2
abbrev MIN_FC70_DATA_START_INDEX : Nat := 3
abbrev MIN_FC70_PAYLOAD : Nat := 5

abbrev MODBUS_SLAVE_ADDRESS_INDEX : Nat := 0
abbrev MODBUS_FC03_BYTES_REPLY_INDEX : Nat := 2
abbrev MODBUS_FC16_BLOCK_INDEX : Nat := 2
abbrev MODBUS_FC03_BLOCK_INDEX : Nat := 2
abbrev MODBUS_FC03_MSB_ADDR_INDEX : Nat := 2
abbrev MODBUS_FC03_START_ADDR_INDEX : Nat := 3
abbrev MODBUS_FC03_NUM_REG_INDEX : Nat := 5
abbrev MODBUS_FC06_REG_VALH_INDEX : Nat := 4
abbrev MODBUS_FC06_REG_VALl_INDEX : Nat := 5
abbrev MODBUS_FC_CRCL_INDEX : Nat := 6
abbrev MODBUS_FC_CRCH_INDEX : Nat := 7
abbrev MODBUS_MASTER_BROADCAST : Nat := 0
abbrev MODBUS_CRC_LENGTH : Nat := 2
abbrev MODBUS_FC03_DATA_START : Nat := 3
abbrev MODBUS_FC_WRITE_REPLY_LENGTH : Nat := 6
abbrev MODBUS_FC16_BYTES_TO_RX_INDEX : Nat := 6
abbrev MODBUS_FC16_DATA_START_INDEX : Nat := 7

abbrev RX_BLOCK_BUFFER_SIZE : Nat := 128 * 2 + 8
abbrev MODBUS_RESYNC_LOAD : Nat := 3

abbrev MIN_FC03 : Nat := 3
abbrev MODBUS_FC03 : Nat := 3
abbrev MIN_FC06 : Nat := 6
abbrev MIN_FC16 : Nat := 16
abbrev MIN_FC65_SLAVE_POLL : Nat := 65
abbrev MIN_FC67_DISCOVER : Nat := 67
abbrev MIN_FC69_GET_PRODUCT_INFO : Nat := 69
abbrev MIN_FC70_STORE_PRODUCT_INFO : Nat := 70

abbrev NUMBER_REQUEST_BYTES_FC03 : Nat := 8
abbrev NUMBER_REQUEST_BYTES_FC06 : Nat := 8
abbrev NUMBER_REQUEST_BYTES_FC16 : Nat := 11
abbrev NUMBER_REQUEST_BYTES_FC65 : Nat := 4
abbrev NUMBER_REQUEST_BYTES_FC67 : Nat := 8
abbrev NUMBER_REQUEST_BYTES_FC69 : Nat := 8
abbrev NUMBER_REQUEST_BYTES_FC70 : Nat := 105

abbrev ONE_SECOND_TIME : Nat := 1000
abbrev NFC_BASE_ADDRESS : Nat := 2
abbrev NFC_SLAVE_ADDRESS : Nat := NFC_BASE_ADDRESS
abbrev BR_SELECT_115200 : Nat := 4

abbrev RX_BUFFER_LENGTH : Nat := 255
abbrev ERR : Nat := 1
abbrev NO_ERR : Nat := 0

abbrev BLOCK_NVM_OFFSET : Nat := 0x020
abbrev NFC_MAX_MEM : Nat := 256
abbrev MIN_SLAVE_MODEL_CONFIGURATION_CODE : Nat := 7
abbrev MIN_SLAVE_NUMBER_OF_REGISTERS : Nat := 17

abbrev EEPBusy : Nat := 1
abbrev EEPFree : Nat := 0

/-- The value of `a - b` computed in a 16-bit unsigned object (`b ≤ 65536`). -/
def sub16 (a b : Nat) : Nat := (a + 65536 - b) % 65536

/-! ## CRC-16 engine (`MinUart.c`, `get_crc_16`) -/

/-- The 16-entry nibble table `crc_16_table`. -/
def crc_16_table (i : Nat) : Nat :=
  match i with
  | 0 => 0x0000 | 1 => 0xCC01 | 2 => 0xD801 | 3 => 0x1400
  | 4 => 0xF001 | 5 => 0x3C00 | 6 => 0x2800 | 7 => 0xE401
  | 8 => 0xA001 | 9 => 0x6C00 | 10 => 0x7800 | 11 => 0xB401
  | 12 => 0x5000 | 13 => 0x9C01 | 14 => 0x8801 | 15 => 0x4400
  | _ => 0

/-- One half of the loop body of `get_crc_16`: fold the 4-bit value `nib`
(already masked by the caller) into `crc`. -/
def crcNibble (crc nib : Nat) : Nat :=
  let r := crc_16_table (crc &&& 0xF)
  let crc := (crc >>> 4) &&& 0x0FFF
  crc ^^^ r ^^^ crc_16_table nib

/-- The loop body of `get_crc_16` for the byte `b = *p`: low nibble, then high
nibble. -/
def crcByte (crc b : Nat) : Nat :=
  crcNibble (crcNibble crc (b &&& 0xF)) ((b >>> 4) &&& 0xF)

/-- The function `get_crc_16 (start, p, n)`: `while (n-- > 0) { ...; p++; }`.
The pointer `p` is the function giving the cells it addresses. -/
def get_crc_16 (start : Nat) (p : Nat → Nat) : Nat → Nat
  | 0 => start
  | n + 1 => get_crc_16 (crcByte start (p 0)) (fun i => p (i + 1)) n

/-- The CRC of a byte sequence: `get_crc_16 (0xFFFF, bytes, length)`. -/
def crcOf (bs : List Nat) : Nat :=
  get_crc_16 0xFFFF (fun i => bs.getD i 0) bs.length

/-- A byte sequence ends in the CRC of what precedes it, low byte first. -/
def crcTrailerOk (f : List Nat) : Prop :=
  2 ≤ f.length ∧
    crcOf (f.take (f.length - 2)) = f.getD (f.length - 2) 0 + 256 * f.getD (f.length - 1) 0

instance (f : List Nat) : Decidable (crcTrailerOk f) := by
  unfold crcTrailerOk; infer_instance

/-! ## Hardware receive buffer (`IoTranslate.c`) -/

/-- The module level objects `rxChars`, `rxBuffer`, `rxIndex`, `tempIndex` of
`IoTranslate.c`. -/
structure Usart where
  rxChars : Nat
  rxBuffer : Nat → Nat
  rxIndex : Nat
  tempIndex : Nat

/-- The initial values of the objects of `IoTranslate.c`. -/
def Usart.idle : Usart := ⟨0, fun _ => 0, 0, 0⟩

/-- The call `memset(rxBuffer, 0, RX_BUFFER_LENGTH)`. -/
def memsetRx (buf : Nat → Nat) : Nat → Nat :=
  fun i => if i < RX_BUFFER_LENGTH then 0 else buf i

/-- The function `USART_RxChar(&val)`: returns `(status, val, new buffer state)`. -/
def USART_RxChar (hw : Usart) : Nat × Nat × Usart :=
  if hw.rxChars > 0 then
    (NO_ERR, hw.rxBuffer hw.tempIndex,
      { hw with rxChars := (hw.rxChars - 1) % 256, tempIndex := (hw.tempIndex + 1) % 256 })
  else
    (ERR, 0, { hw with tempIndex := 0, rxIndex := 0, rxBuffer := memsetRx hw.rxBuffer })

/-- The function `USART_GetCharsInRxBuf`. -/
def USART_GetCharsInRxBuf (hw : Usart) : Nat := hw.rxChars

/-- The macro `HardwareUart_GetCharsInRxBuf()` (a cast to `uint8_t`). -/
def HardwareUart_GetCharsInRxBuf (hw : Usart) : Nat := USART_GetCharsInRxBuf hw % 256

/-- The function `USART_StoreData` when the receive-complete flag is set and the
data register holds `data`. -/
def USART_StoreData (data : Nat) (hw : Usart) : Usart :=
  if hw.rxIndex ≤ RX_BUFFER_LENGTH then
    { hw with rxBuffer := Function.update hw.rxBuffer hw.rxIndex (data % 256),
              rxIndex := (hw.rxIndex + 1) % 256,
              rxChars := (hw.rxChars + 1) % 256 }
  else
    { hw with rxIndex := 0 }

/-- The function `USART_ClearRxBuffer`. -/
def USART_ClearRxBuffer (hw : Usart) : Usart :=
  { rxBuffer := memsetRx hw.rxBuffer, rxChars := 0, rxIndex := 0, tempIndex := 0 }

/-! ## Frame receiver (`MinUart.h`, `MinUart.c`) -/

/-- The structure `MinUart_STYP`. -/
@[ext]
structure MinUart_STYP where
  modbusReSync : Nat
  rxBuffer : Nat → Nat
  moduleAddress : Nat
  processPacketFlag : Nat
  baudSelect : Nat
  badCrcFlag : Nat
  dataLength : Nat
  rxBufferIndex : Nat
  functionCode : Nat
  currentState : Nat

/-- The initialiser `MIN_UART_DEFAULTS`. -/
def MIN_UART_DEFAULTS : MinUart_STYP :=
  { modbusReSync := 0, rxBuffer := fun _ => 0, moduleAddress := NFC_BASE_ADDRESS,
    processPacketFlag := 0, baudSelect := BR_SELECT_115200,
    badCrcFlag := 0, dataLength := 0, rxBufferIndex := 0, functionCode := 0, currentState := 0 }

/-- The function `MinUart_init` (the re-initialisation of the hardware UART has no
effect on the modelled objects). -/
def MinUart_init (uart : MinUart_STYP) : MinUart_STYP :=
  { uart with processPacketFlag := FALSE, currentState := WAIT_FOR_RESYNC,
              rxBufferIndex := 0, badCrcFlag := 0, dataLength := 10 }

/-- Lines 125-131 of `MinUart_serviceRx`: restart on an expired countdown, then
reload the countdown. -/
def MinUart_resync (uart : MinUart_STYP) : MinUart_STYP :=
  let uart :=
    if uart.modbusReSync = 0 then
      { uart with currentState := PARSE_INCOMING, badCrcFlag := 0, rxBufferIndex := 0,
                  dataLength := 10 }
    else uart
  { uart with modbusReSync := MODBUS_RESYNC_LOAD }

/-- Lines 155-199 of `MinUart_serviceRx`: the address check at index 0 and the
function-code switch at index 1 (the effect on the receiver object). -/
def MinUart_checkHeader (uart : MinUart_STYP) (rxByte : Nat) : MinUart_STYP :=
  if uart.rxBufferIndex = 0 then
    if rxByte ≠ uart.moduleAddress ∧ rxByte ≠ MIN_MASTER_BROADCAST then
      { uart with currentState := WAIT_FOR_RESYNC }
    else uart
  else if uart.rxBufferIndex = MIN_FUNCTION_CODE_INDEX then
    let uart := { uart with functionCode := rxByte }
    if uart.functionCode = MIN_FC03 then
      { uart with dataLength := NUMBER_REQUEST_BYTES_FC03 }
    else if uart.functionCode = MIN_FC06 then
      { uart with dataLength := NUMBER_REQUEST_BYTES_FC06 }
    else if uart.functionCode = MIN_FC16 then
      { uart with dataLength := NUMBER_REQUEST_BYTES_FC16 }
    else if uart.functionCode = MIN_FC65_SLAVE_POLL then
      { uart with dataLength := NUMBER_REQUEST_BYTES_FC65 }
    else if uart.functionCode = MIN_FC67_DISCOVER then
      { uart with dataLength := NUMBER_REQUEST_BYTES_FC67 }
    else if uart.functionCode = MIN_FC69_GET_PRODUCT_INFO then
      { uart with dataLength := NUMBER_REQUEST_BYTES_FC69 }
    else if uart.functionCode = MIN_FC70_STORE_PRODUCT_INFO then
      { uart with dataLength := NUMBER_REQUEST_BYTES_FC70 }
    else
      { uart with currentState := WAIT_FOR_RESYNC }
  else uart

/-- The `default:` case of the function-code switch (lines 194-197) is reached:
the byte at index 1 is none of the seven function codes.  This is where
`HardwareUart_clearRxBuf()` is called. -/
def MinUart_unknownFC (uart : MinUart_STYP) (rxByte : Nat) : Prop :=
  uart.rxBufferIndex = MIN_FUNCTION_CODE_INDEX ∧
    rxByte ≠ MIN_FC03 ∧ rxByte ≠ MIN_FC06 ∧ rxByte ≠ MIN_FC16 ∧ rxByte ≠ MIN_FC65_SLAVE_POLL ∧
    rxByte ≠ MIN_FC67_DISCOVER ∧ rxByte ≠ MIN_FC69_GET_PRODUCT_INFO ∧
    rxByte ≠ MIN_FC70_STORE_PRODUCT_INFO

instance (uart : MinUart_STYP) (rxByte : Nat) : Decidable (MinUart_unknownFC uart rxByte) := by
  unfold MinUart_unknownFC; infer_instance

/-- Lines 202-209 of `MinUart_serviceRx`: the byte-count fields of function 16
and function 70. -/
def MinUart_checkLength (uart : MinUart_STYP) (rxByte : Nat) : MinUart_STYP :=
  if uart.functionCode = MIN_FC16 ∧ uart.rxBufferIndex = MIN_FC16_BYTES_TO_RX_INDEX then
    { uart with dataLength := rxByte + 9 }
  else if uart.functionCode = MIN_FC70_STORE_PRODUCT_INFO ∧
      uart.rxBufferIndex = MIN_FC70_BYTES_TO_RX_INDEX then
    { uart with dataLength := rxByte }
  else uart

/-- The comparison of line 226: the computed CRC against the two trailing cells.
`dataLength - 2` and `dataLength - 1` are computed in 16-bit unsigned arithmetic
(the `unsigned int` of the AVR target). -/
def MinUart_crcMatches (uart : MinUart_STYP) : Prop :=
  get_crc_16 0xFFFF uart.rxBuffer (sub16 uart.dataLength 2) =
    uart.rxBuffer (sub16 uart.dataLength 1) * 256 + uart.rxBuffer (sub16 uart.dataLength 2)

instance (uart : MinUart_STYP) : Decidable (MinUart_crcMatches uart) := by
  unfold MinUart_crcMatches; infer_instance

/-- Lines 216-237 of `MinUart_serviceRx`: the end-of-frame test and the CRC
check. -/
def MinUart_checkComplete (uart : MinUart_STYP) : MinUart_STYP :=
  if uart.rxBufferIndex ≥ uart.dataLength then
    let uart := { uart with currentState := WAIT_FOR_RESYNC, rxBufferIndex := 0 }
    if MinUart_crcMatches uart then
      { uart with badCrcFlag := FALSE, processPacketFlag := TRUE }
    else
      { uart with badCrcFlag := TRUE, processPacketFlag := FALSE }
  else uart

/-- The `case PARSE_INCOMING` of `MinUart_serviceRx` (lines 147-237), its effect
on the receiver object. -/
def MinUart_parseIncoming (uart : MinUart_STYP) (rxByte : Nat) : MinUart_STYP :=
  let uart := { uart with rxBuffer := Function.update uart.rxBuffer uart.rxBufferIndex rxByte }
  let uart := MinUart_checkHeader uart rxByte
  let uart := MinUart_checkLength uart rxByte
  let uart := { uart with rxBufferIndex := (uart.rxBufferIndex + 1) % 65536 }
  MinUart_checkComplete uart

/-- The function `MinUart_serviceRx`; `hw` is the receive buffer that
`HardwareUart_RecvChar` reads and that `HardwareUart_clearRxBuf` /
`USART_ClearRxBuffer` clear. -/
def MinUart_serviceRx (hw : Usart) (uart : MinUart_STYP) : Usart × MinUart_STYP :=
  let r := USART_RxChar hw
  let error := r.1
  let rxByte := r.2.1
  let hw := r.2.2
  if error ≠ 0 then
    (USART_ClearRxBuffer hw,
      { uart with currentState := WAIT_FOR_RESYNC, badCrcFlag := 0, rxBufferIndex := 0,
                  dataLength := 10 })
  else
    let uart := MinUart_resync uart
    if uart.currentState = WAIT_FOR_RESYNC then
      (USART_ClearRxBuffer hw,
        { uart with badCrcFlag := 0, rxBufferIndex := 0, dataLength := 10 })
    else if uart.currentState = PARSE_INCOMING then
      (if MinUart_unknownFC uart rxByte then USART_ClearRxBuffer hw else hw,
        MinUart_parseIncoming uart rxByte)
    else (hw, uart)

/-- The index of the store `uart->rxBuffer[uart->rxBufferIndex] = rxByte` (line
152) executed by `MinUart_serviceRx`, if this call executes it. -/
def MinUart_storeIndex (hw : Usart) (uart : MinUart_STYP) : Option Nat :=
  if (USART_RxChar hw).1 ≠ 0 then none
  else if (MinUart_resync uart).currentState = PARSE_INCOMING then
    some (MinUart_resync uart).rxBufferIndex
  else none

/-- The effect of the timer interrupt `ISR(TCA0_OVF_vect)` on the receiver (lines
120-123 of `driver_isr.c`). -/
def TCA0_OVF_uart (uart : MinUart_STYP) : MinUart_STYP :=
  if uart.modbusReSync ≠ 0 then { uart with modbusReSync := uart.modbusReSync - 1 } else uart

/-! ## NFC store and dispatcher state (`NFC.h`, `MinSlave.h`) -/

/-- The structure `block_STYP`. -/
structure block_STYP where
  blockNumber : Nat
  registerNumber : Nat
  length : Nat
  nfcBuffer : Nat → Nat

/-- The structure `NFC_STYP`. -/
structure NFC_STYP where
  block2WriteFLG : Nat
  block11WriteFLG : Nat
  block226WriteFLG : Nat
  instantWriteFLG : Nat
  productInfoFLG : Nat
  storeBroadcastFLG : Nat
  schedulerNFCWriteWait : Nat
  configuration : Nat
  productInfoLength : Nat
  productInfoData : Nat → Nat
  broadcast : block_STYP
  update : block_STYP

/-- The structure `MinSlave_STYP`.  The pointer `pDataToChange` is the function
giving the `uint16_t` cells it addresses (cell 0 is `*pDataToChange`). -/
structure MinSlave_STYP where
  slaveRegisters : Nat → Nat
  communicationTimeoutCNTR : Nat
  blockToChange : Nat
  regToChange : Nat
  pDataToChange : Nat → Nat
  numRegsToChange : Nat
  changeDataFlag : Nat
  validCommunicationReceivedFLG : Nat
  delayDoneFLG : Nat
  updateConfigurationsFLG : Nat
  slavePollBroadcastInterval : Nat
  uart : MinUart_STYP

/-- The module level objects of the firmware and the devices it drives.
* `pMinSlaveSelf` is `true` once the pointer has been set (it is only ever set to
  the address of `oMinSlave`);
* `txSent` lists the bytes written to the transmit data register, oldest first;
* `txEnable` is the level of the Tx_Enable line, `txcInterrupt` records
  `Enable_TXInterrupt()`;
* `nfcMem` is the content of the NFC memory, by 16-bit byte address;
* `halted` is set when the firmware stops for good: a failed `assert` (abort) or
  a loop whose exit test can never hold. -/
structure System where
  oMinSlave : MinSlave_STYP
  pMinSlaveSelf : Bool
  oNFC : NFC_STYP
  txBuf : Nat → Nat
  FlagEEPBusy : Nat
  usart : Usart
  txSent : List Nat
  txEnable : Nat
  txcInterrupt : Nat
  nfcMem : Nat → Nat
  halted : Bool

/-! ## NFC access (`NFC.c`) -/

/-- The loop `for (i = 0; i < n; i++) dst[dstOff + i] = src[srcOff + i];`. -/
def copyLoop (dst : Nat → Nat) (dstOff : Nat) (src : Nat → Nat) (srcOff : Nat) :
    Nat → (Nat → Nat)
  | 0 => dst
  | n + 1 =>
      Function.update (copyLoop dst dstOff src srcOff n) (dstOff + n) (src (srcOff + n))

/-- The function `NFC_SequentialRead (address, length, data)`: the device returns
the byte at its address counter and increments the counter (16 bits). -/
def NFC_SequentialRead (mem : Nat → Nat) (address length : Nat) (data : Nat → Nat) :
    Nat → Nat :=
  copyLoop data 0 (fun i => mem (i % 65536)) address length

/-- The function `NFC_InstantaneousWrite (nfc, address, data)`: the device stores
the two data bytes at `address` and at the following address. -/
def NFC_InstantaneousWrite (mem : Nat → Nat) (address data : Nat) : Nat → Nat :=
  Function.update (Function.update mem (address % 65536) ((data >>> 8) % 256))
    ((address + 1) % 65536) (data % 256)

/-! ## Command dispatcher (`MinSlave.c`) -/

/-- The loop of `MinSlave_sendReplyPRIV`: `HardwareUart_SendChar` for each of the
first `txLength` cells of `pSrc`. -/
def sendLoop (pSrc : Nat → Nat) (txLength : Nat) : List Nat :=
  (List.range txLength).map pSrc

/-- The function `MinSlave_sendReplyPRIV (pSrc, txLength)`.  With `txLength = 0`
the statement `assert(txLength)` fails and the firmware stops before anything is
sent. -/
def MinSlave_sendReplyPRIV (s : System) (pSrc : Nat → Nat) (txLength : Nat) : System :=
  if txLength = 0 then { s with halted := true }
  else { s with txSent := s.txSent ++ sendLoop pSrc txLength, txcInterrupt := 1 }

/-- The macro `minTxEnable()`. -/
def minTxEnable (s : System) : System := { s with txEnable := TRUE }

/-- The macro `minRxEnable()`. -/
def minRxEnable (s : System) : System := { s with txEnable := FALSE }

/-- The function `MinSlave_init`. -/
def MinSlave_init (s : System) : System :=
  minRxEnable
    { s with
      oMinSlave := { s.oMinSlave with
        changeDataFlag := FALSE, communicationTimeoutCNTR := ONE_SECOND_TIME,
        delayDoneFLG := FALSE, uart := MinUart_init s.oMinSlave.uart },
      pMinSlaveSelf := true }

/-- The register number of a request: bytes 2 and 3, minus `0x9C40`, in 16 bits. -/
def modbusRegisterNumber (rx : Nat → Nat) : Nat :=
  let registerNumber := rx MODBUS_FC03_MSB_ADDR_INDEX
  let registerNumber := (registerNumber <<< 8) % 65536
  let registerNumber := registerNumber ||| rx MODBUS_FC03_START_ADDR_INDEX
  sub16 registerNumber 0x9C40

/-- The function `ModbusSlave_replyRegisterRequestPRIV` (FC03). -/
def ModbusSlave_replyRegisterRequestPRIV (s : System) : System :=
  let rx := s.oMinSlave.uart.rxBuffer
  let s := { s with FlagEEPBusy := EEPBusy }
  let txBuf := Function.update s.txBuf MODBUS_SLAVE_ADDRESS_INDEX s.oMinSlave.uart.moduleAddress
  let txBuf := Function.update txBuf MIN_FUNCTION_CODE_INDEX MIN_FC03
  let txBuf := Function.update txBuf MODBUS_FC03_BYTES_REPLY_INDEX
    ((rx MODBUS_FC03_NUM_REG_INDEX * MIN_BYTES_PER_REG) % 256)
  let length := (rx MODBUS_FC03_NUM_REG_INDEX * MIN_BYTES_PER_REG) % 256
  let registerNumber := modbusRegisterNumber rx
  let registerNumber := (registerNumber * 2) % 65536
  let address := registerNumber
  let read := NFC_SequentialRead s.nfcMem address length (fun _ => 0)
  let txBuf := copyLoop txBuf MODBUS_FC03_DATA_START read 0 length
  let crc := get_crc_16 0xFFFF txBuf (MODBUS_FC03_START_ADDR_INDEX + length)
  let txBuf := Function.update txBuf (MODBUS_FC03_DATA_START + length) (crc &&& 0xff)
  let txBuf := Function.update txBuf (MODBUS_FC03_DATA_START + length + 1) ((crc >>> 8) % 256)
  let txLength := (MODBUS_FC03_DATA_START + length + MODBUS_CRC_LENGTH) % 256
  let s := minTxEnable { s with txBuf := txBuf }
  let s := MinSlave_sendReplyPRIV s s.txBuf txLength
  { s with FlagEEPBusy := EEPFree }

/-- The register loop of `MinSlave_discoverPRIV`: for `i < n` the high and the low
byte of `reg[i]` go to `txBuf[off + 2 i]` and `txBuf[off + 2 i + 1]`. -/
def registerLoop (txBuf : Nat → Nat) (off : Nat) (reg : Nat → Nat) : Nat → (Nat → Nat)
  | 0 => txBuf
  | n + 1 =>
      Function.update
        (Function.update (registerLoop txBuf off reg n) (off + 2 * n) ((reg n >>> 8) % 256))
        (off + 2 * n + 1) (reg n &&& 0xFF)

/-- The function `MinSlave_discoverPRIV` (FC67). -/
def MinSlave_discoverPRIV (s : System) : System :=
  let rx := s.oMinSlave.uart.rxBuffer
  let txBuf := Function.update s.txBuf MIN_SLAVE_ADDRESS_INDEX s.oMinSlave.uart.moduleAddress
  let txBuf := Function.update txBuf MIN_FUNCTION_CODE_INDEX MIN_FC67_DISCOVER
  let txBuf := Function.update txBuf MIN_FC03_BYTES_REPLY_INDEX
    ((rx MIN_FC03_NUM_REG_INDEX * MIN_BYTES_PER_REG) % 256)
  let registerDataPointer := fun i => s.oMinSlave.slaveRegisters (rx MIN_FC03_START_ADDR_INDEX + i)
  let i := rx MIN_FC03_NUM_REG_INDEX
  let txBuf := registerLoop txBuf MIN_FC03_DATA_START registerDataPointer i
  let crc := get_crc_16 0xFFFF txBuf (MIN_FC03_START_ADDR_INDEX + i * MIN_BYTES_PER_REG)
  let txBuf := Function.update txBuf (MIN_FC03_DATA_START + 2 * i) (crc &&& 0xff)
  let txBuf := Function.update txBuf (MIN_FC03_DATA_START + 2 * i + 1) ((crc >>> 8) % 256)
  let txLength :=
    (MIN_FC03_DATA_START + rx MIN_FC03_NUM_REG_INDEX * MIN_BYTES_PER_REG + MIN_CRC_LENGTH) % 256
  let s := minTxEnable { s with txBuf := txBuf }
  MinSlave_sendReplyPRIV s s.txBuf txLength

/-- The function `ModbusSlave_writeOneRegisterPRIV` (FC06). -/
def ModbusSlave_writeOneRegisterPRIV (s : System) : System :=
  let rx := s.oMinSlave.uart.rxBuffer
  let s := { s with FlagEEPBusy := EEPBusy }
  let data := ((rx MODBUS_FC06_REG_VALH_INDEX <<< 8) + rx MODBUS_FC06_REG_VALl_INDEX) % 65536
  let registerNumber := modbusRegisterNumber rx
  let address := (registerNumber * 2) % 65536
  let s := { s with nfcMem := NFC_InstantaneousWrite s.nfcMem address data }
  let txBuf := copyLoop s.txBuf 0 rx MODBUS_SLAVE_ADDRESS_INDEX MODBUS_FC_WRITE_REPLY_LENGTH
  let crc := get_crc_16 0xFFFF txBuf MODBUS_FC_WRITE_REPLY_LENGTH
  let txBuf := Function.update txBuf MODBUS_FC_CRCL_INDEX (crc &&& 0xff)
  let txBuf := Function.update txBuf MODBUS_FC_CRCH_INDEX ((crc >>> 8) % 256)
  let txLength := MODBUS_FC_WRITE_REPLY_LENGTH + MODBUS_CRC_LENGTH
  let s := minTxEnable { s with txBuf := txBuf }
  let s := MinSlave_sendReplyPRIV s s.txBuf txLength
  { s with FlagEEPBusy := EEPFree }

/-- The function `ModbusSlave_writeRegistersPRIV` (FC16). -/
def ModbusSlave_writeRegistersPRIV (s : System) : System :=
  let rx := s.oMinSlave.uart.rxBuffer
  let s := { s with FlagEEPBusy := EEPBusy }
  let registerNumber := modbusRegisterNumber rx
  let dataLength := rx MODBUS_FC16_BYTES_TO_RX_INDEX
  let s :=
    if rx MODBUS_SLAVE_ADDRESS_INDEX = MODBUS_MASTER_BROADCAST then
      { s with oNFC := { s.oNFC with
          broadcast := { s.oNFC.broadcast with
            length := dataLength,
            registerNumber := (registerNumber * 2) % 65536,
            nfcBuffer := copyLoop s.oNFC.broadcast.nfcBuffer 0 rx
              MODBUS_FC16_DATA_START_INDEX dataLength },
          storeBroadcastFLG := TRUE } }
    else if rx MODBUS_SLAVE_ADDRESS_INDEX = NFC_SLAVE_ADDRESS then
      let s := { s with oNFC := { s.oNFC with
          update := { s.oNFC.update with
            length := dataLength,
            registerNumber := registerNumber,
            nfcBuffer := copyLoop s.oNFC.update.nfcBuffer 0 rx
              MODBUS_FC16_DATA_START_INDEX dataLength },
          instantWriteFLG := TRUE } }
      let txBuf := copyLoop s.txBuf 0 rx MODBUS_SLAVE_ADDRESS_INDEX MODBUS_FC_WRITE_REPLY_LENGTH
      let crc := get_crc_16 0xFFFF txBuf MODBUS_FC_WRITE_REPLY_LENGTH
      let txBuf := Function.update txBuf MIN_FC_CRCL_INDEX (crc &&& 0xff)
      let txBuf := Function.update txBuf MIN_FC_CRCH_INDEX ((crc >>> 8) % 256)
      let txLength := MIN_FC_WRITE_REPLY_LENGTH + MIN_CRC_LENGTH
      let s := minTxEnable { s with txBuf := txBuf }
      MinSlave_sendReplyPRIV s s.txBuf txLength
    else s
  { s with FlagEEPBusy := EEPFree }

/-- The function `MinSlave_spSendRegistersPRIV`: returns the new state (reply in
`txBuf`, pointer advanced, flag cleared) and the 8-bit reply length. -/
def MinSlave_spSendRegistersPRIV (s : System) : System × Nat :=
  let m := s.oMinSlave
  let txBuf := Function.update s.txBuf MIN_FC65_TYPE_CODE_INDEX MIN_FC65_SETPOINT_RESPONSE_CODE
  let txBuf := Function.update txBuf 3 m.blockToChange
  let txBuf := Function.update txBuf 4 m.regToChange
  let txBuf := Function.update txBuf 5 m.numRegsToChange
  let i := m.numRegsToChange
  let txBuf := registerLoop txBuf 6 m.pDataToChange i
  let crc := get_crc_16 0xFFFF txBuf (MIN_FC65_SETPOINT_RESPONSE_PREFIX_LENGTH + i * 2)
  let txBuf := Function.update txBuf (6 + 2 * i) (crc &&& 0xff)
  let txBuf := Function.update txBuf (6 + 2 * i + 1) ((crc >>> 8) % 256)
  ({ s with
      oMinSlave := { m with changeDataFlag := FALSE,
                            pDataToChange := fun k => m.pDataToChange (k + i) },
      txBuf := txBuf },
    (6 + 2 * i + 2) % 256)

/-- The function `MinSlave_spNothingToRespondPRIV`. -/
def MinSlave_spNothingToRespondPRIV (s : System) : System × Nat :=
  let txBuf := Function.update s.txBuf MIN_FC65_TYPE_CODE_INDEX MIN_FC65_NO_RESPONSE_CODE
  let crc := get_crc_16 0xFFFF txBuf (MIN_FC65_NO_RESPONSE_LENGTH - MIN_CRC_LENGTH)
  let txBuf := Function.update txBuf (MIN_FC65_TYPE_CODE_INDEX + 1) (crc &&& 0xff)
  let txBuf := Function.update txBuf (MIN_FC65_TYPE_CODE_INDEX + 2) ((crc >>> 8) % 256)
  ({ s with txBuf := txBuf }, MIN_FC65_NO_RESPONSE_LENGTH)

/-- The function `MinSlave_slavePollPRIV` (FC65). -/
def MinSlave_slavePollPRIV (s : System) : System :=
  let s :=
    if s.oMinSlave.slavePollBroadcastInterval ≠ 0 then
      { s with oMinSlave := { s.oMinSlave with
          slavePollBroadcastInterval := s.oMinSlave.slavePollBroadcastInterval - 1 } }
    else s
  let txBuf := Function.update s.txBuf MIN_SLAVE_ADDRESS_INDEX s.oMinSlave.uart.moduleAddress
  let txBuf := Function.update txBuf MIN_FUNCTION_CODE_INDEX MIN_FC65_SLAVE_POLL
  let s := { s with txBuf := txBuf }
  let r :=
    if s.oMinSlave.changeDataFlag ≠ 0 then MinSlave_spSendRegistersPRIV s
    else if s.oMinSlave.slavePollBroadcastInterval = 0 then MinSlave_spNothingToRespondPRIV s
    else MinSlave_spNothingToRespondPRIV s
  let s := minTxEnable r.1
  MinSlave_sendReplyPRIV s s.txBuf r.2

/-- The function `MinSlave_storeProductInfoPRIV` (FC70).  The copy loop counts in
a `uint8_t` against the 16-bit `productInfoLength`: when that length exceeds 255
the exit test never holds. -/
def MinSlave_storeProductInfoPRIV (s : System) : System :=
  if s.pMinSlaveSelf = false then s
  else
    let rx := s.oMinSlave.uart.rxBuffer
    let productInfoLength := sub16 (rx MIN_FC70_BYTES_TO_RX_INDEX) MIN_FC70_PAYLOAD
    let s := { s with oNFC := { s.oNFC with productInfoLength := productInfoLength } }
    if 255 < productInfoLength then
      { s with
        oNFC := { s.oNFC with
          productInfoData := copyLoop s.oNFC.productInfoData 0 rx MIN_FC70_DATA_START_INDEX 256 },
        halted := true }
    else
      let s := { s with oNFC := { s.oNFC with
        productInfoData :=
          copyLoop s.oNFC.productInfoData 0 rx MIN_FC70_DATA_START_INDEX productInfoLength } }
      let txBuf := copyLoop s.txBuf 0 rx MIN_SLAVE_ADDRESS_INDEX 2
      let pid := s.oNFC.productInfoData
      let s := { s with oMinSlave := { s.oMinSlave with
        slaveRegisters := Function.update s.oMinSlave.slaveRegisters
          MIN_SLAVE_MODEL_CONFIGURATION_CODE
          (((pid (sub16 productInfoLength 3) <<< 8) % 65536) |||
            pid (sub16 productInfoLength 4)) } }
      let txBuf := Function.update txBuf 2 (pid (sub16 productInfoLength 2))
      let txBuf := Function.update txBuf 3 (pid (sub16 productInfoLength 1))
      let crc := get_crc_16 0xFFFF txBuf 4
      let txBuf := Function.update txBuf 4 (crc &&& 0xff)
      let txBuf := Function.update txBuf 5 ((crc >>> 8) % 256)
      let s := minTxEnable { s with txBuf := txBuf }
      let s := MinSlave_sendReplyPRIV s s.txBuf 6
      { s with oNFC := { s.oNFC with productInfoFLG := TRUE } }

/-- The function `MinSlave_getProductInfoPRIV` (FC69). -/
def MinSlave_getProductInfoPRIV (s : System) : System :=
  let rx := s.oMinSlave.uart.rxBuffer
  let txBuf := Function.update s.txBuf MIN_SLAVE_ADDRESS_INDEX s.oMinSlave.uart.moduleAddress
  let txBuf := Function.update txBuf MIN_FUNCTION_CODE_INDEX MIN_FC69_GET_PRODUCT_INFO
  let txBuf := Function.update txBuf MIN_FC69_BYTES_TO_RX_INDEX
    ((rx MIN_FC69_DATA_LENGTH_INDEX * 2) % 256)
  let length := (rx MIN_FC69_DATA_LENGTH_INDEX * 2) % 256
  let readBuf := NFC_SequentialRead s.nfcMem BLOCK_NVM_OFFSET length (fun _ => 0)
  let txBuf := copyLoop txBuf MIN_FC69_DATA_START_INDEX readBuf 0 length
  let crc := get_crc_16 0xFFFF txBuf (MIN_FC69_DATA_START_INDEX + length)
  let txBuf := Function.update txBuf (MIN_FC69_DATA_START_INDEX + length) (crc &&& 0xff)
  let txBuf := Function.update txBuf (MIN_FC69_DATA_START_INDEX + length + 1) ((crc >>> 8) % 256)
  let txLength := (MIN_FC03_DATA_START + length + MIN_CRC_LENGTH) % 256
  let s := minTxEnable { s with txBuf := txBuf }
  MinSlave_sendReplyPRIV s s.txBuf txLength

/-- The loop `while (HardwareUart_GetCharsInRxBuf() > 0) MinUart_serviceRx(...)` of
`MinSlave_manageMessages`, with a bound on the number of iterations. -/
def serviceRxLoop : Nat → Usart → MinUart_STYP → Usart × MinUart_STYP
  | 0, hw, uart => (hw, uart)
  | fuel + 1, hw, uart =>
      if HardwareUart_GetCharsInRxBuf hw > 0 then
        let r := MinUart_serviceRx hw uart
        serviceRxLoop fuel r.1 r.2
      else (hw, uart)

/-- The `switch (pMinSlaveSelf->uart.functionCode)` of `MinSlave_manageMessages`. -/
def MinSlave_dispatch (s : System) : System :=
  let fc := s.oMinSlave.uart.functionCode
  if fc = MODBUS_FC03 then ModbusSlave_replyRegisterRequestPRIV s
  else if fc = MIN_FC67_DISCOVER then MinSlave_discoverPRIV s
  else if fc = MIN_FC06 then ModbusSlave_writeOneRegisterPRIV s
  else if fc = MIN_FC16 then ModbusSlave_writeRegistersPRIV s
  else if fc = MIN_FC65_SLAVE_POLL then MinSlave_slavePollPRIV s
  else if fc = MIN_FC69_GET_PRODUCT_INFO then MinSlave_getProductInfoPRIV s
  else if fc = MIN_FC70_STORE_PRODUCT_INFO then MinSlave_storeProductInfoPRIV s
  else s

/-- The function `MinSlave_manageMessages`.  The receive loop runs at most 256
times: every pass lowers the 8-bit count `rxChars`. -/
def MinSlave_manageMessages (s : System) : System :=
  if s.halted then s
  else if s.pMinSlaveSelf = false then s
  else
    let r := serviceRxLoop 256 s.usart s.oMinSlave.uart
    let s := { s with usart := r.1, oMinSlave := { s.oMinSlave with uart := r.2 } }
    if s.oMinSlave.uart.processPacketFlag = FALSE then s
    else
      let s := { s with oMinSlave := { s.oMinSlave with
        validCommunicationReceivedFLG := TRUE,
        uart := { s.oMinSlave.uart with processPacketFlag := FALSE },
        communicationTimeoutCNTR := ONE_SECOND_TIME } }
      MinSlave_dispatch s

/-- The function `MinSlave_setupSetpointChange (block, registerNum, pData, numRegs)`:
returns the new state and the status. -/
def MinSlave_setupSetpointChange (s : System) (block registerNum : Nat) (pData : Nat → Nat)
    (numRegs : Nat) : System × Nat :=
  if s.pMinSlaveSelf = false then (s, 3)
  else
    ({ s with oMinSlave := { s.oMinSlave with
        blockToChange := block, regToChange := registerNum, pDataToChange := pData,
        numRegsToChange := numRegs, changeDataFlag := TRUE } }, 0)

/-- The receive interrupt `ISR(USART0_RXC_vect)` when the data register holds
`data`. -/
def ISR_USART0_RXC (data : Nat) (s : System) : System :=
  if s.halted then s
  else
    let s := { s with usart := USART_StoreData data s.usart }
    let s := MinSlave_manageMessages s
    if s.halted then s else { s with usart := USART_ClearRxBuffer s.usart }

/-! ## Power-on state (`MyMain.c`) -/

/-- The initialiser `MIN_SLAVE_DEFAULTS` followed by `MIN_UART_DEFAULTS`
(`MIN_DEFAULTS`), with the constants of `Version.h` and `Build.h`. -/
def MIN_DEFAULTS : MinSlave_STYP :=
  { slaveRegisters := fun i =>
      match i with
      | 0 => 0x0103 | 1 => 0x0100 | 4 => 0x0103 | 5 => 0x0100 | _ => 0
    communicationTimeoutCNTR := ONE_SECOND_TIME
    blockToChange := 0, regToChange := 0, pDataToChange := fun _ => 0, numRegsToChange := 0
    changeDataFlag := 0, validCommunicationReceivedFLG := 0, delayDoneFLG := 0
    updateConfigurationsFLG := 0
    slavePollBroadcastInterval := ONE_SECOND_TIME
    uart := MIN_UART_DEFAULTS }

/-- The initialiser `BLK_DEFAULTS`. -/
def BLK_DEFAULTS : block_STYP := ⟨0, 0, 0, fun _ => 0⟩

/-- The initialiser `NFC_DEFAULTS`. -/
def NFC_DEFAULTS : NFC_STYP :=
  { block2WriteFLG := FALSE, block11WriteFLG := FALSE, block226WriteFLG := FALSE
    instantWriteFLG := FALSE, productInfoFLG := FALSE, storeBroadcastFLG := FALSE
    schedulerNFCWriteWait := FALSE, configuration := 0, productInfoLength := 0
    productInfoData := fun _ => 0, broadcast := BLK_DEFAULTS, update := BLK_DEFAULTS }

/-- The objects as the program image defines them, before `main` runs, with an NFC
memory holding `mem`. -/
def System.reset (mem : Nat → Nat) : System :=
  { oMinSlave := MIN_DEFAULTS, pMinSlaveSelf := false, oNFC := NFC_DEFAULTS
    txBuf := fun _ => 0, FlagEEPBusy := 0, usart := Usart.idle, txSent := []
    txEnable := 0, txcInterrupt := 0, nfcMem := mem, halted := false }

/-- The bytes of a frame delivered one receive interrupt after the other. -/
def receiveBytes (s : System) : List Nat → System
  | [] => s
  | b :: bs => receiveBytes (ISR_USART0_RXC b s) bs

/-! ## Byte arrivals, receive errors and timer ticks -/

/-- What can happen to the receiver: a byte arrives and `MinUart_serviceRx` is
called for it, `MinUart_serviceRx` is called and the byte source reports an
error, or the 1 msec timer interrupt runs. -/
inductive RxEvent where
  | byte (b : Nat)
  | rxError
  | tick

/-- The receive buffer of `IoTranslate.c` right after the receive interrupt has
stored the byte `b` into the cleared buffer (`USART_StoreData`). -/
def rxPending (b : Nat) : Usart := USART_StoreData b Usart.idle

/-- One event applied to the receiver. -/
def rxStep (u : MinUart_STYP) : RxEvent → MinUart_STYP
  | .byte b => (MinUart_serviceRx (rxPending b) u).2
  | .rxError => (MinUart_serviceRx Usart.idle u).2
  | .tick => TCA0_OVF_uart u

/-- A sequence of events applied to the receiver, oldest first. -/
def rxRun (u : MinUart_STYP) : List RxEvent → MinUart_STYP
  | [] => u
  | e :: es => rxRun (rxStep u e) es

/-- No byte of the sequence arrives while the resync countdown is 0: the
sequence stays inside one synchronisation window. -/
def NoResync (u : MinUart_STYP) : List RxEvent → Prop
  | [] => True
  | .byte b :: es => u.modbusReSync ≠ 0 ∧ NoResync (rxStep u (.byte b)) es
  | .rxError :: es => NoResync (rxStep u .rxError) es
  | .tick :: es => NoResync (rxStep u .tick) es

/-- The events of a frame sent byte by byte: each item is the number of timer
ticks that elapse before the byte, and the byte. -/
def frameEvents : List (Nat × Nat) → List RxEvent
  | [] => []
  | (k, b) :: rest => List.replicate k RxEvent.tick ++ RxEvent.byte b :: frameEvents rest

/-- The bytes of a timed frame. -/
def frameBytes (fr : List (Nat × Nat)) : List Nat := fr.map Prod.snd

/-- Fewer than `MODBUS_RESYNC_LOAD` ticks elapse before every byte but the
first. -/
def GapsOk (fr : List (Nat × Nat)) : Prop := ∀ p ∈ fr.tail, p.1 < MODBUS_RESYNC_LOAD

instance (fr : List (Nat × Nat)) : Decidable (GapsOk fr) := by
  unfold GapsOk; infer_instance


/-! ## Register access for other modules (`MinSlave.c`, `MinSlave.h`) -/

/-- The value `MIN_NOT_INITIALIZED` of the MIN errors enum. -/
abbrev MIN_NOT_INITIALIZED : Nat := 3

abbrev MINSLAVE_GET_SLAVE_DATA_SUCCESS : Nat := 0
abbrev MINSLAVE_GET_SLAVE_DATA_FAIL_NULL_POINTER : Nat := 1
abbrev MINSLAVE_GET_SLAVE_DATA_FAIL_INVALID_REGISTER : Nat := 2
abbrev MINSLAVE_PUT_SLAVE_DATA_SUCCESS : Nat := 0
abbrev MINSLAVE_PUT_SLAVE_DATA_FAIL_INVALID_REGISTER : Nat := 1

/-- The function `MinSlave_getSlaveData (reg, returnData)`.  The pointer
`returnData` is `none` when it is null and `some x` when it addresses a cell that
holds `x`; the result is the returned status and the pointer with the content of
its cell after the call. -/
def MinSlave_getSlaveData (s : System) (reg : Nat) (returnData : Option Nat) :
    Nat × Option Nat :=
  if s.pMinSlaveSelf = false then (MIN_NOT_INITIALIZED, returnData)
  else
    match returnData with
    | none => (MINSLAVE_GET_SLAVE_DATA_FAIL_NULL_POINTER, none)
    | some old =>
        if reg ≥ MIN_SLAVE_NUMBER_OF_REGISTERS then
          (MINSLAVE_GET_SLAVE_DATA_FAIL_INVALID_REGISTER, some old)
        else (MINSLAVE_GET_SLAVE_DATA_SUCCESS, some (s.oMinSlave.slaveRegisters reg))

/-- The function `MinSlave_putSlaveData (reg, data)`: the new state and the
returned status. -/
def MinSlave_putSlaveData (s : System) (reg data : Nat) : System × Nat :=
  if s.pMinSlaveSelf = false then (s, MIN_NOT_INITIALIZED)
  else if reg ≥ MIN_SLAVE_NUMBER_OF_REGISTERS then
    (s, MINSLAVE_PUT_SLAVE_DATA_FAIL_INVALID_REGISTER)
  else
    ({ s with oMinSlave := { s.oMinSlave with
        slaveRegisters := Function.update s.oMinSlave.slaveRegisters reg data } },
      MINSLAVE_PUT_SLAVE_DATA_SUCCESS)

/-! ## Block addresses and page write (`NFC.c`, `NFC.h`) -/

abbrev HOLDING_REG_OFFSET : Nat := 0x0020
abbrev BYTES_IN_PAGE : Nat := 4
abbrev BLOCK2 : Nat := 2
abbrev BLOCK11 : Nat := 11
abbrev BLOCK226 : Nat := 226

/-- Modelled from the spec: the macro `TIME_10_MSEC` that `ISR(TCA0_OVF_vect)`
compares the wait counter with is not defined in the headers at hand
(`Scheduler.h` defines `TIME_6_MSEC` as 6); it is the number of 1 msec timer
interrupts of the settle delay, 10 by its name and within the 5 to 10 msec that
the specification gives for the write cycle. -/
abbrev TIME_10_MSEC : Nat := 10

/-- The function `NFC_getUpdateBlkAddress`, a `uint16_t`. -/
def NFC_getUpdateBlkAddress (nfc : NFC_STYP) : Nat :=
  (HOLDING_REG_OFFSET + nfc.update.registerNumber * 2) % 65536

/-- The function `NFC_getBroadcastBlkAddress`, a `uint16_t`. -/
def NFC_getBroadcastBlkAddress (nfc : NFC_STYP) : Nat :=
  (HOLDING_REG_OFFSET + nfc.broadcast.registerNumber * 2) % 65536

/-- The loop of `NFC_PageWrite`: the device stores the `n` bytes sent to it at its
address counter, which starts at `address` and counts in 16 bits. -/
def pageWriteLoop (mem : Nat → Nat) (address : Nat) (data : Nat → Nat) : Nat → (Nat → Nat)
  | 0 => mem
  | n + 1 =>
      Function.update (pageWriteLoop mem address data n) ((address + n) % 65536) (data n)

/-- The function `NFC_PageWrite (address, data)`. -/
def NFC_PageWrite (mem : Nat → Nat) (address : Nat) (data : Nat → Nat) : Nat → Nat :=
  pageWriteLoop mem address data BYTES_IN_PAGE

/-! ## Write scheduler (`Scheduler.c`) -/

/-- The function `Scheduler_minTimeoutCheck`. -/
def Scheduler_minTimeoutCheck (s : System) : System :=
  if s.oMinSlave.communicationTimeoutCNTR ≠ 0 then
    let s := { s with oMinSlave := { s.oMinSlave with
      communicationTimeoutCNTR := s.oMinSlave.communicationTimeoutCNTR - 1 } }
    if s.oMinSlave.communicationTimeoutCNTR = 0 then
      MinSlave_init { s with oMinSlave := { s.oMinSlave with
        uart := { s.oMinSlave.uart with baudSelect := BR_SELECT_115200 } } }
    else s
  else s

/-- The busy wait `while (oNFC.schedulerNFCWriteWait == TRUE);` that follows a page
write.  Only `ISR(TCA0_OVF_vect)` ends it: its wait counter, which is 0 whenever
the flag is `FALSE`, reaches `TIME_10_MSEC` on the `TIME_10_MSEC`-th interrupt,
which clears the flag; each of these interrupts also counts `modbusReSync` down.
No byte is received during the wait. -/
def nfcWriteWait (s : System) : System :=
  { s with
    oNFC := { s.oNFC with schedulerNFCWriteWait := FALSE },
    oMinSlave := { s.oMinSlave with
      uart := rxRun s.oMinSlave.uart (List.replicate TIME_10_MSEC RxEvent.tick) } }

/-- The inner loop of the three write functions, after `n` passes:
`if (data[j] == buffer[index]) count++;  data[j] = buffer[index++];`
with the `uint8_t` objects `count` and `index`.  The result is `count`, `data` and
`index`. -/
def compareLoop (buffer : Nat → Nat) (data : Nat → Nat) (index : Nat) :
    Nat → Nat × (Nat → Nat) × Nat
  | 0 => (0, data, index)
  | j + 1 =>
      let r := compareLoop buffer data index j
      (if r.2.1 j = buffer r.2.2 then (r.1 + 1) % 256 else r.1,
        Function.update r.2.1 j (buffer r.2.2), (r.2.2 + 1) % 256)

/-- The objects that the page loop of a write function works on: the firmware
state, the local `index`, and the addresses handed to `NFC_PageWrite` so far,
oldest first. -/
structure PageState where
  sys : System
  index : Nat
  pageWrites : List Nat

/-- The body of the page loop for the page at `i`: read the page, compare it with
the next `BYTES_IN_PAGE` bytes of the request buffer, and write the page and wait
when they differ.  `buffer` is the request buffer (`oNFC.update.nfcBuffer`,
`oNFC.broadcast.nfcBuffer` or `oNFC.productInfoData`), which nothing modifies
while the loop runs. -/
def pageBody (buffer : Nat → Nat) (i : Nat) (p : PageState) : PageState :=
  let data := NFC_SequentialRead p.sys.nfcMem i BYTES_IN_PAGE (fun _ => 0)
  let r := compareLoop buffer data p.index BYTES_IN_PAGE
  if r.1 ≠ BYTES_IN_PAGE then
    let s := { p.sys with nfcMem := NFC_PageWrite p.sys.nfcMem i r.2.1 }
    let s := { s with oNFC := { s.oNFC with schedulerNFCWriteWait := TRUE } }
    { sys := nfcWriteWait s, index := r.2.2, pageWrites := p.pageWrites ++ [i] }
  else { p with index := r.2.2 }

/-- The page loop `for (i = address; i < address + length;) { ...; i = i +
BYTES_IN_PAGE; }` with the 16-bit `i`; `limit` is the value of
`address + length` in 16 bits.  `fuel` bounds the number of passes; when it runs
out the loop is one that never ends and the firmware is stopped. -/
def pageLoop (buffer : Nat → Nat) (limit : Nat) : Nat → Nat → PageState → PageState
  | 0, _, p => { p with sys := { p.sys with halted := true } }
  | fuel + 1, i, p =>
      if i < limit then
        pageLoop buffer limit fuel ((i + BYTES_IN_PAGE) % 65536) (pageBody buffer i p)
      else p

/-- The passes that the page loop is given.  The loop variable takes at most
`65536 / 4 = 16384` values before it is back at its first value; a loop that has
not ended after 16384 passes never ends. -/
abbrev PAGE_LOOP_FUEL : Nat := 16385

/-- The function `Scheduler_writeInstant`: the new state and the addresses of the
pages written. -/
def Scheduler_writeInstant (s : System) : System × List Nat :=
  let address := NFC_getUpdateBlkAddress s.oNFC
  let length := s.oNFC.update.length
  let p := pageLoop s.oNFC.update.nfcBuffer ((address + length) % 65536) PAGE_LOOP_FUEL address
    ⟨s, 0, []⟩
  (p.sys, p.pageWrites)

/-- The function `Scheduler_writeBroadcast`: the new state and the addresses of
the pages written. -/
def Scheduler_writeBroadcast (s : System) : System × List Nat :=
  let address := NFC_getBroadcastBlkAddress s.oNFC
  let length := s.oNFC.broadcast.length
  let p := pageLoop s.oNFC.broadcast.nfcBuffer ((address + length) % 65536) PAGE_LOOP_FUEL
    address ⟨s, 0, []⟩
  (p.sys, p.pageWrites)

/-- The function `Scheduler_writeProductInfo`: the new state and the addresses of
the pages written.  The 16-bit `productInfoLength` is assigned to the `uint8_t`
`length`. -/
def Scheduler_writeProductInfo (s : System) : System × List Nat :=
  let address := BLOCK_NVM_OFFSET
  let length := s.oNFC.productInfoLength % 256
  let p := pageLoop s.oNFC.productInfoData ((address + length) % 65536) PAGE_LOOP_FUEL address
    ⟨s, 0, []⟩
  (p.sys, p.pageWrites)

/-- Lines 90-103 of `Scheduler_manageTasks`: the block flags after a broadcast
write. -/
def clearBlockFlags (nfc : NFC_STYP) : NFC_STYP :=
  if nfc.broadcast.blockNumber = BLOCK2 ∧ nfc.block2WriteFLG = TRUE then
    { nfc with block2WriteFLG := FALSE }
  else if nfc.broadcast.blockNumber = BLOCK11 ∧ nfc.block11WriteFLG = TRUE then
    { nfc with block11WriteFLG := FALSE }
  else if nfc.broadcast.blockNumber = BLOCK226 ∧ nfc.block226WriteFLG = TRUE then
    { nfc with block226WriteFLG := FALSE }
  else { nfc with block2WriteFLG := FALSE, block11WriteFLG := FALSE, block226WriteFLG := FALSE }

/-- The function `Scheduler_manageTasks`: the new state and the addresses of the
pages written during the call.  `LedCtrl_ledsManager` acts on the LED object
only, which is not among the modelled objects.  When the write function never
returns, the statement that clears the flag is not reached. -/
def Scheduler_manageTasks (s : System) : System × List Nat :=
  if s.halted then (s, [])
  else
    let s := Scheduler_minTimeoutCheck s
    if s.oNFC.instantWriteFLG = TRUE then
      let r := Scheduler_writeInstant s
      if r.1.halted then r
      else ({ r.1 with oNFC := { r.1.oNFC with instantWriteFLG := FALSE } }, r.2)
    else if s.oNFC.productInfoFLG = TRUE then
      let r := Scheduler_writeProductInfo s
      if r.1.halted then r
      else ({ r.1 with oNFC := { r.1.oNFC with productInfoFLG := FALSE } }, r.2)
    else if s.oNFC.storeBroadcastFLG = TRUE then
      let r := Scheduler_writeBroadcast s
      if r.1.halted then r
      else
        ({ r.1 with oNFC := { clearBlockFlags r.1.oNFC with storeBroadcastFLG := FALSE } },
          r.2)
    else (s, [])

/-! ## Store indices and branch conditions exposed for the bounds properties -/

/-- The value of `dataLength` at the test `rxBufferIndex >= dataLength` of
`MinUart_serviceRx` (line 216) when this call finds the test true and takes the
frame-complete branch; `none` when the call does not take the branch.  In the
branch the CRC is computed over `dataLength - 2` cells and compared with the cells
`dataLength - 1` and `dataLength - 2`. -/
def MinUart_completeLength (hw : Usart) (uart : MinUart_STYP) : Option Nat :=
  let r := USART_RxChar hw
  if r.1 ≠ 0 then none
  else
    let uart := MinUart_resync uart
    if uart.currentState = PARSE_INCOMING then
      let rxByte := r.2.1
      let uart := { uart with rxBuffer := Function.update uart.rxBuffer uart.rxBufferIndex rxByte }
      let uart := MinUart_checkHeader uart rxByte
      let uart := MinUart_checkLength uart rxByte
      let uart := { uart with rxBufferIndex := (uart.rxBufferIndex + 1) % 65536 }
      if uart.rxBufferIndex ≥ uart.dataLength then some uart.dataLength else none
    else none

/-- The indices of `txBuf` that `ModbusSlave_replyRegisterRequestPRIV` stores to,
in the order of the stores: the three header cells, the `length` data cells from
`MODBUS_FC03_DATA_START` on (`*dataPtr++ = read[i]`), and the two CRC cells that
follow them.  `length` is the `uint8_t` of the function. -/
def ModbusSlave_replyRegisterRequest_storeIndices (s : System) : List Nat :=
  let length :=
    (s.oMinSlave.uart.rxBuffer MODBUS_FC03_NUM_REG_INDEX * MIN_BYTES_PER_REG) % 256
  let header := [ MODBUS_SLAVE_ADDRESS_INDEX, MIN_FUNCTION_CODE_INDEX, MODBUS_FC03_BYTES_REPLY_INDEX]
  header ++ (List.range length).map (fun i => MODBUS_FC03_DATA_START + i) ++
    [ MODBUS_FC03_DATA_START + length, MODBUS_FC03_DATA_START + length + 1]

/-- The indices of `txBuf` that `MinSlave_spSendRegistersPRIV` stores to, in the
order of the stores: the four cells from `MIN_FC65_TYPE_CODE_INDEX` on, two cells
for each of the `numRegsToChange` registers, and the two CRC cells. -/
def MinSlave_spSendRegisters_storeIndices (s : System) : List Nat :=
  let i := s.oMinSlave.numRegsToChange
  let leadCells := [MIN_FC65_TYPE_CODE_INDEX, 3, 4, 5]
  leadCells ++ (List.range (2 * i)).map (fun k => 6 + k) ++ [6 + 2 * i, 6 + 2 * i + 1]

/-- The indices of `txBuf` that `MinSlave_discoverPRIV` stores to, in the order of
the stores: the three header cells, two cells from `MIN_FC03_DATA_START` on for
each of the `rxBuffer[MIN_FC03_NUM_REG_INDEX]` passes of the loop (`*dataPtr++`
twice), and the two CRC cells that follow them. -/
def MinSlave_discover_storeIndices (s : System) : List Nat :=
  let i := s.oMinSlave.uart.rxBuffer MIN_FC03_NUM_REG_INDEX
  let header := [MIN_SLAVE_ADDRESS_INDEX, MIN_FUNCTION_CODE_INDEX, MIN_FC03_BYTES_REPLY_INDEX]
  header ++ (List.range (2 * i)).map (fun k => MIN_FC03_DATA_START + k) ++
    [MIN_FC03_DATA_START + 2 * i, MIN_FC03_DATA_START + 2 * i + 1]

/-- The indices of `txBuf` that `ModbusSlave_writeOneRegisterPRIV` stores to: the
`MODBUS_FC_WRITE_REPLY_LENGTH` cells of the echo (`txBuf[i] = *dataPtr++`) and the
two CRC cells. -/
def ModbusSlave_writeOneRegister_storeIndices : List Nat :=
  List.range MODBUS_FC_WRITE_REPLY_LENGTH ++ [ MODBUS_FC_CRCL_INDEX, MODBUS_FC_CRCH_INDEX]

/-- The indices of `txBuf` that `ModbusSlave_writeRegistersPRIV` stores to: none
in the broadcast branch, the echo and the two CRC cells in the branch of the
address `NFC_SLAVE_ADDRESS`, none for any other address byte. -/
def ModbusSlave_writeRegisters_storeIndices (s : System) : List Nat :=
  let rx := s.oMinSlave.uart.rxBuffer
  if rx MODBUS_SLAVE_ADDRESS_INDEX = MODBUS_MASTER_BROADCAST then []
  else if rx MODBUS_SLAVE_ADDRESS_INDEX = NFC_SLAVE_ADDRESS then
    List.range MODBUS_FC_WRITE_REPLY_LENGTH ++ [MIN_FC_CRCL_INDEX, MIN_FC_CRCH_INDEX]
  else []

/-- The indices of `txBuf` that `MinSlave_spNothingToRespondPRIV` stores to: the
type code and the two CRC cells after it. -/
def MinSlave_spNothingToRespond_storeIndices : List Nat :=
  [MIN_FC65_TYPE_CODE_INDEX, MIN_FC65_TYPE_CODE_INDEX + 1, MIN_FC65_TYPE_CODE_INDEX + 2]

/-- The indices of `txBuf` that `MinSlave_slavePollPRIV` stores to: the two cells
common to all responses, then the stores of `MinSlave_spSendRegistersPRIV` when
`changeDataFlag` is set and those of `MinSlave_spNothingToRespondPRIV` in the two
other branches. -/
def MinSlave_slavePoll_storeIndices (s : System) : List Nat :=
  [MIN_SLAVE_ADDRESS_INDEX, MIN_FUNCTION_CODE_INDEX] ++
    (if s.oMinSlave.changeDataFlag ≠ 0 then MinSlave_spSendRegisters_storeIndices s
     else MinSlave_spNothingToRespond_storeIndices)

/-- The indices of `txBuf` that `MinSlave_getProductInfoPRIV` stores to, in the
order of the stores: the three header cells, the `length` data cells from
`MIN_FC69_DATA_START_INDEX` on, and the two CRC cells that follow them.  `length`
is the `uint8_t` of the function. -/
def MinSlave_getProductInfo_storeIndices (s : System) : List Nat :=
  let length := (s.oMinSlave.uart.rxBuffer MIN_FC69_DATA_LENGTH_INDEX * 2) % 256
  let header := [MIN_SLAVE_ADDRESS_INDEX, MIN_FUNCTION_CODE_INDEX, MIN_FC69_BYTES_TO_RX_INDEX]
  header ++ (List.range length).map (fun i => MIN_FC69_DATA_START_INDEX + i) ++
    [MIN_FC69_DATA_START_INDEX + length, MIN_FC69_DATA_START_INDEX + length + 1]

/-- The indices of `txBuf` that `MinSlave_storeProductInfoPRIV` stores to: the six
stores `txBuf[index++]` (two echoed bytes, two bytes of the product information,
two CRC bytes); none when the function returns at once or when its copy loop never
ends. -/
def MinSlave_storeProductInfo_storeIndices (s : System) : List Nat :=
  if s.pMinSlaveSelf = false then []
  else if 255 < sub16 (s.oMinSlave.uart.rxBuffer MIN_FC70_BYTES_TO_RX_INDEX) MIN_FC70_PAYLOAD
  then []
  else [0, 1, 2, 3, 4, 5]

/-- The indices of `oNFC.productInfoData` that `MinSlave_storeProductInfoPRIV`
reads after its copy loop: `productInfoLength - 3`, `- 4`, `- 2` and `- 1`, in
16 bits. -/
def MinSlave_storeProductInfo_readIndices (s : System) : List Nat :=
  let productInfoLength :=
    sub16 (s.oMinSlave.uart.rxBuffer MIN_FC70_BYTES_TO_RX_INDEX) MIN_FC70_PAYLOAD
  if s.pMinSlaveSelf = false then []
  else if 255 < productInfoLength then []
  else [sub16 productInfoLength 3, sub16 productInfoLength 4, sub16 productInfoLength 2,
    sub16 productInfoLength 1]

/-- The indices of `txBuf` that the handler selected by the
`switch (pMinSlaveSelf->uart.functionCode)` of `MinSlave_manageMessages` stores
to. -/
def MinSlave_dispatch_storeIndices (s : System) : List Nat :=
  let fc := s.oMinSlave.uart.functionCode
  if fc = MODBUS_FC03 then ModbusSlave_replyRegisterRequest_storeIndices s
  else if fc = MIN_FC67_DISCOVER then MinSlave_discover_storeIndices s
  else if fc = MIN_FC06 then ModbusSlave_writeOneRegister_storeIndices
  else if fc = MIN_FC16 then ModbusSlave_writeRegisters_storeIndices s
  else if fc = MIN_FC65_SLAVE_POLL then MinSlave_slavePoll_storeIndices s
  else if fc = MIN_FC69_GET_PRODUCT_INFO then MinSlave_getProductInfo_storeIndices s
  else if fc = MIN_FC70_STORE_PRODUCT_INFO then MinSlave_storeProductInfo_storeIndices s
  else []
/-! ## Auxiliary definitions used to state and prove the properties -/

/-- The receiver after `MinUart_serviceRx` has fetched the byte `b` without
error (lines 119-241). -/
def uartOnByte (u : MinUart_STYP) (b : Nat) : MinUart_STYP :=
  let v := MinUart_resync u
  if v.currentState = WAIT_FOR_RESYNC then
    { v with badCrcFlag := 0, rxBufferIndex := 0, dataLength := 10 }
  else if v.currentState = PARSE_INCOMING then MinUart_parseIncoming v b
  else v

/-- The request length that the function-code switch of `MinUart_serviceRx`
assigns to `dataLength` (`NUMBER_REQUEST_BYTES_FCxx`), `none` for a code that
reaches the `default:` case. -/
def requestBytes (fc : Nat) : Option Nat :=
  if fc = MIN_FC03 then some NUMBER_REQUEST_BYTES_FC03
  else if fc = MIN_FC06 then some NUMBER_REQUEST_BYTES_FC06
  else if fc = MIN_FC16 then some NUMBER_REQUEST_BYTES_FC16
  else if fc = MIN_FC65_SLAVE_POLL then some NUMBER_REQUEST_BYTES_FC65
  else if fc = MIN_FC67_DISCOVER then some NUMBER_REQUEST_BYTES_FC67
  else if fc = MIN_FC69_GET_PRODUCT_INFO then some NUMBER_REQUEST_BYTES_FC69
  else if fc = MIN_FC70_STORE_PRODUCT_INFO then some NUMBER_REQUEST_BYTES_FC70
  else none

/-- Line 152 of `MinUart_serviceRx`: the store of the received byte. -/
def storeByte (u : MinUart_STYP) (b : Nat) : MinUart_STYP :=
  { u with rxBuffer := Function.update u.rxBuffer u.rxBufferIndex b }

/-- Line 212 of `MinUart_serviceRx`: the increment of the 16-bit index. -/
def bumpIndex (u : MinUart_STYP) : MinUart_STYP :=
  { u with rxBufferIndex := (u.rxBufferIndex + 1) % 65536 }

/-- A receiver in the middle of the read-registers request
`[2, 3, 0x9C, 0x40, 0, 2, 235, 188]`: seven of its eight bytes are in. -/
def uartSevenIn : MinUart_STYP :=
  rxRun MIN_UART_DEFAULTS
    (frameEvents [(5, 2), (0, 3), (1, 0x9C), (2, 0x40), (0, 0), (0, 2), (1, 235)])

/-- The receiver of `uartSevenIn` after three more timer ticks: the countdown has
expired in the middle of the frame. -/
def uartExpired : MinUart_STYP := rxRun uartSevenIn (List.replicate 3 RxEvent.tick)

/-- The total length of the request that begins with the bytes `f`, as the
receiver determines it: the fixed length of the function code, or `N + 9` for
function 16 with byte count `N` at index 6, or the length byte at index 2 for
function 70. -/
def requestLength (f : List Nat) : Nat :=
  if f.getD 1 0 = MIN_FC16 then f.getD MIN_FC16_BYTES_TO_RX_INDEX 0 + 9
  else if f.getD 1 0 = MIN_FC70_STORE_PRODUCT_INFO then f.getD MIN_FC70_BYTES_TO_RX_INDEX 0
  else (requestBytes (f.getD 1 0)).getD 0

/-- A request frame for the module with address `addr`: the address byte is `addr`
or the broadcast address, the function code is one of the seven accepted codes,
the frame has the length that goes with it, and every item is a byte. -/
structure WellFramed (addr : Nat) (f : List Nat) : Prop where
  address : f.getD 0 0 = addr ∨ f.getD 0 0 = MIN_MASTER_BROADCAST
  accepted : requestBytes (f.getD 1 0) ≠ none
  length : f.length = requestLength f
  bytes : ∀ b ∈ f, b < 256

instance (addr : Nat) (f : List Nat) : Decidable (WellFramed addr f) :=
  decidable_of_iff
    ((f.getD 0 0 = addr ∨ f.getD 0 0 = MIN_MASTER_BROADCAST) ∧
      requestBytes (f.getD 1 0) ≠ none ∧ f.length = requestLength f ∧ ∀ b ∈ f, b < 256)
    ⟨fun h => ⟨h.1, h.2.1, h.2.2.1, h.2.2.2⟩, fun h => ⟨h.1, h.2, h.3, h.4⟩⟩

/-- The value of `dataLength` once the first `k` bytes of the frame `f` are in. -/
def expectedAfter (f : List Nat) (k : Nat) : Nat :=
  if k ≤ 1 then 10
  else if f.getD 1 0 = MIN_FC16 ∧ 7 ≤ k then f.getD 6 0 + 9
  else if f.getD 1 0 = MIN_FC70_STORE_PRODUCT_INFO ∧ 3 ≤ k then f.getD 2 0
  else (requestBytes (f.getD 1 0)).getD 10

/-- The receiver `w` holds the first `k` bytes of the frame `f` that started in
state `u`, and is waiting for more. -/
structure InFrame (u : MinUart_STYP) (f : List Nat) (k : Nat) (w : MinUart_STYP) : Prop where
  state : w.currentState = PARSE_INCOMING
  index : w.rxBufferIndex = k
  countdown : w.modbusReSync = MODBUS_RESYNC_LOAD
  expected : w.dataLength = expectedAfter f k
  code : 2 ≤ k → w.functionCode = f.getD 1 0
  stored : ∀ i, i < k → w.rxBuffer i = f.getD i 0
  untouched : ∀ i, k ≤ i → w.rxBuffer i = u.rxBuffer i
  packet : w.processPacketFlag = u.processPacketFlag
  address : w.moduleAddress = u.moduleAddress
  badCrc : w.badCrcFlag = 0
  baud : w.baudSelect = u.baudSelect

/-- The read-registers request `[2, 3, 0x9C, 0x40, 0, 2, 235, 188]` with the ticks
that elapse before each byte. -/
def readRequestTimed : List (Nat × Nat) :=
  [(5, 2), (0, 3), (1, 0x9C), (2, 0x40), (0, 0), (0, 2), (1, 235), (2, 188)]

/-- A write-multiple-registers request with two data bytes (`N = 2`, 11 bytes in
all), with the ticks that elapse before each byte. -/
def writeRequestTimed : List (Nat × Nat) :=
  [(0, 2), (1, 16), (0, 0x9C), (0, 0x40), (2, 0), (0, 1), (1, 2), (0, 0xAB), (0, 0xCD),
    (2, 94), (1, 204)]

/-- The receiver states that the firmware can be in: the compiled-in initial
value, and from a reachable state the state after `MinUart_init`, after a call of
`MinUart_serviceRx` (with any content of the hardware receive buffer, whose cells
are bytes: the call fetches a byte or gets an error), after a timer tick, and
after `MinSlave_manageMessages` has consumed `processPacketFlag`. -/
inductive Reachable : MinUart_STYP → Prop
  | defaults : Reachable MIN_UART_DEFAULTS
  | init (u : MinUart_STYP) : Reachable u → Reachable (MinUart_init u)
  | service (u : MinUart_STYP) (hw : Usart) :
      Reachable u → hw.rxBuffer hw.tempIndex < 256 → Reachable (MinUart_serviceRx hw u).2
  | tick (u : MinUart_STYP) : Reachable u → Reachable (TCA0_OVF_uart u)
  | consume (u : MinUart_STYP) : Reachable u → Reachable { u with processPacketFlag := FALSE }

/-- The bounds that every reachable receiver state satisfies. -/
structure RxInv (u : MinUart_STYP) : Prop where
  length : u.dataLength ≤ RX_BLOCK_BUFFER_SIZE
  index : u.rxBufferIndex ≤ u.dataLength
  parsing : u.currentState = PARSE_INCOMING → u.rxBufferIndex < u.dataLength

/-- The firmware state in which the receiver has consumed the timed frame `fr` and
the hardware receive buffer is `hw`. -/
def afterFrame (s : System) (fr : List (Nat × Nat)) (hw : Usart) : System :=
  { s with usart := hw,
           oMinSlave := { s.oMinSlave with uart := rxRun s.oMinSlave.uart (frameEvents fr) } }

/-- The read-registers request of `readRequestTimed` with its last CRC byte
corrupted (189 for 188). -/
def corruptedRequestTimed : List (Nat × Nat) :=
  [(5, 2), (0, 3), (1, 0x9C), (2, 0x40), (0, 0), (0, 2), (1, 235), (2, 189)]

/-- The firmware after `MyMain_systemInit` has called `MinSlave_init`, with an
empty NFC memory. -/
def systemStarted : System := MinSlave_init (System.reset fun _ => 0)

/-- A valid read-registers request for 127 registers at register address
`0x9C40`, addressed to module 2 (CRC bytes 43, 157). -/
def readRequest127 : List Nat := [2, 3, 0x9C, 0x40, 0, 127, 43, 157]

/-- The hardware receive buffer is empty and its indices are at the start, as
`USART_ClearRxBuffer` leaves them. -/
def UsartClean (hw : Usart) : Prop := hw.rxChars = 0 ∧ hw.rxIndex = 0 ∧ hw.tempIndex = 0

instance (hw : Usart) : Decidable (UsartClean hw) := by
  unfold UsartClean; infer_instance

/-- The firmware state `s` with the hardware receive buffer replaced by `hw` and
the receiver object replaced by `u`. -/
def withReceiver (s : System) (hw : Usart) (u : MinUart_STYP) : System :=
  { s with usart := hw, oMinSlave := { s.oMinSlave with uart := u } }

/-- The bytes of `f` sent back to back (no tick in between). -/
def backToBack (f : List Nat) : List (Nat × Nat) := f.map fun b => (0, b)


/-! ## Valid requests and their replies -/

/-- The running firmware `s` receives the valid request `fr`: the firmware has
not stopped, `MinSlave_init` has run, the resync countdown has expired when the
first byte arrives, the following bytes arrive within the window, the bytes are a
request frame for this module whose last two bytes are the CRC of the others, and
`hw`, the hardware receive buffer once the receiver has fetched the last byte, is
empty. -/
structure ValidRequest (s : System) (fr : List (Nat × Nat)) (hw : Usart) : Prop where
  running : s.halted = false
  initialised : s.pMinSlaveSelf = true
  countdown : s.oMinSlave.uart.modbusReSync = 0
  gaps : GapsOk fr
  framed : WellFramed s.oMinSlave.uart.moduleAddress (frameBytes fr)
  crc : crcTrailerOk (frameBytes fr)
  drained : HardwareUart_GetCharsInRxBuf hw = 0

instance (s : System) (fr : List (Nat × Nat)) (hw : Usart) : Decidable (ValidRequest s fr hw) :=
  decidable_of_iff
    (s.halted = false ∧ s.pMinSlaveSelf = true ∧ s.oMinSlave.uart.modbusReSync = 0 ∧
      GapsOk fr ∧ WellFramed s.oMinSlave.uart.moduleAddress (frameBytes fr) ∧
      crcTrailerOk (frameBytes fr) ∧ HardwareUart_GetCharsInRxBuf hw = 0)
    ⟨fun h => ⟨h.1, h.2.1, h.2.2.1, h.2.2.2.1, h.2.2.2.2.1, h.2.2.2.2.2.1, h.2.2.2.2.2.2⟩,
      fun h => ⟨h.1, h.2, h.3, h.4, h.5, h.6, h.7⟩⟩

/-- The firmware state on which the function-code switch of
`MinSlave_manageMessages` runs after the frame `fr`: the packet flag has been
consumed, `validCommunicationReceivedFLG` set and the communication timeout
reloaded. -/
def atDispatch (s : System) (fr : List (Nat × Nat)) (hw : Usart) : System :=
  { afterFrame s fr hw with
    oMinSlave := { (afterFrame s fr hw).oMinSlave with
      validCommunicationReceivedFLG := TRUE,
      uart := { (afterFrame s fr hw).oMinSlave.uart with processPacketFlag := FALSE },
      communicationTimeoutCNTR := ONE_SECOND_TIME } }

/-- A reply body followed by its CRC, low byte first. -/
def withCrc (body : List Nat) : List Nat := body ++ [crcOf body % 256, crcOf body / 256]

/-- The body of a reply that carries `len` bytes read from the NFC memory `mem`
from address `a` on: address byte, function code, byte count, data. -/
def readBody (addr fc : Nat) (mem : Nat → Nat) (a len : Nat) : List Nat :=
  [addr, fc, len] ++ (List.range len).map fun i => mem ((a + i) % 65536)

/-- An NFC memory whose first two registers hold `0x0103` and `0x0100`: the bytes
`01 03 01 00` stand at the addresses 0 to 3 (register `r` at address `2 r`, the
mapping of the read handler) and again from `HOLDING_REG_OFFSET = 0x20` on; every
other byte is 0. -/
def versionStore : Nat → Nat := fun a =>
  if a = 0 ∨ a = 2 ∨ a = 0x20 ∨ a = 0x22 then 1 else if a = 1 ∨ a = 0x21 then 3 else 0

/-- The started firmware with the NFC memory `versionStore`. -/
def systemWithVersions : System := MinSlave_init (System.reset versionStore)

/-- The read-registers request `[2, 3, 0, 0, 0, 2, 196, 56]` (register address
bytes `0x00, 0x00`, two registers), with the ticks before each byte. -/
def readAtZeroTimed : List (Nat × Nat) :=
  [(3, 2), (0, 3), (1, 0), (0, 0), (0, 0), (2, 2), (0, 196), (0, 56)]

/-- The write-single-register request `[2, 6, 0x9C, 0x41, 0xAB, 0xCD, 73, 24]`
(value `0xABCD` for register address `0x9C41`), with the ticks before each
byte. -/
def writeOneTimed : List (Nat × Nat) :=
  [(4, 2), (0, 6), (0, 0x9C), (1, 0x41), (0, 0xAB), (0, 0xCD), (2, 73), (0, 24)]

/-- The request of `writeOneTimed` sent to the broadcast address:
`[0, 6, 0x9C, 0x41, 0xAB, 0xCD, 72, 250]`. -/
def writeOneBroadcastTimed : List (Nat × Nat) :=
  [(4, 0), (0, 6), (0, 0x9C), (1, 0x41), (0, 0xAB), (0, 0xCD), (2, 72), (0, 250)]

/-- The read-registers request `[2, 3, 0x9C, 0x41, 0, 1, 250, 125]` (one register
at register address `0x9C41`), with the ticks before each byte. -/
def readOneTimed : List (Nat × Nat) :=
  [(3, 2), (0, 3), (0, 0x9C), (1, 0x41), (0, 0), (0, 1), (2, 250), (0, 125)]

/-- The started firmware after it has handled the request of `writeOneTimed` and
three timer ticks have run the resync countdown down. -/
def systemAfterWrite : System :=
  withReceiver (MinSlave_manageMessages (afterFrame systemStarted writeOneTimed Usart.idle))
    Usart.idle
    (rxRun (MinSlave_manageMessages (afterFrame systemStarted writeOneTimed Usart.idle)).oMinSlave.uart
      (List.replicate 3 RxEvent.tick))

/-- The write-multiple-registers request of `writeRequestTimed` sent to the
broadcast address: `[0, 16, 0x9C, 0x40, 0, 1, 2, 0xAB, 0xCD, 71, 172]`. -/
def writeBroadcastTimed : List (Nat × Nat) :=
  [(3, 0), (1, 16), (0, 0x9C), (0, 0x40), (2, 0), (0, 1), (1, 2), (0, 0xAB), (0, 0xCD),
    (2, 71), (1, 172)]

/-- The high and the low byte of each of the first `n` cells of `reg`, as the
register loops store them: `(uint8_t) (reg[i] >> 8)`, then `reg[i] & 0xFF`. -/
def registerBytes (reg : Nat → Nat) : Nat → List Nat
  | 0 => []
  | n + 1 => registerBytes reg n ++ [(reg n >>> 8) % 256, reg n &&& 0xFF]

/-- The slave-poll request `[2, 65, 192, 224]`, with the ticks before each
byte. -/
def pollTimed : List (Nat × Nat) := [(3, 2), (1, 65), (0, 192), (2, 224)]

/-- The started firmware after `MinSlave_setupSetpointChange (1, 2, pData, n)`
with `pData[i] = 0x1234 + i`. -/
def systemWithSetpoint (n : Nat) : System :=
  (MinSlave_setupSetpointChange systemStarted 1 2 (fun i => 0x1234 + i) n).1

/-- The indices of `slaveRegisters` that the loop of `MinSlave_discoverPRIV` reads:
`registerDataPointer` starts at
`&slaveRegisters[rxBuffer[MIN_FC03_START_ADDR_INDEX]]` and is read and incremented
once for every `i < rxBuffer[MIN_FC03_NUM_REG_INDEX]`. -/
def discoverRegisterIndices (s : System) : List Nat :=
  (List.range (s.oMinSlave.uart.rxBuffer MIN_FC03_NUM_REG_INDEX)).map fun i =>
    s.oMinSlave.uart.rxBuffer MIN_FC03_START_ADDR_INDEX + i

/-- The discover request `[2, 67, 0, 0, 0, 3, 4, 55]` (start index 0 in byte 3,
count 3 in byte 5; the CRC low byte is 4), with the ticks before each byte. -/
def discoverThreeTimed : List (Nat × Nat) :=
  [(3, 2), (0, 67), (1, 0), (0, 0), (0, 0), (2, 3), (0, 4), (0, 55)]

/-- The discover request `[2, 67, 0, 16, 0, 3, 5, 242]` (start index 16 in byte 3,
3 in byte 5; the CRC low byte is 5), with the ticks before each byte. -/
def discoverHighTimed : List (Nat × Nat) :=
  [(3, 2), (0, 67), (1, 0), (0, 16), (0, 0), (2, 3), (0, 5), (0, 242)]

/-- The get-product-info request `[2, 69, 0, 0, 0, 2, 77, 247]` (count byte 2),
with the ticks before each byte. -/
def getInfoTimed : List (Nat × Nat) :=
  [(3, 2), (0, 69), (1, 0), (0, 0), (0, 0), (2, 2), (0, 77), (0, 247)]

/-- The store-product-info request
`[2, 70, 11, 0x11, 0x22, 0x33, 0x44, 0x55, 0x66, 38, 39]` (length byte 11, six
bytes of product information), with the ticks before each byte. -/
def storeInfoTimed : List (Nat × Nat) :=
  [(3, 2), (0, 70), (1, 11), (0, 0x11), (0, 0x22), (2, 0x33), (0, 0x44), (0, 0x55),
    (1, 0x66), (0, 38), (0, 39)]

/-! ## Auxiliary definitions for the scheduler properties -/

/-- The firmware state after `k` consecutive calls of `Scheduler_minTimeoutCheck`. -/
def timeoutChecks : Nat → System → System
  | 0, s => s
  | k + 1, s => Scheduler_minTimeoutCheck (timeoutChecks k s)

/-- The bytes of `f` sent back to back after a silence of `MODBUS_RESYNC_LOAD`
timer ticks. -/
def spaced : List Nat → List (Nat × Nat)
  | [] => []
  | b :: bs => (MODBUS_RESYNC_LOAD, b) :: backToBack bs

/-- The firmware after the bytes `f` have arrived, following a silence, and
`MinSlave_manageMessages` has run on the emptied hardware buffer. -/
def thenRequest (s : System) (f : List Nat) : System :=
  MinSlave_manageMessages (afterFrame s (spaced f) Usart.idle)

/-- The write-multiple-registers request for register address `0x9C41` (register
1) with two data bytes, sent to the broadcast address. -/
def writeRegisterOneBroadcast : List Nat := [0, 16, 0x9C, 0x41, 0, 1, 2, 0xAB, 0xCD, 70, 125]

/-- The request of `writeRegisterOneBroadcast` sent to the module address 2. -/
def writeRegisterOneOwn : List Nat := [2, 16, 0x9C, 0x41, 0, 1, 2, 0xAB, 0xCD, 95, 29]

/-! ## The bit-serial CRC of the specification -/

/-- One bit of the bit-serial reflected CRC-16 with polynomial `0xA001`: shift
right by one and XOR `0xA001` if the bit shifted out was 1. -/
def crcBitStep (crc : Nat) : Nat :=
  if crc % 2 = 1 then (crc >>> 1) ^^^ 0xA001 else crc >>> 1

/-- The bit step repeated `k` times. -/
def crcBitSteps : Nat → Nat → Nat
  | 0, crc => crc
  | k + 1, crc => crcBitSteps k (crcBitStep crc)

/-- One byte of the bit-serial CRC: XOR the byte into the low 8 bits, then 8 bit
steps. -/
def crcBitSerialByte (crc b : Nat) : Nat := crcBitSteps 8 (crc ^^^ b)

/-- The bit-serial reflected CRC-16 (polynomial `0xA001`) of a byte sequence, from
the seed `seed`. -/
def crcBitSerial (seed : Nat) : List Nat → Nat
  | [] => seed
  | b :: bs => crcBitSerial (crcBitSerialByte seed b) bs

/-! ## Auxiliary definitions for the page loop -/

/-- The body of the page loop executed `c` times from the page at `i`: what the
page loop does when it ends after `c` passes. -/
def pageRun (buffer : Nat → Nat) : Nat → Nat → PageState → PageState
  | 0, _, p => p
  | c + 1, i, p => pageRun buffer c ((i + BYTES_IN_PAGE) % 65536) (pageBody buffer i p)

/-- What a write function leaves alone: the state `t` differs from `s` at most in
the NFC memory, the wait flag and the receiver object. -/
structure Serviced (s t : System) : Prop where
  requests : t.oNFC = { s.oNFC with schedulerNFCWriteWait := t.oNFC.schedulerNFCWriteWait }
  halted : t.halted = s.halted
  sent : t.txSent = s.txSent
  registers : t.oMinSlave.slaveRegisters = s.oMinSlave.slaveRegisters
  timeout : t.oMinSlave.communicationTimeoutCNTR = s.oMinSlave.communicationTimeoutCNTR
  initialised : t.pMinSlaveSelf = s.pMinSlaveSelf

/-- The common shape of the three write functions: the page loop for the request
with start address `address`, length `length` and data `buffer`, run from the
state `s`. -/
def serviceRequest (buffer : Nat → Nat) (address length : Nat) (s : System) :
    System × List Nat :=
  ((pageLoop buffer ((address + length) % 65536) PAGE_LOOP_FUEL address ⟨s, 0, []⟩).sys,
    (pageLoop buffer ((address + length) % 65536) PAGE_LOOP_FUEL address ⟨s, 0, []⟩).pageWrites)

/-- The number of pages of a request of `n` bytes. -/
def pagesOf (n : Nat) : Nat := (n + 3) / 4

/-- A valid write-multiple-registers request to the module address for the
register address `0x1C2E`, that is register `(0x1C2E - 0x9C40) mod 2^16 = 32750`,
with four data bytes. -/
def writeTopPageOwn : List Nat := [2, 16, 0x1C, 0x2E, 0, 2, 4, 0x11, 0x22, 0x33, 0x44, 86, 74]

/-- A valid write-multiple-registers request to the module address for the
register address `0x1C2E` (register 32750) with two data bytes. -/
def writeTopRegisterOwn : List Nat := [2, 16, 0x1C, 0x2E, 0, 1, 2, 0x12, 0x34, 100, 88]

/-- A valid store-product-information (FC70) request with six information
bytes. -/
def storeInfoSix : List Nat := [2, 70, 11, 17, 34, 51, 68, 85, 102, 38, 39]

/-- A valid broadcast write-multiple-registers request for the register address
`0x9C50` (register 16) with two data bytes. -/
def writeRegisterSixteenBroadcast : List Nat := [0, 16, 0x9C, 0x50, 0, 1, 2, 0x12, 0x34, 246, 238]

/-- The write requests held in the NFC object `b` are those held in `a`: the
Instant request, the Broadcast request and the product information. -/
structure SameRequests (a b : NFC_STYP) : Prop where
  update : b.update = a.update
  broadcast : b.broadcast = a.broadcast
  data : b.productInfoData = a.productInfoData
  length : b.productInfoLength = a.productInfoLength

/-- The firmware with a product-information request, a Broadcast request and an
Instant request pending, raised in this order; the Instant request is that of
`writeTopRegisterOwn`. -/
def threePending : System :=
  thenRequest (thenRequest (thenRequest systemStarted storeInfoSix) writeRegisterSixteenBroadcast)
    writeTopRegisterOwn

/-- The firmware with a Broadcast request, an Instant request and a
product-information request pending, raised in this order; the Instant request is
that of `writeRegisterOneOwn`. -/
def threePendingLow : System :=
  thenRequest (thenRequest (thenRequest systemStarted writeRegisterSixteenBroadcast)
    writeRegisterOneOwn) storeInfoSix

/-- The firmware after two writes to the module address, `writeRegisterOneOwn` and
then `writeTopRegisterOwn`, with no scheduler call in between. -/
def twoUnicastWrites : System :=
  thenRequest (thenRequest systemStarted writeRegisterOneOwn) writeTopRegisterOwn

/-- The firmware after two broadcast writes, `writeRegisterOneBroadcast` and then
`writeRegisterSixteenBroadcast`, with no scheduler call in between. -/
def twoBroadcastWrites : System :=
  thenRequest (thenRequest systemStarted writeRegisterOneBroadcast) writeRegisterSixteenBroadcast

/-! ## Auxiliary definitions for the CRC properties -/

/-- The byte sequence `f` with bit `k` of the byte at position `j` inverted. -/
def flipBit (f : List Nat) (j k : Nat) : List Nat := f.set j (f.getD j 0 ^^^ 2 ^ k)

/-! ## Auxiliary definitions for the termination of the page loop -/

/-- The number of passes of the page loop `for (i = address; i < limit;) { ...;
i = i + BYTES_IN_PAGE; }` with the 16-bit `i`, from the value `i` of the loop
variable: `some c` when the loop ends after `c` passes, `none` when it has not
ended after `fuel` passes. -/
def pagePasses (limit : Nat) : Nat → Nat → Option Nat
  | 0, _ => none
  | fuel + 1, i =>
      if i < limit then
        (pagePasses limit fuel ((i + BYTES_IN_PAGE) % 65536)).map fun c => c + 1
      else some 0

/-- The passes of the page loop of `Scheduler_writeInstant` in the state `s`. -/
def instantPasses (s : System) : Option Nat :=
  pagePasses ((NFC_getUpdateBlkAddress s.oNFC + s.oNFC.update.length) % 65536) PAGE_LOOP_FUEL
    (NFC_getUpdateBlkAddress s.oNFC)

/-- The passes of the page loop of `Scheduler_writeBroadcast` in the state `s`. -/
def broadcastPasses (s : System) : Option Nat :=
  pagePasses ((NFC_getBroadcastBlkAddress s.oNFC + s.oNFC.broadcast.length) % 65536)
    PAGE_LOOP_FUEL (NFC_getBroadcastBlkAddress s.oNFC)

/-- The passes of the page loop of `Scheduler_writeProductInfo` in the state
`s`. -/
def productInfoPasses (s : System) : Option Nat :=
  pagePasses ((BLOCK_NVM_OFFSET + s.oNFC.productInfoLength % 256) % 65536) PAGE_LOOP_FUEL
    BLOCK_NVM_OFFSET

/-- A valid broadcast write-multiple-registers request for the register address
`0xDC37`, that is register `(0xDC37 - 0x9C40) mod 2^16 = 16375`, with two data
bytes. -/
def writeTopRegisterBroadcast : List Nat := [0, 16, 0xDC, 0x37, 0, 1, 2, 0x12, 0x34, 191, 61]

/-! ## Auxiliary definitions for the write and read scenarios -/

/-- The firmware after `MyMain_systemInit` has called `MinSlave_init`, with an NFC
memory in which every byte is `0xFF`. -/
def systemErased : System := MinSlave_init (System.reset fun _ => 0xFF)

/-- A valid write-multiple-registers request to the module address for the
register address `0x9C42` (register 2) with the two data bytes `0x33 0x44`. -/
def writeRegisterTwoOwn : List Nat := [2, 16, 0x9C, 0x42, 0, 1, 2, 0x33, 0x44, 245, 72]

/-- The firmware after the request `writeRegisterTwoOwn` has been received and
serviced by `Scheduler_manageTasks`. -/
def registerTwoStored : System :=
  (Scheduler_manageTasks (thenRequest systemStarted writeRegisterTwoOwn)).1

/-- The firmware after the request `writeRegisterOneOwn` has been received and
serviced by `Scheduler_manageTasks`. -/
def registerOneStored : System :=
  (Scheduler_manageTasks (thenRequest systemStarted writeRegisterOneOwn)).1

/-- A valid read-registers request for one register at the register address
`0x9C41` (register 1). -/
def readRegisterOne : List Nat := [2, 3, 0x9C, 0x41, 0, 1, 250, 125]

/-- A valid read-registers request for 126 registers at the register address
`0x9C40`. -/
def readRequest126 : List Nat := [2, 3, 0x9C, 0x40, 0, 126, 234, 93]

/-- The receiver after the first two bytes `2, 70` of a store-product-information
request have arrived, following a silence. -/
def uartStoreInfoHeader : MinUart_STYP := rxRun MIN_UART_DEFAULTS (frameEvents (spaced [2, 70]))

/-- While the receiver is parsing a frame, the frame length it expects is 4 or
more. -/
def ParseLength (u : MinUart_STYP) : Prop := u.currentState = PARSE_INCOMING → 4 ≤ u.dataLength

/-! ## The dispatcher on arrays of their declared sizes -/

/-- Every array access of the handler that the function-code switch selects stays
inside its array: the stores to `txBuf` (`NFC_MAX_MEM` cells), the reads of
`slaveRegisters` by the discover handler (`MIN_SLAVE_NUMBER_OF_REGISTERS` cells)
and the reads of `productInfoData` by the store-product-information handler
(`NFC_MAX_MEM` cells).  The other array accesses of the handlers are indexed by
8-bit counters and stay below the sizes of their arrays (`rxBuffer`: 264 cells,
`nfcBuffer`, `productInfoData` and the local read buffers: 256 cells). -/
def MinSlave_dispatch_inBounds (s : System) : Prop :=
  (∀ i ∈ MinSlave_dispatch_storeIndices s, i < NFC_MAX_MEM) ∧
  (s.oMinSlave.uart.functionCode = MIN_FC67_DISCOVER →
    ∀ i ∈ discoverRegisterIndices s, i < MIN_SLAVE_NUMBER_OF_REGISTERS) ∧
  (s.oMinSlave.uart.functionCode = MIN_FC70_STORE_PRODUCT_INFO →
    ∀ i ∈ MinSlave_storeProductInfo_readIndices s, i < NFC_MAX_MEM)

instance (s : System) : Decidable (MinSlave_dispatch_inBounds s) := by
  unfold MinSlave_dispatch_inBounds
  infer_instance

/-- The function-code switch of `MinSlave_manageMessages` with `txBuf`,
`slaveRegisters` and `productInfoData` as arrays of their declared sizes: the
state after the selected handler when all its accesses are inside the arrays, and
`none` when one is outside.  A store past `txBuf[NFC_MAX_MEM - 1]` lands in
whatever object follows `txBuf` in memory (`MinSlave.c` declares `pMinSlaveSelf`,
the pointer from which every call of `MinSlave_manageMessages` starts, right after
`txBuf`), and C defines no state of the program after it. -/
def MinSlave_dispatch_checked (s : System) : Option System :=
  if MinSlave_dispatch_inBounds s then some (MinSlave_dispatch s) else none

/-- The function `MinSlave_manageMessages` with the switch
`MinSlave_dispatch_checked`: `none` when the call has no defined result. -/
def MinSlave_manageMessages_checked (s : System) : Option System :=
  if s.halted then some s
  else if s.pMinSlaveSelf = false then some s
  else
    let r := serviceRxLoop 256 s.usart s.oMinSlave.uart
    let s := { s with usart := r.1, oMinSlave := { s.oMinSlave with uart := r.2 } }
    if s.oMinSlave.uart.processPacketFlag = FALSE then some s
    else
      let s := { s with oMinSlave := { s.oMinSlave with
        validCommunicationReceivedFLG := TRUE,
        uart := { s.oMinSlave.uart with processPacketFlag := FALSE },
        communicationTimeoutCNTR := ONE_SECOND_TIME } }
      MinSlave_dispatch_checked s

/-- A valid read-registers request for 125 registers at register address `0x9C40`,
addressed to module 2 (CRC bytes 170, 92): the largest count whose reply fits
`txBuf`. -/
def readRequest125 : List Nat := [2, 3, 0x9C, 0x40, 0, 125, 170, 92]
/-! ## The receiver, one call at a time -/

theorem serviceRx_snd (hw : Usart) (u : MinUart_STYP) (h : 0 < hw.rxChars) :
    (MinUart_serviceRx hw u).2 = uartOnByte u (hw.rxBuffer hw.tempIndex) := by
  unfold uartOnByte MinUart_serviceRx USART_RxChar
  simp only [h, gt_iff_lt, if_true]
  simp only [ne_eq, not_true_eq_false, if_false]
  split_ifs <;> rfl

theorem serviceRx_error (hw : Usart) (u : MinUart_STYP) (h : (USART_RxChar hw).1 ≠ 0) :
    (MinUart_serviceRx hw u).2 =
      { u with currentState := WAIT_FOR_RESYNC, badCrcFlag := 0, rxBufferIndex := 0,
               dataLength := 10 } := by
  unfold MinUart_serviceRx
  simp only [h, if_true, ne_eq, not_false_eq_true]

theorem rxPending_chars (b : Nat) : 0 < (rxPending b).rxChars := by
  simp [rxPending, USART_StoreData, Usart.idle]

theorem rxPending_byte (b : Nat) : (rxPending b).rxBuffer (rxPending b).tempIndex = b % 256 := by
  simp [rxPending, USART_StoreData, Usart.idle]

theorem rxStep_byte (u : MinUart_STYP) (b : Nat) :
    rxStep u (.byte b) = uartOnByte u (b % 256) := by
  show (MinUart_serviceRx (rxPending b) u).2 = _
  rw [serviceRx_snd _ _ (rxPending_chars b), rxPending_byte]

theorem rxStep_error (u : MinUart_STYP) :
    rxStep u .rxError =
      { u with currentState := WAIT_FOR_RESYNC, badCrcFlag := 0, rxBufferIndex := 0,
               dataLength := 10 } := by
  show (MinUart_serviceRx Usart.idle u).2 = _
  rw [serviceRx_error _ _ (by decide)]

theorem rxStep_tick (u : MinUart_STYP) :
    rxStep u .tick = { u with modbusReSync := u.modbusReSync - 1 } := by
  show TCA0_OVF_uart u = _
  unfold TCA0_OVF_uart
  split_ifs with h
  · rfl
  · have h0 : u.modbusReSync = 0 := by simpa using h
    cases u
    simp_all

theorem rxRun_cons (u : MinUart_STYP) (e : RxEvent) (es : List RxEvent) :
    rxRun u (e :: es) = rxRun (rxStep u e) es := rfl

theorem rxRun_append (u : MinUart_STYP) (xs ys : List RxEvent) :
    rxRun u (xs ++ ys) = rxRun (rxRun u xs) ys := by
  induction xs generalizing u with
  | nil => rfl
  | cons e es ih => exact ih _

theorem rxRun_ticks (u : MinUart_STYP) (k : Nat) :
    rxRun u (List.replicate k RxEvent.tick) = { u with modbusReSync := u.modbusReSync - k } := by
  induction k generalizing u with
  | zero => rfl
  | succ n ih =>
    show rxRun (rxStep u .tick) (List.replicate n RxEvent.tick) = _
    rw [ih, rxStep_tick]
    simp only [Nat.sub_sub, Nat.add_comm 1 n]

@[simp] theorem storeByte_modbusReSync (u : MinUart_STYP) (b : Nat) : (storeByte u b).modbusReSync = u.modbusReSync := rfl

@[simp] theorem storeByte_moduleAddress (u : MinUart_STYP) (b : Nat) : (storeByte u b).moduleAddress = u.moduleAddress := rfl

@[simp] theorem storeByte_processPacketFlag (u : MinUart_STYP) (b : Nat) : (storeByte u b).processPacketFlag = u.processPacketFlag := rfl

@[simp] theorem storeByte_baudSelect (u : MinUart_STYP) (b : Nat) : (storeByte u b).baudSelect = u.baudSelect := rfl

@[simp] theorem storeByte_badCrcFlag (u : MinUart_STYP) (b : Nat) : (storeByte u b).badCrcFlag = u.badCrcFlag := rfl

@[simp] theorem storeByte_dataLength (u : MinUart_STYP) (b : Nat) : (storeByte u b).dataLength = u.dataLength := rfl

@[simp] theorem storeByte_rxBufferIndex (u : MinUart_STYP) (b : Nat) : (storeByte u b).rxBufferIndex = u.rxBufferIndex := rfl

@[simp] theorem storeByte_functionCode (u : MinUart_STYP) (b : Nat) : (storeByte u b).functionCode = u.functionCode := rfl

@[simp] theorem storeByte_currentState (u : MinUart_STYP) (b : Nat) : (storeByte u b).currentState = u.currentState := rfl

@[simp] theorem storeByte_rxBuffer (u : MinUart_STYP) (b : Nat) :
    (storeByte u b).rxBuffer = Function.update u.rxBuffer u.rxBufferIndex b := rfl

@[simp] theorem bumpIndex_modbusReSync (u : MinUart_STYP) : (bumpIndex u).modbusReSync = u.modbusReSync := rfl

@[simp] theorem bumpIndex_rxBuffer (u : MinUart_STYP) : (bumpIndex u).rxBuffer = u.rxBuffer := rfl

@[simp] theorem bumpIndex_moduleAddress (u : MinUart_STYP) : (bumpIndex u).moduleAddress = u.moduleAddress := rfl

@[simp] theorem bumpIndex_processPacketFlag (u : MinUart_STYP) : (bumpIndex u).processPacketFlag = u.processPacketFlag := rfl

@[simp] theorem bumpIndex_baudSelect (u : MinUart_STYP) : (bumpIndex u).baudSelect = u.baudSelect := rfl

@[simp] theorem bumpIndex_badCrcFlag (u : MinUart_STYP) : (bumpIndex u).badCrcFlag = u.badCrcFlag := rfl

@[simp] theorem bumpIndex_dataLength (u : MinUart_STYP) : (bumpIndex u).dataLength = u.dataLength := rfl

@[simp] theorem bumpIndex_functionCode (u : MinUart_STYP) : (bumpIndex u).functionCode = u.functionCode := rfl

@[simp] theorem bumpIndex_currentState (u : MinUart_STYP) : (bumpIndex u).currentState = u.currentState := rfl

@[simp] theorem bumpIndex_rxBufferIndex (u : MinUart_STYP) :
    (bumpIndex u).rxBufferIndex = (u.rxBufferIndex + 1) % 65536 := rfl

@[simp] theorem checkHeader_modbusReSync (u : MinUart_STYP) (b : Nat) :
    (MinUart_checkHeader u b).modbusReSync = u.modbusReSync := by
  unfold MinUart_checkHeader
  dsimp only
  split_ifs <;> rfl

@[simp] theorem checkHeader_rxBuffer (u : MinUart_STYP) (b : Nat) :
    (MinUart_checkHeader u b).rxBuffer = u.rxBuffer := by
  unfold MinUart_checkHeader
  dsimp only
  split_ifs <;> rfl

@[simp] theorem checkHeader_moduleAddress (u : MinUart_STYP) (b : Nat) :
    (MinUart_checkHeader u b).moduleAddress = u.moduleAddress := by
  unfold MinUart_checkHeader
  dsimp only
  split_ifs <;> rfl

@[simp] theorem checkHeader_processPacketFlag (u : MinUart_STYP) (b : Nat) :
    (MinUart_checkHeader u b).processPacketFlag = u.processPacketFlag := by
  unfold MinUart_checkHeader
  dsimp only
  split_ifs <;> rfl

@[simp] theorem checkHeader_baudSelect (u : MinUart_STYP) (b : Nat) :
    (MinUart_checkHeader u b).baudSelect = u.baudSelect := by
  unfold MinUart_checkHeader
  dsimp only
  split_ifs <;> rfl

@[simp] theorem checkHeader_badCrcFlag (u : MinUart_STYP) (b : Nat) :
    (MinUart_checkHeader u b).badCrcFlag = u.badCrcFlag := by
  unfold MinUart_checkHeader
  dsimp only
  split_ifs <;> rfl

@[simp] theorem checkHeader_rxBufferIndex (u : MinUart_STYP) (b : Nat) :
    (MinUart_checkHeader u b).rxBufferIndex = u.rxBufferIndex := by
  unfold MinUart_checkHeader
  dsimp only
  split_ifs <;> rfl

@[simp] theorem checkLength_modbusReSync (u : MinUart_STYP) (b : Nat) :
    (MinUart_checkLength u b).modbusReSync = u.modbusReSync := by
  unfold MinUart_checkLength
  split_ifs <;> rfl

@[simp] theorem checkLength_rxBuffer (u : MinUart_STYP) (b : Nat) :
    (MinUart_checkLength u b).rxBuffer = u.rxBuffer := by
  unfold MinUart_checkLength
  split_ifs <;> rfl

@[simp] theorem checkLength_moduleAddress (u : MinUart_STYP) (b : Nat) :
    (MinUart_checkLength u b).moduleAddress = u.moduleAddress := by
  unfold MinUart_checkLength
  split_ifs <;> rfl

@[simp] theorem checkLength_processPacketFlag (u : MinUart_STYP) (b : Nat) :
    (MinUart_checkLength u b).processPacketFlag = u.processPacketFlag := by
  unfold MinUart_checkLength
  split_ifs <;> rfl

@[simp] theorem checkLength_baudSelect (u : MinUart_STYP) (b : Nat) :
    (MinUart_checkLength u b).baudSelect = u.baudSelect := by
  unfold MinUart_checkLength
  split_ifs <;> rfl

@[simp] theorem checkLength_badCrcFlag (u : MinUart_STYP) (b : Nat) :
    (MinUart_checkLength u b).badCrcFlag = u.badCrcFlag := by
  unfold MinUart_checkLength
  split_ifs <;> rfl

@[simp] theorem checkLength_rxBufferIndex (u : MinUart_STYP) (b : Nat) :
    (MinUart_checkLength u b).rxBufferIndex = u.rxBufferIndex := by
  unfold MinUart_checkLength
  split_ifs <;> rfl

@[simp] theorem checkLength_functionCode (u : MinUart_STYP) (b : Nat) :
    (MinUart_checkLength u b).functionCode = u.functionCode := by
  unfold MinUart_checkLength
  split_ifs <;> rfl

@[simp] theorem checkLength_currentState (u : MinUart_STYP) (b : Nat) :
    (MinUart_checkLength u b).currentState = u.currentState := by
  unfold MinUart_checkLength
  split_ifs <;> rfl

@[simp] theorem checkComplete_modbusReSync (u : MinUart_STYP) :
    (MinUart_checkComplete u).modbusReSync = u.modbusReSync := by
  unfold MinUart_checkComplete
  dsimp only
  split_ifs <;> rfl

@[simp] theorem checkComplete_rxBuffer (u : MinUart_STYP) :
    (MinUart_checkComplete u).rxBuffer = u.rxBuffer := by
  unfold MinUart_checkComplete
  dsimp only
  split_ifs <;> rfl

@[simp] theorem checkComplete_moduleAddress (u : MinUart_STYP) :
    (MinUart_checkComplete u).moduleAddress = u.moduleAddress := by
  unfold MinUart_checkComplete
  dsimp only
  split_ifs <;> rfl

@[simp] theorem checkComplete_baudSelect (u : MinUart_STYP) :
    (MinUart_checkComplete u).baudSelect = u.baudSelect := by
  unfold MinUart_checkComplete
  dsimp only
  split_ifs <;> rfl

@[simp] theorem checkComplete_dataLength (u : MinUart_STYP) :
    (MinUart_checkComplete u).dataLength = u.dataLength := by
  unfold MinUart_checkComplete
  dsimp only
  split_ifs <;> rfl

@[simp] theorem checkComplete_functionCode (u : MinUart_STYP) :
    (MinUart_checkComplete u).functionCode = u.functionCode := by
  unfold MinUart_checkComplete
  dsimp only
  split_ifs <;> rfl

@[simp] theorem resync_rxBuffer (u : MinUart_STYP) :
    (MinUart_resync u).rxBuffer = u.rxBuffer := by
  unfold MinUart_resync
  dsimp only
  split_ifs <;> rfl

@[simp] theorem resync_moduleAddress (u : MinUart_STYP) :
    (MinUart_resync u).moduleAddress = u.moduleAddress := by
  unfold MinUart_resync
  dsimp only
  split_ifs <;> rfl

@[simp] theorem resync_processPacketFlag (u : MinUart_STYP) :
    (MinUart_resync u).processPacketFlag = u.processPacketFlag := by
  unfold MinUart_resync
  dsimp only
  split_ifs <;> rfl

@[simp] theorem resync_baudSelect (u : MinUart_STYP) :
    (MinUart_resync u).baudSelect = u.baudSelect := by
  unfold MinUart_resync
  dsimp only
  split_ifs <;> rfl

@[simp] theorem resync_functionCode (u : MinUart_STYP) :
    (MinUart_resync u).functionCode = u.functionCode := by
  unfold MinUart_resync
  dsimp only
  split_ifs <;> rfl

theorem parseIncoming_eq (v : MinUart_STYP) (b : Nat) :
    MinUart_parseIncoming v b =
      MinUart_checkComplete
        (bumpIndex (MinUart_checkLength (MinUart_checkHeader (storeByte v b) b) b)) := rfl

@[simp] theorem resync_modbusReSync (u : MinUart_STYP) :
    (MinUart_resync u).modbusReSync = MODBUS_RESYNC_LOAD := rfl


theorem requestBytes_none_iff (b : Nat) :
    requestBytes b = none ↔
      (b ≠ MIN_FC03 ∧ b ≠ MIN_FC06 ∧ b ≠ MIN_FC16 ∧ b ≠ MIN_FC65_SLAVE_POLL ∧
        b ≠ MIN_FC67_DISCOVER ∧ b ≠ MIN_FC69_GET_PRODUCT_INFO ∧
        b ≠ MIN_FC70_STORE_PRODUCT_INFO) := by
  unfold requestBytes
  split_ifs <;> simp_all

theorem checkHeader_idx0 (u : MinUart_STYP) (b : Nat) (hi : u.rxBufferIndex = 0) :
    MinUart_checkHeader u b =
      if b ≠ u.moduleAddress ∧ b ≠ MIN_MASTER_BROADCAST then
        { u with currentState := WAIT_FOR_RESYNC }
      else u := by
  unfold MinUart_checkHeader
  rw [if_pos hi]

theorem checkHeader_known (u : MinUart_STYP) (b n : Nat) (hi : u.rxBufferIndex = 1)
    (hn : requestBytes b = some n) :
    MinUart_checkHeader u b = { u with functionCode := b, dataLength := n } := by
  unfold MinUart_checkHeader
  unfold requestBytes at hn
  rw [if_neg (by omega), if_pos hi]
  dsimp only
  split_ifs at hn ⊢ <;> cases hn <;> rfl

theorem checkHeader_unknown (u : MinUart_STYP) (b : Nat) (hi : u.rxBufferIndex = 1)
    (hn : requestBytes b = none) :
    MinUart_checkHeader u b = { u with functionCode := b, currentState := WAIT_FOR_RESYNC } := by
  unfold MinUart_checkHeader
  unfold requestBytes at hn
  rw [if_neg (by omega), if_pos hi]
  dsimp only
  split_ifs at hn ⊢
  rfl

theorem checkHeader_mid (u : MinUart_STYP) (b : Nat) (hi : 2 ≤ u.rxBufferIndex) :
    MinUart_checkHeader u b = u := by
  unfold MinUart_checkHeader
  rw [if_neg (by omega), if_neg (by simp only [MIN_FUNCTION_CODE_INDEX]; omega)]

@[simp] theorem checkHeader_functionCode (u : MinUart_STYP) (b : Nat) :
    (MinUart_checkHeader u b).functionCode =
      if u.rxBufferIndex = 1 then b else u.functionCode := by
  rcases Nat.lt_or_ge u.rxBufferIndex 1 with h0 | h1
  · have hi : u.rxBufferIndex = 0 := by omega
    rw [checkHeader_idx0 u b hi]
    split_ifs <;> first | rfl | (exfalso; omega)
  · rcases Nat.eq_or_lt_of_le h1 with h | h
    · rw [if_pos h.symm]
      cases hr : requestBytes b with
      | none => rw [checkHeader_unknown u b h.symm hr]
      | some n => rw [checkHeader_known u b n h.symm hr]
    · rw [checkHeader_mid u b h, if_neg (by omega)]

@[simp] theorem checkHeader_dataLength (u : MinUart_STYP) (b : Nat) :
    (MinUart_checkHeader u b).dataLength =
      if u.rxBufferIndex = 1 then (requestBytes b).getD u.dataLength else u.dataLength := by
  rcases Nat.lt_or_ge u.rxBufferIndex 1 with h0 | h1
  · have hi : u.rxBufferIndex = 0 := by omega
    rw [checkHeader_idx0 u b hi]
    split_ifs <;> first | rfl | (exfalso; omega)
  · rcases Nat.eq_or_lt_of_le h1 with h | h
    · rw [if_pos h.symm]
      cases hr : requestBytes b with
      | none => rw [checkHeader_unknown u b h.symm hr]; rfl
      | some n => rw [checkHeader_known u b n h.symm hr]; rfl
    · rw [checkHeader_mid u b h, if_neg (by omega)]

@[simp] theorem checkHeader_currentState (u : MinUart_STYP) (b : Nat) :
    (MinUart_checkHeader u b).currentState =
      if u.rxBufferIndex = 0 then
        (if b ≠ u.moduleAddress ∧ b ≠ MIN_MASTER_BROADCAST then WAIT_FOR_RESYNC
          else u.currentState)
      else if u.rxBufferIndex = 1 then
        (if requestBytes b = none then WAIT_FOR_RESYNC else u.currentState)
      else u.currentState := by
  rcases Nat.lt_or_ge u.rxBufferIndex 1 with h0 | h1
  · have hi : u.rxBufferIndex = 0 := by omega
    rw [checkHeader_idx0 u b hi]
    split_ifs <;> rfl
  · rcases Nat.eq_or_lt_of_le h1 with h | h
    · rw [if_neg (by omega), if_pos h.symm]
      cases hr : requestBytes b with
      | none => rw [checkHeader_unknown u b h.symm hr, if_pos rfl]
      | some n => rw [checkHeader_known u b n h.symm hr, if_neg (by simp)]
    · rw [checkHeader_mid u b h, if_neg (by omega), if_neg (by omega)]

@[simp] theorem checkLength_dataLength (u : MinUart_STYP) (b : Nat) :
    (MinUart_checkLength u b).dataLength =
      if u.functionCode = MIN_FC16 ∧ u.rxBufferIndex = MIN_FC16_BYTES_TO_RX_INDEX then b + 9
      else if u.functionCode = MIN_FC70_STORE_PRODUCT_INFO ∧
          u.rxBufferIndex = MIN_FC70_BYTES_TO_RX_INDEX then b
      else u.dataLength := by
  unfold MinUart_checkLength
  split_ifs <;> rfl

theorem crcMatches_congr (u v : MinUart_STYP) (hb : u.rxBuffer = v.rxBuffer)
    (hd : u.dataLength = v.dataLength) : MinUart_crcMatches u ↔ MinUart_crcMatches v := by
  unfold MinUart_crcMatches
  rw [hb, hd]

theorem checkComplete_not (u : MinUart_STYP) (h : u.rxBufferIndex < u.dataLength) :
    MinUart_checkComplete u = u := by
  unfold MinUart_checkComplete
  rw [if_neg (by omega)]

theorem checkComplete_done (u : MinUart_STYP) (h : u.dataLength ≤ u.rxBufferIndex) :
    MinUart_checkComplete u =
      { u with currentState := WAIT_FOR_RESYNC, rxBufferIndex := 0,
               badCrcFlag := if MinUart_crcMatches u then FALSE else TRUE,
               processPacketFlag := if MinUart_crcMatches u then TRUE else FALSE } := by
  unfold MinUart_checkComplete
  rw [if_pos (by omega)]
  dsimp only
  have e := crcMatches_congr
    { u with currentState := WAIT_FOR_RESYNC, rxBufferIndex := 0 } u rfl rfl
  by_cases hc : MinUart_crcMatches u
  · rw [if_pos (e.mpr hc), if_pos hc, if_pos hc]
  · rw [if_neg (fun x => hc (e.mp x)), if_neg hc, if_neg hc]

@[simp] theorem checkComplete_currentState (u : MinUart_STYP) :
    (MinUart_checkComplete u).currentState =
      if u.dataLength ≤ u.rxBufferIndex then WAIT_FOR_RESYNC else u.currentState := by
  by_cases h : u.dataLength ≤ u.rxBufferIndex
  · rw [checkComplete_done u h, if_pos h]
  · rw [checkComplete_not u (by omega), if_neg h]

@[simp] theorem checkComplete_rxBufferIndex (u : MinUart_STYP) :
    (MinUart_checkComplete u).rxBufferIndex =
      if u.dataLength ≤ u.rxBufferIndex then 0 else u.rxBufferIndex := by
  by_cases h : u.dataLength ≤ u.rxBufferIndex
  · rw [checkComplete_done u h, if_pos h]
  · rw [checkComplete_not u (by omega), if_neg h]

@[simp] theorem checkComplete_badCrcFlag (u : MinUart_STYP) :
    (MinUart_checkComplete u).badCrcFlag =
      if u.dataLength ≤ u.rxBufferIndex then (if MinUart_crcMatches u then FALSE else TRUE)
      else u.badCrcFlag := by
  by_cases h : u.dataLength ≤ u.rxBufferIndex
  · rw [checkComplete_done u h, if_pos h]
  · rw [checkComplete_not u (by omega), if_neg h]

@[simp] theorem checkComplete_processPacketFlag (u : MinUart_STYP) :
    (MinUart_checkComplete u).processPacketFlag =
      if u.dataLength ≤ u.rxBufferIndex then (if MinUart_crcMatches u then TRUE else FALSE)
      else u.processPacketFlag := by
  by_cases h : u.dataLength ≤ u.rxBufferIndex
  · rw [checkComplete_done u h, if_pos h]
  · rw [checkComplete_not u (by omega), if_neg h]

@[simp] theorem resync_currentState (u : MinUart_STYP) :
    (MinUart_resync u).currentState =
      if u.modbusReSync = 0 then PARSE_INCOMING else u.currentState := by
  unfold MinUart_resync
  dsimp only
  split_ifs <;> rfl

@[simp] theorem resync_badCrcFlag (u : MinUart_STYP) :
    (MinUart_resync u).badCrcFlag = if u.modbusReSync = 0 then 0 else u.badCrcFlag := by
  unfold MinUart_resync
  dsimp only
  split_ifs <;> rfl

@[simp] theorem resync_rxBufferIndex (u : MinUart_STYP) :
    (MinUart_resync u).rxBufferIndex = if u.modbusReSync = 0 then 0 else u.rxBufferIndex := by
  unfold MinUart_resync
  dsimp only
  split_ifs <;> rfl

@[simp] theorem resync_dataLength (u : MinUart_STYP) :
    (MinUart_resync u).dataLength = if u.modbusReSync = 0 then 10 else u.dataLength := by
  unfold MinUart_resync
  dsimp only
  split_ifs <;> rfl

/-- The byte fetched at index 0 right after a restart is stored at cell 0 and the
index becomes 1. -/
theorem uartOnByte_restart (u : MinUart_STYP) (b : Nat) (h : u.modbusReSync = 0) :
    uartOnByte u b =
      { u with modbusReSync := MODBUS_RESYNC_LOAD, badCrcFlag := 0, dataLength := 10,
               rxBuffer := Function.update u.rxBuffer 0 b, rxBufferIndex := 1,
               currentState :=
                 if b ≠ u.moduleAddress ∧ b ≠ MIN_MASTER_BROADCAST then WAIT_FOR_RESYNC
                 else PARSE_INCOMING } := by
  unfold uartOnByte
  simp only [resync_currentState, h, if_true]
  rw [if_neg (by decide), parseIncoming_eq]
  ext1 <;> simp [h]

theorem uartOnByte_wait (u : MinUart_STYP) (b : Nat) (h : u.modbusReSync ≠ 0)
    (hs : u.currentState = WAIT_FOR_RESYNC) :
    uartOnByte u b =
      { u with modbusReSync := MODBUS_RESYNC_LOAD, badCrcFlag := 0, rxBufferIndex := 0,
               dataLength := 10 } := by
  unfold uartOnByte
  simp only [resync_currentState, h, if_false, hs, if_true]
  ext1 <;> simp [h]

theorem uartOnByte_parse (u : MinUart_STYP) (b : Nat) (h : u.modbusReSync ≠ 0)
    (hs : u.currentState = PARSE_INCOMING) :
    uartOnByte u b = MinUart_parseIncoming (MinUart_resync u) b := by
  have hc : (MinUart_resync u).currentState = PARSE_INCOMING := by simp [h, hs]
  unfold uartOnByte
  dsimp only
  rw [if_neg (by rw [hc]; decide), if_pos hc]

theorem serviceRx_modbusReSync (hw : Usart) (u : MinUart_STYP) (h : 0 < hw.rxChars) :
    (MinUart_serviceRx hw u).2.modbusReSync = MODBUS_RESYNC_LOAD := by
  rw [serviceRx_snd hw u h]
  unfold uartOnByte
  dsimp only
  split_ifs
  · rfl
  · rw [parseIncoming_eq]; simp
  · simp

/-! ## C2 — the end-of-frame CRC check -/

/-- C2.  Whenever a call of `MinUart_serviceRx` fetches a byte, is in
`PARSE_INCOMING` when the state switch is entered, and the incremented index
reaches the expected length `dataLength` (at least 2): the state becomes
`WAIT_FOR_RESYNC`, the index 0, and `processPacketFlag = TRUE`, `badCrcFlag = FALSE`
when `get_crc_16 (0xFFFF, rxBuffer, dataLength - 2)` equals
`rxBuffer[dataLength-2] + 256 * rxBuffer[dataLength-1]`, otherwise
`processPacketFlag = FALSE`, `badCrcFlag = TRUE`. -/
theorem C2_frame_complete_crc (hw : Usart) (u : MinUart_STYP) (hrx : 0 < hw.rxChars)
    (hstate : (MinUart_resync u).currentState = PARSE_INCOMING)
    (hreach : (MinUart_serviceRx hw u).2.dataLength ≤ ((MinUart_resync u).rxBufferIndex + 1) % 65536)
    (hlen : 2 ≤ (MinUart_serviceRx hw u).2.dataLength) :
    (MinUart_serviceRx hw u).2.currentState = WAIT_FOR_RESYNC ∧
    (MinUart_serviceRx hw u).2.rxBufferIndex = 0 ∧
    (get_crc_16 0xFFFF (MinUart_serviceRx hw u).2.rxBuffer
          ((MinUart_serviceRx hw u).2.dataLength - 2) =
        (MinUart_serviceRx hw u).2.rxBuffer ((MinUart_serviceRx hw u).2.dataLength - 2) +
          256 * (MinUart_serviceRx hw u).2.rxBuffer ((MinUart_serviceRx hw u).2.dataLength - 1) →
      (MinUart_serviceRx hw u).2.processPacketFlag = TRUE ∧
        (MinUart_serviceRx hw u).2.badCrcFlag = FALSE) ∧
    (get_crc_16 0xFFFF (MinUart_serviceRx hw u).2.rxBuffer
          ((MinUart_serviceRx hw u).2.dataLength - 2) ≠
        (MinUart_serviceRx hw u).2.rxBuffer ((MinUart_serviceRx hw u).2.dataLength - 2) +
          256 * (MinUart_serviceRx hw u).2.rxBuffer ((MinUart_serviceRx hw u).2.dataLength - 1) →
      (MinUart_serviceRx hw u).2.processPacketFlag = FALSE ∧
        (MinUart_serviceRx hw u).2.badCrcFlag = TRUE) := by
  have hu : (MinUart_serviceRx hw u).2 =
      MinUart_checkComplete (bumpIndex (MinUart_checkLength (MinUart_checkHeader
        (storeByte (MinUart_resync u) (hw.rxBuffer hw.tempIndex))
        (hw.rxBuffer hw.tempIndex)) (hw.rxBuffer hw.tempIndex))) := by
    rw [serviceRx_snd hw u hrx]
    unfold uartOnByte
    dsimp only
    rw [if_neg (by rw [hstate]; decide), if_pos hstate, parseIncoming_eq]
  rw [hu] at hreach hlen ⊢
  generalize hx : bumpIndex (MinUart_checkLength (MinUart_checkHeader
        (storeByte (MinUart_resync u) (hw.rxBuffer hw.tempIndex))
        (hw.rxBuffer hw.tempIndex)) (hw.rxBuffer hw.tempIndex)) = x at hreach hlen ⊢
  have hxi : x.rxBufferIndex = ((MinUart_resync u).rxBufferIndex + 1) % 65536 := by
    rw [← hx]; simp
  simp only [checkComplete_dataLength] at hreach hlen
  have hdone : x.dataLength ≤ x.rxBufferIndex := by omega
  have hlt : x.dataLength < 65536 := by
    have := Nat.mod_lt ((MinUart_resync u).rxBufferIndex + 1) (by decide : 0 < 65536)
    omega
  have h2 : sub16 x.dataLength 2 = x.dataLength - 2 := by unfold sub16; omega
  have h1 : sub16 x.dataLength 1 = x.dataLength - 1 := by unfold sub16; omega
  have hm : MinUart_crcMatches x ↔
      get_crc_16 0xFFFF x.rxBuffer (x.dataLength - 2) =
        x.rxBuffer (x.dataLength - 2) + 256 * x.rxBuffer (x.dataLength - 1) := by
    unfold MinUart_crcMatches
    rw [h2, h1, Nat.mul_comm, Nat.add_comm]
  simp only [checkComplete_currentState, checkComplete_rxBufferIndex, checkComplete_badCrcFlag,
    checkComplete_processPacketFlag, checkComplete_rxBuffer, checkComplete_dataLength,
    if_pos hdone]
  refine ⟨trivial, trivial, ?_, ?_⟩
  · intro hc
    rw [if_pos (hm.mpr hc), if_pos (hm.mpr hc)]
    exact ⟨rfl, rfl⟩
  · intro hc
    rw [if_neg (fun x => hc (hm.mp x)), if_neg (fun x => hc (hm.mp x))]
    exact ⟨rfl, rfl⟩

theorem C2_frame_complete_crc_witness :
    (MinUart_serviceRx (rxPending 188) uartSevenIn).2.processPacketFlag = TRUE ∧
      (MinUart_serviceRx (rxPending 188) uartSevenIn).2.badCrcFlag = FALSE :=
  (C2_frame_complete_crc (rxPending 188) uartSevenIn (by decide) (by decide) (by decide)
    (by decide)).2.2.1 (by decide)

/-! ## C9 — receive errors -/

/-- C9.  When `HardwareUart_RecvChar` reports an error, `MinUart_serviceRx` sets
`currentState` to `WAIT_FOR_RESYNC`, `rxBufferIndex` to 0, `dataLength` to 10 and
`badCrcFlag` to 0, whatever the state was, and leaves `processPacketFlag`,
`functionCode`, `rxBuffer`, `moduleAddress` and the countdown `modbusReSync` as they
were. -/
theorem C9_receive_error_resets (hw : Usart) (u : MinUart_STYP)
    (herr : (USART_RxChar hw).1 = ERR) :
    (MinUart_serviceRx hw u).2.currentState = WAIT_FOR_RESYNC ∧
    (MinUart_serviceRx hw u).2.rxBufferIndex = 0 ∧
    (MinUart_serviceRx hw u).2.dataLength = 10 ∧
    (MinUart_serviceRx hw u).2.badCrcFlag = 0 ∧
    (MinUart_serviceRx hw u).2.processPacketFlag = u.processPacketFlag ∧
    (MinUart_serviceRx hw u).2.functionCode = u.functionCode ∧
    (MinUart_serviceRx hw u).2.rxBuffer = u.rxBuffer ∧
    (MinUart_serviceRx hw u).2.moduleAddress = u.moduleAddress ∧
    (MinUart_serviceRx hw u).2.modbusReSync = u.modbusReSync := by
  rw [serviceRx_error hw u (by rw [herr]; decide)]
  exact ⟨rfl, rfl, rfl, rfl, rfl, rfl, rfl, rfl, rfl⟩

theorem C9_receive_error_resets_witness :
    (MinUart_serviceRx Usart.idle uartSevenIn).2.currentState = WAIT_FOR_RESYNC ∧
    (MinUart_serviceRx Usart.idle uartSevenIn).2.rxBufferIndex = 0 ∧
    (MinUart_serviceRx Usart.idle uartSevenIn).2.dataLength = 10 ∧
    (MinUart_serviceRx Usart.idle uartSevenIn).2.badCrcFlag = 0 ∧
    (MinUart_serviceRx Usart.idle uartSevenIn).2.processPacketFlag = uartSevenIn.processPacketFlag ∧
    (MinUart_serviceRx Usart.idle uartSevenIn).2.functionCode = uartSevenIn.functionCode ∧
    (MinUart_serviceRx Usart.idle uartSevenIn).2.rxBuffer = uartSevenIn.rxBuffer ∧
    (MinUart_serviceRx Usart.idle uartSevenIn).2.moduleAddress = uartSevenIn.moduleAddress ∧
    (MinUart_serviceRx Usart.idle uartSevenIn).2.modbusReSync = uartSevenIn.modbusReSync :=
  C9_receive_error_resets Usart.idle uartSevenIn (by decide)

/-! ## C4 — resynchronisation -/

/-- C4.  Let a byte `b` be fetched without error by `MinUart_serviceRx` in any
receiver state `u`.
* After that call and `k` timer ticks the countdown is `MODBUS_RESYNC_LOAD - k`: it
  is 0 from the third tick on and non-zero before.
* If the countdown was 0 when the byte came, the byte is stored at `rxBuffer[0]`,
  `rxBufferIndex` becomes 1, `dataLength` is 10 and the countdown is reloaded to 3.
* If the countdown was not 0 there is no restart: a receiver waiting for resync
  keeps waiting and stores nothing, a receiver that is parsing stores the byte at
  its current index. -/
theorem C4_resync_restart (hw : Usart) (u : MinUart_STYP) (b : Nat) (hrx : 0 < hw.rxChars)
    (hb : hw.rxBuffer hw.tempIndex = b) :
    (∀ k, (rxRun (MinUart_serviceRx hw u).2 (List.replicate k RxEvent.tick)).modbusReSync =
        MODBUS_RESYNC_LOAD - k) ∧
    (u.modbusReSync = 0 →
      (MinUart_serviceRx hw u).2.rxBuffer 0 = b ∧
      (MinUart_serviceRx hw u).2.rxBufferIndex = 1 ∧
      (MinUart_serviceRx hw u).2.dataLength = 10 ∧
      (MinUart_serviceRx hw u).2.modbusReSync = MODBUS_RESYNC_LOAD) ∧
    (u.modbusReSync ≠ 0 →
      (u.currentState = WAIT_FOR_RESYNC →
        (MinUart_serviceRx hw u).2.currentState = WAIT_FOR_RESYNC ∧
        (MinUart_serviceRx hw u).2.rxBuffer = u.rxBuffer ∧
        (MinUart_serviceRx hw u).2.rxBufferIndex = 0) ∧
      (u.currentState = PARSE_INCOMING →
        (MinUart_serviceRx hw u).2.rxBuffer = Function.update u.rxBuffer u.rxBufferIndex b)) := by
  refine ⟨?_, ?_, ?_⟩
  · intro k
    rw [rxRun_ticks, ← serviceRx_modbusReSync hw u hrx]
  · intro h0
    rw [serviceRx_snd hw u hrx, hb, uartOnByte_restart u b h0]
    exact ⟨by simp, rfl, rfl, rfl⟩
  · intro hne
    rw [serviceRx_snd hw u hrx, hb]
    refine ⟨?_, ?_⟩
    · intro hs
      rw [uartOnByte_wait u b hne hs]
      exact ⟨hs, rfl, rfl⟩
    · intro hs
      rw [uartOnByte_parse u b hne hs, parseIncoming_eq]
      simp [hne]

theorem C4_resync_restart_witness :
    (MinUart_serviceRx (rxPending 2)
        uartExpired).2.rxBuffer 0 = 2 ∧
      (MinUart_serviceRx (rxPending 2)
        uartExpired).2.rxBufferIndex = 1 ∧
      (MinUart_serviceRx (rxPending 2)
        uartExpired).2.dataLength = 10 ∧
      (MinUart_serviceRx (rxPending 2)
        uartExpired).2.modbusReSync = MODBUS_RESYNC_LOAD :=
  (C4_resync_restart (rxPending 2) uartExpired 2
    (by decide) (by decide)).2.1 (by decide)

/-! ## C5, C6 — a rejected frame is ignored until the next resynchronisation -/

/-- A receiver in `WAIT_FOR_RESYNC` stays there, stores nothing and leaves
`processPacketFlag` alone as long as no byte arrives with the countdown at 0. -/
theorem waiting_stays (evs : List RxEvent) (u : MinUart_STYP)
    (hs : u.currentState = WAIT_FOR_RESYNC) (hw : NoResync u evs) :
    (rxRun u evs).currentState = WAIT_FOR_RESYNC ∧
    (rxRun u evs).rxBuffer = u.rxBuffer ∧
    (rxRun u evs).processPacketFlag = u.processPacketFlag ∧
    (rxRun u evs).functionCode = u.functionCode := by
  induction evs generalizing u with
  | nil => exact ⟨hs, rfl, rfl, rfl⟩
  | cons e es ih =>
    cases e with
    | byte b =>
      obtain ⟨hne, hrest⟩ := hw
      have hstep : rxStep u (.byte b) =
          { u with modbusReSync := MODBUS_RESYNC_LOAD, badCrcFlag := 0, rxBufferIndex := 0,
                   dataLength := 10 } := by
        rw [rxStep_byte, uartOnByte_wait u _ hne hs]
      have := ih (rxStep u (.byte b)) (by rw [hstep]; exact hs) hrest
      rw [rxRun_cons]
      rw [hstep] at this ⊢
      exact this
    | rxError =>
      have hstep := rxStep_error u
      have := ih (rxStep u .rxError) (by rw [hstep]) hw
      rw [rxRun_cons]
      rw [hstep] at this ⊢
      exact this
    | tick =>
      have hstep := rxStep_tick u
      have := ih (rxStep u .tick) (by rw [hstep]; exact hs) hw
      rw [rxRun_cons]
      rw [hstep] at this ⊢
      exact this

/-- C5.  Let the first byte `a` of a frame (it arrives with the countdown at 0) be
neither `moduleAddress` nor 0.  Then for every sequence of later bytes, receive
errors and ticks in which no byte arrives with the countdown at 0, the receiver
is in `WAIT_FOR_RESYNC` at the end, `processPacketFlag` is what it was before the
frame, and `rxBuffer` is what it was right after the first byte: none of the
later bytes is stored. -/
theorem C5_foreign_address_ignored (u : MinUart_STYP) (a : Nat) (evs : List RxEvent)
    (h0 : u.modbusReSync = 0) (ha : a < 256)
    (hne : a ≠ u.moduleAddress) (hnb : a ≠ MIN_MASTER_BROADCAST)
    (hwin : NoResync (rxStep u (.byte a)) evs) :
    (rxRun (rxStep u (.byte a)) evs).currentState = WAIT_FOR_RESYNC ∧
    (rxRun (rxStep u (.byte a)) evs).processPacketFlag = u.processPacketFlag ∧
    (rxRun (rxStep u (.byte a)) evs).rxBuffer = Function.update u.rxBuffer 0 a := by
  have hstep : rxStep u (.byte a) =
      { u with modbusReSync := MODBUS_RESYNC_LOAD, badCrcFlag := 0, dataLength := 10,
               rxBuffer := Function.update u.rxBuffer 0 a, rxBufferIndex := 1,
               currentState := WAIT_FOR_RESYNC } := by
    rw [rxStep_byte, Nat.mod_eq_of_lt ha, uartOnByte_restart u a h0, if_pos ⟨hne, hnb⟩]
  have := waiting_stays evs (rxStep u (.byte a)) (by rw [hstep]) hwin
  rw [hstep] at this ⊢
  exact ⟨this.1, this.2.2.1, this.2.1⟩

theorem C5_foreign_address_ignored_witness :
    (rxRun (rxStep uartExpired (.byte 9))
        [.byte 3, .tick, .byte 0, .rxError, .tick, .tick, .byte 235]).currentState =
        WAIT_FOR_RESYNC ∧
      (rxRun (rxStep uartExpired (.byte 9))
        [.byte 3, .tick, .byte 0, .rxError, .tick, .tick, .byte 235]).processPacketFlag =
        uartExpired.processPacketFlag ∧
      (rxRun (rxStep uartExpired (.byte 9))
        [.byte 3, .tick, .byte 0, .rxError, .tick, .tick, .byte 235]).rxBuffer =
        Function.update uartExpired.rxBuffer 0 9 :=
  C5_foreign_address_ignored uartExpired 9
    [.byte 3, .tick, .byte 0, .rxError, .tick, .tick, .byte 235]
    (by decide) (by decide) (by decide) (by decide)
    ⟨by decide, by decide, by decide, trivial⟩

theorem requestBytes_table (f n : Nat) :
    requestBytes f = some n ↔
      (f, n) ∈ [(3, 8), (6, 8), (16, 11), (65, 4), (67, 8), (69, 8), (70, 105)] := by
  unfold requestBytes
  simp only [MIN_FC03, MIN_FC06, MIN_FC16, MIN_FC65_SLAVE_POLL, MIN_FC67_DISCOVER,
    MIN_FC69_GET_PRODUCT_INFO, MIN_FC70_STORE_PRODUCT_INFO, NUMBER_REQUEST_BYTES_FC03,
    NUMBER_REQUEST_BYTES_FC06, NUMBER_REQUEST_BYTES_FC16, NUMBER_REQUEST_BYTES_FC65,
    NUMBER_REQUEST_BYTES_FC67, NUMBER_REQUEST_BYTES_FC69, NUMBER_REQUEST_BYTES_FC70]
  split_ifs <;> simp_all <;> omega

theorem requestBytes_some (c n : Nat) (h : requestBytes c = some n) :
    (c = 3 ∧ n = 8) ∨ (c = 6 ∧ n = 8) ∨ (c = 16 ∧ n = 11) ∨ (c = 65 ∧ n = 4) ∨
      (c = 67 ∧ n = 8) ∨ (c = 69 ∧ n = 8) ∨ (c = 70 ∧ n = 105) := by
  rw [requestBytes_table] at h
  simpa using h

theorem requestBytes_gt (f n : Nat) (h : requestBytes f = some n) : 2 < n := by
  rw [requestBytes_table] at h
  simp at h
  omega

theorem step_fc_known (v : MinUart_STYP) (f n : Nat) (hv : v.modbusReSync ≠ 0)
    (hs : v.currentState = PARSE_INCOMING) (hi : v.rxBufferIndex = 1)
    (hn : requestBytes f = some n) :
    uartOnByte v f =
      { v with modbusReSync := MODBUS_RESYNC_LOAD, rxBuffer := Function.update v.rxBuffer 1 f,
               functionCode := f, dataLength := n, rxBufferIndex := 2 } := by
  have h2 := requestBytes_gt f n hn
  rw [uartOnByte_parse v f hv hs, parseIncoming_eq]
  ext1 <;> simp [hv, hs, hi, hn] <;> omega

theorem step_fc_unknown (v : MinUart_STYP) (f : Nat) (hv : v.modbusReSync ≠ 0)
    (hs : v.currentState = PARSE_INCOMING) (hi : v.rxBufferIndex = 1)
    (hn : requestBytes f = none) (hd : 2 < v.dataLength) :
    uartOnByte v f =
      { v with modbusReSync := MODBUS_RESYNC_LOAD, rxBuffer := Function.update v.rxBuffer 1 f,
               functionCode := f, currentState := WAIT_FOR_RESYNC, rxBufferIndex := 2 } := by
  rw [uartOnByte_parse v f hv hs, parseIncoming_eq]
  ext1 <;> simp [hv, hs, hi, hn] <;> omega

theorem rxRun_frame_cons (u : MinUart_STYP) (k b : Nat) (rest : List (Nat × Nat)) :
    rxRun u (frameEvents ((k, b) :: rest)) =
      rxRun (rxStep (rxRun u (List.replicate k RxEvent.tick)) (.byte b)) (frameEvents rest) := by
  show rxRun u (List.replicate k RxEvent.tick ++ RxEvent.byte b :: frameEvents rest) = _
  rw [rxRun_append, rxRun_cons]

/-- The first byte of a frame, sent after any number of ticks to a receiver whose
countdown is 0. -/
theorem first_byte (u : MinUart_STYP) (g a : Nat) (h0 : u.modbusReSync = 0) (ha : a < 256) :
    rxStep (rxRun u (List.replicate g RxEvent.tick)) (.byte a) =
      { u with modbusReSync := MODBUS_RESYNC_LOAD, badCrcFlag := 0, dataLength := 10,
               rxBuffer := Function.update u.rxBuffer 0 a, rxBufferIndex := 1,
               currentState :=
                 if a ≠ u.moduleAddress ∧ a ≠ MIN_MASTER_BROADCAST then WAIT_FOR_RESYNC
                 else PARSE_INCOMING } := by
  rw [rxRun_ticks, rxStep_byte, Nat.mod_eq_of_lt ha, uartOnByte_restart _ a (by simp [h0])]

/-- A later byte of a frame, sent fewer than three ticks after the previous
one. -/
theorem later_byte (u : MinUart_STYP) (k b : Nat) (h3 : u.modbusReSync = MODBUS_RESYNC_LOAD)
    (hb : b < 256) :
    rxStep (rxRun u (List.replicate k RxEvent.tick)) (.byte b) =
      uartOnByte { u with modbusReSync := MODBUS_RESYNC_LOAD - k } b := by
  rw [rxRun_ticks, rxStep_byte, Nat.mod_eq_of_lt hb, h3]

/-! ## C6 — the function-code switch -/

/-- C6.  Let a frame start (countdown 0) with an address byte `a` that is
`moduleAddress` or 0, and let the byte `f` follow within the window (fewer than
three ticks later), so that `f` is the byte at buffer index 1.
* For `f` = 3, 6, 16, 65, 67, 69, 70 the receiver stays in `PARSE_INCOMING`, records
  `functionCode = f` and sets `dataLength` to 8, 8, 11, 4, 8, 8, 105 respectively.
* For every other `f` it moves to `WAIT_FOR_RESYNC`, and whatever bytes, receive
  errors and ticks follow without a byte arriving at countdown 0, the state is
  still `WAIT_FOR_RESYNC`, `rxBuffer` has not changed since the byte `f` and
  `processPacketFlag` is what it was before the frame. -/
theorem C6_function_code_switch (u : MinUart_STYP) (g a k f : Nat)
    (h0 : u.modbusReSync = 0) (haddr : a = u.moduleAddress ∨ a = MIN_MASTER_BROADCAST)
    (ha : a < 256) (hf : f < 256) (hk : k < MODBUS_RESYNC_LOAD) :
    (∀ n, (f, n) ∈ [(3, 8), (6, 8), (16, 11), (65, 4), (67, 8), (69, 8), (70, 105)] →
      (rxRun u (frameEvents [(g, a), (k, f)])).currentState = PARSE_INCOMING ∧
      (rxRun u (frameEvents [(g, a), (k, f)])).functionCode = f ∧
      (rxRun u (frameEvents [(g, a), (k, f)])).dataLength = n) ∧
    (f ∉ [3, 6, 16, 65, 67, 69, 70] →
      (rxRun u (frameEvents [(g, a), (k, f)])).currentState = WAIT_FOR_RESYNC ∧
      ∀ evs, NoResync (rxRun u (frameEvents [(g, a), (k, f)])) evs →
        (rxRun (rxRun u (frameEvents [(g, a), (k, f)])) evs).currentState = WAIT_FOR_RESYNC ∧
        (rxRun (rxRun u (frameEvents [(g, a), (k, f)])) evs).rxBuffer =
          (rxRun u (frameEvents [(g, a), (k, f)])).rxBuffer ∧
        (rxRun (rxRun u (frameEvents [(g, a), (k, f)])) evs).processPacketFlag =
          u.processPacketFlag) := by
  have hcs : ¬ (a ≠ u.moduleAddress ∧ a ≠ MIN_MASTER_BROADCAST) := by
    rcases haddr with h | h <;> simp [h]
  have e2 : rxRun u (frameEvents [(g, a), (k, f)]) =
      uartOnByte
        { u with modbusReSync := MODBUS_RESYNC_LOAD - k, badCrcFlag := 0, dataLength := 10,
                 rxBuffer := Function.update u.rxBuffer 0 a, rxBufferIndex := 1,
                 currentState := PARSE_INCOMING } f := by
    rw [rxRun_frame_cons, rxRun_frame_cons, first_byte u g a h0 ha, if_neg hcs,
      later_byte _ k f rfl hf]
    rfl
  have hkne : MODBUS_RESYNC_LOAD - k ≠ 0 := by omega
  refine ⟨?_, ?_⟩
  · intro n hn
    rw [← requestBytes_table] at hn
    rw [e2, step_fc_known _ f n hkne rfl rfl hn]
    exact ⟨rfl, rfl, rfl⟩
  · intro hn
    have hnone : requestBytes f = none := by
      rw [requestBytes_none_iff]
      simp at hn
      exact ⟨hn.1, hn.2.1, hn.2.2.1, hn.2.2.2.1, hn.2.2.2.2.1, hn.2.2.2.2.2.1,
        hn.2.2.2.2.2.2⟩
    rw [e2, step_fc_unknown _ f hkne rfl rfl hnone (by show 2 < 10; decide)]
    refine ⟨rfl, ?_⟩
    intro evs hwin
    have := waiting_stays evs _ rfl hwin
    exact ⟨this.1, this.2.1, this.2.2.1⟩

theorem C6_function_code_switch_witness :
    (rxRun uartExpired (frameEvents [(4, 2), (2, 16)])).currentState = PARSE_INCOMING ∧
      (rxRun uartExpired (frameEvents [(4, 2), (2, 16)])).functionCode = 16 ∧
      (rxRun uartExpired (frameEvents [(4, 2), (2, 16)])).dataLength = 11 :=
  (C6_function_code_switch uartExpired 4 2 2 16 (by decide) (by decide) (by decide)
    (by decide) (by decide)).1 11 (by decide)

/-! ## Accumulation of a request frame -/

theorem frameEvents_append (xs ys : List (Nat × Nat)) :
    frameEvents (xs ++ ys) = frameEvents xs ++ frameEvents ys := by
  induction xs with
  | nil => rfl
  | cons p ps ih =>
    obtain ⟨k, b⟩ := p
    show List.replicate k RxEvent.tick ++ RxEvent.byte b :: frameEvents (ps ++ ys) =
      (List.replicate k RxEvent.tick ++ RxEvent.byte b :: frameEvents ps) ++ frameEvents ys
    rw [ih, List.append_assoc]
    rfl

theorem rxRun_take_succ (u : MinUart_STYP) (fr : List (Nat × Nat)) (k : Nat)
    (hk : k < fr.length) :
    rxRun u (frameEvents (fr.take (k + 1))) =
      rxStep (rxRun (rxRun u (frameEvents (fr.take k)))
        (List.replicate (fr.get ⟨k, hk⟩).1 RxEvent.tick)) (.byte (fr.get ⟨k, hk⟩).2) := by
  rw [List.take_succ, List.getElem?_eq_getElem hk, frameEvents_append, rxRun_append]
  show rxRun _ (frameEvents [((fr.get ⟨k, hk⟩).1, (fr.get ⟨k, hk⟩).2)]) = _
  rw [rxRun_frame_cons]
  rfl

theorem frameBytes_length (fr : List (Nat × Nat)) : (frameBytes fr).length = fr.length := by
  simp [frameBytes]

theorem frameBytes_get (fr : List (Nat × Nat)) (k : Nat) (hk : k < fr.length) :
    (fr.get ⟨k, hk⟩).2 = (frameBytes fr).getD k 0 := by
  unfold frameBytes
  rw [List.getD_eq_getElem _ _ (by simpa using hk)]
  simp

theorem gaps_get (fr : List (Nat × Nat)) (hg : GapsOk fr) (k : Nat) (h1 : 1 ≤ k)
    (hk : k < fr.length) : (fr.get ⟨k, hk⟩).1 < MODBUS_RESYNC_LOAD := by
  apply hg
  cases fr with
  | nil => simp at hk
  | cons x t =>
    obtain ⟨j, rfl⟩ : ∃ j, k = j + 1 := ⟨k - 1, by omega⟩
    simp only [List.tail_cons, List.get_eq_getElem, List.getElem_cons_succ]
    exact List.getElem_mem _

theorem wellFramed_byte {addr : Nat} {f : List Nat} (wf : WellFramed addr f) (k : Nat)
    (hk : k < f.length) : f.getD k 0 < 256 := by
  rw [List.getD_eq_getElem _ _ hk]
  exact wf.bytes _ (List.getElem_mem _)

theorem wellFramed_length {addr : Nat} {f : List Nat} (wf : WellFramed addr f) :
    3 ≤ f.length ∧ f.length ≤ 264 := by
  have hlen := wf.length
  have hacc := wf.accepted
  unfold requestLength at hlen
  have h6 : f.getD 6 0 < 256 := by
    by_cases h : 6 < f.length
    · exact wellFramed_byte wf 6 h
    · rw [List.getD_eq_default _ _ (by omega)]; decide
  have h2 : f.getD 2 0 < 256 := by
    by_cases h : 2 < f.length
    · exact wellFramed_byte wf 2 h
    · rw [List.getD_eq_default _ _ (by omega)]; decide
  split_ifs at hlen with h16 h70
  · simp only [MIN_FC16_BYTES_TO_RX_INDEX] at hlen; omega
  · simp only [MIN_FC70_BYTES_TO_RX_INDEX] at hlen
    by_cases h : 2 < f.length
    · omega
    · exfalso
      rw [List.getD_eq_default _ _ (by omega)] at hlen
      have : f.getD 1 0 = 0 := List.getD_eq_default _ _ (by omega)
      rw [this] at h70
      exact absurd h70 (by decide)
  · cases hr : requestBytes (f.getD 1 0) with
    | none => exact absurd hr hacc
    | some n =>
      rw [hr] at hlen
      have := (requestBytes_table _ _).mp hr
      simp at this
      simp only [Option.getD_some] at hlen
      omega

theorem expectedAfter_succ (f : List Nat) (k : Nat) (hk : 2 ≤ k) :
    expectedAfter f (k + 1) =
      if f.getD 1 0 = MIN_FC16 ∧ k = 6 then f.getD 6 0 + 9
      else if f.getD 1 0 = MIN_FC70_STORE_PRODUCT_INFO ∧ k = 2 then f.getD 2 0
      else expectedAfter f k := by
  unfold expectedAfter
  simp only [MIN_FC16, MIN_FC70_STORE_PRODUCT_INFO]
  split_ifs <;> first | rfl | (exfalso; omega)

theorem expectedAfter_two (f : List Nat) :
    expectedAfter f 2 = (requestBytes (f.getD 1 0)).getD 10 := by
  unfold expectedAfter
  simp

theorem expectedAfter_one (f : List Nat) : expectedAfter f 1 = 10 := by
  unfold expectedAfter
  simp

theorem expectedAfter_gt {addr : Nat} {f : List Nat} (wf : WellFramed addr f) (k : Nat)
    (h1 : 1 ≤ k) (hk : k < f.length) : k < expectedAfter f k := by
  have hlen := wf.length
  have hacc := wf.accepted
  have h3 := wellFramed_length wf
  unfold requestLength at hlen
  unfold expectedAfter
  simp only [MIN_FC16, MIN_FC70_STORE_PRODUCT_INFO, MIN_FC16_BYTES_TO_RX_INDEX,
    MIN_FC70_BYTES_TO_RX_INDEX] at hlen ⊢
  cases hr : requestBytes (f.getD 1 0) with
  | none => exact absurd hr hacc
  | some n =>
    have ht := requestBytes_some _ _ hr
    rw [hr] at hlen
    simp only [Option.getD_some] at hlen ⊢
    split_ifs at hlen ⊢ <;> omega

theorem expectedAfter_full {addr : Nat} {f : List Nat} (wf : WellFramed addr f) :
    expectedAfter f f.length = f.length := by
  have hlen := wf.length
  have hacc := wf.accepted
  have h3 := wellFramed_length wf
  unfold requestLength at hlen
  unfold expectedAfter
  simp only [MIN_FC16, MIN_FC70_STORE_PRODUCT_INFO, MIN_FC16_BYTES_TO_RX_INDEX,
    MIN_FC70_BYTES_TO_RX_INDEX] at hlen ⊢
  cases hr : requestBytes (f.getD 1 0) with
  | none => exact absurd hr hacc
  | some n =>
    have ht := requestBytes_some _ _ hr
    rw [hr] at hlen
    simp only [Option.getD_some] at hlen ⊢
    split_ifs at hlen ⊢ <;> omega

theorem later_byte_parse (w : MinUart_STYP) (g b : Nat)
    (h3 : w.modbusReSync = MODBUS_RESYNC_LOAD) (hs : w.currentState = PARSE_INCOMING)
    (hg : g < MODBUS_RESYNC_LOAD) (hb : b < 256) :
    rxStep (rxRun w (List.replicate g RxEvent.tick)) (.byte b) =
      MinUart_checkComplete
        (bumpIndex (MinUart_checkLength (MinUart_checkHeader (storeByte w b) b) b)) := by
  have hne : MODBUS_RESYNC_LOAD - g ≠ 0 := by omega
  rw [later_byte w g b h3 hb,
    uartOnByte_parse { w with modbusReSync := MODBUS_RESYNC_LOAD - g } b hne hs, parseIncoming_eq]
  have e : MinUart_resync { w with modbusReSync := MODBUS_RESYNC_LOAD - g } = w := by
    ext1 <;> simp [hne, h3]
  rw [e]

theorem frame_first (u : MinUart_STYP) (f : List Nat) (g : Nat) (h0 : u.modbusReSync = 0)
    (wf : WellFramed u.moduleAddress f) :
    InFrame u f 1 (rxStep (rxRun u (List.replicate g RxEvent.tick)) (.byte (f.getD 0 0))) := by
  have h3 := wellFramed_length wf
  have ha : f.getD 0 0 < 256 := wellFramed_byte wf 0 (by omega)
  have hcs : ¬ (f.getD 0 0 ≠ u.moduleAddress ∧ f.getD 0 0 ≠ MIN_MASTER_BROADCAST) := by
    intro hc
    rcases wf.address with h | h
    · exact hc.1 h
    · exact hc.2 h
  rw [first_byte u g _ h0 ha, if_neg hcs]
  constructor
  · rfl
  · rfl
  · rfl
  · rw [expectedAfter_one]
  · intro h; omega
  · intro i hi
    have : i = 0 := by omega
    subst this
    simp
  · intro i hi
    show Function.update u.rxBuffer 0 (f.getD 0 0) i = u.rxBuffer i
    rw [Function.update_noteq (by omega)]
  · rfl
  · rfl
  · rfl
  · rfl

theorem frame_pre (u w : MinUart_STYP) (f : List Nat) (k : Nat)
    (wf : WellFramed u.moduleAddress f) (inv : InFrame u f k w) (h1 : 1 ≤ k)
    (hk : k < f.length) :
    InFrame u f (k + 1)
      (bumpIndex (MinUart_checkLength
        (MinUart_checkHeader (storeByte w (f.getD k 0)) (f.getD k 0)) (f.getD k 0))) := by
  have h3 := wellFramed_length wf
  have hacc := wf.accepted
  have hidx := inv.index
  have hst := inv.state
  constructor
  · simp only [bumpIndex_currentState, checkLength_currentState, checkHeader_currentState,
      storeByte_rxBufferIndex, storeByte_currentState, storeByte_moduleAddress, hidx, hst]
    rw [if_neg (by omega)]
    split_ifs with hk1 hn
    · subst hk1; exact absurd hn hacc
    · rfl
    · rfl
  · simp only [bumpIndex_rxBufferIndex, checkLength_rxBufferIndex, checkHeader_rxBufferIndex,
      storeByte_rxBufferIndex, hidx]
    omega
  · simp only [bumpIndex_modbusReSync, checkLength_modbusReSync, checkHeader_modbusReSync,
      storeByte_modbusReSync, inv.countdown]
  · simp only [bumpIndex_dataLength, checkLength_dataLength, checkHeader_functionCode,
      checkHeader_rxBufferIndex, checkHeader_dataLength, storeByte_rxBufferIndex,
      storeByte_functionCode, storeByte_dataLength, hidx, inv.expected]
    rcases Nat.eq_or_lt_of_le h1 with hk1 | hk2
    · subst hk1
      simp only [if_true, expectedAfter_one, MIN_FC16_BYTES_TO_RX_INDEX,
        MIN_FC70_BYTES_TO_RX_INDEX]
      rw [if_neg (by omega), if_neg (by omega)]
      exact (expectedAfter_two f).symm
    · have hk1 : ¬ k = 1 := by omega
      simp only [hk1, if_false, inv.code hk2, expectedAfter_succ f k hk2,
        MIN_FC16_BYTES_TO_RX_INDEX, MIN_FC70_BYTES_TO_RX_INDEX]
      split_ifs with a1 a2
      · rw [a1.2]
      · rw [a2.2]
      · rfl
  · intro _
    simp only [bumpIndex_functionCode, checkLength_functionCode, checkHeader_functionCode,
      storeByte_rxBufferIndex, storeByte_functionCode, hidx]
    split_ifs with hk1
    · subst hk1; rfl
    · exact inv.code (by omega)
  · intro i hi
    simp only [bumpIndex_rxBuffer, checkLength_rxBuffer, checkHeader_rxBuffer,
      storeByte_rxBuffer]
    rw [hidx]
    by_cases hik : i = k
    · subst hik; exact Function.update_same _ _ _
    · rw [Function.update_noteq hik]
      exact inv.stored i (by omega)
  · intro i hi
    simp only [bumpIndex_rxBuffer, checkLength_rxBuffer, checkHeader_rxBuffer,
      storeByte_rxBuffer]
    rw [hidx, Function.update_noteq (by omega)]
    exact inv.untouched i (by omega)
  · simp only [bumpIndex_processPacketFlag, checkLength_processPacketFlag,
      checkHeader_processPacketFlag, storeByte_processPacketFlag, inv.packet]
  · simp only [bumpIndex_moduleAddress, checkLength_moduleAddress,
      checkHeader_moduleAddress, storeByte_moduleAddress, inv.address]
  · simp only [bumpIndex_badCrcFlag, checkLength_badCrcFlag,
      checkHeader_badCrcFlag, storeByte_badCrcFlag, inv.badCrc]
  · simp only [bumpIndex_baudSelect, checkLength_baudSelect,
      checkHeader_baudSelect, storeByte_baudSelect, inv.baud]

theorem inFrame_not_complete {u x : MinUart_STYP} {f : List Nat} {k : Nat}
    (wf : WellFramed u.moduleAddress f) (inv : InFrame u f k x) (h1 : 1 ≤ k)
    (hk : k < f.length) : MinUart_checkComplete x = x := by
  apply checkComplete_not
  rw [inv.index, inv.expected]
  exact expectedAfter_gt wf k h1 hk

/-- After the first `k` bytes of a well-framed request (`1 ≤ k ≤` its length) the
receiver is the end-of-frame test applied to a state that holds exactly these `k`
bytes. -/
theorem frame_stage (u : MinUart_STYP) (fr : List (Nat × Nat)) (h0 : u.modbusReSync = 0)
    (hg : GapsOk fr) (wf : WellFramed u.moduleAddress (frameBytes fr)) (k : Nat)
    (hk : k < fr.length) :
    ∃ x, InFrame u (frameBytes fr) (k + 1) x ∧
      rxRun u (frameEvents (fr.take (k + 1))) = MinUart_checkComplete x := by
  have hlen := frameBytes_length fr
  induction k with
  | zero =>
    refine ⟨_, frame_first u (frameBytes fr) (fr.get ⟨0, hk⟩).1 h0 wf, ?_⟩
    rw [rxRun_take_succ u fr 0 hk, frameBytes_get fr 0 hk]
    have hinv := frame_first u (frameBytes fr) (fr.get ⟨0, hk⟩).1 h0 wf
    rw [inFrame_not_complete wf hinv (le_refl 1) (by have := wellFramed_length wf; omega)]
    rfl
  | succ k ih =>
    obtain ⟨x, hx, hrun⟩ := ih (by omega)
    have hxx := inFrame_not_complete wf hx (by omega) (by omega)
    rw [hxx] at hrun
    refine ⟨_, frame_pre u x (frameBytes fr) (k + 1) wf hx (by omega) (by omega), ?_⟩
    rw [rxRun_take_succ u fr (k + 1) hk, hrun, frameBytes_get fr (k + 1) hk]
    exact later_byte_parse x _ _ hx.countdown hx.state (gaps_get fr hg (k + 1) (by omega) hk)
      (wellFramed_byte wf (k + 1) (by omega))

/-- C7 and C3 rest on this: a well-framed request is still being accumulated
after each of its bytes but the last. -/
theorem frame_progress (u : MinUart_STYP) (fr : List (Nat × Nat)) (h0 : u.modbusReSync = 0)
    (hg : GapsOk fr) (wf : WellFramed u.moduleAddress (frameBytes fr)) (k : Nat)
    (h1 : 1 ≤ k) (hk : k < fr.length) :
    InFrame u (frameBytes fr) k (rxRun u (frameEvents (fr.take k))) := by
  obtain ⟨j, rfl⟩ : ∃ j, k = j + 1 := ⟨k - 1, by omega⟩
  obtain ⟨x, hx, hrun⟩ := frame_stage u fr h0 hg wf j (by omega)
  rw [hrun, inFrame_not_complete wf hx (by omega) (by rw [frameBytes_length]; omega)]
  exact hx

theorem get_crc_16_congr (s : Nat) (p q : Nat → Nat) (n : Nat)
    (h : ∀ i, i < n → p i = q i) : get_crc_16 s p n = get_crc_16 s q n := by
  induction n generalizing s p q with
  | zero => rfl
  | succ n ih =>
    show get_crc_16 (crcByte s (p 0)) (fun i => p (i + 1)) n =
      get_crc_16 (crcByte s (q 0)) (fun i => q (i + 1)) n
    rw [h 0 (by omega)]
    exact ih _ _ _ (fun i hi => h (i + 1) (by omega))

/-- The comparison made by the receiver on a buffer that holds the frame `f` is
the statement that `f` ends in the CRC of its other bytes. -/
theorem crcMatches_iff (x : MinUart_STYP) (f : List Nat) (h2 : 2 ≤ f.length)
    (hl : f.length < 65536) (hd : x.dataLength = f.length)
    (hb : ∀ i, i < f.length → x.rxBuffer i = f.getD i 0) :
    MinUart_crcMatches x ↔ crcTrailerOk f := by
  unfold MinUart_crcMatches crcTrailerOk crcOf
  have e2 : sub16 x.dataLength 2 = f.length - 2 := by unfold sub16; omega
  have e1 : sub16 x.dataLength 1 = f.length - 1 := by unfold sub16; omega
  rw [e2, e1, hb _ (by omega), hb _ (by omega)]
  have ec : get_crc_16 0xFFFF x.rxBuffer (f.length - 2) =
      get_crc_16 0xFFFF (fun i => (f.take (f.length - 2)).getD i 0)
        (f.take (f.length - 2)).length := by
    rw [List.length_take, Nat.min_eq_left (by omega)]
    apply get_crc_16_congr
    intro i hi
    rw [hb i (by omega), List.getD_eq_getElem?_getD, List.getD_eq_getElem?_getD,
      List.getElem?_take_of_lt hi]
  rw [ec]
  constructor
  · intro h; exact ⟨h2, by rw [h]; ring⟩
  · intro h; rw [h.2]; ring

/-- The receiver after a complete well-framed request: it waits for the next
resynchronisation, holds the frame from index 0, and has set the two flags from
the CRC comparison. -/
theorem frame_received (u : MinUart_STYP) (fr : List (Nat × Nat)) (h0 : u.modbusReSync = 0)
    (hg : GapsOk fr) (wf : WellFramed u.moduleAddress (frameBytes fr)) :
    (rxRun u (frameEvents fr)).currentState = WAIT_FOR_RESYNC ∧
    (rxRun u (frameEvents fr)).rxBufferIndex = 0 ∧
    (rxRun u (frameEvents fr)).dataLength = fr.length ∧
    (rxRun u (frameEvents fr)).functionCode = (frameBytes fr).getD 1 0 ∧
    (∀ i, i < fr.length → (rxRun u (frameEvents fr)).rxBuffer i = (frameBytes fr).getD i 0) ∧
    (rxRun u (frameEvents fr)).moduleAddress = u.moduleAddress ∧
    (rxRun u (frameEvents fr)).processPacketFlag =
      (if crcTrailerOk (frameBytes fr) then TRUE else FALSE) ∧
    (rxRun u (frameEvents fr)).badCrcFlag =
      (if crcTrailerOk (frameBytes fr) then FALSE else TRUE) := by
  have hlen := frameBytes_length fr
  have h3 := wellFramed_length wf
  obtain ⟨x, hx, hrun⟩ := frame_stage u fr h0 hg wf (fr.length - 1) (by omega)
  have hn : fr.length - 1 + 1 = fr.length := by omega
  rw [hn, List.take_length] at hrun
  rw [hn] at hx
  have hxd : x.dataLength = fr.length := by
    rw [hx.expected, ← hlen, expectedAfter_full wf]
  have hdone : x.dataLength ≤ x.rxBufferIndex := by rw [hxd, hx.index]
  have hcrc : MinUart_crcMatches x ↔ crcTrailerOk (frameBytes fr) :=
    crcMatches_iff x (frameBytes fr) (by omega) (by omega) (by rw [hxd, hlen])
      (fun i hi => hx.stored i (by omega))
  rw [hrun]
  refine ⟨?_, ?_, ?_, ?_, ?_, ?_, ?_, ?_⟩
  · rw [checkComplete_currentState, if_pos hdone]
  · rw [checkComplete_rxBufferIndex, if_pos hdone]
  · rw [checkComplete_dataLength, hxd]
  · rw [checkComplete_functionCode]; exact hx.code (by omega)
  · intro i hi
    rw [checkComplete_rxBuffer]; exact hx.stored i hi
  · rw [checkComplete_moduleAddress]; exact hx.address
  · rw [checkComplete_processPacketFlag, if_pos hdone]
    by_cases hc : MinUart_crcMatches x
    · rw [if_pos hc, if_pos (hcrc.mp hc)]
    · rw [if_neg hc, if_neg (fun h => hc (hcrc.mpr h))]
  · rw [checkComplete_badCrcFlag, if_pos hdone]
    by_cases hc : MinUart_crcMatches x
    · rw [if_pos hc, if_pos (hcrc.mp hc)]
    · rw [if_neg hc, if_neg (fun h => hc (hcrc.mpr h))]

/-! ## C3 — fixed-length requests -/

/-- C3.  Take a request with function code 3, 6, 67 or 69 and 8 bytes, or with
function code 65 and 4 bytes, whose first byte is `moduleAddress` or 0 and whose
last two bytes are the CRC of the bytes before them, low byte first.  Feed it byte
by byte to a receiver whose countdown is 0, fewer than three ticks elapsing before
each byte after the first.  Then `processPacketFlag = TRUE`, `badCrcFlag = FALSE`,
`functionCode` is the function code of the frame and `rxBuffer` holds the frame
from index 0. -/
theorem C3_fixed_length_frame_accepted (u : MinUart_STYP) (fr : List (Nat × Nat))
    (h0 : u.modbusReSync = 0) (hg : GapsOk fr)
    (hbytes : ∀ b ∈ frameBytes fr, b < 256)
    (haddr : (frameBytes fr).getD 0 0 = u.moduleAddress ∨
      (frameBytes fr).getD 0 0 = MIN_MASTER_BROADCAST)
    (hfix : ((frameBytes fr).getD 1 0 ∈ [3, 6, 67, 69] ∧ fr.length = 8) ∨
      ((frameBytes fr).getD 1 0 = 65 ∧ fr.length = 4))
    (hcrc : crcTrailerOk (frameBytes fr)) :
    (rxRun u (frameEvents fr)).processPacketFlag = TRUE ∧
    (rxRun u (frameEvents fr)).badCrcFlag = FALSE ∧
    (rxRun u (frameEvents fr)).functionCode = (frameBytes fr).getD 1 0 ∧
    ∀ i, i < fr.length → (rxRun u (frameEvents fr)).rxBuffer i = (frameBytes fr).getD i 0 := by
  have hlen := frameBytes_length fr
  have wf : WellFramed u.moduleAddress (frameBytes fr) := by
    refine ⟨haddr, ?_, ?_, hbytes⟩
    · rcases hfix with ⟨h, _⟩ | ⟨h, _⟩
      · simp only [List.mem_cons, List.mem_singleton, List.not_mem_nil, or_false] at h
        rcases h with h | h | h | h <;> rw [h] <;> decide
      · rw [h]; decide
    · rw [hlen]
      unfold requestLength
      rcases hfix with ⟨h, hl⟩ | ⟨h, hl⟩
      · simp only [List.mem_cons, List.mem_singleton, List.not_mem_nil, or_false] at h
        rcases h with h | h | h | h <;> rw [h, hl] <;>
          rw [if_neg (by decide), if_neg (by decide)] <;> rfl
      · rw [h, hl, if_neg (by decide), if_neg (by decide)]; rfl
  have := frame_received u fr h0 hg wf
  rw [if_pos hcrc, if_pos hcrc] at this
  exact ⟨this.2.2.2.2.2.2.1, this.2.2.2.2.2.2.2, this.2.2.2.1, this.2.2.2.2.1⟩

theorem C3_fixed_length_frame_accepted_witness :
    (rxRun uartExpired (frameEvents readRequestTimed)).processPacketFlag = TRUE ∧
    (rxRun uartExpired (frameEvents readRequestTimed)).badCrcFlag = FALSE ∧
    (rxRun uartExpired (frameEvents readRequestTimed)).functionCode =
      (frameBytes readRequestTimed).getD 1 0 ∧
    ∀ i, i < readRequestTimed.length →
      (rxRun uartExpired (frameEvents readRequestTimed)).rxBuffer i =
        (frameBytes readRequestTimed).getD i 0 :=
  C3_fixed_length_frame_accepted uartExpired readRequestTimed (by decide) (by decide)
    (by decide) (by decide) (by decide) (by decide)

/-! ## C7 — requests that carry their own length -/

/-- C7.  Take a request whose first byte is `moduleAddress` or 0 and which is either
a function-16 frame of `N + 9` bytes, `N` being its byte at index 6, or a
function-70 frame of `L` bytes, `L` being its byte at index 2 (such a frame has
`L ≥ 3`; the claim asks for `L ≥ 4`).  Feed it byte by byte to a receiver whose
countdown is 0, within the window.
* After each byte but the last the receiver is still in `PARSE_INCOMING`, the index
  is the number of bytes received and `processPacketFlag` is untouched; once the
  byte count (index 6, function 16) resp. the length byte (index 2, function 70)
  is in, `dataLength` is `N + 9` resp. `L`.
* The last byte ends the frame: the state is `WAIT_FOR_RESYNC`, the index 0, and
  the two flags tell whether the frame ends in the CRC of its other bytes. -/
theorem C7_counted_frames_complete_on_last_byte (u : MinUart_STYP) (fr : List (Nat × Nat))
    (h0 : u.modbusReSync = 0) (hg : GapsOk fr)
    (hbytes : ∀ b ∈ frameBytes fr, b < 256)
    (haddr : (frameBytes fr).getD 0 0 = u.moduleAddress ∨
      (frameBytes fr).getD 0 0 = MIN_MASTER_BROADCAST)
    (hcount : ((frameBytes fr).getD 1 0 = 16 ∧ fr.length = (frameBytes fr).getD 6 0 + 9) ∨
      ((frameBytes fr).getD 1 0 = 70 ∧ fr.length = (frameBytes fr).getD 2 0)) :
    (∀ k, 1 ≤ k → k < fr.length →
      (rxRun u (frameEvents (fr.take k))).currentState = PARSE_INCOMING ∧
      (rxRun u (frameEvents (fr.take k))).rxBufferIndex = k ∧
      (rxRun u (frameEvents (fr.take k))).processPacketFlag = u.processPacketFlag ∧
      ((frameBytes fr).getD 1 0 = 16 → 7 ≤ k →
        (rxRun u (frameEvents (fr.take k))).dataLength = (frameBytes fr).getD 6 0 + 9) ∧
      ((frameBytes fr).getD 1 0 = 70 → 3 ≤ k →
        (rxRun u (frameEvents (fr.take k))).dataLength = (frameBytes fr).getD 2 0)) ∧
    (rxRun u (frameEvents fr)).currentState = WAIT_FOR_RESYNC ∧
    (rxRun u (frameEvents fr)).rxBufferIndex = 0 ∧
    (rxRun u (frameEvents fr)).dataLength = fr.length ∧
    (rxRun u (frameEvents fr)).processPacketFlag =
      (if crcTrailerOk (frameBytes fr) then TRUE else FALSE) ∧
    (rxRun u (frameEvents fr)).badCrcFlag =
      (if crcTrailerOk (frameBytes fr) then FALSE else TRUE) := by
  have hlen := frameBytes_length fr
  have wf : WellFramed u.moduleAddress (frameBytes fr) := by
    refine ⟨haddr, ?_, ?_, hbytes⟩
    · rcases hcount with ⟨h, _⟩ | ⟨h, _⟩ <;> rw [h] <;> decide
    · rw [hlen]
      unfold requestLength
      rcases hcount with ⟨h, hl⟩ | ⟨h, hl⟩
      · rw [if_pos h, hl]
      · rw [if_neg (by rw [h]; decide), if_pos h, hl]
  have hfin := frame_received u fr h0 hg wf
  refine ⟨?_, hfin.1, hfin.2.1, hfin.2.2.1, hfin.2.2.2.2.2.2.1, hfin.2.2.2.2.2.2.2⟩
  intro k h1 hk
  have inv := frame_progress u fr h0 hg wf k h1 hk
  refine ⟨inv.state, inv.index, inv.packet, ?_, ?_⟩
  · intro h16 h7
    rw [inv.expected]
    unfold expectedAfter
    rw [if_neg (by omega), if_pos ⟨h16, h7⟩]
  · intro h70 h3
    rw [inv.expected]
    unfold expectedAfter
    rw [if_neg (by omega), if_neg (by rw [h70]; intro hc; exact absurd hc.1 (by decide)),
      if_pos ⟨h70, h3⟩]

theorem C7_counted_frames_complete_on_last_byte_witness :
    (rxRun uartExpired (frameEvents (writeRequestTimed.take 10))).currentState =
        PARSE_INCOMING ∧
      (rxRun uartExpired (frameEvents (writeRequestTimed.take 10))).rxBufferIndex = 10 ∧
      (rxRun uartExpired (frameEvents writeRequestTimed)).currentState = WAIT_FOR_RESYNC ∧
      (rxRun uartExpired (frameEvents writeRequestTimed)).rxBufferIndex = 0 :=
  ⟨((C7_counted_frames_complete_on_last_byte uartExpired writeRequestTimed (by decide)
      (by decide) (by decide) (by decide) (by decide)).1 10 (by decide) (by decide)).1,
    ((C7_counted_frames_complete_on_last_byte uartExpired writeRequestTimed (by decide)
      (by decide) (by decide) (by decide) (by decide)).1 10 (by decide) (by decide)).2.1,
    (C7_counted_frames_complete_on_last_byte uartExpired writeRequestTimed (by decide)
      (by decide) (by decide) (by decide) (by decide)).2.1,
    (C7_counted_frames_complete_on_last_byte uartExpired writeRequestTimed (by decide)
      (by decide) (by decide) (by decide) (by decide)).2.2.1⟩

/-! ## C8 — bounds of the receive buffer -/

theorem rxInv_reset (u : MinUart_STYP) (hd : u.dataLength = 10) (hi : u.rxBufferIndex = 0) :
    RxInv u := by
  constructor
  · rw [hd]; decide
  · rw [hd, hi]; decide
  · intro _; rw [hd, hi]; decide

theorem rxInv_resync (u : MinUart_STYP) (h : RxInv u) : RxInv (MinUart_resync u) := by
  constructor
  · rw [resync_dataLength]; split_ifs
    · decide
    · exact h.length
  · rw [resync_dataLength, resync_rxBufferIndex]; split_ifs
    · decide
    · exact h.index
  · rw [resync_dataLength, resync_rxBufferIndex, resync_currentState]; split_ifs with h0
    · intro _; decide
    · exact h.parsing

theorem requestBytes_le (c d : Nat) (hd : d ≤ RX_BLOCK_BUFFER_SIZE) :
    (requestBytes c).getD d ≤ RX_BLOCK_BUFFER_SIZE := by
  cases hr : requestBytes c with
  | none => exact hd
  | some n =>
    have := requestBytes_some c n hr
    simp only [Option.getD_some, RX_BLOCK_BUFFER_SIZE]
    omega

theorem rxInv_parse (v : MinUart_STYP) (b : Nat) (h : RxInv v) (hb : b < 256)
    (hs : v.currentState = PARSE_INCOMING) : RxInv (MinUart_parseIncoming v b) := by
  rw [parseIncoming_eq]
  have hi := h.parsing hs
  have hl := h.length
  simp only [RX_BLOCK_BUFFER_SIZE] at hl
  generalize hx : bumpIndex (MinUart_checkLength (MinUart_checkHeader (storeByte v b) b) b) = x
  have hxi : x.rxBufferIndex = v.rxBufferIndex + 1 := by
    rw [← hx]
    simp only [bumpIndex_rxBufferIndex, checkLength_rxBufferIndex, checkHeader_rxBufferIndex,
      storeByte_rxBufferIndex]
    omega
  have hxd : x.dataLength ≤ RX_BLOCK_BUFFER_SIZE := by
    rw [← hx]
    simp only [bumpIndex_dataLength, checkLength_dataLength, checkHeader_dataLength,
      storeByte_dataLength, storeByte_rxBufferIndex]
    have := requestBytes_le b v.dataLength h.length
    simp only [RX_BLOCK_BUFFER_SIZE] at this ⊢
    split_ifs <;> omega
  constructor
  · rw [checkComplete_dataLength]; exact hxd
  · rw [checkComplete_dataLength, checkComplete_rxBufferIndex]
    split_ifs <;> omega
  · rw [checkComplete_dataLength, checkComplete_rxBufferIndex, checkComplete_currentState]
    split_ifs with hc
    · intro h1; exact absurd h1 (by decide)
    · intro _; omega

theorem rxInv_service (hw : Usart) (u : MinUart_STYP) (h : RxInv u)
    (hb : hw.rxBuffer hw.tempIndex < 256) : RxInv (MinUart_serviceRx hw u).2 := by
  by_cases hrx : 0 < hw.rxChars
  · rw [serviceRx_snd hw u hrx]
    have hv := rxInv_resync u h
    unfold uartOnByte
    dsimp only
    split_ifs with h0 h1
    · exact rxInv_reset _ rfl rfl
    · exact rxInv_parse _ _ hv hb h1
    · exact hv
  · have herr : (USART_RxChar hw).1 ≠ 0 := by
      unfold USART_RxChar
      rw [if_neg (by omega)]
      exact Nat.one_ne_zero
    rw [serviceRx_error hw u herr]
    exact rxInv_reset _ rfl rfl

theorem rxInv_reachable (u : MinUart_STYP) (h : Reachable u) : RxInv u := by
  induction h with
  | defaults => exact ⟨by decide, by decide, fun h => absurd h (by decide)⟩
  | init u _ _ => exact rxInv_reset _ rfl rfl
  | service u hw _ hb ih => exact rxInv_service hw u ih hb
  | tick u _ ih =>
    unfold TCA0_OVF_uart
    split_ifs
    · exact ⟨ih.length, ih.index, ih.parsing⟩
    · exact ih
  | consume u _ ih => exact ⟨ih.length, ih.index, ih.parsing⟩

theorem reachable_run (u : MinUart_STYP) (evs : List RxEvent) (h : Reachable u) :
    Reachable (rxRun u evs) := by
  induction evs generalizing u with
  | nil => exact h
  | cons e es ih =>
    apply ih
    cases e with
    | byte b =>
      exact Reachable.service u (rxPending b) h
        (by rw [rxPending_byte]; exact Nat.mod_lt _ (by decide))
    | rxError => exact Reachable.service u Usart.idle h (by decide)
    | tick => exact Reachable.tick u h

/-- C8.  In every reachable receiver state (so in particular after each call of
`MinUart_serviceRx`) `rxBufferIndex ≤ dataLength ≤ 264 = RX_BLOCK_BUFFER_SIZE`, and
the store `rxBuffer[rxBufferIndex] = rxByte` that the next call of
`MinUart_serviceRx` may execute uses an index below 264, whatever the hardware
buffer holds. -/
theorem C8_receive_buffer_bounds (u : MinUart_STYP) (h : Reachable u) :
    u.rxBufferIndex ≤ u.dataLength ∧ u.dataLength ≤ RX_BLOCK_BUFFER_SIZE ∧
    ∀ (hw : Usart) (i : Nat), MinUart_storeIndex hw u = some i → i < RX_BLOCK_BUFFER_SIZE := by
  have inv := rxInv_reachable u h
  refine ⟨inv.index, inv.length, ?_⟩
  intro hw i hi
  have hv := rxInv_resync u inv
  unfold MinUart_storeIndex at hi
  split_ifs at hi with he hs
  cases hi
  have := hv.parsing hs
  have := hv.length
  omega

theorem C8_receive_buffer_bounds_witness :
    uartSevenIn.rxBufferIndex ≤ uartSevenIn.dataLength ∧
      uartSevenIn.dataLength ≤ RX_BLOCK_BUFFER_SIZE ∧
      ∀ (hw : Usart) (i : Nat),
        MinUart_storeIndex hw uartSevenIn = some i → i < RX_BLOCK_BUFFER_SIZE :=
  C8_receive_buffer_bounds uartSevenIn (reachable_run _ _ Reachable.defaults)

/-! ## C10 — a frame with a wrong CRC is dropped -/

theorem serviceRxLoop_empty (fuel : Nat) (hw : Usart) (u : MinUart_STYP)
    (h : HardwareUart_GetCharsInRxBuf hw = 0) : serviceRxLoop fuel hw u = (hw, u) := by
  cases fuel with
  | zero => rfl
  | succ n =>
    show (if HardwareUart_GetCharsInRxBuf hw > 0 then _ else (hw, u)) = (hw, u)
    rw [if_neg (by omega)]

theorem serviceRx_chars (hw : Usart) (u : MinUart_STYP)
    (h : 0 < HardwareUart_GetCharsInRxBuf hw) :
    HardwareUart_GetCharsInRxBuf (MinUart_serviceRx hw u).1 <
      HardwareUart_GetCharsInRxBuf hw := by
  unfold HardwareUart_GetCharsInRxBuf USART_GetCharsInRxBuf at h ⊢
  have hpos : 0 < hw.rxChars := by
    rcases Nat.eq_zero_or_pos hw.rxChars with h0 | h0
    · rw [h0] at h; exact absurd h (by decide)
    · exact h0
  unfold MinUart_serviceRx USART_RxChar
  simp only [hpos, gt_iff_lt, if_true]
  simp only [ne_eq, not_true_eq_false, if_false]
  split_ifs <;> simp only [USART_ClearRxBuffer] <;> omega

/-- The receive loop of `MinSlave_manageMessages` ends with an empty hardware
buffer: 256 passes are enough. -/
theorem serviceRxLoop_drains (fuel : Nat) (hw : Usart) (u : MinUart_STYP)
    (h : HardwareUart_GetCharsInRxBuf hw < fuel) :
    HardwareUart_GetCharsInRxBuf (serviceRxLoop fuel hw u).1 = 0 := by
  induction fuel generalizing hw u with
  | zero => omega
  | succ n ih =>
    show HardwareUart_GetCharsInRxBuf
      (if HardwareUart_GetCharsInRxBuf hw > 0 then
        serviceRxLoop n (MinUart_serviceRx hw u).1 (MinUart_serviceRx hw u).2
      else (hw, u)).1 = 0
    split_ifs with hpos
    · apply ih
      have := serviceRx_chars hw u hpos
      omega
    · show HardwareUart_GetCharsInRxBuf hw = 0
      omega

/-- `MinSlave_manageMessages` does nothing when the hardware buffer is empty and no
packet is flagged. -/
theorem manageMessages_idle (s : System) (h : HardwareUart_GetCharsInRxBuf s.usart = 0)
    (hp : s.oMinSlave.uart.processPacketFlag = FALSE) : MinSlave_manageMessages s = s := by
  unfold MinSlave_manageMessages
  split_ifs with h1 h2
  · rfl
  · rfl
  · rw [serviceRxLoop_empty 256 _ _ h]
    dsimp only
    rw [if_pos hp]

theorem storeData_clean (b : Nat) (hw : Usart) (hc : UsartClean hw) :
    (USART_StoreData b hw).rxChars = 1 ∧ (USART_StoreData b hw).tempIndex = 0 ∧
      (USART_StoreData b hw).rxBuffer 0 = b % 256 := by
  obtain ⟨h1, h2, h3⟩ := hc
  unfold USART_StoreData
  rw [if_pos (by rw [h2]; decide)]
  refine ⟨?_, h3, ?_⟩
  · show (hw.rxChars + 1) % 256 = 1
    rw [h1]
  · show Function.update hw.rxBuffer hw.rxIndex (b % 256) 0 = b % 256
    rw [h2, Function.update_same]

theorem serviceRx_drains_one (hw : Usart) (u : MinUart_STYP) (h : hw.rxChars = 1) :
    HardwareUart_GetCharsInRxBuf (MinUart_serviceRx hw u).1 = 0 := by
  have := serviceRx_chars hw u
    (by unfold HardwareUart_GetCharsInRxBuf USART_GetCharsInRxBuf; rw [h]; decide)
  have h1 : HardwareUart_GetCharsInRxBuf hw = 1 := by
    unfold HardwareUart_GetCharsInRxBuf USART_GetCharsInRxBuf; rw [h]
  omega

/-- One receive interrupt that does not complete a valid frame: the byte goes
through `MinUart_serviceRx`, nothing else changes, and the hardware buffer is left
clean. -/
theorem isr_receive_quiet (s : System) (b : Nat) (hh : s.halted = false)
    (hp : s.pMinSlaveSelf = true) (hc : UsartClean s.usart)
    (hq : (rxStep s.oMinSlave.uart (.byte b)).processPacketFlag = FALSE) :
    ∃ hw, UsartClean hw ∧
      ISR_USART0_RXC b s = withReceiver s hw (rxStep s.oMinSlave.uart (.byte b)) := by
  obtain ⟨c1, c2, c3⟩ := storeData_clean b s.usart hc
  have hu : (MinUart_serviceRx (USART_StoreData b s.usart) s.oMinSlave.uart).2 =
      rxStep s.oMinSlave.uart (.byte b) := by
    rw [serviceRx_snd _ _ (by rw [c1]; decide), c2, c3, rxStep_byte]
  have hloop : serviceRxLoop 256 (USART_StoreData b s.usart) s.oMinSlave.uart =
      MinUart_serviceRx (USART_StoreData b s.usart) s.oMinSlave.uart := by
    show (if HardwareUart_GetCharsInRxBuf (USART_StoreData b s.usart) > 0 then
        serviceRxLoop 255 (MinUart_serviceRx (USART_StoreData b s.usart) s.oMinSlave.uart).1
          (MinUart_serviceRx (USART_StoreData b s.usart) s.oMinSlave.uart).2
      else _) = _
    rw [if_pos (by unfold HardwareUart_GetCharsInRxBuf USART_GetCharsInRxBuf; rw [c1]; decide),
      serviceRxLoop_empty 255 _ _ (serviceRx_drains_one _ _ c1)]
  refine ⟨USART_ClearRxBuffer
    (MinUart_serviceRx (USART_StoreData b s.usart) s.oMinSlave.uart).1, ⟨rfl, rfl, rfl⟩, ?_⟩
  have hm : MinSlave_manageMessages { s with usart := USART_StoreData b s.usart } =
      withReceiver s (MinUart_serviceRx (USART_StoreData b s.usart) s.oMinSlave.uart).1
        (rxStep s.oMinSlave.uart (.byte b)) := by
    unfold MinSlave_manageMessages
    rw [if_neg (by show ¬ (s.halted = true); rw [hh]; decide),
      if_neg (by show ¬ (s.pMinSlaveSelf = false); rw [hp]; decide)]
    dsimp only
    rw [hloop, hu, if_pos hq]
    rfl
  unfold ISR_USART0_RXC
  rw [if_neg (by rw [hh]; decide)]
  dsimp only
  rw [hm, if_neg (by show ¬ (s.halted = true); rw [hh]; decide)]
  rfl

theorem rxRun_backToBack_cons (u : MinUart_STYP) (b : Nat) (bs : List Nat) :
    rxRun u (frameEvents (backToBack (b :: bs))) =
      rxRun (rxStep u (.byte b)) (frameEvents (backToBack bs)) := rfl

/-- A sequence of receive interrupts none of which completes a valid frame: the
bytes go through the receiver one by one and nothing else changes. -/
theorem receiveBytes_quiet (bs : List Nat) (s : System) (hh : s.halted = false)
    (hp : s.pMinSlaveSelf = true) (hc : UsartClean s.usart)
    (hq : ∀ k, 1 ≤ k → k ≤ bs.length →
      (rxRun s.oMinSlave.uart (frameEvents ((backToBack bs).take k))).processPacketFlag = FALSE) :
    ∃ hw, UsartClean hw ∧
      receiveBytes s bs =
        withReceiver s hw (rxRun s.oMinSlave.uart (frameEvents (backToBack bs))) := by
  induction bs generalizing s with
  | nil => exact ⟨s.usart, hc, rfl⟩
  | cons b t ih =>
    have hq1 : (rxStep s.oMinSlave.uart (.byte b)).processPacketFlag = FALSE :=
      hq 1 (le_refl 1) (by simp)
    obtain ⟨hw1, hc1, e1⟩ := isr_receive_quiet s b hh hp hc hq1
    have := ih (ISR_USART0_RXC b s) (by rw [e1]; exact hh) (by rw [e1]; exact hp)
      (by rw [e1]; exact hc1)
      (by
        intro k h1 hk
        rw [e1]
        exact hq (k + 1) (by omega) (by simp; omega))
    obtain ⟨hw2, hc2, e2⟩ := this
    refine ⟨hw2, hc2, ?_⟩
    show receiveBytes (ISR_USART0_RXC b s) t = _
    rw [e2, e1]
    rfl

theorem backToBack_bytes (f : List Nat) : frameBytes (backToBack f) = f := by
  unfold frameBytes backToBack
  rw [List.map_map]
  exact List.map_id _

theorem backToBack_gaps (f : List Nat) : GapsOk (backToBack f) := by
  intro p hp
  have hp2 : p ∈ backToBack f := List.mem_of_mem_tail hp
  unfold backToBack at hp2
  rw [List.mem_map] at hp2
  obtain ⟨b, _, rfl⟩ := hp2
  show 0 < 3
  decide

/-- The frame of C10 delivered by receive interrupts, one per byte, to a running
firmware (initialised, not halted, clean hardware buffer, no packet flagged,
countdown 0): again only the receiver object and the hardware buffer change. -/
theorem bad_crc_frame_dropped_by_interrupts (s : System) (f : List Nat)
    (hh : s.halted = false) (hp : s.pMinSlaveSelf = true) (hc : UsartClean s.usart)
    (hflag : s.oMinSlave.uart.processPacketFlag = FALSE)
    (h0 : s.oMinSlave.uart.modbusReSync = 0)
    (wf : WellFramed s.oMinSlave.uart.moduleAddress f) (hbad : ¬ crcTrailerOk f) :
    ∃ hw, receiveBytes s f =
      withReceiver s hw (rxRun s.oMinSlave.uart (frameEvents (backToBack f))) := by
  have wf2 : WellFramed s.oMinSlave.uart.moduleAddress (frameBytes (backToBack f)) := by
    rw [backToBack_bytes]; exact wf
  have hlen : (backToBack f).length = f.length := by simp [backToBack]
  obtain ⟨hw, _, e⟩ := receiveBytes_quiet f s hh hp hc (by
    intro k h1 hk
    rcases Nat.lt_or_ge k (backToBack f).length with hlt | hge
    · rw [(frame_progress _ _ h0 (backToBack_gaps f) wf2 k h1 hlt).packet]
      exact hflag
    · rw [List.take_of_length_le hge,
        (frame_received _ _ h0 (backToBack_gaps f) wf2).2.2.2.2.2.2.1,
        if_neg (by rw [backToBack_bytes]; exact hbad)])
  exact ⟨hw, e⟩

/-- C10.  Take a request with a matching address (the module address or 0), an
accepted function code and the length that goes with it, whose last two bytes are
not the CRC of the bytes before them.  Once the receiver has consumed it (byte by
byte from countdown 0, within the window) and `MinSlave_manageMessages` then runs
on the emptied hardware buffer, nothing has changed besides the receiver object: in
particular no byte has been transmitted, `slaveRegisters`, the three write-request
flags and `communicationTimeoutCNTR` are what they were before the frame. -/
theorem C10_bad_crc_frame_dropped (s : System) (fr : List (Nat × Nat)) (hw : Usart)
    (h0 : s.oMinSlave.uart.modbusReSync = 0) (hg : GapsOk fr)
    (wf : WellFramed s.oMinSlave.uart.moduleAddress (frameBytes fr))
    (hbad : ¬ crcTrailerOk (frameBytes fr))
    (hempty : HardwareUart_GetCharsInRxBuf hw = 0) :
    MinSlave_manageMessages (afterFrame s fr hw) = afterFrame s fr hw ∧
    (MinSlave_manageMessages (afterFrame s fr hw)).txSent = s.txSent ∧
    (MinSlave_manageMessages (afterFrame s fr hw)).oMinSlave.slaveRegisters =
      s.oMinSlave.slaveRegisters ∧
    (MinSlave_manageMessages (afterFrame s fr hw)).oNFC.instantWriteFLG =
      s.oNFC.instantWriteFLG ∧
    (MinSlave_manageMessages (afterFrame s fr hw)).oNFC.productInfoFLG =
      s.oNFC.productInfoFLG ∧
    (MinSlave_manageMessages (afterFrame s fr hw)).oNFC.storeBroadcastFLG =
      s.oNFC.storeBroadcastFLG ∧
    (MinSlave_manageMessages (afterFrame s fr hw)).oMinSlave.communicationTimeoutCNTR =
      s.oMinSlave.communicationTimeoutCNTR ∧
    (MinSlave_manageMessages (afterFrame s fr hw)).nfcMem = s.nfcMem := by
  have hfin := frame_received s.oMinSlave.uart fr h0 hg wf
  have hp : (afterFrame s fr hw).oMinSlave.uart.processPacketFlag = FALSE := by
    show (rxRun s.oMinSlave.uart (frameEvents fr)).processPacketFlag = FALSE
    rw [hfin.2.2.2.2.2.2.1, if_neg hbad]
  have he : MinSlave_manageMessages (afterFrame s fr hw) = afterFrame s fr hw :=
    manageMessages_idle _ hempty hp
  rw [he]
  exact ⟨rfl, rfl, rfl, rfl, rfl, rfl, rfl, rfl⟩

theorem C10_bad_crc_frame_dropped_witness :
    (MinSlave_manageMessages (afterFrame systemStarted corruptedRequestTimed Usart.idle)).txSent =
      systemStarted.txSent :=
  (C10_bad_crc_frame_dropped systemStarted corruptedRequestTimed Usart.idle (by decide)
    (by decide) (by decide) (by decide) (by decide)).2.1

/-! ## C1 — the CRC of the replies -/

set_option maxRecDepth 100000 in
/-- C1 (evaluation at the failing input).  The request `readRequest127` is a
well-framed read-registers request with a correct CRC.  Delivered to the started
firmware byte by byte through the receive interrupt, it makes the dispatcher
transmit the three bytes `[2, 3, 254]` only: the 8-bit reply length
`3 + 254 + 2` has wrapped to 3, and the last two transmitted bytes are not the CRC
of the byte before them. -/
theorem C1_read_reply_truncated :
    WellFramed systemStarted.oMinSlave.uart.moduleAddress readRequest127 ∧
    crcTrailerOk readRequest127 ∧
    (receiveBytes systemStarted readRequest127).txSent = [2, 3, 254] ∧
    ¬ crcTrailerOk [2, 3, 254] := by
  refine ⟨by decide, by decide, by decide, by decide⟩


/-! ## The CRC as two bytes -/

theorem crc_16_table_lt (i : Nat) : crc_16_table i < 2 ^ 16 := by
  unfold crc_16_table
  split <;> decide

theorem crcNibble_lt (crc nib : Nat) : crcNibble crc nib < 2 ^ 16 := by
  unfold crcNibble
  dsimp only
  refine Nat.xor_lt_two_pow (Nat.xor_lt_two_pow ?_ (crc_16_table_lt _)) (crc_16_table_lt _)
  exact Nat.and_lt_two_pow _ (by decide)

theorem crcByte_lt (crc b : Nat) : crcByte crc b < 2 ^ 16 := crcNibble_lt _ _

theorem get_crc_16_lt (start : Nat) (p : Nat → Nat) (n : Nat) (h : start < 2 ^ 16) :
    get_crc_16 start p n < 2 ^ 16 := by
  induction n generalizing start p with
  | zero => exact h
  | succ n ih => exact ih _ _ (crcByte_lt _ _)

theorem crcOf_lt (bs : List Nat) : crcOf bs < 65536 :=
  get_crc_16_lt _ _ _ (by decide)

theorem crc_low (c : Nat) : c &&& 0xff = c % 256 :=
  Nat.and_pow_two_sub_one_eq_mod c 8

theorem crc_high (c : Nat) (h : c < 65536) : (c >>> 8) % 256 = c / 256 := by
  rw [Nat.shiftRight_eq_div_pow]
  have : c / 2 ^ 8 < 256 := by
    rw [Nat.div_lt_iff_lt_mul (by decide)]
    exact h
  exact Nat.mod_eq_of_lt this

/-! ## The loops in closed form -/

theorem copyLoop_apply (dst : Nat → Nat) (dOff : Nat) (src : Nat → Nat) (sOff n j : Nat) :
    copyLoop dst dOff src sOff n j =
      if dOff ≤ j ∧ j < dOff + n then src (sOff + (j - dOff)) else dst j := by
  induction n with
  | zero =>
    show dst j = _
    rw [if_neg (by omega)]
  | succ n ih =>
    show Function.update (copyLoop dst dOff src sOff n) (dOff + n) (src (sOff + n)) j = _
    rw [Function.update_apply, ih]
    by_cases hj : j = dOff + n
    · rw [if_pos hj, if_pos (by omega)]
      congr 1
      omega
    · rw [if_neg hj]
      by_cases h2 : dOff ≤ j ∧ j < dOff + n
      · rw [if_pos h2, if_pos (by omega)]
      · rw [if_neg h2, if_neg (by omega)]

theorem registerLoop_apply (t : Nat → Nat) (off : Nat) (reg : Nat → Nat) (n j : Nat) :
    registerLoop t off reg n j =
      if off ≤ j ∧ j < off + 2 * n then
        (if (j - off) % 2 = 0 then (reg ((j - off) / 2) >>> 8) % 256
          else reg ((j - off) / 2) &&& 0xFF)
      else t j := by
  induction n with
  | zero =>
    show t j = _
    rw [if_neg (by omega)]
  | succ n ih =>
    show Function.update
        (Function.update (registerLoop t off reg n) (off + 2 * n) ((reg n >>> 8) % 256))
        (off + 2 * n + 1) (reg n &&& 0xFF) j = _
    rw [Function.update_apply, Function.update_apply, ih]
    by_cases h1 : j = off + 2 * n + 1
    · rw [if_pos h1, if_pos (by omega), if_neg (by omega)]
      congr 2
      omega
    · rw [if_neg h1]
      by_cases h0 : j = off + 2 * n
      · rw [if_pos h0, if_pos (by omega), if_pos (by omega)]
        congr 3
        omega
      · rw [if_neg h0]
        by_cases h2 : off ≤ j ∧ j < off + 2 * n
        · have h3 : off ≤ j ∧ j < off + 2 * (n + 1) := by omega
          rw [if_pos h2, if_pos h3]
        · have h3 : ¬ (off ≤ j ∧ j < off + 2 * (n + 1)) := by omega
          rw [if_neg h2, if_neg h3]

theorem sendLoop_eq (p : Nat → Nat) (l : List Nat)
    (h : ∀ i, i < l.length → p i = l.getD i 0) : sendLoop p l.length = l := by
  unfold sendLoop
  apply List.ext_getElem
  · simp
  · intro i h1 h2
    rw [List.getElem_map, List.getElem_range, h i h2, List.getD_eq_getElem _ _ h2]

theorem crc_of_buffer (p : Nat → Nat) (l : List Nat)
    (h : ∀ i, i < l.length → p i = l.getD i 0) : get_crc_16 0xFFFF p l.length = crcOf l :=
  get_crc_16_congr _ _ _ _ h

theorem withCrc_length (body : List Nat) : (withCrc body).length = body.length + 2 := by
  simp [withCrc]

/-- A buffer that holds `body` from cell 0, completed by the two CRC stores and
sent with the length of `body` plus 2, transmits `withCrc body`. -/
theorem reply_withCrc (t : Nat → Nat) (body : List Nat)
    (h : ∀ i, i < body.length → t i = body.getD i 0) :
    sendLoop
      (Function.update
        (Function.update t body.length (get_crc_16 0xFFFF t body.length &&& 0xff))
        (body.length + 1) ((get_crc_16 0xFFFF t body.length >>> 8) % 256))
      (body.length + 2) = withCrc body := by
  rw [crc_of_buffer t body h, crc_low, crc_high _ (crcOf_lt body), ← withCrc_length body]
  apply sendLoop_eq
  intro i hi
  rw [withCrc_length] at hi
  rw [Function.update_apply, Function.update_apply]
  have hl : (body ++ [crcOf body % 256, crcOf body / 256]).length = body.length + 2 := by simp
  unfold withCrc
  by_cases h1 : i = body.length + 1
  · have hk : body.length + 1 < (body ++ [crcOf body % 256, crcOf body / 256]).length := by
      omega
    rw [if_pos h1, h1, List.getD_eq_getElem _ _ hk, List.getElem_append_right (by omega)]
    simp
  · rw [if_neg h1]
    by_cases h0 : i = body.length
    · have hk : body.length < (body ++ [crcOf body % 256, crcOf body / 256]).length := by
        omega
      rw [if_pos h0, h0, List.getD_eq_getElem _ _ hk, List.getElem_append_right (by omega)]
      simp
    · have hb : i < body.length := by omega
      have hk : i < (body ++ [crcOf body % 256, crcOf body / 256]).length := by omega
      rw [if_neg h0, h i hb, List.getD_eq_getElem _ _ hk, List.getD_eq_getElem _ _ hb,
        List.getElem_append_left]

/-! ## From a valid request to the function-code switch -/

theorem manageMessages_valid {s : System} {fr : List (Nat × Nat)} {hw : Usart}
    (v : ValidRequest s fr hw) :
    MinSlave_manageMessages (afterFrame s fr hw) = MinSlave_dispatch (atDispatch s fr hw) := by
  have hfin := frame_received s.oMinSlave.uart fr v.countdown v.gaps v.framed
  have hp : ¬ (afterFrame s fr hw).oMinSlave.uart.processPacketFlag = FALSE := by
    show ¬ (rxRun s.oMinSlave.uart (frameEvents fr)).processPacketFlag = FALSE
    rw [hfin.2.2.2.2.2.2.1, if_pos v.crc]
    decide
  have h1 : ¬ ((afterFrame s fr hw).halted = true) := by
    show ¬ (s.halted = true)
    rw [v.running]
    decide
  have h2 : ¬ ((afterFrame s fr hw).pMinSlaveSelf = false) := by
    show ¬ (s.pMinSlaveSelf = false)
    rw [v.initialised]
    decide
  have hd : HardwareUart_GetCharsInRxBuf (afterFrame s fr hw).usart = 0 := v.drained
  unfold MinSlave_manageMessages
  rw [if_neg h1, if_neg h2, serviceRxLoop_empty 256 _ _ hd]
  dsimp only
  rw [if_neg hp]
  rfl

theorem atDispatch_rx {s : System} {fr : List (Nat × Nat)} {hw : Usart}
    (v : ValidRequest s fr hw) (i : Nat) (hi : i < fr.length) :
    (atDispatch s fr hw).oMinSlave.uart.rxBuffer i = (frameBytes fr).getD i 0 :=
  (frame_received s.oMinSlave.uart fr v.countdown v.gaps v.framed).2.2.2.2.1 i hi

theorem atDispatch_fc {s : System} {fr : List (Nat × Nat)} {hw : Usart}
    (v : ValidRequest s fr hw) :
    (atDispatch s fr hw).oMinSlave.uart.functionCode = (frameBytes fr).getD 1 0 :=
  (frame_received s.oMinSlave.uart fr v.countdown v.gaps v.framed).2.2.2.1

theorem atDispatch_addr {s : System} {fr : List (Nat × Nat)} {hw : Usart}
    (v : ValidRequest s fr hw) :
    (atDispatch s fr hw).oMinSlave.uart.moduleAddress = s.oMinSlave.uart.moduleAddress :=
  (frame_received s.oMinSlave.uart fr v.countdown v.gaps v.framed).2.2.2.2.2.1

theorem validRequest_byte {s : System} {fr : List (Nat × Nat)} {hw : Usart}
    (v : ValidRequest s fr hw) (i : Nat) : (frameBytes fr).getD i 0 < 256 := by
  by_cases hi : i < (frameBytes fr).length
  · exact wellFramed_byte v.framed i hi
  · rw [List.getD_eq_default _ _ (by omega)]
    decide

/-- The length of a valid request, by function code. -/
theorem validRequest_length {s : System} {fr : List (Nat × Nat)} {hw : Usart}
    (v : ValidRequest s fr hw) : fr.length = requestLength (frameBytes fr) := by
  rw [← frameBytes_length]
  exact v.framed.length

/-! ## Bytes and 16-bit words -/

theorem shl8_or (a b : Nat) (ha : a < 256) (hb : b < 256) :
    ((a <<< 8) % 65536) ||| b = a * 256 + b := by
  rw [Nat.shiftLeft_eq, Nat.mod_eq_of_lt (by omega), Nat.mul_comm]
  exact (@Nat.mul_add_lt_is_or 8 b hb a).symm

theorem shl8_add (a b : Nat) (ha : a < 256) (hb : b < 256) :
    ((a <<< 8) + b) % 65536 = a * 256 + b := by
  rw [Nat.shiftLeft_eq, Nat.mod_eq_of_lt (by omega)]

theorem modbusRegisterNumber_eq (rx : Nat → Nat) (h2 : rx 2 < 256) (h3 : rx 3 < 256) :
    modbusRegisterNumber rx = sub16 (rx 2 * 256 + rx 3) 0x9C40 := by
  unfold modbusRegisterNumber
  show sub16 (((rx 2 <<< 8) % 65536) ||| rx 3) 0x9C40 = _
  rw [shl8_or _ _ h2 h3]

/-- A frame that ends in the CRC of its other bytes is those bytes followed by
their CRC. -/
theorem withCrc_take (f : List Nat) (hc : crcTrailerOk f) (hb : ∀ b ∈ f, b < 256) :
    withCrc (f.take (f.length - 2)) = f := by
  obtain ⟨h2, hcrc⟩ := hc
  have ha : f.getD (f.length - 2) 0 < 256 := by
    rw [List.getD_eq_getElem _ _ (by omega)]
    exact hb _ (List.getElem_mem _)
  have hlo : crcOf (f.take (f.length - 2)) % 256 = f.getD (f.length - 2) 0 := by
    rw [hcrc]
    omega
  have hhi : crcOf (f.take (f.length - 2)) / 256 = f.getD (f.length - 1) 0 := by
    rw [hcrc]
    omega
  unfold withCrc
  rw [hlo, hhi]
  have hl : (f.take (f.length - 2)).length = f.length - 2 := by
    rw [List.length_take]
    omega
  apply List.ext_getElem
  · simp
    omega
  · intro i h1 h3
    rw [← List.getD_eq_getElem _ 0 h1, ← List.getD_eq_getElem _ 0 h3]
    by_cases hi : i < f.length - 2
    · rw [List.getD_append _ _ _ _ (by omega), List.getD_eq_getElem _ _ (by omega),
        List.getD_eq_getElem _ _ h3, List.getElem_take]
    · rw [List.getD_append_right _ _ _ _ (by omega), hl]
      have hcase : i = f.length - 2 ∨ i = f.length - 1 := by omega
      rcases hcase with h | h
      · have e : i - (f.length - 2) = 0 := by omega
        rw [e, h]
        rfl
      · have e : i - (f.length - 2) = 1 := by omega
        rw [e, h]
        rfl

/-! ## Write single register (FC06) -/

theorem sendReply_nfcMem (s : System) (p : Nat → Nat) (n : Nat) :
    (MinSlave_sendReplyPRIV s p n).nfcMem = s.nfcMem := by
  unfold MinSlave_sendReplyPRIV
  split_ifs <;> rfl

theorem sendReply_oNFC (s : System) (p : Nat → Nat) (n : Nat) :
    (MinSlave_sendReplyPRIV s p n).oNFC = s.oNFC := by
  unfold MinSlave_sendReplyPRIV
  split_ifs <;> rfl

theorem sendReply_oMinSlave (s : System) (p : Nat → Nat) (n : Nat) :
    (MinSlave_sendReplyPRIV s p n).oMinSlave = s.oMinSlave := by
  unfold MinSlave_sendReplyPRIV
  split_ifs <;> rfl

theorem sendReply_txSent (s : System) (p : Nat → Nat) (n : Nat) (hn : n ≠ 0) :
    (MinSlave_sendReplyPRIV s p n).txSent = s.txSent ++ sendLoop p n := by
  unfold MinSlave_sendReplyPRIV
  rw [if_neg hn]

theorem sendReply_halted (s : System) (p : Nat → Nat) (n : Nat) (hn : n ≠ 0) :
    (MinSlave_sendReplyPRIV s p n).halted = s.halted := by
  unfold MinSlave_sendReplyPRIV
  rw [if_neg hn]

theorem sendReply_zero (s : System) (p : Nat → Nat) :
    MinSlave_sendReplyPRIV s p 0 = { s with halted := true } := by
  unfold MinSlave_sendReplyPRIV
  rw [if_pos rfl]

theorem take_getD (f : List Nat) (n i : Nat) (hi : i < n) :
    (f.take n).getD i 0 = f.getD i 0 := by
  by_cases h : i < f.length
  · rw [List.getD_eq_getElem _ _ (by rw [List.length_take]; omega),
      List.getD_eq_getElem _ _ h, List.getElem_take]
  · rw [List.getD_eq_default _ _ (by rw [List.length_take]; omega),
      List.getD_eq_default _ _ (by omega)]

theorem writeOne_txSent (d : System) (f : List Nat) (hl : 6 ≤ f.length)
    (h : ∀ i, i < 6 → d.oMinSlave.uart.rxBuffer i = f.getD i 0) :
    (ModbusSlave_writeOneRegisterPRIV d).txSent = d.txSent ++ withCrc (f.take 6) := by
  have key := reply_withCrc (copyLoop d.txBuf 0 d.oMinSlave.uart.rxBuffer 0 6) (f.take 6)
    (by
      intro i hi
      rw [List.length_take, Nat.min_eq_left hl] at hi
      rw [copyLoop_apply, if_pos (by omega), take_getD f 6 i hi, ← h i hi]
      congr 1
      omega)
  rw [List.length_take, Nat.min_eq_left hl] at key
  exact congrArg (fun l => d.txSent ++ l) key

theorem writeOne_nfcMem (d : System) :
    (ModbusSlave_writeOneRegisterPRIV d).nfcMem =
      NFC_InstantaneousWrite d.nfcMem
        ((modbusRegisterNumber d.oMinSlave.uart.rxBuffer * 2) % 65536)
        (((d.oMinSlave.uart.rxBuffer MODBUS_FC06_REG_VALH_INDEX <<< 8) +
          d.oMinSlave.uart.rxBuffer MODBUS_FC06_REG_VALl_INDEX) % 65536) := by
  unfold ModbusSlave_writeOneRegisterPRIV
  dsimp only
  rw [sendReply_nfcMem]
  rfl

/-! ## Read registers (FC03) and get product info (FC69) -/

theorem readBody_length (addr fc : Nat) (mem : Nat → Nat) (a len : Nat) :
    (readBody addr fc mem a len).length = 3 + len := by
  simp [readBody]
  omega

theorem sequentialRead_apply (mem : Nat → Nat) (a len j : Nat) (hj : j < len) :
    NFC_SequentialRead mem a len (fun _ => 0) j = mem ((a + j) % 65536) := by
  unfold NFC_SequentialRead
  rw [copyLoop_apply, if_pos ⟨Nat.zero_le _, by omega⟩]
  rfl

theorem readBuffer_agrees (t : Nat → Nat) (addr fc : Nat) (mem : Nat → Nat) (a len i : Nat)
    (hi : i < (readBody addr fc mem a len).length) :
    copyLoop (Function.update (Function.update (Function.update t 0 addr) 1 fc) 2 len) 3
        (NFC_SequentialRead mem a len (fun _ => 0)) 0 len i =
      (readBody addr fc mem a len).getD i 0 := by
  rw [readBody_length] at hi
  rw [copyLoop_apply]
  unfold readBody
  by_cases h3 : 3 ≤ i
  · have hk : i - 3 < ((List.range len).map fun i => mem ((a + i) % 65536)).length := by
      simp
      omega
    rw [if_pos ⟨h3, hi⟩, Nat.zero_add, sequentialRead_apply _ _ _ _ (by omega),
      List.getD_append_right _ _ _ _ (by simp; omega)]
    show _ = List.getD _ (i - 3) 0
    rw [List.getD_eq_getElem _ _ hk, List.getElem_map, List.getElem_range]
  · rw [if_neg (by omega)]
    have hcase : i = 0 ∨ i = 1 ∨ i = 2 := by omega
    rcases hcase with h | h | h <;> subst h <;> rfl

theorem readReply_txSent (d : System)
    (hn : 3 + (d.oMinSlave.uart.rxBuffer MODBUS_FC03_NUM_REG_INDEX * MIN_BYTES_PER_REG) % 256
      + 2 < 256) :
    (ModbusSlave_replyRegisterRequestPRIV d).txSent =
      d.txSent ++ withCrc (readBody d.oMinSlave.uart.moduleAddress MIN_FC03 d.nfcMem
        ((modbusRegisterNumber d.oMinSlave.uart.rxBuffer * 2) % 65536)
        ((d.oMinSlave.uart.rxBuffer MODBUS_FC03_NUM_REG_INDEX * MIN_BYTES_PER_REG) % 256)) := by
  have key := reply_withCrc _ _ (readBuffer_agrees d.txBuf d.oMinSlave.uart.moduleAddress
    MIN_FC03 d.nfcMem ((modbusRegisterNumber d.oMinSlave.uart.rxBuffer * 2) % 65536)
    ((d.oMinSlave.uart.rxBuffer MODBUS_FC03_NUM_REG_INDEX * MIN_BYTES_PER_REG) % 256))
  rw [readBody_length] at key
  rw [← key]
  unfold ModbusSlave_replyRegisterRequestPRIV
  dsimp only
  rw [sendReply_txSent _ _ _ (by rw [Nat.mod_eq_of_lt hn]; omega), Nat.mod_eq_of_lt hn]
  rfl

/-! ## The function-code switch -/

theorem dispatch_fc03 (d : System) (h : d.oMinSlave.uart.functionCode = MODBUS_FC03) :
    MinSlave_dispatch d = ModbusSlave_replyRegisterRequestPRIV d := by
  unfold MinSlave_dispatch
  dsimp only
  rw [if_pos h]

theorem dispatch_fc67 (d : System) (h : d.oMinSlave.uart.functionCode = MIN_FC67_DISCOVER) :
    MinSlave_dispatch d = MinSlave_discoverPRIV d := by
  unfold MinSlave_dispatch
  dsimp only
  rw [h]
  rfl

theorem dispatch_fc06 (d : System) (h : d.oMinSlave.uart.functionCode = MIN_FC06) :
    MinSlave_dispatch d = ModbusSlave_writeOneRegisterPRIV d := by
  unfold MinSlave_dispatch
  dsimp only
  rw [h]
  rfl

theorem dispatch_fc16 (d : System) (h : d.oMinSlave.uart.functionCode = MIN_FC16) :
    MinSlave_dispatch d = ModbusSlave_writeRegistersPRIV d := by
  unfold MinSlave_dispatch
  dsimp only
  rw [h]
  rfl

theorem dispatch_fc65 (d : System) (h : d.oMinSlave.uart.functionCode = MIN_FC65_SLAVE_POLL) :
    MinSlave_dispatch d = MinSlave_slavePollPRIV d := by
  unfold MinSlave_dispatch
  dsimp only
  rw [h]
  rfl

theorem dispatch_fc69 (d : System)
    (h : d.oMinSlave.uart.functionCode = MIN_FC69_GET_PRODUCT_INFO) :
    MinSlave_dispatch d = MinSlave_getProductInfoPRIV d := by
  unfold MinSlave_dispatch
  dsimp only
  rw [h]
  rfl

theorem dispatch_fc70 (d : System)
    (h : d.oMinSlave.uart.functionCode = MIN_FC70_STORE_PRODUCT_INFO) :
    MinSlave_dispatch d = MinSlave_storeProductInfoPRIV d := by
  unfold MinSlave_dispatch
  dsimp only
  rw [h]
  rfl

/-- What `MinSlave_manageMessages` does with a valid request of function code
`fc`, given the handler `g` that the switch selects for it. -/
theorem handled_by {s : System} {fr : List (Nat × Nat)} {hw : Usart}
    (v : ValidRequest s fr hw) (fc : Nat) (hfc : (frameBytes fr).getD 1 0 = fc)
    (g : System → System)
    (hg : ∀ d : System, d.oMinSlave.uart.functionCode = fc → MinSlave_dispatch d = g d) :
    MinSlave_manageMessages (afterFrame s fr hw) = g (atDispatch s fr hw) := by
  rw [manageMessages_valid v]
  exact hg _ (by rw [atDispatch_fc v, hfc])

theorem fixed_length {s : System} {fr : List (Nat × Nat)} {hw : Usart}
    (v : ValidRequest s fr hw) (fc n : Nat) (hfc : (frameBytes fr).getD 1 0 = fc)
    (h16 : fc ≠ MIN_FC16) (h70 : fc ≠ MIN_FC70_STORE_PRODUCT_INFO)
    (hn : requestBytes fc = some n) : fr.length = n := by
  rw [validRequest_length v]
  unfold requestLength
  rw [hfc, if_neg h16, if_neg h70, hn]
  rfl

/-! ## C11 — the read-registers scenario -/

set_option maxRecDepth 100000 in
/-- C11 (the scenario as stated fails).  The request `[2, 3, 0, 0, 0, 2, 196, 56]`
is a valid read-registers request for module address 2.  Run against the NFC
memory `versionStore`, whose first two registers hold `0x0103` and `0x0100`, the
dispatcher transmits `[2, 3, 4, 0, 0, 0, 0, 201, 51]`: the register address
`0x0000` of the request is taken relative to `0x9C40`, so that the four data
bytes come from the addresses `0xC780` to `0xC783` of the memory. -/
theorem C11_register_address_zero_reads_elsewhere :
    ValidRequest systemWithVersions readAtZeroTimed Usart.idle ∧
    frameBytes readAtZeroTimed = [2, 3, 0, 0, 0, 2, 196, 56] ∧
    systemWithVersions.oMinSlave.uart.moduleAddress = 2 ∧
    (systemWithVersions.nfcMem 0 = 1 ∧ systemWithVersions.nfcMem 1 = 3 ∧
      systemWithVersions.nfcMem 2 = 1 ∧ systemWithVersions.nfcMem 3 = 0) ∧
    (MinSlave_manageMessages (afterFrame systemWithVersions readAtZeroTimed Usart.idle)).txSent =
      [2, 3, 4, 0, 0, 0, 0, 201, 51] ∧
    (MinSlave_manageMessages (afterFrame systemWithVersions readAtZeroTimed Usart.idle)).txSent ≠
      withCrc [2, 3, 4, 1, 3, 1, 0] := by
  refine ⟨by decide, by decide, by decide, by decide, by decide, by decide⟩

/-- C11 (amended).  With module address 2, the valid read-registers request
`[2, 3, 0x9C, 0x40, 0, 2, 235, 188]` (two registers from register address
`0x9C40`, which is register 0), against an NFC memory whose bytes at the addresses
0 to 3 are `01 03 01 00`, makes the dispatcher transmit exactly
`[2, 3, 4, 1, 3, 1, 0, 57, 95]`, where 57 and 95 are the low and the high byte of
the CRC of the seven bytes before them. -/
theorem C11_read_first_registers (s : System) (fr : List (Nat × Nat)) (hw : Usart)
    (v : ValidRequest s fr hw)
    (hf : frameBytes fr = [2, 3, 0x9C, 0x40, 0, 2, 235, 188])
    (ha : s.oMinSlave.uart.moduleAddress = 2)
    (h0 : s.nfcMem 0 = 1) (h1 : s.nfcMem 1 = 3) (h2 : s.nfcMem 2 = 1) (h3 : s.nfcMem 3 = 0) :
    (MinSlave_manageMessages (afterFrame s fr hw)).txSent =
        s.txSent ++ [2, 3, 4, 1, 3, 1, 0, 57, 95] ∧
      [2, 3, 4, 1, 3, 1, 0, 57, 95] = withCrc [2, 3, 4, 1, 3, 1, 0] := by
  have hl : fr.length = 8 := by
    rw [← frameBytes_length, hf]
    rfl
  have r2 : (atDispatch s fr hw).oMinSlave.uart.rxBuffer 2 = 0x9C := by
    rw [atDispatch_rx v 2 (by omega), hf]
    rfl
  have r3 : (atDispatch s fr hw).oMinSlave.uart.rxBuffer 3 = 0x40 := by
    rw [atDispatch_rx v 3 (by omega), hf]
    rfl
  have r5 : (atDispatch s fr hw).oMinSlave.uart.rxBuffer MODBUS_FC03_NUM_REG_INDEX = 2 := by
    rw [atDispatch_rx v 5 (by omega), hf]
    rfl
  have hr : modbusRegisterNumber (atDispatch s fr hw).oMinSlave.uart.rxBuffer = 0 := by
    rw [modbusRegisterNumber_eq _ (by rw [r2]; decide) (by rw [r3]; decide), r2, r3]
    rfl
  refine ⟨?_, by decide⟩
  rw [handled_by v MODBUS_FC03 (by rw [hf]; rfl) _ dispatch_fc03,
    readReply_txSent _ (by rw [r5]; decide), r5, hr, atDispatch_addr v, ha]
  show s.txSent ++ withCrc [2, 3, 4, s.nfcMem 0, s.nfcMem 1, s.nfcMem 2, s.nfcMem 3] = _
  have e : withCrc [2, 3, 4, 1, 3, 1, 0] = [2, 3, 4, 1, 3, 1, 0, 57, 95] := by decide
  rw [h0, h1, h2, h3, e]

theorem C11_read_first_registers_witness :
    (MinSlave_manageMessages (afterFrame systemWithVersions readRequestTimed Usart.idle)).txSent =
      systemWithVersions.txSent ++ [2, 3, 4, 1, 3, 1, 0, 57, 95] :=
  (C11_read_first_registers systemWithVersions readRequestTimed Usart.idle (by decide)
    (by decide) (by decide) (by decide) (by decide) (by decide) (by decide)).1

/-! ## C12, C13, C14 — write single register -/

/-- The store after a valid FC06 request: the two value bytes stand at the address
`2 ((R - 0x9C40) mod 2^16) mod 2^16` and at the next one. -/
theorem writeOne_stored {s : System} {fr : List (Nat × Nat)} {hw : Usart}
    (v : ValidRequest s fr hw) (hfc : (frameBytes fr).getD 1 0 = MIN_FC06) :
    (MinSlave_manageMessages (afterFrame s fr hw)).nfcMem =
      Function.update
        (Function.update s.nfcMem
          ((sub16 ((frameBytes fr).getD 2 0 * 256 + (frameBytes fr).getD 3 0) 0x9C40 * 2) % 65536)
          ((frameBytes fr).getD 4 0))
        ((sub16 ((frameBytes fr).getD 2 0 * 256 + (frameBytes fr).getD 3 0) 0x9C40 * 2) % 65536
          + 1)
        ((frameBytes fr).getD 5 0) := by
  have hl : fr.length = 8 := fixed_length v MIN_FC06 8 hfc (by decide) (by decide) rfl
  have b2 := validRequest_byte v 2
  have b3 := validRequest_byte v 3
  have b4 := validRequest_byte v 4
  have b5 := validRequest_byte v 5
  have r2 := atDispatch_rx v 2 (by omega)
  have r3 := atDispatch_rx v 3 (by omega)
  have r4 := atDispatch_rx v 4 (by omega)
  have r5 := atDispatch_rx v 5 (by omega)
  rw [handled_by v MIN_FC06 hfc _ dispatch_fc06, writeOne_nfcMem,
    modbusRegisterNumber_eq _ (by rw [r2]; exact b2) (by rw [r3]; exact b3), r2, r3]
  show NFC_InstantaneousWrite s.nfcMem _
    ((((atDispatch s fr hw).oMinSlave.uart.rxBuffer 4 <<< 8) +
      (atDispatch s fr hw).oMinSlave.uart.rxBuffer 5) % 65536) = _
  rw [r4, r5, shl8_add _ _ b4 b5]
  unfold NFC_InstantaneousWrite
  have hhi : (((frameBytes fr).getD 4 0 * 256 + (frameBytes fr).getD 5 0) >>> 8) % 256 =
      (frameBytes fr).getD 4 0 := by
    rw [Nat.shiftRight_eq_div_pow]
    omega
  have hlo : ((frameBytes fr).getD 4 0 * 256 + (frameBytes fr).getD 5 0) % 256 =
      (frameBytes fr).getD 5 0 := by omega
  have ha : ((sub16 ((frameBytes fr).getD 2 0 * 256 + (frameBytes fr).getD 3 0) 0x9C40 * 2)
      % 65536 + 1) % 65536 =
      (sub16 ((frameBytes fr).getD 2 0 * 256 + (frameBytes fr).getD 3 0) 0x9C40 * 2) % 65536
        + 1 := by omega
  rw [hhi, hlo, ha, Nat.mod_mod]

/-- C13.  For every valid 8-byte write-single-register (FC06) request that the
receiver has accepted (own address or broadcast), the bytes that the dispatcher
transmits are the request itself, byte for byte: the eight bytes of the frame. -/
theorem C13_write_single_reply_is_request (s : System) (fr : List (Nat × Nat)) (hw : Usart)
    (v : ValidRequest s fr hw) (hfc : (frameBytes fr).getD 1 0 = MIN_FC06) :
    (MinSlave_manageMessages (afterFrame s fr hw)).txSent = s.txSent ++ frameBytes fr ∧
      (frameBytes fr).length = 8 := by
  have hl : fr.length = 8 := fixed_length v MIN_FC06 8 hfc (by decide) (by decide) rfl
  have hl2 : (frameBytes fr).length = 8 := by rw [frameBytes_length, hl]
  refine ⟨?_, hl2⟩
  rw [handled_by v MIN_FC06 hfc _ dispatch_fc06,
    writeOne_txSent _ (frameBytes fr) (by omega) (fun i hi => atDispatch_rx v i (by omega))]
  have h6 : 6 = (frameBytes fr).length - 2 := by omega
  rw [h6, withCrc_take _ v.crc v.framed.bytes]
  rfl

theorem C13_write_single_reply_is_request_witness :
    (MinSlave_manageMessages (afterFrame systemStarted writeOneTimed Usart.idle)).txSent =
      systemStarted.txSent ++ frameBytes writeOneTimed :=
  (C13_write_single_reply_is_request systemStarted writeOneTimed Usart.idle (by decide)
    (by decide)).1

set_option maxRecDepth 100000 in
/-- C14 (the claim as stated fails).  The request
`[0, 6, 0x9C, 0x41, 0xAB, 0xCD, 72, 250]` is a valid write-single-register request
sent to the broadcast address 0.  The dispatcher writes its value to the NFC
memory all the same: the bytes at the addresses 2 and 3, which were 0, are `0xAB`
and `0xCD` afterwards. -/
theorem C14_broadcast_write_reaches_store :
    ValidRequest systemStarted writeOneBroadcastTimed Usart.idle ∧
    (frameBytes writeOneBroadcastTimed).getD 0 0 = MIN_MASTER_BROADCAST ∧
    (frameBytes writeOneBroadcastTimed).getD 1 0 = MIN_FC06 ∧
    systemStarted.nfcMem 2 = 0 ∧ systemStarted.nfcMem 3 = 0 ∧
    (MinSlave_manageMessages
      (afterFrame systemStarted writeOneBroadcastTimed Usart.idle)).nfcMem 2 = 0xAB ∧
    (MinSlave_manageMessages
      (afterFrame systemStarted writeOneBroadcastTimed Usart.idle)).nfcMem 3 = 0xCD := by
  refine ⟨by decide, by decide, by decide, by decide, by decide, by decide, by decide⟩

/-- C14 (amended).  A valid write-single-register (FC06) request is written to the
NFC memory whatever its accepted address byte is, the module address 2 or the
broadcast address 0: with `R` the register address of bytes 2 and 3, the value
bytes 4 and 5 of the frame are stored at the address
`2 ((R - 0x9C40) mod 2^16) mod 2^16` and at the next one, and no other byte of the
memory changes. -/
theorem C14_write_single_stored_for_any_address (s : System) (fr : List (Nat × Nat))
    (hw : Usart) (v : ValidRequest s fr hw) (hfc : (frameBytes fr).getD 1 0 = MIN_FC06) :
    (MinSlave_manageMessages (afterFrame s fr hw)).nfcMem =
      Function.update
        (Function.update s.nfcMem
          ((sub16 ((frameBytes fr).getD 2 0 * 256 + (frameBytes fr).getD 3 0) 0x9C40 * 2) % 65536)
          ((frameBytes fr).getD 4 0))
        ((sub16 ((frameBytes fr).getD 2 0 * 256 + (frameBytes fr).getD 3 0) 0x9C40 * 2) % 65536
          + 1)
        ((frameBytes fr).getD 5 0) :=
  writeOne_stored v hfc

theorem C14_write_single_stored_for_any_address_witness :
    (frameBytes writeOneBroadcastTimed).getD 0 0 = MIN_MASTER_BROADCAST ∧
    (MinSlave_manageMessages
      (afterFrame systemStarted writeOneBroadcastTimed Usart.idle)).nfcMem =
      Function.update (Function.update systemStarted.nfcMem 2 0xAB) 3 0xCD :=
  ⟨by decide,
    C14_write_single_stored_for_any_address systemStarted writeOneBroadcastTimed Usart.idle
      (by decide) (by decide)⟩

/-- C12.  Over the NFC memory of the embedding, which returns at each address the
byte last written there: let a valid write-single-register (FC06) request carry
the register address `R` (bytes 2 and 3) and the 16-bit value `v` (bytes 4 and
5).  After the dispatcher has handled it, and whatever happens next as long as
the memory is not written again, a valid read-registers (FC03) request for one
register (count byte 1) at the same register address `R` is answered with
`[module address, 3, 2, v / 256, v % 256]` followed by the CRC: the two data
bytes are the high and the low byte of `v`. -/
theorem C12_write_then_read_returns_value (s : System) (fr1 : List (Nat × Nat)) (hw1 : Usart)
    (t : System) (fr2 : List (Nat × Nat)) (hw2 : Usart) (R v : Nat)
    (v1 : ValidRequest s fr1 hw1) (hfc1 : (frameBytes fr1).getD 1 0 = MIN_FC06)
    (hR1 : (frameBytes fr1).getD 2 0 = R / 256 ∧ (frameBytes fr1).getD 3 0 = R % 256)
    (hv1 : (frameBytes fr1).getD 4 0 = v / 256 ∧ (frameBytes fr1).getD 5 0 = v % 256)
    (hmem : t.nfcMem = (MinSlave_manageMessages (afterFrame s fr1 hw1)).nfcMem)
    (v2 : ValidRequest t fr2 hw2) (hfc2 : (frameBytes fr2).getD 1 0 = MODBUS_FC03)
    (hR2 : (frameBytes fr2).getD 2 0 = R / 256 ∧ (frameBytes fr2).getD 3 0 = R % 256)
    (hn : (frameBytes fr2).getD 5 0 = 1) :
    (MinSlave_manageMessages (afterFrame t fr2 hw2)).txSent =
      t.txSent ++ withCrc [t.oMinSlave.uart.moduleAddress, 3, 2, v / 256, v % 256] := by
  have hl : fr2.length = 8 := fixed_length v2 MODBUS_FC03 8 hfc2 (by decide) (by decide) rfl
  have b2 := validRequest_byte v2 2
  have b3 := validRequest_byte v2 3
  have r2 := atDispatch_rx v2 2 (by omega)
  have r3 := atDispatch_rx v2 3 (by omega)
  have r5 : (atDispatch t fr2 hw2).oMinSlave.uart.rxBuffer MODBUS_FC03_NUM_REG_INDEX = 1 := by
    rw [atDispatch_rx v2 5 (by omega), hn]
  have hw := writeOne_stored v1 hfc1
  rw [hR1.1, hR1.2, hv1.1, hv1.2] at hw
  rw [handled_by v2 MODBUS_FC03 hfc2 _ dispatch_fc03,
    readReply_txSent _ (by rw [r5]; decide), r5,
    modbusRegisterNumber_eq _ (by rw [r2]; exact b2) (by rw [r3]; exact b3), r2, r3,
    hR2.1, hR2.2, atDispatch_addr v2]
  have hm : (atDispatch t fr2 hw2).nfcMem = t.nfcMem := rfl
  rw [hm, hmem, hw]
  generalize ha : (sub16 (R / 256 * 256 + R % 256) 0x9C40 * 2) % 65536 = a
  have hlt : a + 1 < 65536 := by omega
  show t.txSent ++ withCrc [t.oMinSlave.uart.moduleAddress, 3, 2,
    Function.update (Function.update s.nfcMem a (v / 256)) (a + 1) (v % 256) ((a + 0) % 65536),
    Function.update (Function.update s.nfcMem a (v / 256)) (a + 1) (v % 256) ((a + 1) % 65536)]
    = _
  have e0 : (a + 0) % 65536 = a := by omega
  have e1 : (a + 1) % 65536 = a + 1 := by omega
  rw [e0, e1, Function.update_same, Function.update_noteq (by omega : a ≠ a + 1),
    Function.update_same]

theorem C12_write_then_read_returns_value_witness :
    (MinSlave_manageMessages (afterFrame systemAfterWrite readOneTimed Usart.idle)).txSent =
      systemAfterWrite.txSent ++ withCrc [2, 3, 2, 0xAB, 0xCD] :=
  C12_write_then_read_returns_value systemStarted writeOneTimed Usart.idle systemAfterWrite
    readOneTimed Usart.idle 0x9C41 0xABCD (by decide) (by decide) (by decide) (by decide)
    rfl (by decide) (by decide) (by decide) (by decide)

/-! ## C15 — write multiple registers (FC16) -/

theorem writeRegs_broadcast_oNFC (d : System)
    (h : d.oMinSlave.uart.rxBuffer MODBUS_SLAVE_ADDRESS_INDEX = MODBUS_MASTER_BROADCAST) :
    (ModbusSlave_writeRegistersPRIV d).oNFC =
      { d.oNFC with
        broadcast := { d.oNFC.broadcast with
          length := d.oMinSlave.uart.rxBuffer MODBUS_FC16_BYTES_TO_RX_INDEX,
          registerNumber := (modbusRegisterNumber d.oMinSlave.uart.rxBuffer * 2) % 65536,
          nfcBuffer := copyLoop d.oNFC.broadcast.nfcBuffer 0 d.oMinSlave.uart.rxBuffer
            MODBUS_FC16_DATA_START_INDEX (d.oMinSlave.uart.rxBuffer MODBUS_FC16_BYTES_TO_RX_INDEX) },
        storeBroadcastFLG := TRUE } := by
  unfold ModbusSlave_writeRegistersPRIV
  dsimp only
  rw [if_pos h]

theorem writeRegs_broadcast_txSent (d : System)
    (h : d.oMinSlave.uart.rxBuffer MODBUS_SLAVE_ADDRESS_INDEX = MODBUS_MASTER_BROADCAST) :
    (ModbusSlave_writeRegistersPRIV d).txSent = d.txSent := by
  unfold ModbusSlave_writeRegistersPRIV
  dsimp only
  rw [if_pos h]

theorem writeRegs_own_oNFC (d : System)
    (h0 : d.oMinSlave.uart.rxBuffer MODBUS_SLAVE_ADDRESS_INDEX ≠ MODBUS_MASTER_BROADCAST)
    (h : d.oMinSlave.uart.rxBuffer MODBUS_SLAVE_ADDRESS_INDEX = NFC_SLAVE_ADDRESS) :
    (ModbusSlave_writeRegistersPRIV d).oNFC =
      { d.oNFC with
        update := { d.oNFC.update with
          length := d.oMinSlave.uart.rxBuffer MODBUS_FC16_BYTES_TO_RX_INDEX,
          registerNumber := modbusRegisterNumber d.oMinSlave.uart.rxBuffer,
          nfcBuffer := copyLoop d.oNFC.update.nfcBuffer 0 d.oMinSlave.uart.rxBuffer
            MODBUS_FC16_DATA_START_INDEX (d.oMinSlave.uart.rxBuffer MODBUS_FC16_BYTES_TO_RX_INDEX) },
        instantWriteFLG := TRUE } := by
  unfold ModbusSlave_writeRegistersPRIV
  dsimp only
  rw [if_neg h0, if_pos h, sendReply_oNFC]
  rfl

theorem writeRegs_own_txSent (d : System) (f : List Nat) (hl : 6 ≤ f.length)
    (hb : ∀ i, i < 6 → d.oMinSlave.uart.rxBuffer i = f.getD i 0)
    (h0 : d.oMinSlave.uart.rxBuffer MODBUS_SLAVE_ADDRESS_INDEX ≠ MODBUS_MASTER_BROADCAST)
    (h : d.oMinSlave.uart.rxBuffer MODBUS_SLAVE_ADDRESS_INDEX = NFC_SLAVE_ADDRESS) :
    (ModbusSlave_writeRegistersPRIV d).txSent = d.txSent ++ withCrc (f.take 6) := by
  have key := reply_withCrc (copyLoop d.txBuf 0 d.oMinSlave.uart.rxBuffer 0 6) (f.take 6)
    (by
      intro i hi
      rw [List.length_take, Nat.min_eq_left hl] at hi
      rw [copyLoop_apply, if_pos (by omega), take_getD f 6 i hi, ← hb i hi]
      congr 1
      omega)
  rw [List.length_take, Nat.min_eq_left hl] at key
  rw [← key]
  unfold ModbusSlave_writeRegistersPRIV
  dsimp only
  rw [if_neg h0, if_pos h, sendReply_txSent _ _ _ (by decide)]
  rfl

/-- C15.  For every valid write-multiple-registers (FC16) request with byte count
`N` (byte 6): if its address byte is 0, the dispatcher sets the length of the
Broadcast request to `N`, copies the `N` data bytes (frame bytes 7 to `7 + N - 1`)
into its buffer, sets `storeBroadcastFLG`, leaves the Instant request (`update`)
and `instantWriteFLG` as they were and transmits nothing; if its address byte is
`NFC_SLAVE_ADDRESS` (2), it does the same to the Instant request, sets
`instantWriteFLG`, leaves the Broadcast request as it was and transmits the
first six request bytes followed by their CRC, eight bytes in all. -/
theorem C15_write_multiple_registers (s : System) (fr : List (Nat × Nat)) (hw : Usart)
    (v : ValidRequest s fr hw) (hfc : (frameBytes fr).getD 1 0 = MIN_FC16) :
    ((frameBytes fr).getD 0 0 = MODBUS_MASTER_BROADCAST →
      (MinSlave_manageMessages (afterFrame s fr hw)).oNFC.broadcast.length =
        (frameBytes fr).getD 6 0 ∧
      (∀ i, i < (frameBytes fr).getD 6 0 →
        (MinSlave_manageMessages (afterFrame s fr hw)).oNFC.broadcast.nfcBuffer i =
          (frameBytes fr).getD (7 + i) 0) ∧
      (MinSlave_manageMessages (afterFrame s fr hw)).oNFC.storeBroadcastFLG = TRUE ∧
      (MinSlave_manageMessages (afterFrame s fr hw)).oNFC.update = s.oNFC.update ∧
      (MinSlave_manageMessages (afterFrame s fr hw)).oNFC.instantWriteFLG =
        s.oNFC.instantWriteFLG ∧
      (MinSlave_manageMessages (afterFrame s fr hw)).txSent = s.txSent) ∧
    ((frameBytes fr).getD 0 0 = NFC_SLAVE_ADDRESS →
      (MinSlave_manageMessages (afterFrame s fr hw)).oNFC.update.length =
        (frameBytes fr).getD 6 0 ∧
      (∀ i, i < (frameBytes fr).getD 6 0 →
        (MinSlave_manageMessages (afterFrame s fr hw)).oNFC.update.nfcBuffer i =
          (frameBytes fr).getD (7 + i) 0) ∧
      (MinSlave_manageMessages (afterFrame s fr hw)).oNFC.instantWriteFLG = TRUE ∧
      (MinSlave_manageMessages (afterFrame s fr hw)).oNFC.broadcast = s.oNFC.broadcast ∧
      (MinSlave_manageMessages (afterFrame s fr hw)).txSent =
        s.txSent ++ withCrc ((frameBytes fr).take 6) ∧
      (withCrc ((frameBytes fr).take 6)).length = 8) := by
  have hl : fr.length = (frameBytes fr).getD 6 0 + 9 := by
    rw [validRequest_length v]
    unfold requestLength
    rw [if_pos hfc]
  have hl2 : (frameBytes fr).length = (frameBytes fr).getD 6 0 + 9 := by
    rw [frameBytes_length, hl]
  have r0 := atDispatch_rx v 0 (by omega)
  have r6 := atDispatch_rx v 6 (by omega)
  have hON : (atDispatch s fr hw).oNFC = s.oNFC := rfl
  have hTX : (atDispatch s fr hw).txSent = s.txSent := rfl
  rw [handled_by v MIN_FC16 hfc _ dispatch_fc16]
  constructor
  · intro h0
    have hd : (atDispatch s fr hw).oMinSlave.uart.rxBuffer MODBUS_SLAVE_ADDRESS_INDEX =
        MODBUS_MASTER_BROADCAST := by rw [← h0]; exact r0
    rw [writeRegs_broadcast_oNFC _ hd, writeRegs_broadcast_txSent _ hd, hON, hTX]
    refine ⟨r6, ?_, rfl, rfl, rfl, rfl⟩
    intro i hi
    show copyLoop _ 0 _ MODBUS_FC16_DATA_START_INDEX _ i = _
    rw [copyLoop_apply, if_pos ⟨Nat.zero_le _, by rw [Nat.zero_add]; exact lt_of_lt_of_eq hi r6.symm⟩]
    show (atDispatch s fr hw).oMinSlave.uart.rxBuffer (7 + i) = _
    exact atDispatch_rx v (7 + i) (by omega)
  · intro h2
    have hd : (atDispatch s fr hw).oMinSlave.uart.rxBuffer MODBUS_SLAVE_ADDRESS_INDEX =
        NFC_SLAVE_ADDRESS := by rw [← h2]; exact r0
    have hn : (atDispatch s fr hw).oMinSlave.uart.rxBuffer MODBUS_SLAVE_ADDRESS_INDEX ≠
        MODBUS_MASTER_BROADCAST := by rw [hd]; decide
    rw [writeRegs_own_oNFC _ hn hd,
      writeRegs_own_txSent _ (frameBytes fr) (by omega)
        (fun i hi => atDispatch_rx v i (by omega)) hn hd, hON, hTX]
    refine ⟨r6, ?_, rfl, rfl, rfl, ?_⟩
    · intro i hi
      show copyLoop _ 0 _ MODBUS_FC16_DATA_START_INDEX _ i = _
      rw [copyLoop_apply,
        if_pos ⟨Nat.zero_le _, by rw [Nat.zero_add]; exact lt_of_lt_of_eq hi r6.symm⟩]
      show (atDispatch s fr hw).oMinSlave.uart.rxBuffer (7 + i) = _
      exact atDispatch_rx v (7 + i) (by omega)
    · rw [withCrc_length, List.length_take, Nat.min_eq_left (by omega)]

theorem C15_write_multiple_registers_witness :
    (MinSlave_manageMessages (afterFrame systemStarted writeBroadcastTimed Usart.idle)).txSent =
      systemStarted.txSent ∧
    (MinSlave_manageMessages (afterFrame systemStarted writeRequestTimed Usart.idle)).txSent =
      systemStarted.txSent ++ withCrc ((frameBytes writeRequestTimed).take 6) :=
  ⟨((C15_write_multiple_registers systemStarted writeBroadcastTimed Usart.idle (by decide)
      (by decide)).1 (by decide)).2.2.2.2.2,
    ((C15_write_multiple_registers systemStarted writeRequestTimed Usart.idle (by decide)
      (by decide)).2 (by decide)).2.2.2.2.1⟩

/-! ## Register loops -/

theorem registerBytes_length (reg : Nat → Nat) (n : Nat) :
    (registerBytes reg n).length = 2 * n := by
  induction n with
  | zero => rfl
  | succ n ih =>
    show (registerBytes reg n ++ [(reg n >>> 8) % 256, reg n &&& 0xFF]).length = _
    rw [List.length_append, ih]
    show 2 * n + 2 = _
    omega

theorem registerLoop_agrees (t : Nat → Nat) (pre : List Nat) (reg : Nat → Nat)
    (h : ∀ i, i < pre.length → t i = pre.getD i 0) (n i : Nat)
    (hi : i < (pre ++ registerBytes reg n).length) :
    registerLoop t pre.length reg n i = (pre ++ registerBytes reg n).getD i 0 := by
  induction n generalizing i with
  | zero =>
    have e : pre ++ registerBytes reg 0 = pre := List.append_nil pre
    rw [e] at hi ⊢
    exact h i hi
  | succ n ih =>
    have hlen : (pre ++ registerBytes reg n).length = pre.length + 2 * n := by
      rw [List.length_append, registerBytes_length]
    have e : pre ++ registerBytes reg (n + 1) =
        (pre ++ registerBytes reg n) ++ [(reg n >>> 8) % 256, reg n &&& 0xFF] :=
      (List.append_assoc _ _ _).symm
    rw [e] at hi ⊢
    rw [List.length_append, hlen] at hi
    show Function.update
        (Function.update (registerLoop t pre.length reg n) (pre.length + 2 * n)
          ((reg n >>> 8) % 256))
        (pre.length + 2 * n + 1) (reg n &&& 0xFF) i = _
    rw [Function.update_apply, Function.update_apply]
    by_cases h1 : i = pre.length + 2 * n + 1
    · rw [if_pos h1, List.getD_append_right _ _ _ _ (by omega), hlen]
      have e1 : i - (pre.length + 2 * n) = 1 := by omega
      rw [e1]
      rfl
    · rw [if_neg h1]
      by_cases h0 : i = pre.length + 2 * n
      · rw [if_pos h0, List.getD_append_right _ _ _ _ (by omega), hlen]
        have e0 : i - (pre.length + 2 * n) = 0 := by omega
        rw [e0]
        rfl
      · have hlt : i < (pre ++ registerBytes reg n).length := by
          rw [hlen]
          have : i < pre.length + 2 * n + 2 := hi
          omega
        rw [if_neg h0, List.getD_append _ _ _ _ hlt]
        exact ih i hlt

/-! ## C16 — slave poll (FC65) -/

theorem update6_agrees (t : Nat → Nat) (a b c d e f i : Nat)
    (hi : i < [a, b, c, d, e, f].length) :
    Function.update (Function.update (Function.update (Function.update
      (Function.update (Function.update t 0 a) 1 b) 2 c) 3 d) 4 e) 5 f i =
      [a, b, c, d, e, f].getD i 0 := by
  have hi6 : i < 6 := hi
  have hcase : i = 0 ∨ i = 1 ∨ i = 2 ∨ i = 3 ∨ i = 4 ∨ i = 5 := by omega
  rcases hcase with h | h | h | h | h | h <;> subst h <;> rfl

theorem update3_agrees (t : Nat → Nat) (a b c i : Nat) (hi : i < [a, b, c].length) :
    Function.update (Function.update (Function.update t 0 a) 1 b) 2 c i =
      [a, b, c].getD i 0 := by
  have hi3 : i < 3 := hi
  have hcase : i = 0 ∨ i = 1 ∨ i = 2 := by omega
  rcases hcase with h | h | h <;> subst h <;> rfl

/-- The reply to a slave poll while a setpoint is queued, when the reply length
`8 + 2 numRegsToChange` fits in 8 bits. -/
theorem slavePoll_setpoint_txSent (d : System) (hq : d.oMinSlave.changeDataFlag ≠ 0)
    (hn : 6 + 2 * d.oMinSlave.numRegsToChange + 2 < 256) :
    (MinSlave_slavePollPRIV d).txSent =
      d.txSent ++ withCrc ([d.oMinSlave.uart.moduleAddress, MIN_FC65_SLAVE_POLL,
          MIN_FC65_SETPOINT_RESPONSE_CODE, d.oMinSlave.blockToChange, d.oMinSlave.regToChange,
          d.oMinSlave.numRegsToChange] ++
        registerBytes d.oMinSlave.pDataToChange d.oMinSlave.numRegsToChange) := by
  have key := reply_withCrc _ _
    (registerLoop_agrees _ [d.oMinSlave.uart.moduleAddress, MIN_FC65_SLAVE_POLL,
        MIN_FC65_SETPOINT_RESPONSE_CODE, d.oMinSlave.blockToChange, d.oMinSlave.regToChange,
        d.oMinSlave.numRegsToChange] d.oMinSlave.pDataToChange
      (update6_agrees d.txBuf _ _ _ _ _ _) d.oMinSlave.numRegsToChange)
  rw [List.length_append, registerBytes_length] at key
  rw [← key]
  have hm : d.oMinSlave.numRegsToChange * 2 = 2 * d.oMinSlave.numRegsToChange :=
    Nat.mul_comm _ _
  unfold MinSlave_slavePollPRIV
  dsimp only
  by_cases hb : d.oMinSlave.slavePollBroadcastInterval ≠ 0
  · rw [if_pos hb]
    dsimp only
    rw [if_pos hq, sendReply_txSent _ _ _
      (by show (6 + 2 * d.oMinSlave.numRegsToChange + 2) % 256 ≠ 0; omega)]
    unfold MinSlave_spSendRegistersPRIV minTxEnable
    dsimp only
    rw [Nat.mod_eq_of_lt hn, hm]
    rfl
  · rw [if_neg hb]
    rw [if_pos hq, sendReply_txSent _ _ _
      (by show (6 + 2 * d.oMinSlave.numRegsToChange + 2) % 256 ≠ 0; omega)]
    unfold MinSlave_spSendRegistersPRIV minTxEnable
    dsimp only
    rw [Nat.mod_eq_of_lt hn, hm]
    rfl

/-- A slave poll that finds a setpoint queued clears `changeDataFlag`. -/
theorem slavePoll_setpoint_flag (d : System) (hq : d.oMinSlave.changeDataFlag ≠ 0) :
    (MinSlave_slavePollPRIV d).oMinSlave.changeDataFlag = FALSE := by
  unfold MinSlave_slavePollPRIV
  dsimp only
  by_cases hb : d.oMinSlave.slavePollBroadcastInterval ≠ 0
  · rw [if_pos hb]
    dsimp only
    rw [if_pos hq, sendReply_oMinSlave]
    rfl
  · rw [if_neg hb, if_pos hq, sendReply_oMinSlave]
    rfl

/-- The reply to a slave poll while no setpoint is queued: the fixed frame of 5
bytes. -/
theorem slavePoll_idle_txSent (d : System) (hq : d.oMinSlave.changeDataFlag = 0) :
    (MinSlave_slavePollPRIV d).txSent =
      d.txSent ++ withCrc [d.oMinSlave.uart.moduleAddress, MIN_FC65_SLAVE_POLL,
        MIN_FC65_NO_RESPONSE_CODE] := by
  have key := reply_withCrc _ _
    (update3_agrees d.txBuf d.oMinSlave.uart.moduleAddress MIN_FC65_SLAVE_POLL
      MIN_FC65_NO_RESPONSE_CODE)
  rw [← key]
  have hq2 : ¬ d.oMinSlave.changeDataFlag ≠ 0 := fun h => h hq
  unfold MinSlave_slavePollPRIV
  dsimp only
  by_cases hb : d.oMinSlave.slavePollBroadcastInterval ≠ 0
  · rw [if_pos hb]
    dsimp only
    rw [if_neg hq2]
    split_ifs <;> rfl
  · rw [if_neg hb, if_neg hq2]
    split_ifs <;> rfl

theorem setupSetpointChange_queued (s : System) (block registerNum : Nat) (pData : Nat → Nat)
    (numRegs : Nat) (hp : s.pMinSlaveSelf = true) :
    (MinSlave_setupSetpointChange s block registerNum pData numRegs).1 =
      { s with oMinSlave := { s.oMinSlave with
          blockToChange := block, regToChange := registerNum, pDataToChange := pData,
          numRegsToChange := numRegs, changeDataFlag := TRUE } } := by
  unfold MinSlave_setupSetpointChange
  rw [if_neg (by rw [hp]; decide)]

theorem validRequest_setpoint {s : System} {fr : List (Nat × Nat)} {hw : Usart}
    (v : ValidRequest s fr hw) (block registerNum : Nat) (pData : Nat → Nat) (numRegs : Nat) :
    ValidRequest (MinSlave_setupSetpointChange s block registerNum pData numRegs).1 fr hw := by
  rw [setupSetpointChange_queued _ _ _ _ _ v.initialised]
  exact ⟨v.running, v.initialised, v.countdown, v.gaps, v.framed, v.crc, v.drained⟩

/-- The setpoint reply, for a setpoint of at most 123 registers queued with
`MinSlave_setupSetpointChange (block, reg, pData, n)`: the valid slave poll is
answered `[module address, 65, 1, block, reg, n, register bytes, CRC]`, and
`changeDataFlag` is cleared. -/
theorem setpoint_poll_reply (s : System) (fr : List (Nat × Nat)) (hw : Usart)
    (block reg : Nat) (pData : Nat → Nat) (n : Nat)
    (v : ValidRequest s fr hw) (hfc : (frameBytes fr).getD 1 0 = MIN_FC65_SLAVE_POLL)
    (hn : n ≤ 123) :
    (MinSlave_manageMessages
        (afterFrame (MinSlave_setupSetpointChange s block reg pData n).1 fr hw)).txSent =
      s.txSent ++ withCrc ([s.oMinSlave.uart.moduleAddress, 65, 1, block, reg, n] ++
        registerBytes pData n) ∧
    (MinSlave_manageMessages
        (afterFrame (MinSlave_setupSetpointChange s block reg pData n).1 fr hw)).oMinSlave.changeDataFlag
      = FALSE := by
  have v2 := validRequest_setpoint v block reg pData n
  have ha := atDispatch_addr v2
  rw [handled_by v2 MIN_FC65_SLAVE_POLL hfc _ dispatch_fc65]
  rw [setupSetpointChange_queued _ _ _ _ _ v.initialised] at ha ⊢
  have hq : (atDispatch { s with oMinSlave := { s.oMinSlave with
      blockToChange := block, regToChange := reg, pDataToChange := pData,
      numRegsToChange := n, changeDataFlag := TRUE } } fr hw).oMinSlave.changeDataFlag ≠ 0 := by
    show TRUE ≠ 0
    decide
  refine ⟨?_, slavePoll_setpoint_flag _ hq⟩
  rw [slavePoll_setpoint_txSent _ hq (by show 6 + 2 * n + 2 < 256; omega), ha]
  rfl

/-- The nothing-to-report reply: a valid slave poll that finds no setpoint queued
is answered `[module address, 65, 0, CRC low, CRC high]`. -/
theorem idle_poll_reply (s : System) (fr : List (Nat × Nat)) (hw : Usart)
    (v : ValidRequest s fr hw) (hfc : (frameBytes fr).getD 1 0 = MIN_FC65_SLAVE_POLL)
    (hq : s.oMinSlave.changeDataFlag = 0) :
    (MinSlave_manageMessages (afterFrame s fr hw)).txSent =
      s.txSent ++ withCrc [s.oMinSlave.uart.moduleAddress, 65, 0] := by
  rw [handled_by v MIN_FC65_SLAVE_POLL hfc _ dispatch_fc65,
    slavePoll_idle_txSent _ (by exact hq), atDispatch_addr v]
  rfl

set_option maxRecDepth 100000 in
/-- C16 (evaluation at the failing input).  After
`MinSlave_setupSetpointChange (1, 2, pData, 124)` on the started firmware a
setpoint is queued.  The valid slave poll `[2, 65, 192, 224]` then gets no reply
at all: the reply of `8 + 2 * 124 = 256` bytes has the 8-bit length 0, on which
`MinSlave_sendReplyPRIV` stops at `assert(txLength)` before it sends a byte.  With
123 registers the same poll is answered with the 254 bytes of the setpoint
reply. -/
theorem C16_setpoint_reply_lost :
    (systemWithSetpoint 124).oMinSlave.changeDataFlag = TRUE ∧
    (systemWithSetpoint 124).oMinSlave.numRegsToChange = 124 ∧
    ValidRequest (systemWithSetpoint 124) pollTimed Usart.idle ∧
    (frameBytes pollTimed).getD 1 0 = MIN_FC65_SLAVE_POLL ∧
    (MinSlave_manageMessages (afterFrame (systemWithSetpoint 124) pollTimed Usart.idle)).txSent
      = [] ∧
    (MinSlave_manageMessages (afterFrame (systemWithSetpoint 124) pollTimed Usart.idle)).halted
      = true ∧
    (MinSlave_manageMessages
      (afterFrame (systemWithSetpoint 123) pollTimed Usart.idle)).txSent.length = 254 := by
  refine ⟨by decide, by decide, by decide, by decide, by decide, by decide, ?_⟩
  have h := (setpoint_poll_reply systemStarted pollTimed Usart.idle 1 2
    (fun i => 0x1234 + i) 123 (by decide) (by decide) (by decide)).1
  show (MinSlave_manageMessages (afterFrame
    (MinSlave_setupSetpointChange systemStarted 1 2 (fun i => 0x1234 + i) 123).1 pollTimed
      Usart.idle)).txSent.length = 254
  rw [h, List.length_append, withCrc_length, List.length_append, registerBytes_length]
  rfl

/-! ## C17, C18 — discover (FC67) -/

/-- The reply to a discover request, when its length fits in 8 bits: the register
count is the cell `rxBuffer[MIN_FC03_NUM_REG_INDEX]`, which is cell 6. -/
theorem discover_txSent (d : System)
    (hn : 3 + d.oMinSlave.uart.rxBuffer MIN_FC03_NUM_REG_INDEX * 2 + 2 < 256) :
    (MinSlave_discoverPRIV d).txSent =
      d.txSent ++ withCrc ([d.oMinSlave.uart.moduleAddress, MIN_FC67_DISCOVER,
          (d.oMinSlave.uart.rxBuffer MIN_FC03_NUM_REG_INDEX * MIN_BYTES_PER_REG) % 256] ++
        registerBytes
          (fun i => d.oMinSlave.slaveRegisters
            (d.oMinSlave.uart.rxBuffer MIN_FC03_START_ADDR_INDEX + i))
          (d.oMinSlave.uart.rxBuffer MIN_FC03_NUM_REG_INDEX)) := by
  have key := reply_withCrc _ _
    (registerLoop_agrees _ [d.oMinSlave.uart.moduleAddress, MIN_FC67_DISCOVER,
        (d.oMinSlave.uart.rxBuffer MIN_FC03_NUM_REG_INDEX * MIN_BYTES_PER_REG) % 256]
      (fun i => d.oMinSlave.slaveRegisters
        (d.oMinSlave.uart.rxBuffer MIN_FC03_START_ADDR_INDEX + i))
      (update3_agrees d.txBuf _ _ _) (d.oMinSlave.uart.rxBuffer MIN_FC03_NUM_REG_INDEX))
  rw [List.length_append, registerBytes_length] at key
  rw [← key]
  have hm : d.oMinSlave.uart.rxBuffer MIN_FC03_NUM_REG_INDEX * MIN_BYTES_PER_REG =
      2 * d.oMinSlave.uart.rxBuffer MIN_FC03_NUM_REG_INDEX := Nat.mul_comm _ _
  have hlen : (MIN_FC03_DATA_START +
      d.oMinSlave.uart.rxBuffer MIN_FC03_NUM_REG_INDEX * MIN_BYTES_PER_REG + MIN_CRC_LENGTH) % 256
      = 3 + 2 * d.oMinSlave.uart.rxBuffer MIN_FC03_NUM_REG_INDEX + 2 := by
    rw [hm]
    exact Nat.mod_eq_of_lt (by rw [Nat.mul_comm]; exact hn)
  unfold MinSlave_discoverPRIV
  dsimp only
  rw [sendReply_txSent _ _ _ (by rw [hlen]; omega), hlen]
  unfold minTxEnable
  dsimp only
  rw [hm]
  rfl

set_option maxRecDepth 100000 in
/-- C17 (evaluation at the failing input).  The valid discover request
`[2, 67, 0, 0, 0, 3, 4, 55]` has start index 0 and count 3 in byte 5.  The
dispatcher answers with four registers, not three:
`[2, 67, 8, 1, 3, 1, 0, 0, 0, 0, 0, 107, 90]` instead of
`[2, 67, 6, 1, 3, 1, 0, 0, 0, 117, 152]`.  The count it uses is cell 6 of the
request, `MIN_FC03_NUM_REG_INDEX`, which holds the low byte of the request's CRC
(here 4). -/
theorem C17_discover_count_from_crc_byte :
    ValidRequest systemStarted discoverThreeTimed Usart.idle ∧
    frameBytes discoverThreeTimed = [2, 67, 0, 0, 0, 3, 4, 55] ∧
    MIN_FC03_NUM_REG_INDEX = 6 ∧
    (MinSlave_manageMessages (afterFrame systemStarted discoverThreeTimed Usart.idle)).txSent =
      [2, 67, 8, 1, 3, 1, 0, 0, 0, 0, 0, 107, 90] ∧
    withCrc ([2, 67, 8] ++ registerBytes systemStarted.oMinSlave.slaveRegisters 4) =
      [2, 67, 8, 1, 3, 1, 0, 0, 0, 0, 0, 107, 90] ∧
    withCrc ([2, 67, 6] ++ registerBytes systemStarted.oMinSlave.slaveRegisters 3) =
      [2, 67, 6, 1, 3, 1, 0, 0, 0, 117, 152] := by
  refine ⟨by decide, by decide, by decide, by decide, by decide, by decide⟩

set_option maxRecDepth 100000 in
/-- C18 (evaluation at the failing input).  The valid discover request
`[2, 67, 0, 16, 0, 3, 5, 242]` makes the loop of `MinSlave_discoverPRIV` read
`slaveRegisters` at the indices 16, 17, 18, 19 and 20: nothing compares the start
index and the count with `MIN_SLAVE_NUMBER_OF_REGISTERS = 17`. -/
theorem C18_discover_reads_past_register_file :
    ValidRequest systemStarted discoverHighTimed Usart.idle ∧
    frameBytes discoverHighTimed = [2, 67, 0, 16, 0, 3, 5, 242] ∧
    MinSlave_manageMessages (afterFrame systemStarted discoverHighTimed Usart.idle) =
      MinSlave_discoverPRIV (atDispatch systemStarted discoverHighTimed Usart.idle) ∧
    discoverRegisterIndices (atDispatch systemStarted discoverHighTimed Usart.idle) =
      [16, 17, 18, 19, 20] ∧
    ¬ (∀ i ∈ discoverRegisterIndices (atDispatch systemStarted discoverHighTimed Usart.idle),
      i < MIN_SLAVE_NUMBER_OF_REGISTERS) := by
  have v : ValidRequest systemStarted discoverHighTimed Usart.idle := by decide
  refine ⟨v, by decide, handled_by v MIN_FC67_DISCOVER (by decide) _ dispatch_fc67,
    by decide, by decide⟩

/-! ## C19 — get product info (FC69) -/

theorem getProductInfo_txSent (d : System)
    (hn : 3 + (d.oMinSlave.uart.rxBuffer MIN_FC69_DATA_LENGTH_INDEX * 2) % 256 + 2 < 256) :
    (MinSlave_getProductInfoPRIV d).txSent =
      d.txSent ++ withCrc (readBody d.oMinSlave.uart.moduleAddress MIN_FC69_GET_PRODUCT_INFO
        d.nfcMem BLOCK_NVM_OFFSET
        ((d.oMinSlave.uart.rxBuffer MIN_FC69_DATA_LENGTH_INDEX * 2) % 256)) := by
  have key := reply_withCrc _ _ (readBuffer_agrees d.txBuf d.oMinSlave.uart.moduleAddress
    MIN_FC69_GET_PRODUCT_INFO d.nfcMem BLOCK_NVM_OFFSET
    ((d.oMinSlave.uart.rxBuffer MIN_FC69_DATA_LENGTH_INDEX * 2) % 256))
  rw [readBody_length] at key
  rw [← key]
  unfold MinSlave_getProductInfoPRIV
  dsimp only
  rw [sendReply_txSent _ _ _ (by rw [Nat.mod_eq_of_lt hn]; omega), Nat.mod_eq_of_lt hn]
  rfl

theorem readBody_near (addr fc : Nat) (mem : Nat → Nat) (a len : Nat) (h : a + len ≤ 65536) :
    readBody addr fc mem a len = [addr, fc, len] ++ (List.range len).map fun i => mem (a + i) := by
  unfold readBody
  congr 1
  apply List.map_congr_left
  intro i hi
  rw [List.mem_range] at hi
  rw [Nat.mod_eq_of_lt (by omega)]

/-- C19.  For every valid get-product-info (FC69) request with count byte `n`
(byte 5) such that `2 n + 5 ≤ 255`, the dispatcher transmits
`[module address, 69, 2 n]`, then the `2 n` bytes of the NFC memory at the
addresses `BLOCK_NVM_OFFSET` (0x0020), `BLOCK_NVM_OFFSET + 1`, ..., then the CRC of
all these bytes, low byte first: `2 n + 5` bytes in all. -/
theorem C19_get_product_info_reply (s : System) (fr : List (Nat × Nat)) (hw : Usart)
    (v : ValidRequest s fr hw) (hfc : (frameBytes fr).getD 1 0 = MIN_FC69_GET_PRODUCT_INFO)
    (hn : 2 * (frameBytes fr).getD 5 0 + 5 ≤ 255) :
    (MinSlave_manageMessages (afterFrame s fr hw)).txSent =
      s.txSent ++ withCrc ([s.oMinSlave.uart.moduleAddress, 69, 2 * (frameBytes fr).getD 5 0] ++
        (List.range (2 * (frameBytes fr).getD 5 0)).map fun i => s.nfcMem (BLOCK_NVM_OFFSET + i)) ∧
    (withCrc ([s.oMinSlave.uart.moduleAddress, 69, 2 * (frameBytes fr).getD 5 0] ++
        (List.range (2 * (frameBytes fr).getD 5 0)).map fun i =>
          s.nfcMem (BLOCK_NVM_OFFSET + i))).length = 2 * (frameBytes fr).getD 5 0 + 5 := by
  have hl : fr.length = 8 :=
    fixed_length v MIN_FC69_GET_PRODUCT_INFO 8 hfc (by decide) (by decide) rfl
  have r5 : (atDispatch s fr hw).oMinSlave.uart.rxBuffer MIN_FC69_DATA_LENGTH_INDEX =
      (frameBytes fr).getD 5 0 := atDispatch_rx v 5 (by omega)
  have hlen : ((frameBytes fr).getD 5 0 * 2) % 256 = 2 * (frameBytes fr).getD 5 0 := by omega
  constructor
  · rw [handled_by v MIN_FC69_GET_PRODUCT_INFO hfc _ dispatch_fc69,
      getProductInfo_txSent _ (by rw [r5]; omega), r5, hlen, atDispatch_addr v,
      readBody_near _ _ _ _ _ (by show 0x20 + 2 * (frameBytes fr).getD 5 0 ≤ 65536; omega)]
    rfl
  · rw [withCrc_length, List.length_append, List.length_map, List.length_range]
    show 3 + 2 * (frameBytes fr).getD 5 0 + 2 = _
    omega

theorem C19_get_product_info_reply_witness :
    (MinSlave_manageMessages (afterFrame systemWithVersions getInfoTimed Usart.idle)).txSent =
      systemWithVersions.txSent ++ withCrc [2, 69, 4, 1, 3, 1, 0] :=
  (C19_get_product_info_reply systemWithVersions getInfoTimed Usart.idle (by decide)
    (by decide) (by decide)).1

/-! ## C20 — store product info (FC70) -/

theorem reply_withCrc_len (t : Nat → Nat) (body : List Nat) (n : Nat)
    (h : ∀ i, i < body.length → t i = body.getD i 0) (hn : body.length = n) :
    sendLoop
      (Function.update (Function.update t n (get_crc_16 0xFFFF t n &&& 0xff))
        (n + 1) ((get_crc_16 0xFFFF t n >>> 8) % 256))
      (n + 2) = withCrc body := by
  subst hn
  exact reply_withCrc t body h

theorem storeInfo_buffer_agrees (t rx : Nat → Nat) (x y i : Nat)
    (hi : i < [rx 0, rx 1, x, y].length) :
    Function.update (Function.update (copyLoop t 0 rx MIN_SLAVE_ADDRESS_INDEX 2) 2 x) 3 y i =
      [rx 0, rx 1, x, y].getD i 0 := by
  have hi4 : i < 4 := hi
  have hcase : i = 0 ∨ i = 1 ∨ i = 2 ∨ i = 3 := by omega
  rcases hcase with h | h | h | h <;> subst h <;> rfl

theorem storeInfo_oNFC (d : System) (hp : d.pMinSlaveSelf = true)
    (hL : sub16 (d.oMinSlave.uart.rxBuffer MIN_FC70_BYTES_TO_RX_INDEX) MIN_FC70_PAYLOAD ≤ 255) :
    (MinSlave_storeProductInfoPRIV d).oNFC =
      { d.oNFC with
        productInfoLength :=
          sub16 (d.oMinSlave.uart.rxBuffer MIN_FC70_BYTES_TO_RX_INDEX) MIN_FC70_PAYLOAD,
        productInfoData := copyLoop d.oNFC.productInfoData 0 d.oMinSlave.uart.rxBuffer
          MIN_FC70_DATA_START_INDEX
          (sub16 (d.oMinSlave.uart.rxBuffer MIN_FC70_BYTES_TO_RX_INDEX) MIN_FC70_PAYLOAD),
        productInfoFLG := TRUE } := by
  unfold MinSlave_storeProductInfoPRIV
  rw [if_neg (by rw [hp]; decide)]
  dsimp only
  rw [if_neg (by omega)]
  simp only [sendReply_oNFC, minTxEnable]

theorem storeInfo_slaveRegisters (d : System) (hp : d.pMinSlaveSelf = true)
    (hL : sub16 (d.oMinSlave.uart.rxBuffer MIN_FC70_BYTES_TO_RX_INDEX) MIN_FC70_PAYLOAD ≤ 255) :
    (MinSlave_storeProductInfoPRIV d).oMinSlave.slaveRegisters =
      Function.update d.oMinSlave.slaveRegisters MIN_SLAVE_MODEL_CONFIGURATION_CODE
        ((((MinSlave_storeProductInfoPRIV d).oNFC.productInfoData
            (sub16 (MinSlave_storeProductInfoPRIV d).oNFC.productInfoLength 3) <<< 8) % 65536) |||
          (MinSlave_storeProductInfoPRIV d).oNFC.productInfoData
            (sub16 (MinSlave_storeProductInfoPRIV d).oNFC.productInfoLength 4)) := by
  rw [storeInfo_oNFC d hp hL]
  unfold MinSlave_storeProductInfoPRIV
  rw [if_neg (by rw [hp]; decide)]
  dsimp only
  rw [if_neg (by omega)]
  simp only [sendReply_oMinSlave, minTxEnable]

theorem storeInfo_txSent (d : System) (hp : d.pMinSlaveSelf = true)
    (hL : sub16 (d.oMinSlave.uart.rxBuffer MIN_FC70_BYTES_TO_RX_INDEX) MIN_FC70_PAYLOAD ≤ 255) :
    (MinSlave_storeProductInfoPRIV d).txSent =
      d.txSent ++ withCrc [d.oMinSlave.uart.rxBuffer 0, d.oMinSlave.uart.rxBuffer 1,
        (MinSlave_storeProductInfoPRIV d).oNFC.productInfoData
          (sub16 (MinSlave_storeProductInfoPRIV d).oNFC.productInfoLength 2),
        (MinSlave_storeProductInfoPRIV d).oNFC.productInfoData
          (sub16 (MinSlave_storeProductInfoPRIV d).oNFC.productInfoLength 1)] := by
  rw [storeInfo_oNFC d hp hL]
  dsimp only
  have key := reply_withCrc_len _ _ 4 (storeInfo_buffer_agrees d.txBuf d.oMinSlave.uart.rxBuffer
    (copyLoop d.oNFC.productInfoData 0 d.oMinSlave.uart.rxBuffer MIN_FC70_DATA_START_INDEX
      (sub16 (d.oMinSlave.uart.rxBuffer MIN_FC70_BYTES_TO_RX_INDEX) MIN_FC70_PAYLOAD)
      (sub16 (sub16 (d.oMinSlave.uart.rxBuffer MIN_FC70_BYTES_TO_RX_INDEX) MIN_FC70_PAYLOAD) 2))
    (copyLoop d.oNFC.productInfoData 0 d.oMinSlave.uart.rxBuffer MIN_FC70_DATA_START_INDEX
      (sub16 (d.oMinSlave.uart.rxBuffer MIN_FC70_BYTES_TO_RX_INDEX) MIN_FC70_PAYLOAD)
      (sub16 (sub16 (d.oMinSlave.uart.rxBuffer MIN_FC70_BYTES_TO_RX_INDEX) MIN_FC70_PAYLOAD) 1)))
    rfl
  rw [← key]
  unfold MinSlave_storeProductInfoPRIV
  rw [if_neg (by rw [hp]; decide)]
  dsimp only
  rw [if_neg (by omega)]
  simp only [sendReply_txSent _ _ _ (show (6 : Nat) ≠ 0 by decide), minTxEnable]

/-- C20.  For every valid store-product-info (FC70) request whose length byte `T`
(byte 2) is at least 9, with `L = T - 5`: the dispatcher sets `productInfoLength`
to `L`, copies the frame bytes 3 to `3 + L - 1` to `productInfoData[0 .. L-1]`,
sets `productInfoFLG`, sets `slaveRegisters[7]`
(`MIN_SLAVE_MODEL_CONFIGURATION_CODE`) to
`productInfoData[L-3] * 256 + productInfoData[L-4]` and changes no other
register, and transmits the six bytes
`[frame byte 0, frame byte 1, productInfoData[L-2], productInfoData[L-1], CRC low,
CRC high]`. -/
theorem C20_store_product_info (s : System) (fr : List (Nat × Nat)) (hw : Usart)
    (v : ValidRequest s fr hw) (hfc : (frameBytes fr).getD 1 0 = MIN_FC70_STORE_PRODUCT_INFO)
    (hT : 9 ≤ (frameBytes fr).getD 2 0) :
    (MinSlave_manageMessages (afterFrame s fr hw)).oNFC.productInfoLength =
      (frameBytes fr).getD 2 0 - 5 ∧
    (∀ i, i < (frameBytes fr).getD 2 0 - 5 →
      (MinSlave_manageMessages (afterFrame s fr hw)).oNFC.productInfoData i =
        (frameBytes fr).getD (3 + i) 0) ∧
    (MinSlave_manageMessages (afterFrame s fr hw)).oNFC.productInfoFLG = TRUE ∧
    (MinSlave_manageMessages (afterFrame s fr hw)).oMinSlave.slaveRegisters =
      Function.update s.oMinSlave.slaveRegisters 7
        ((MinSlave_manageMessages (afterFrame s fr hw)).oNFC.productInfoData
            ((frameBytes fr).getD 2 0 - 5 - 3) * 256 +
          (MinSlave_manageMessages (afterFrame s fr hw)).oNFC.productInfoData
            ((frameBytes fr).getD 2 0 - 5 - 4)) ∧
    (MinSlave_manageMessages (afterFrame s fr hw)).txSent =
      s.txSent ++ withCrc [(frameBytes fr).getD 0 0, (frameBytes fr).getD 1 0,
        (MinSlave_manageMessages (afterFrame s fr hw)).oNFC.productInfoData
          ((frameBytes fr).getD 2 0 - 5 - 2),
        (MinSlave_manageMessages (afterFrame s fr hw)).oNFC.productInfoData
          ((frameBytes fr).getD 2 0 - 5 - 1)] ∧
    (withCrc [(frameBytes fr).getD 0 0, (frameBytes fr).getD 1 0,
        (MinSlave_manageMessages (afterFrame s fr hw)).oNFC.productInfoData
          ((frameBytes fr).getD 2 0 - 5 - 2),
        (MinSlave_manageMessages (afterFrame s fr hw)).oNFC.productInfoData
          ((frameBytes fr).getD 2 0 - 5 - 1)]).length = 6 := by
  have hl : fr.length = (frameBytes fr).getD 2 0 := by
    rw [validRequest_length v]
    unfold requestLength
    rw [if_neg (by rw [hfc]; decide), if_pos hfc]
  have hT2 := validRequest_byte v 2
  have hp : (atDispatch s fr hw).pMinSlaveSelf = true := v.initialised
  have r0 := atDispatch_rx v 0 (by omega)
  have r1 := atDispatch_rx v 1 (by omega)
  have r2 : (atDispatch s fr hw).oMinSlave.uart.rxBuffer MIN_FC70_BYTES_TO_RX_INDEX =
      (frameBytes fr).getD 2 0 := atDispatch_rx v 2 (by omega)
  have hsub : sub16 ((atDispatch s fr hw).oMinSlave.uart.rxBuffer MIN_FC70_BYTES_TO_RX_INDEX)
      MIN_FC70_PAYLOAD = (frameBytes fr).getD 2 0 - 5 := by
    rw [r2]
    unfold sub16
    show ((frameBytes fr).getD 2 0 + 65536 - 5) % 65536 = _
    omega
  have hL : sub16 ((atDispatch s fr hw).oMinSlave.uart.rxBuffer MIN_FC70_BYTES_TO_RX_INDEX)
      MIN_FC70_PAYLOAD ≤ 255 := by
    rw [hsub]
    omega
  have hO := storeInfo_oNFC _ hp hL
  have hR := storeInfo_slaveRegisters _ hp hL
  have hX := storeInfo_txSent _ hp hL
  rw [hsub] at hO
  rw [handled_by v MIN_FC70_STORE_PRODUCT_INFO hfc _ dispatch_fc70]
  generalize MinSlave_storeProductInfoPRIV (atDispatch s fr hw) = r at hO hR hX ⊢
  have hLen : r.oNFC.productInfoLength = (frameBytes fr).getD 2 0 - 5 := by rw [hO]
  have hData : ∀ i, i < (frameBytes fr).getD 2 0 - 5 →
      r.oNFC.productInfoData i = (frameBytes fr).getD (3 + i) 0 := by
    intro i hi
    rw [hO]
    show copyLoop _ 0 _ MIN_FC70_DATA_START_INDEX _ i = _
    rw [copyLoop_apply, if_pos ⟨Nat.zero_le _, by omega⟩]
    show (atDispatch s fr hw).oMinSlave.uart.rxBuffer (3 + i) = _
    exact atDispatch_rx v (3 + i) (by omega)
  have e1 : sub16 ((frameBytes fr).getD 2 0 - 5) 1 = (frameBytes fr).getD 2 0 - 5 - 1 := by
    unfold sub16
    omega
  have e2 : sub16 ((frameBytes fr).getD 2 0 - 5) 2 = (frameBytes fr).getD 2 0 - 5 - 2 := by
    unfold sub16
    omega
  have e3 : sub16 ((frameBytes fr).getD 2 0 - 5) 3 = (frameBytes fr).getD 2 0 - 5 - 3 := by
    unfold sub16
    omega
  have e4 : sub16 ((frameBytes fr).getD 2 0 - 5) 4 = (frameBytes fr).getD 2 0 - 5 - 4 := by
    unfold sub16
    omega
  have b3 : r.oNFC.productInfoData ((frameBytes fr).getD 2 0 - 5 - 3) < 256 := by
    rw [hData _ (by omega)]
    exact validRequest_byte v _
  have b4 : r.oNFC.productInfoData ((frameBytes fr).getD 2 0 - 5 - 4) < 256 := by
    rw [hData _ (by omega)]
    exact validRequest_byte v _
  refine ⟨hLen, hData, by rw [hO], ?_, ?_, by rw [withCrc_length]; rfl⟩
  · rw [hR, hLen, e3, e4, shl8_or _ _ b3 b4]
    rfl
  · rw [hX, hLen, e1, e2, r0, r1]
    rfl

theorem C20_store_product_info_witness :
    (MinSlave_manageMessages (afterFrame systemStarted storeInfoTimed Usart.idle)).oNFC.productInfoLength
      = 6 ∧
    (MinSlave_manageMessages
      (afterFrame systemStarted storeInfoTimed Usart.idle)).oMinSlave.slaveRegisters 7 = 0x4433 :=
  ⟨(C20_store_product_info systemStarted storeInfoTimed Usart.idle (by decide) (by decide)
      (by decide)).1,
    by
      rw [(C20_store_product_info systemStarted storeInfoTimed Usart.idle (by decide)
        (by decide) (by decide)).2.2.2.1]
      decide⟩

/-! ## C22, C23 — the register access API -/

/-- C22.  Once `MinSlave_init` has run: `MinSlave_getSlaveData (reg, p)` with a
non-null `p` returns `MINSLAVE_GET_SLAVE_DATA_FAIL_INVALID_REGISTER` and leaves
`*p` as it was if and only if `reg ≥ 17`, and otherwise returns
`MINSLAVE_GET_SLAVE_DATA_SUCCESS` with `*p = slaveRegisters[reg]`;
`MinSlave_putSlaveData (reg, v)` returns
`MINSLAVE_PUT_SLAVE_DATA_FAIL_INVALID_REGISTER` and leaves the whole register
file (indeed the whole state) as it was if and only if `reg ≥ 17`, and otherwise
returns `MINSLAVE_PUT_SLAVE_DATA_SUCCESS`. -/
theorem C22_register_api_range_check (s : System) (hp : s.pMinSlaveSelf = true)
    (reg old v : Nat) :
    (((MinSlave_getSlaveData s reg (some old)).1 =
          MINSLAVE_GET_SLAVE_DATA_FAIL_INVALID_REGISTER ∧
        (MinSlave_getSlaveData s reg (some old)).2 = some old) ↔
      reg ≥ MIN_SLAVE_NUMBER_OF_REGISTERS) ∧
    (reg < MIN_SLAVE_NUMBER_OF_REGISTERS →
      MinSlave_getSlaveData s reg (some old) =
        (MINSLAVE_GET_SLAVE_DATA_SUCCESS, some (s.oMinSlave.slaveRegisters reg))) ∧
    (((MinSlave_putSlaveData s reg v).2 = MINSLAVE_PUT_SLAVE_DATA_FAIL_INVALID_REGISTER ∧
        (MinSlave_putSlaveData s reg v).1 = s) ↔
      reg ≥ MIN_SLAVE_NUMBER_OF_REGISTERS) ∧
    (reg < MIN_SLAVE_NUMBER_OF_REGISTERS →
      (MinSlave_putSlaveData s reg v).2 = MINSLAVE_PUT_SLAVE_DATA_SUCCESS) := by
  have hn : ¬ (s.pMinSlaveSelf = false) := by rw [hp]; decide
  unfold MinSlave_getSlaveData MinSlave_putSlaveData
  rw [if_neg hn, if_neg hn]
  dsimp only
  by_cases hr : reg ≥ MIN_SLAVE_NUMBER_OF_REGISTERS
  · rw [if_pos hr, if_pos hr]
    refine ⟨⟨fun _ => hr, fun _ => ⟨rfl, rfl⟩⟩, fun h => absurd hr (by omega),
      ⟨fun _ => hr, fun _ => ⟨rfl, rfl⟩⟩, fun h => absurd hr (by omega)⟩
  · rw [if_neg hr, if_neg hr]
    have h02 : ¬ ((0 : Nat) = 2) := by decide
    have h01 : ¬ ((0 : Nat) = 1) := by decide
    refine ⟨⟨fun h => absurd h.1 h02, fun h => absurd h hr⟩, fun _ => rfl,
      ⟨fun h => absurd h.1 h01, fun h => absurd h hr⟩, fun _ => rfl⟩

theorem C22_register_api_range_check_witness :
    MinSlave_getSlaveData systemStarted 1 (some 0xBEEF) =
      (MINSLAVE_GET_SLAVE_DATA_SUCCESS, some 0x0100) :=
  (C22_register_api_range_check systemStarted (by decide) 1 0xBEEF 0).2.1 (by decide)

/-- C23.  Once `MinSlave_init` has run, for every `reg < 17` and every value `v`:
`MinSlave_putSlaveData (reg, v)` succeeds, a following
`MinSlave_getSlaveData (reg, p)` succeeds and stores `v` in `*p`, and the put
changes no register other than `slaveRegisters[reg]` (nor anything else in the
state). -/
theorem C23_put_then_get (s : System) (hp : s.pMinSlaveSelf = true) (reg v old : Nat)
    (hr : reg < MIN_SLAVE_NUMBER_OF_REGISTERS) :
    (MinSlave_putSlaveData s reg v).2 = MINSLAVE_PUT_SLAVE_DATA_SUCCESS ∧
    MinSlave_getSlaveData (MinSlave_putSlaveData s reg v).1 reg (some old) =
      (MINSLAVE_GET_SLAVE_DATA_SUCCESS, some v) ∧
    (∀ k, k ≠ reg →
      (MinSlave_putSlaveData s reg v).1.oMinSlave.slaveRegisters k =
        s.oMinSlave.slaveRegisters k) ∧
    (MinSlave_putSlaveData s reg v).1 =
      { s with oMinSlave := { s.oMinSlave with
          slaveRegisters := Function.update s.oMinSlave.slaveRegisters reg v } } := by
  have hn : ¬ (s.pMinSlaveSelf = false) := by rw [hp]; decide
  have hput : MinSlave_putSlaveData s reg v =
      ({ s with oMinSlave := { s.oMinSlave with
          slaveRegisters := Function.update s.oMinSlave.slaveRegisters reg v } },
        MINSLAVE_PUT_SLAVE_DATA_SUCCESS) := by
    unfold MinSlave_putSlaveData
    rw [if_neg hn, if_neg (by omega)]
  rw [hput]
  refine ⟨rfl, ?_, fun k hk => Function.update_noteq hk _ _, rfl⟩
  unfold MinSlave_getSlaveData
  dsimp only
  rw [if_neg hn, if_neg (by omega), Function.update_same]

theorem C23_put_then_get_witness :
    MinSlave_getSlaveData (MinSlave_putSlaveData systemStarted 16 0xABCD).1 16 (some 0) =
      (MINSLAVE_GET_SLAVE_DATA_SUCCESS, some 0xABCD) :=
  (C23_put_then_get systemStarted (by decide) 16 0xABCD 0 (by decide)).2.1

/-! ## C29 — communication timeout -/

theorem minTimeoutCheck_count (s : System) (h1 : 1 < s.oMinSlave.communicationTimeoutCNTR) :
    Scheduler_minTimeoutCheck s =
      { s with oMinSlave := { s.oMinSlave with
          communicationTimeoutCNTR := s.oMinSlave.communicationTimeoutCNTR - 1 } } := by
  unfold Scheduler_minTimeoutCheck
  rw [if_pos (by omega)]
  dsimp only
  rw [if_neg (by omega)]

theorem minTimeoutCheck_expire (s : System) (h1 : s.oMinSlave.communicationTimeoutCNTR = 1) :
    Scheduler_minTimeoutCheck s =
      MinSlave_init { s with oMinSlave := { s.oMinSlave with
        communicationTimeoutCNTR := 0,
        uart := { s.oMinSlave.uart with baudSelect := BR_SELECT_115200 } } } := by
  unfold Scheduler_minTimeoutCheck
  rw [if_pos (by omega)]
  dsimp only
  rw [if_pos (by omega), h1]

theorem timeoutChecks_counter (s : System)
    (h0 : s.oMinSlave.communicationTimeoutCNTR = ONE_SECOND_TIME) (k : Nat) :
    (timeoutChecks k s).oMinSlave.communicationTimeoutCNTR = ONE_SECOND_TIME - k % 1000 ∧
    (timeoutChecks k s).oMinSlave.slaveRegisters = s.oMinSlave.slaveRegisters ∧
    (timeoutChecks k s).oMinSlave.uart.moduleAddress = s.oMinSlave.uart.moduleAddress := by
  induction k with
  | zero => exact ⟨h0, rfl, rfl⟩
  | succ k ih =>
    obtain ⟨hc, hr, ha⟩ := ih
    have hk : k % 1000 < 1000 := Nat.mod_lt _ (by decide)
    show (Scheduler_minTimeoutCheck (timeoutChecks k s)).oMinSlave.communicationTimeoutCNTR = _ ∧
      (Scheduler_minTimeoutCheck (timeoutChecks k s)).oMinSlave.slaveRegisters = _ ∧
      (Scheduler_minTimeoutCheck (timeoutChecks k s)).oMinSlave.uart.moduleAddress = _
    by_cases hlast : k % 1000 = 999
    · rw [minTimeoutCheck_expire _ (by rw [hc]; show 1000 - k % 1000 = 1; omega)]
      refine ⟨?_, hr, ha⟩
      show ONE_SECOND_TIME = ONE_SECOND_TIME - (k + 1) % 1000
      show 1000 = 1000 - (k + 1) % 1000
      omega
    · rw [minTimeoutCheck_count _ (by rw [hc]; show 1 < 1000 - k % 1000; omega)]
      refine ⟨?_, hr, ha⟩
      show (timeoutChecks k s).oMinSlave.communicationTimeoutCNTR - 1 = _
      rw [hc]
      show 1000 - k % 1000 - 1 = 1000 - (k + 1) % 1000
      omega

/-- C29.  Start with `communicationTimeoutCNTR = ONE_SECOND_TIME` (1000), as
`MinSlave_init` and every dispatched valid frame leave it, and call
`Scheduler_minTimeoutCheck` `k + 1` times in a row.  When `k + 1` is a multiple
of 1000 the last call re-initialises the receiver (`currentState`
`WAIT_FOR_RESYNC`, `rxBufferIndex` 0, `processPacketFlag` `FALSE`, `badCrcFlag` 0,
`dataLength` 10), sets `baudSelect` to `BR_SELECT_115200` and leaves the counter
at 1000; when it is not, the last call leaves the receiver object as it was and
only counts down.  In all cases the counter is `1000 - (k + 1) mod 1000`, and
`slaveRegisters` and `moduleAddress` are what they were at the start. -/
theorem C29_communication_timeout (s : System)
    (h0 : s.oMinSlave.communicationTimeoutCNTR = ONE_SECOND_TIME) (k : Nat) :
    ((k + 1) % 1000 = 0 →
      (timeoutChecks (k + 1) s).oMinSlave.uart.currentState = WAIT_FOR_RESYNC ∧
      (timeoutChecks (k + 1) s).oMinSlave.uart.rxBufferIndex = 0 ∧
      (timeoutChecks (k + 1) s).oMinSlave.uart.processPacketFlag = FALSE ∧
      (timeoutChecks (k + 1) s).oMinSlave.uart.badCrcFlag = 0 ∧
      (timeoutChecks (k + 1) s).oMinSlave.uart.dataLength = 10 ∧
      (timeoutChecks (k + 1) s).oMinSlave.uart.baudSelect = BR_SELECT_115200 ∧
      (timeoutChecks (k + 1) s).oMinSlave.communicationTimeoutCNTR = ONE_SECOND_TIME) ∧
    ((k + 1) % 1000 ≠ 0 →
      (timeoutChecks (k + 1) s).oMinSlave.uart = (timeoutChecks k s).oMinSlave.uart) ∧
    (timeoutChecks (k + 1) s).oMinSlave.communicationTimeoutCNTR =
      ONE_SECOND_TIME - (k + 1) % 1000 ∧
    (timeoutChecks (k + 1) s).oMinSlave.slaveRegisters = s.oMinSlave.slaveRegisters ∧
    (timeoutChecks (k + 1) s).oMinSlave.uart.moduleAddress = s.oMinSlave.uart.moduleAddress := by
  obtain ⟨hc, -, -⟩ := timeoutChecks_counter s h0 k
  obtain ⟨hc1, hr1, ha1⟩ := timeoutChecks_counter s h0 (k + 1)
  have hk : k % 1000 < 1000 := Nat.mod_lt _ (by decide)
  refine ⟨?_, ?_, hc1, hr1, ha1⟩
  · intro hm
    have e : timeoutChecks (k + 1) s = Scheduler_minTimeoutCheck (timeoutChecks k s) := rfl
    rw [e, minTimeoutCheck_expire _ (by rw [hc]; show 1000 - k % 1000 = 1; omega)]
    exact ⟨rfl, rfl, rfl, rfl, rfl, rfl, rfl⟩
  · intro hm
    have e : timeoutChecks (k + 1) s = Scheduler_minTimeoutCheck (timeoutChecks k s) := rfl
    rw [e, minTimeoutCheck_count _ (by rw [hc]; show 1 < 1000 - k % 1000; omega)]

theorem C29_communication_timeout_witness :
    (timeoutChecks (999 + 1) systemStarted).oMinSlave.communicationTimeoutCNTR = ONE_SECOND_TIME ∧
    (timeoutChecks (999 + 1) systemStarted).oMinSlave.uart.baudSelect = BR_SELECT_115200 :=
  ⟨((C29_communication_timeout systemStarted (by decide) 999).1 (by decide)).2.2.2.2.2.2,
    ((C29_communication_timeout systemStarted (by decide) 999).1 (by decide)).2.2.2.2.2.1⟩

/-! ## C21 — replies to broadcast frames -/

set_option maxRecDepth 100000 in
/-- C21 (evaluation at the failing input).  The request
`[0, 6, 0x9C, 0x41, 0xAB, 0xCD, 72, 250]` is a valid write-single-register request
sent to the broadcast address 0.  `MinSlave_manageMessages` answers it with its
eight bytes; so does it answer the broadcast read-registers, slave-poll, discover,
get-product-info and store-product-info requests.  Only the
write-multiple-registers handler looks at the address byte and stays silent. -/
theorem C21_broadcast_write_single_answered :
    ValidRequest systemStarted writeOneBroadcastTimed Usart.idle ∧
    (frameBytes writeOneBroadcastTimed).getD 0 0 = MIN_MASTER_BROADCAST ∧
    systemStarted.txSent = [] ∧
    (MinSlave_manageMessages (afterFrame systemStarted writeOneBroadcastTimed Usart.idle)).txSent =
      [0, 6, 0x9C, 0x41, 0xAB, 0xCD, 72, 250] ∧
    (thenRequest systemStarted (withCrc [0, 3, 0x9C, 0x40, 0, 1])).txSent = withCrc [2, 3, 2, 0, 0] ∧
    (thenRequest systemStarted (withCrc [0, 65])).txSent = withCrc [2, 65, 0] ∧
    (thenRequest systemStarted (withCrc [0, 67, 0, 0, 0, 3])).txSent ≠ [] ∧
    (thenRequest systemStarted (withCrc [0, 69, 0, 0, 0, 1])).txSent = withCrc [2, 69, 2, 0, 0] ∧
    (thenRequest systemStarted (withCrc [0, 70, 9, 1, 2, 3, 4])).txSent = withCrc [0, 70, 3, 4] ∧
    (thenRequest systemStarted writeRegisterOneBroadcast).txSent = [] := by
  refine ⟨by decide, by decide, by decide, by decide, by decide, by decide, by decide,
    by decide, by decide, by decide⟩

/-! ## C27 — the start address of a queued write -/

/-- The start address of the Instant request queued by a valid
write-multiple-registers request sent to the module address:
`(HOLDING_REG_OFFSET + 2 r) mod 2^16` with `r = (R - 0x9C40) mod 2^16`. -/
theorem instant_start_address {s : System} {fr : List (Nat × Nat)} {hw : Usart}
    (v : ValidRequest s fr hw) (hfc : (frameBytes fr).getD 1 0 = MIN_FC16)
    (h2 : (frameBytes fr).getD 0 0 = NFC_SLAVE_ADDRESS) :
    NFC_getUpdateBlkAddress (MinSlave_manageMessages (afterFrame s fr hw)).oNFC =
      (HOLDING_REG_OFFSET +
        2 * sub16 ((frameBytes fr).getD 2 0 * 256 + (frameBytes fr).getD 3 0) 0x9C40) % 65536 := by
  have hl : fr.length = (frameBytes fr).getD 6 0 + 9 := by
    rw [validRequest_length v]
    unfold requestLength
    rw [if_pos hfc]
  have r0 := atDispatch_rx v 0 (by omega)
  have r2 := atDispatch_rx v 2 (by omega)
  have r3 := atDispatch_rx v 3 (by omega)
  have hd : (atDispatch s fr hw).oMinSlave.uart.rxBuffer MODBUS_SLAVE_ADDRESS_INDEX =
      NFC_SLAVE_ADDRESS := by rw [← h2]; exact r0
  have hn : (atDispatch s fr hw).oMinSlave.uart.rxBuffer MODBUS_SLAVE_ADDRESS_INDEX ≠
      MODBUS_MASTER_BROADCAST := by rw [hd]; decide
  rw [handled_by v MIN_FC16 hfc _ dispatch_fc16, writeRegs_own_oNFC _ hn hd]
  show (HOLDING_REG_OFFSET + modbusRegisterNumber _ * 2) % 65536 = _
  rw [modbusRegisterNumber_eq _ (by rw [r2]; exact validRequest_byte v 2)
    (by rw [r3]; exact validRequest_byte v 3), r2, r3, Nat.mul_comm]

/-- The start address of the Broadcast request queued by a valid
write-multiple-registers request sent to the broadcast address: the handler
stores `2 r` as register number and `NFC_getBroadcastBlkAddress` doubles it
again. -/
theorem broadcast_start_address {s : System} {fr : List (Nat × Nat)} {hw : Usart}
    (v : ValidRequest s fr hw) (hfc : (frameBytes fr).getD 1 0 = MIN_FC16)
    (h0 : (frameBytes fr).getD 0 0 = MODBUS_MASTER_BROADCAST) :
    NFC_getBroadcastBlkAddress (MinSlave_manageMessages (afterFrame s fr hw)).oNFC =
      (HOLDING_REG_OFFSET +
        4 * sub16 ((frameBytes fr).getD 2 0 * 256 + (frameBytes fr).getD 3 0) 0x9C40) % 65536 := by
  have hl : fr.length = (frameBytes fr).getD 6 0 + 9 := by
    rw [validRequest_length v]
    unfold requestLength
    rw [if_pos hfc]
  have r0 := atDispatch_rx v 0 (by omega)
  have r2 := atDispatch_rx v 2 (by omega)
  have r3 := atDispatch_rx v 3 (by omega)
  have hd : (atDispatch s fr hw).oMinSlave.uart.rxBuffer MODBUS_SLAVE_ADDRESS_INDEX =
      MODBUS_MASTER_BROADCAST := by rw [← h0]; exact r0
  rw [handled_by v MIN_FC16 hfc _ dispatch_fc16, writeRegs_broadcast_oNFC _ hd]
  show (HOLDING_REG_OFFSET + (modbusRegisterNumber _ * 2) % 65536 * 2) % 65536 = _
  rw [modbusRegisterNumber_eq _ (by rw [r2]; exact validRequest_byte v 2)
    (by rw [r3]; exact validRequest_byte v 3), r2, r3]
  omega

set_option maxRecDepth 100000 in
/-- C27 (evaluation at the failing input).  The valid broadcast
write-multiple-registers request `writeRegisterOneBroadcast` carries the register
address `0x9C41`, that is register 1.  The Broadcast request it queues starts at
`NFC_getBroadcastBlkAddress = 0x24`, not at `HOLDING_REG_OFFSET + 2 * 1 = 0x22`;
the same request sent to the module address queues an Instant request that
starts at `NFC_getUpdateBlkAddress = 0x22`. -/
theorem C27_broadcast_address_doubled_twice :
    ValidRequest systemStarted (spaced writeRegisterOneBroadcast) Usart.idle ∧
    ValidRequest systemStarted (spaced writeRegisterOneOwn) Usart.idle ∧
    sub16 (0x9C * 256 + 0x41) 0x9C40 = 1 ∧
    NFC_getBroadcastBlkAddress (thenRequest systemStarted writeRegisterOneBroadcast).oNFC =
      0x24 ∧
    (thenRequest systemStarted writeRegisterOneBroadcast).oNFC.storeBroadcastFLG = TRUE ∧
    NFC_getUpdateBlkAddress (thenRequest systemStarted writeRegisterOneOwn).oNFC = 0x22 ∧
    (thenRequest systemStarted writeRegisterOneOwn).oNFC.instantWriteFLG = TRUE := by
  refine ⟨by decide, by decide, by decide, by decide, by decide, by decide, by decide⟩

/-! ## C30 — the nibble table against the bit-serial CRC -/

theorem shiftRight_one_xor (x y : Nat) : (x ^^^ y) >>> 1 = (x >>> 1) ^^^ (y >>> 1) := by
  apply Nat.eq_of_testBit_eq
  intro i
  rw [Nat.testBit_shiftRight, Nat.testBit_xor, Nat.testBit_xor, Nat.testBit_shiftRight,
    Nat.testBit_shiftRight]

theorem xor_mod_two (x y : Nat) : (x ^^^ y) % 2 = (x % 2 + y % 2) % 2 := by
  have h := Nat.testBit_xor x y 0
  rw [Nat.testBit_zero, Nat.testBit_zero, Nat.testBit_zero] at h
  rcases Nat.mod_two_eq_zero_or_one x with hx | hx <;>
    rcases Nat.mod_two_eq_zero_or_one y with hy | hy <;>
    rcases Nat.mod_two_eq_zero_or_one (x ^^^ y) with hz | hz <;>
    rw [hx, hy, hz] at h <;> rw [hx, hy, hz] <;> first | rfl | (exfalso; revert h; decide)

/-- The bit step is linear over XOR. -/
theorem crcBitStep_xor (x y : Nat) : crcBitStep (x ^^^ y) = crcBitStep x ^^^ crcBitStep y := by
  unfold crcBitStep
  rw [xor_mod_two, shiftRight_one_xor]
  rcases Nat.mod_two_eq_zero_or_one x with hx | hx <;>
    rcases Nat.mod_two_eq_zero_or_one y with hy | hy <;> rw [hx, hy]
  · rfl
  · show (x >>> 1 ^^^ y >>> 1) ^^^ 0xA001 = x >>> 1 ^^^ (y >>> 1 ^^^ 0xA001)
    rw [Nat.xor_assoc]
  · show (x >>> 1 ^^^ y >>> 1) ^^^ 0xA001 = (x >>> 1 ^^^ 0xA001) ^^^ y >>> 1
    rw [Nat.xor_assoc, Nat.xor_assoc, Nat.xor_comm (y >>> 1)]
  · show x >>> 1 ^^^ y >>> 1 = (x >>> 1 ^^^ 0xA001) ^^^ (y >>> 1 ^^^ 0xA001)
    rw [Nat.xor_assoc, Nat.xor_comm (y >>> 1), ← Nat.xor_assoc 0xA001, Nat.xor_self,
      Nat.zero_xor]

theorem crcBitSteps_xor (k x y : Nat) :
    crcBitSteps k (x ^^^ y) = crcBitSteps k x ^^^ crcBitSteps k y := by
  induction k generalizing x y with
  | zero => rfl
  | succ k ih =>
    show crcBitSteps k (crcBitStep (x ^^^ y)) = _
    rw [crcBitStep_xor, ih]
    rfl

theorem crcBitSteps_add (j k x : Nat) :
    crcBitSteps (j + k) x = crcBitSteps k (crcBitSteps j x) := by
  induction j generalizing x with
  | zero => rw [Nat.zero_add]; rfl
  | succ j ih =>
    rw [Nat.add_right_comm]
    show crcBitSteps (j + k) (crcBitStep x) = crcBitSteps k (crcBitSteps j (crcBitStep x))
    exact ih _

/-- `k` bit steps on `2^k h + l` with `l < 2^k`: the high part comes down
unchanged, XOR-ed with what the steps make of the low part. -/
theorem crcBitSteps_split (k h l : Nat) (hl : l < 2 ^ k) :
    crcBitSteps k (2 ^ k * h + l) = h ^^^ crcBitSteps k l := by
  induction k generalizing l with
  | zero =>
    have : l = 0 := by
      have : l < 1 := hl
      omega
    subst this
    show 2 ^ 0 * h + 0 = h ^^^ 0
    rw [Nat.xor_zero]
    omega
  | succ k ih =>
    have hp : 2 ^ (k + 1) * h = 2 * (2 ^ k * h) := by rw [Nat.pow_succ]; ring
    have hl2 : l / 2 < 2 ^ k := by
      rw [Nat.pow_succ] at hl
      omega
    show crcBitSteps k (crcBitStep (2 ^ (k + 1) * h + l)) = h ^^^ crcBitSteps k (crcBitStep l)
    have hsh : (2 ^ (k + 1) * h + l) >>> 1 = 2 ^ k * h + l / 2 := by
      rw [Nat.shiftRight_eq_div_pow, hp]
      omega
    have hsl : l >>> 1 = l / 2 := by rw [Nat.shiftRight_eq_div_pow, Nat.pow_one]
    have hpar : (2 ^ (k + 1) * h + l) % 2 = l % 2 := by rw [hp]; omega
    unfold crcBitStep
    rw [hpar, hsh, hsl]
    by_cases hodd : l % 2 = 1
    · rw [if_pos hodd, if_pos hodd, crcBitSteps_xor, crcBitSteps_xor, ih _ hl2, Nat.xor_assoc]
    · rw [if_neg hodd, if_neg hodd, ih _ hl2]

theorem crc_table_steps : ∀ l, l < 16 → crcBitSteps 4 l = crc_16_table l := by
  decide

theorem crcNibble_steps (crc nib : Nat) (hc : crc < 65536) (hn : nib < 16) :
    crcNibble crc nib = crcBitSteps 4 (crc ^^^ nib) := by
  unfold crcNibble
  dsimp only
  have hmask : (crc >>> 4) &&& 0x0FFF = crc / 16 := by
    rw [Nat.shiftRight_eq_div_pow]
    have := Nat.and_pow_two_sub_one_eq_mod (crc / 2 ^ 4) 12
    have e : (0x0FFF : Nat) = 2 ^ 12 - 1 := by decide
    rw [e, this]
    show crc / 16 % 4096 = crc / 16
    omega
  have hlow : crc &&& 0xF = crc % 16 := Nat.and_pow_two_sub_one_eq_mod crc 4
  have hsplit := crcBitSteps_split 4 (crc / 16) (crc % 16) (Nat.mod_lt _ (by decide))
  have hcrc : 2 ^ 4 * (crc / 16) + crc % 16 = crc := Nat.div_add_mod crc 16
  rw [hcrc] at hsplit
  rw [hmask, hlow, ← crc_table_steps _ (Nat.mod_lt _ (by decide)), ← crc_table_steps _ hn,
    ← hsplit, crcBitSteps_xor]

theorem crcByte_steps (crc b : Nat) (hc : crc < 65536) (hb : b < 256) :
    crcByte crc b = crcBitSerialByte crc b := by
  unfold crcByte crcBitSerialByte
  have hlo : b &&& 0xF = b % 16 := Nat.and_pow_two_sub_one_eq_mod b 4
  have hhi : (b >>> 4) &&& 0xF = b / 16 := by
    rw [Nat.shiftRight_eq_div_pow]
    have := Nat.and_pow_two_sub_one_eq_mod (b / 2 ^ 4) 4
    have e : (0xF : Nat) = 2 ^ 4 - 1 := by decide
    rw [e, this]
    show b / 16 % 16 = b / 16
    omega
  have h1 := crcNibble_steps crc (b % 16) hc (Nat.mod_lt _ (by decide))
  have hc1 : crcNibble crc (b % 16) < 65536 := crcNibble_lt _ _
  have h2 := crcNibble_steps (crcNibble crc (b % 16)) (b / 16) hc1 (by omega)
  rw [hlo, hhi, h2, h1]
  have hsplit := crcBitSteps_split 4 (b / 16) (b % 16) (Nat.mod_lt _ (by decide))
  have hbb : 2 ^ 4 * (b / 16) + b % 16 = b := Nat.div_add_mod b 16
  rw [hbb] at hsplit
  show crcBitSteps 4 (crcBitSteps 4 (crc ^^^ b % 16) ^^^ b / 16) = crcBitSteps (4 + 4) (crc ^^^ b)
  rw [crcBitSteps_add, crcBitSteps_xor 4 crc b, hsplit, crcBitSteps_xor 4 crc (b % 16),
    Nat.xor_assoc, Nat.xor_comm (b / 16)]

theorem get_crc_16_cons (seed b : Nat) (bs : List Nat) :
    get_crc_16 seed (fun i => (b :: bs).getD i 0) (b :: bs).length =
      get_crc_16 (crcByte seed b) (fun i => bs.getD i 0) bs.length := rfl

/-- C30.  For every 16-bit seed and every sequence of bytes, `get_crc_16` (the
16-entry nibble table, low nibble then high nibble of each byte) returns the value
of the bit-serial reflected CRC-16 with polynomial `0xA001` (per byte: XOR the
byte into the low 8 bits, then 8 times shift right by one and XOR `0xA001` if the
bit shifted out was 1).  In particular `get_crc_16 (s, [])` is `s`, and the CRC of
the ASCII string "123456789" from the seed `0xFFFF` is `0x4B37`. -/
theorem C30_nibble_table_is_bit_serial_crc (seed : Nat) (bs : List Nat) (hs : seed < 65536)
    (hb : ∀ b ∈ bs, b < 256) :
    get_crc_16 seed (fun i => bs.getD i 0) bs.length = crcBitSerial seed bs ∧
    (∀ p : Nat → Nat, get_crc_16 seed p 0 = seed) ∧
    get_crc_16 0xFFFF (fun i => [0x31, 0x32, 0x33, 0x34, 0x35, 0x36, 0x37, 0x38, 0x39].getD i 0)
      9 = 0x4B37 := by
  refine ⟨?_, fun _ => rfl, by decide⟩
  induction bs generalizing seed with
  | nil => rfl
  | cons b bs ih =>
    rw [get_crc_16_cons]
    show _ = crcBitSerial (crcBitSerialByte seed b) bs
    rw [← crcByte_steps seed b hs (hb b (List.mem_cons_self _ _))]
    exact ih _ (crcByte_lt _ _) (fun x hx => hb x (List.mem_cons_of_mem _ hx))

theorem C30_nibble_table_is_bit_serial_crc_witness :
    crcOf [2, 3, 0x9C, 0x40, 0, 2] = crcBitSerial 0xFFFF [2, 3, 0x9C, 0x40, 0, 2] :=
  (C30_nibble_table_is_bit_serial_crc 0xFFFF [2, 3, 0x9C, 0x40, 0, 2] (by decide)
    (by decide)).1

/-! ## The page loop of the write functions -/

theorem compareLoop_index (buffer data : Nat → Nat) (index n : Nat) (hi : index < 256) :
    (compareLoop buffer data index n).2.2 = (index + n) % 256 := by
  induction n with
  | zero => exact (Nat.mod_eq_of_lt hi).symm
  | succ n ih =>
    show ((compareLoop buffer data index n).2.2 + 1) % 256 = _
    rw [ih]
    omega

theorem compareLoop_data (buffer data : Nat → Nat) (index n j : Nat) (hi : index < 256) :
    (compareLoop buffer data index n).2.1 j =
      if j < n then buffer ((index + j) % 256) else data j := by
  induction n with
  | zero => rfl
  | succ n ih =>
    show Function.update (compareLoop buffer data index n).2.1 n
      (buffer (compareLoop buffer data index n).2.2) j = _
    rw [Function.update_apply, compareLoop_index _ _ _ _ hi, ih]
    by_cases hj : j = n
    · rw [if_pos hj, if_pos (by omega), hj]
    · rw [if_neg hj]
      by_cases h2 : j < n
      · rw [if_pos h2, if_pos (by omega)]
      · rw [if_neg h2, if_neg (by omega)]

theorem compareLoop_count (buffer data : Nat → Nat) (index n : Nat) (hi : index < 256)
    (hn : n < 256) :
    (compareLoop buffer data index n).1 ≤ n ∧
    ((compareLoop buffer data index n).1 = n ↔
      ∀ j, j < n → data j = buffer ((index + j) % 256)) := by
  induction n with
  | zero => exact ⟨Nat.le_refl _, fun _ _ hj => absurd hj (Nat.not_lt_zero _), fun _ => rfl⟩
  | succ n ih =>
    obtain ⟨hle, hiff⟩ := ih (by omega)
    have hd : (compareLoop buffer data index n).2.1 n = data n := by
      rw [compareLoop_data _ _ _ _ _ hi, if_neg (by omega)]
    have hidx := compareLoop_index buffer data index n hi
    show (if (compareLoop buffer data index n).2.1 n = buffer (compareLoop buffer data index n).2.2
        then ((compareLoop buffer data index n).1 + 1) % 256
        else (compareLoop buffer data index n).1) ≤ n + 1 ∧
      ((if (compareLoop buffer data index n).2.1 n = buffer (compareLoop buffer data index n).2.2
        then ((compareLoop buffer data index n).1 + 1) % 256
        else (compareLoop buffer data index n).1) = n + 1 ↔ _)
    rw [hd, hidx]
    by_cases he : data n = buffer ((index + n) % 256)
    · rw [if_pos he, Nat.mod_eq_of_lt (by omega)]
      refine ⟨by omega, ?_, ?_⟩
      · intro h j hj
        by_cases hjn : j = n
        · rw [hjn]; exact he
        · exact hiff.1 (by omega) j (by omega)
      · intro h
        have := hiff.2 (fun j hj => h j (by omega))
        omega
    · rw [if_neg he]
      refine ⟨by omega, fun h => absurd h (by omega), fun h => absurd (h n (by omega)) he⟩

theorem pageWriteLoop_apply (mem : Nat → Nat) (a : Nat) (data : Nat → Nat) (n x : Nat)
    (ha : a + n ≤ 65536) :
    pageWriteLoop mem a data n x = if a ≤ x ∧ x < a + n then data (x - a) else mem x := by
  induction n with
  | zero =>
    show mem x = _
    rw [if_neg (by omega)]
  | succ n ih =>
    show Function.update (pageWriteLoop mem a data n) ((a + n) % 65536) (data n) x = _
    rw [Function.update_apply, ih (by omega), Nat.mod_eq_of_lt (by omega)]
    by_cases hx : x = a + n
    · have h2 : a ≤ x ∧ x < a + (n + 1) := by omega
      rw [if_pos hx, if_pos h2]
      congr 1
      omega
    · rw [if_neg hx]
      by_cases h2 : a ≤ x ∧ x < a + n
      · have h3 : a ≤ x ∧ x < a + (n + 1) := by omega
        rw [if_pos h2, if_pos h3]
      · have h3 : ¬ (a ≤ x ∧ x < a + (n + 1)) := by omega
        rw [if_neg h2, if_neg h3]

theorem serviced_refl (s : System) : Serviced s s := ⟨rfl, rfl, rfl, rfl, rfl, rfl⟩

theorem serviced_trans {s t u : System} (h1 : Serviced s t) (h2 : Serviced t u) :
    Serviced s u := by
  refine ⟨?_, h2.halted.trans h1.halted, h2.sent.trans h1.sent,
    h2.registers.trans h1.registers, h2.timeout.trans h1.timeout,
    h2.initialised.trans h1.initialised⟩
  rw [h2.requests, h1.requests]

theorem serviced_wait (s : System) : Serviced s (nfcWriteWait s) := by
  unfold nfcWriteWait
  constructor <;> rfl

theorem serviced_write (s : System) (mem : Nat → Nat) (w : Nat) :
    Serviced s { s with nfcMem := mem, oNFC := { s.oNFC with schedulerNFCWriteWait := w } } := by
  constructor <;> rfl

theorem pageBody_serviced (buffer : Nat → Nat) (i : Nat) (p : PageState) :
    Serviced p.sys (pageBody buffer i p).sys := by
  unfold pageBody
  dsimp only
  split_ifs
  · exact serviced_trans (serviced_write p.sys _ TRUE) (serviced_wait _)
  · exact serviced_refl _

theorem pageBody_index (buffer : Nat → Nat) (i : Nat) (p : PageState) (hi : p.index < 256) :
    (pageBody buffer i p).index = (p.index + 4) % 256 := by
  unfold pageBody
  dsimp only
  split_ifs <;> exact compareLoop_index _ _ _ _ hi

theorem pageBody_writes (buffer : Nat → Nat) (i : Nat) (p : PageState) :
    (pageBody buffer i p).pageWrites = p.pageWrites ∨
      (pageBody buffer i p).pageWrites = p.pageWrites ++ [i] := by
  unfold pageBody
  dsimp only
  split_ifs
  · exact Or.inr rfl
  · exact Or.inl rfl

/-- The page read by the loop body equals the next four bytes of the buffer
exactly when the comparison counts four matches. -/
theorem page_count (buffer : Nat → Nat) (i : Nat) (p : PageState) (hi : p.index < 256)
    (ha : i + 4 ≤ 65536) :
    (compareLoop buffer (NFC_SequentialRead p.sys.nfcMem i BYTES_IN_PAGE (fun _ => 0)) p.index
        BYTES_IN_PAGE).1 = BYTES_IN_PAGE ↔
      ∀ k, k < 4 → p.sys.nfcMem (i + k) = buffer ((p.index + k) % 256) := by
  rw [(compareLoop_count buffer _ p.index BYTES_IN_PAGE hi (by decide)).2]
  constructor
  · intro h k hk
    have := h k hk
    rw [sequentialRead_apply _ _ _ _ hk, Nat.mod_eq_of_lt (by omega)] at this
    exact this
  · intro h k hk
    have hk4 : k < 4 := hk
    rw [sequentialRead_apply _ _ _ _ hk, Nat.mod_eq_of_lt (by omega)]
    exact h k hk4

/-- A page whose stored bytes already equal the request data is not written: the
loop body only advances `index`. -/
theorem pageBody_clean (buffer : Nat → Nat) (i : Nat) (p : PageState) (hi : p.index < 256)
    (ha : i + 4 ≤ 65536)
    (h : ∀ k, k < 4 → p.sys.nfcMem (i + k) = buffer ((p.index + k) % 256)) :
    pageBody buffer i p = { p with index := (p.index + 4) % 256 } := by
  have hc := (page_count buffer i p hi ha).2 h
  unfold pageBody
  dsimp only
  rw [if_neg (fun hne => hne hc), compareLoop_index _ _ _ _ hi]

/-- The NFC memory after the loop body for the page at `i`: the four bytes of the
page are the next four bytes of the buffer, every other byte is as before. -/
theorem pageBody_mem (buffer : Nat → Nat) (i : Nat) (p : PageState) (hi : p.index < 256)
    (ha : i + 4 ≤ 65536) (x : Nat) :
    (pageBody buffer i p).sys.nfcMem x =
      if i ≤ x ∧ x < i + 4 then buffer ((p.index + (x - i)) % 256) else p.sys.nfcMem x := by
  by_cases hc : ∀ k, k < 4 → p.sys.nfcMem (i + k) = buffer ((p.index + k) % 256)
  · rw [pageBody_clean buffer i p hi ha hc]
    show p.sys.nfcMem x = _
    by_cases hx : i ≤ x ∧ x < i + 4
    · rw [if_pos hx, ← hc (x - i) (by omega)]
      congr 1
      omega
    · rw [if_neg hx]
  · have hne : (compareLoop buffer (NFC_SequentialRead p.sys.nfcMem i BYTES_IN_PAGE
        (fun _ => 0)) p.index BYTES_IN_PAGE).1 ≠ BYTES_IN_PAGE :=
      fun h => hc ((page_count buffer i p hi ha).1 h)
    unfold pageBody
    dsimp only
    rw [if_pos hne]
    show NFC_PageWrite p.sys.nfcMem i _ x = _
    unfold NFC_PageWrite
    rw [pageWriteLoop_apply _ _ _ _ _ (by show i + 4 ≤ 65536; exact ha)]
    by_cases hx : i ≤ x ∧ x < i + 4
    · have hx2 : i ≤ x ∧ x < i + BYTES_IN_PAGE := hx
      rw [if_pos hx2, if_pos hx, compareLoop_data _ _ _ _ _ hi,
        if_pos (by show x - i < 4; omega)]
    · have hx2 : ¬ (i ≤ x ∧ x < i + BYTES_IN_PAGE) := hx
      rw [if_neg hx2, if_neg hx]

theorem pageBody_halted (buffer : Nat → Nat) (i : Nat) (p : PageState) :
    (pageBody buffer i p).sys.halted = p.sys.halted :=
  (pageBody_serviced buffer i p).halted

/-- The page loop ends after `c` passes when the loop variable stays below the
limit for `c` passes and then reaches it, and the passes given suffice. -/
theorem pageLoop_run (buffer : Nat → Nat) (limit c : Nat) :
    ∀ (fuel i : Nat) (p : PageState), c < fuel →
      (∀ j, j < c → (i + 4 * j) % 65536 < limit) → limit ≤ (i + 4 * c) % 65536 → i < 65536 →
      pageLoop buffer limit fuel i p = pageRun buffer c i p := by
  induction c with
  | zero =>
    intro fuel i p hf _ hex hi
    obtain ⟨f, rfl⟩ : ∃ f, fuel = f + 1 := ⟨fuel - 1, by omega⟩
    show (if i < limit then _ else p) = p
    rw [if_neg (by omega)]
  | succ c ih =>
    intro fuel i p hf hin hex hi
    obtain ⟨f, rfl⟩ : ∃ f, fuel = f + 1 := ⟨fuel - 1, by omega⟩
    have h0 := hin 0 (by omega)
    show (if i < limit then pageLoop buffer limit f ((i + BYTES_IN_PAGE) % 65536)
      (pageBody buffer i p) else p) = pageRun buffer c ((i + BYTES_IN_PAGE) % 65536)
        (pageBody buffer i p)
    rw [if_pos (by omega)]
    apply ih f _ _ (by omega)
    · intro j hj
      have := hin (j + 1) (by omega)
      show ((i + 4) % 65536 + 4 * j) % 65536 < limit
      omega
    · show limit ≤ ((i + 4) % 65536 + 4 * c) % 65536
      omega
    · exact Nat.mod_lt _ (by decide)

/-- A page loop whose variable never reaches the limit uses up any number of
passes. -/
theorem pageLoop_diverges (buffer : Nat → Nat) (limit : Nat) :
    ∀ (fuel i : Nat) (p : PageState), (∀ j, j < fuel → (i + 4 * j) % 65536 < limit) →
      i < 65536 → (pageLoop buffer limit fuel i p).sys.halted = true := by
  intro fuel
  induction fuel with
  | zero => intro i p _ _; rfl
  | succ f ih =>
    intro i p hin hi
    have h0 := hin 0 (by omega)
    show (if i < limit then pageLoop buffer limit f ((i + BYTES_IN_PAGE) % 65536)
      (pageBody buffer i p) else p).sys.halted = true
    rw [if_pos (by omega)]
    apply ih
    · intro j hj
      have := hin (j + 1) (by omega)
      show ((i + 4) % 65536 + 4 * j) % 65536 < limit
      omega
    · exact Nat.mod_lt _ (by decide)

/-- A page loop that has come to its end has ended after some number `c` of
passes, below the number of passes given. -/
theorem pageLoop_returns (buffer : Nat → Nat) (limit : Nat) :
    ∀ (fuel i : Nat) (p : PageState), (pageLoop buffer limit fuel i p).sys.halted = false →
      i < 65536 →
      p.sys.halted = false ∧ ∃ c, c < fuel ∧
        (∀ j, j < c → (i + 4 * j) % 65536 < limit) ∧ limit ≤ (i + 4 * c) % 65536 := by
  intro fuel
  induction fuel with
  | zero =>
    intro i p h _
    exact absurd h (by show ¬ (true = false); decide)
  | succ f ih =>
    intro i p h hi
    by_cases hlt : i < limit
    · have e : pageLoop buffer limit (f + 1) i p =
          pageLoop buffer limit f ((i + BYTES_IN_PAGE) % 65536) (pageBody buffer i p) := by
        show (if i < limit then _ else p) = _
        rw [if_pos hlt]
      rw [e] at h
      obtain ⟨hh, c, hc, hin, hex⟩ := ih _ _ h (Nat.mod_lt _ (by decide))
      rw [pageBody_halted] at hh
      refine ⟨hh, c + 1, by omega, ?_, ?_⟩
      · intro j hj
        by_cases hj0 : j = 0
        · subst hj0
          rw [Nat.mul_zero, Nat.add_zero, Nat.mod_eq_of_lt hi]
          exact hlt
        · have := hin (j - 1) (by omega)
          have e2 : ((i + BYTES_IN_PAGE) % 65536 + 4 * (j - 1)) % 65536 =
              (i + 4 * j) % 65536 := by
            show ((i + 4) % 65536 + 4 * (j - 1)) % 65536 = _
            omega
          rw [← e2]
          exact this
      · have e2 : ((i + BYTES_IN_PAGE) % 65536 + 4 * c) % 65536 =
            (i + 4 * (c + 1)) % 65536 := by
          show ((i + 4) % 65536 + 4 * c) % 65536 = _
          omega
        rw [← e2]
        exact hex
    · have e : pageLoop buffer limit (f + 1) i p = p := by
        show (if i < limit then _ else p) = _
        rw [if_neg hlt]
      rw [e] at h
      refine ⟨h, 0, by omega, fun j hj => absurd hj (Nat.not_lt_zero _), ?_⟩
      rw [Nat.mul_zero, Nat.add_zero, Nat.mod_eq_of_lt hi]
      omega

theorem pageRun_serviced (buffer : Nat → Nat) (c : Nat) :
    ∀ (i : Nat) (p : PageState), Serviced p.sys (pageRun buffer c i p).sys := by
  induction c with
  | zero => intro i p; exact serviced_refl _
  | succ c ih =>
    intro i p
    exact serviced_trans (pageBody_serviced buffer i p) (ih _ _)

theorem pageRun_index (buffer : Nat → Nat) (c : Nat) :
    ∀ (i : Nat) (p : PageState), p.index < 256 →
      (pageRun buffer c i p).index = (p.index + 4 * c) % 256 := by
  induction c with
  | zero => intro i p hp; exact (Nat.mod_eq_of_lt hp).symm
  | succ c ih =>
    intro i p hp
    have h1 := pageBody_index buffer i p hp
    show (pageRun buffer c _ (pageBody buffer i p)).index = _
    rw [ih _ _ (by rw [h1]; exact Nat.mod_lt _ (by decide)), h1]
    omega

/-- The NFC memory after `c` passes of the page loop from the page at `i`, when
the pages lie below the top of the 16-bit address space: the `4 c` bytes from `i`
on are the next `4 c` bytes of the buffer, every other byte is as before. -/
theorem pageRun_mem (buffer : Nat → Nat) (c : Nat) :
    ∀ (i : Nat) (p : PageState), p.index < 256 → i + 4 * c ≤ 65536 → ∀ x,
      (pageRun buffer c i p).sys.nfcMem x =
        if i ≤ x ∧ x < i + 4 * c then buffer ((p.index + (x - i)) % 256)
        else p.sys.nfcMem x := by
  induction c with
  | zero =>
    intro i p _ _ x
    show p.sys.nfcMem x = _
    rw [if_neg (by omega)]
  | succ c ih =>
    intro i p hp ha x
    have h1 := pageBody_index buffer i p hp
    have hm := Nat.mod_lt (i + 4) (show 0 < 65536 by decide)
    show (pageRun buffer c ((i + 4) % 65536) (pageBody buffer i p)).sys.nfcMem x = _
    rw [ih _ _ (by rw [h1]; exact Nat.mod_lt _ (by decide)) (by omega) x, h1,
      pageBody_mem buffer i p hp (by omega) x]
    split_ifs <;> first | rfl | (exfalso; omega) | (congr 1; omega)

/-- No page is written, and nothing but `index` changes, when the memory already
holds the bytes of the buffer. -/
theorem pageRun_clean (buffer : Nat → Nat) (c : Nat) :
    ∀ (i : Nat) (p : PageState), p.index < 256 → i + 4 * c ≤ 65536 →
      (∀ x, i ≤ x → x < i + 4 * c → p.sys.nfcMem x = buffer ((p.index + (x - i)) % 256)) →
      pageRun buffer c i p = { p with index := (p.index + 4 * c) % 256 } := by
  induction c with
  | zero =>
    intro i p hp _ _
    show p = { p with index := (p.index + 4 * 0) % 256 }
    rw [Nat.mul_zero, Nat.add_zero, Nat.mod_eq_of_lt hp]
  | succ c ih =>
    intro i p hp ha h
    have hb : pageBody buffer i p = { p with index := (p.index + 4) % 256 } := by
      apply pageBody_clean buffer i p hp (by omega)
      intro k hk
      have := h (i + k) (by omega) (by omega)
      rw [this]
      congr 1
      omega
    have hm := Nat.mod_lt (i + 4) (show 0 < 65536 by decide)
    show pageRun buffer c ((i + 4) % 65536) (pageBody buffer i p) = _
    rw [hb, ih _ _ (Nat.mod_lt _ (by decide)) (by show (i + 4) % 65536 + 4 * c ≤ 65536; omega)]
    · show ({ p with index := _ } : PageState) = _
      congr 1
      show ((p.index + 4) % 256 + 4 * c) % 256 = (p.index + 4 * (c + 1)) % 256
      omega
    · intro x hx1 hx2
      show p.sys.nfcMem x = buffer (((p.index + 4) % 256 + (x - (i + 4) % 65536)) % 256)
      rw [h x (by omega) (by omega)]
      congr 1
      omega

/-- The pages written during `c` passes of the page loop from the page at `i`
are visited in strictly increasing address order, and each is one of the pages
`i`, `i + 4`, `i + 8`, ... below `i + 4 c`. -/
theorem pageRun_writes (buffer : Nat → Nat) (c : Nat) :
    ∀ (i : Nat) (p : PageState), i + 4 * c ≤ 65536 →
      ∃ ws, (pageRun buffer c i p).pageWrites = p.pageWrites ++ ws ∧
        ws.Pairwise (fun a b => a < b) ∧
        ∀ w ∈ ws, i ≤ w ∧ w < i + 4 * c ∧ (w - i) % 4 = 0 := by
  induction c with
  | zero =>
    intro i p _
    exact ⟨[], (List.append_nil _).symm, List.Pairwise.nil, fun w hw => absurd hw (List.not_mem_nil w)⟩
  | succ c ih =>
    intro i p ha
    have hm := Nat.mod_lt (i + 4) (show 0 < 65536 by decide)
    obtain ⟨ws, hws, hpw, hin⟩ := ih ((i + 4) % 65536) (pageBody buffer i p)
      (by show (i + 4) % 65536 + 4 * c ≤ 65536; omega)
    have hgt : ∀ w ∈ ws, i < w ∧ i ≤ w ∧ w < i + 4 * (c + 1) ∧ (w - i) % 4 = 0 := by
      intro w hw
      obtain ⟨h1, h2, h3⟩ := hin w hw
      omega
    show ∃ ws', (pageRun buffer c ((i + 4) % 65536) (pageBody buffer i p)).pageWrites =
      p.pageWrites ++ ws' ∧ _
    rcases pageBody_writes buffer i p with hb | hb
    · refine ⟨ws, by rw [hws, hb], hpw, fun w hw => (hgt w hw).2⟩
    · refine ⟨i :: ws, by rw [hws, hb, List.append_assoc]; rfl, ?_, ?_⟩
      · exact List.Pairwise.cons (fun w hw => (hgt w hw).1) hpw
      · intro w hw
        rcases List.mem_cons.1 hw with h | h
        · subst h
          omega
        · exact (hgt w h).2

/-! ## Servicing a write request -/

theorem writeInstant_eq (s : System) :
    Scheduler_writeInstant s =
      serviceRequest s.oNFC.update.nfcBuffer (NFC_getUpdateBlkAddress s.oNFC)
        s.oNFC.update.length s := rfl

theorem writeBroadcast_eq (s : System) :
    Scheduler_writeBroadcast s =
      serviceRequest s.oNFC.broadcast.nfcBuffer (NFC_getBroadcastBlkAddress s.oNFC)
        s.oNFC.broadcast.length s := rfl

theorem writeProductInfo_eq (s : System) :
    Scheduler_writeProductInfo s =
      serviceRequest s.oNFC.productInfoData BLOCK_NVM_OFFSET (s.oNFC.productInfoLength % 256)
        s := rfl

/-- A service that has come to its end is a run of `c` pages that lie below the
top of the address space, and the same holds for the service of the same request
from any other state. -/
theorem service_returns (buffer : Nat → Nat) (a n : Nat) (s : System) (ha : a < 65536)
    (h : (serviceRequest buffer a n s).1.halted = false) :
    ∃ c, a + 4 * c ≤ 65536 ∧ ∀ t : System,
      serviceRequest buffer a n t =
        ((pageRun buffer c a ⟨t, 0, []⟩).sys, (pageRun buffer c a ⟨t, 0, []⟩).pageWrites) := by
  obtain ⟨-, c, hc, hin, hex⟩ := pageLoop_returns buffer _ PAGE_LOOP_FUEL a ⟨s, 0, []⟩ h ha
  have hlim := Nat.mod_lt (a + n) (show 0 < 65536 by decide)
  have hgeo : a + 4 * c ≤ 65536 := by
    have hc2 : c < 16385 := hc
    by_cases h0 : c = 0
    · omega
    · have := hin 0 (by omega)
      omega
  refine ⟨c, hgeo, fun t => ?_⟩
  unfold serviceRequest
  rw [pageLoop_run buffer _ c PAGE_LOOP_FUEL a ⟨t, 0, []⟩ hc hin hex ha]

/-- Servicing the request that has just been serviced writes no page and changes
nothing. -/
theorem service_twice (buffer : Nat → Nat) (a n : Nat) (s : System) (ha : a < 65536)
    (h : (serviceRequest buffer a n s).1.halted = false) :
    serviceRequest buffer a n (serviceRequest buffer a n s).1 =
      ((serviceRequest buffer a n s).1, []) := by
  obtain ⟨c, hgeo, hall⟩ := service_returns buffer a n s ha h
  rw [hall s]
  dsimp only
  rw [hall]
  have hclean := pageRun_clean buffer c a ⟨(pageRun buffer c a ⟨s, 0, []⟩).sys, 0, []⟩
    (show (0:Nat) < 256 by decide) hgeo
    (by
      intro x hx1 hx2
      show (pageRun buffer c a ⟨s, 0, []⟩).sys.nfcMem x = _
      rw [pageRun_mem buffer c a ⟨s, 0, []⟩ (show (0:Nat) < 256 by decide) hgeo x, if_pos ⟨hx1, hx2⟩])
  rw [hclean]

/-- A request whose pages end below the top of the address space is serviced in
`pagesOf n` passes. -/
theorem service_fits (buffer : Nat → Nat) (a n : Nat) (s : System)
    (hfit : a + 4 * pagesOf n < 65536) :
    serviceRequest buffer a n s =
      ((pageRun buffer (pagesOf n) a ⟨s, 0, []⟩).sys,
        (pageRun buffer (pagesOf n) a ⟨s, 0, []⟩).pageWrites) := by
  unfold pagesOf at hfit ⊢
  unfold serviceRequest
  rw [pageLoop_run buffer _ ((n + 3) / 4) PAGE_LOOP_FUEL a ⟨s, 0, []⟩
    (by show (n + 3) / 4 < 16385; omega) (by intro j hj; omega) (by omega) (by omega)]

/-- What servicing a request of `n ≤ 256` bytes at `a` leaves behind, when its
pages end below the top of the address space: the service returns, byte `a + k`
of the memory is byte `k` of the request for every `k < n`, the bytes outside the
pages are as before, and the pages written are visited in strictly increasing
address order, each of them one of `a`, `a + 4`, `a + 8`, ... -/
theorem service_stores (buffer : Nat → Nat) (a n : Nat) (s : System) (hn : n ≤ 256)
    (hfit : a + 4 * pagesOf n < 65536) :
    Serviced s (serviceRequest buffer a n s).1 ∧
    (∀ k, k < n → (serviceRequest buffer a n s).1.nfcMem (a + k) = buffer k) ∧
    (∀ x, x < a ∨ a + 4 * pagesOf n ≤ x →
      (serviceRequest buffer a n s).1.nfcMem x = s.nfcMem x) ∧
    (serviceRequest buffer a n s).2.Pairwise (fun u w => u < w) ∧
    (∀ w ∈ (serviceRequest buffer a n s).2, a ≤ w ∧ w < a + 4 * pagesOf n ∧ (w - a) % 4 = 0) := by
  rw [service_fits buffer a n s hfit]
  dsimp only
  have hc : n ≤ 4 * pagesOf n := by unfold pagesOf; omega
  have hc2 : 4 * pagesOf n ≤ 256 := by unfold pagesOf; omega
  obtain ⟨ws, hws, hpw, hin⟩ := pageRun_writes buffer (pagesOf n) a ⟨s, 0, []⟩ (by omega)
  have hws2 : (pageRun buffer (pagesOf n) a ⟨s, 0, []⟩).pageWrites = ws := by
    rw [hws]
    rfl
  refine ⟨pageRun_serviced buffer _ a ⟨s, 0, []⟩, ?_, ?_, ?_, ?_⟩
  · intro k hk
    rw [pageRun_mem buffer _ a ⟨s, 0, []⟩ (show (0:Nat) < 256 by decide) (by omega), if_pos (by omega)]
    congr 1
    show (0 + (a + k - a)) % 256 = k
    omega
  · intro x hx
    rw [pageRun_mem buffer _ a ⟨s, 0, []⟩ (show (0:Nat) < 256 by decide) (by omega), if_neg (by omega)]
  · rw [hws2]
    exact hpw
  · rw [hws2]
    exact hin

/-- The page loop does not run when the 16-bit limit is not above the start
address. -/
theorem service_wrapped (buffer : Nat → Nat) (a n : Nat) (s : System)
    (h : (a + n) % 65536 ≤ a) : serviceRequest buffer a n s = (s, []) := by
  unfold serviceRequest
  show ((if a < (a + n) % 65536 then _ else (⟨s, 0, []⟩ : PageState)).sys,
    (if a < (a + n) % 65536 then _ else (⟨s, 0, []⟩ : PageState)).pageWrites) = _
  rw [if_neg (by omega)]

/-- The page loop never ends when the request ends below the top of the address
space but above the last page start that the loop variable can take. -/
theorem service_diverges (buffer : Nat → Nat) (a n : Nat) (s : System)
    (h1 : a + n < 65536) (h2 : 65532 + a % 4 < a + n) :
    (serviceRequest buffer a n s).1.halted = true := by
  unfold serviceRequest
  rw [Nat.mod_eq_of_lt h1]
  exact pageLoop_diverges buffer (a + n) PAGE_LOOP_FUEL a ⟨s, 0, []⟩
    (by intro j _; omega) (by omega)

/-- The page loop changes nothing of the NFC object but the wait flag, whether it
ends or not. -/
theorem pageLoop_requests (buffer : Nat → Nat) (limit : Nat) :
    ∀ (fuel i : Nat) (p : PageState),
      (pageLoop buffer limit fuel i p).sys.oNFC =
        { p.sys.oNFC with
          schedulerNFCWriteWait := (pageLoop buffer limit fuel i p).sys.oNFC.schedulerNFCWriteWait } := by
  intro fuel
  induction fuel with
  | zero => intro i p; rfl
  | succ f ih =>
    intro i p
    show (if i < limit then pageLoop buffer limit f ((i + BYTES_IN_PAGE) % 65536)
      (pageBody buffer i p) else p).sys.oNFC = { p.sys.oNFC with schedulerNFCWriteWait :=
        (if i < limit then pageLoop buffer limit f ((i + BYTES_IN_PAGE) % 65536)
          (pageBody buffer i p) else p).sys.oNFC.schedulerNFCWriteWait }
    by_cases h : i < limit
    · rw [if_pos h, ih, (pageBody_serviced buffer i p).requests]
    · rw [if_neg h]

theorem service_requests (buffer : Nat → Nat) (a n : Nat) (s : System) :
    (serviceRequest buffer a n s).1.oNFC =
      { s.oNFC with
        schedulerNFCWriteWait := (serviceRequest buffer a n s).1.oNFC.schedulerNFCWriteWait } :=
  pageLoop_requests buffer _ PAGE_LOOP_FUEL a ⟨s, 0, []⟩

theorem updateBlkAddress_lt (nfc : NFC_STYP) : NFC_getUpdateBlkAddress nfc < 65536 :=
  Nat.mod_lt _ (by decide)

theorem broadcastBlkAddress_lt (nfc : NFC_STYP) : NFC_getBroadcastBlkAddress nfc < 65536 :=
  Nat.mod_lt _ (by decide)

/-- The page read by the loop body equals the next four bytes of the buffer
exactly when the comparison counts four matches; the device address wraps at
16 bits. -/
theorem page_count_wrap (buffer : Nat → Nat) (i : Nat) (p : PageState) (hi : p.index < 256) :
    (compareLoop buffer (NFC_SequentialRead p.sys.nfcMem i BYTES_IN_PAGE (fun _ => 0)) p.index
        BYTES_IN_PAGE).1 = BYTES_IN_PAGE ↔
      ∀ k, k < BYTES_IN_PAGE →
        p.sys.nfcMem ((i + k) % 65536) = buffer ((p.index + k) % 256) := by
  rw [(compareLoop_count buffer _ p.index BYTES_IN_PAGE hi (by decide)).2]
  constructor
  · intro h k hk
    have := h k hk
    rw [sequentialRead_apply _ _ _ _ hk] at this
    exact this
  · intro h k hk
    rw [sequentialRead_apply _ _ _ _ hk]
    exact h k hk

/-- Servicing a request for the second time, directly after a service of it that
has come to its end, writes no page and changes nothing. -/
theorem service_again (buffer : Nat → Nat) (a n : Nat) (s : System) (ha : a < 65536)
    (h : (serviceRequest buffer a n s).1.halted = false)
    (t : System) (ht : t = (serviceRequest buffer a n s).1) :
    serviceRequest buffer a n t = (t, []) := by
  rw [ht]
  exact service_twice buffer a n s ha h

theorem updateBlkAddress_congr (a b : NFC_STYP) (h : a.update = b.update) :
    NFC_getUpdateBlkAddress a = NFC_getUpdateBlkAddress b := by
  unfold NFC_getUpdateBlkAddress
  rw [h]

theorem broadcastBlkAddress_congr (a b : NFC_STYP) (h : a.broadcast = b.broadcast) :
    NFC_getBroadcastBlkAddress a = NFC_getBroadcastBlkAddress b := by
  unfold NFC_getBroadcastBlkAddress
  rw [h]

theorem writeInstant_twice (s : System) (h : (Scheduler_writeInstant s).1.halted = false) :
    Scheduler_writeInstant (Scheduler_writeInstant s).1 = ((Scheduler_writeInstant s).1, []) := by
  have hreq := service_requests s.oNFC.update.nfcBuffer (NFC_getUpdateBlkAddress s.oNFC)
    s.oNFC.update.length s
  rw [writeInstant_eq s] at h ⊢
  have key := service_twice _ _ _ s (updateBlkAddress_lt s.oNFC) h
  have hu : (serviceRequest s.oNFC.update.nfcBuffer (NFC_getUpdateBlkAddress s.oNFC)
      s.oNFC.update.length s).1.oNFC.update = s.oNFC.update := by rw [hreq]
  have ha : NFC_getUpdateBlkAddress (serviceRequest s.oNFC.update.nfcBuffer
      (NFC_getUpdateBlkAddress s.oNFC) s.oNFC.update.length s).1.oNFC =
      NFC_getUpdateBlkAddress s.oNFC := updateBlkAddress_congr _ _ hu
  rw [writeInstant_eq, hu, ha]
  exact key

theorem writeBroadcast_twice (s : System) (h : (Scheduler_writeBroadcast s).1.halted = false) :
    Scheduler_writeBroadcast (Scheduler_writeBroadcast s).1 =
      ((Scheduler_writeBroadcast s).1, []) := by
  have hreq := service_requests s.oNFC.broadcast.nfcBuffer (NFC_getBroadcastBlkAddress s.oNFC)
    s.oNFC.broadcast.length s
  rw [writeBroadcast_eq s] at h ⊢
  have key := service_twice _ _ _ s (broadcastBlkAddress_lt s.oNFC) h
  have hu : (serviceRequest s.oNFC.broadcast.nfcBuffer (NFC_getBroadcastBlkAddress s.oNFC)
      s.oNFC.broadcast.length s).1.oNFC.broadcast = s.oNFC.broadcast := by rw [hreq]
  have ha : NFC_getBroadcastBlkAddress (serviceRequest s.oNFC.broadcast.nfcBuffer
      (NFC_getBroadcastBlkAddress s.oNFC) s.oNFC.broadcast.length s).1.oNFC =
      NFC_getBroadcastBlkAddress s.oNFC := broadcastBlkAddress_congr _ _ hu
  rw [writeBroadcast_eq, hu, ha]
  exact key

theorem writeProductInfo_twice (s : System)
    (h : (Scheduler_writeProductInfo s).1.halted = false) :
    Scheduler_writeProductInfo (Scheduler_writeProductInfo s).1 =
      ((Scheduler_writeProductInfo s).1, []) := by
  have hreq := service_requests s.oNFC.productInfoData BLOCK_NVM_OFFSET
    (s.oNFC.productInfoLength % 256) s
  rw [writeProductInfo_eq s] at h ⊢
  have key := service_twice _ _ _ s (show BLOCK_NVM_OFFSET < 65536 by decide) h
  have hd : (serviceRequest s.oNFC.productInfoData BLOCK_NVM_OFFSET
      (s.oNFC.productInfoLength % 256) s).1.oNFC.productInfoData = s.oNFC.productInfoData := by
    rw [hreq]
  have hl : (serviceRequest s.oNFC.productInfoData BLOCK_NVM_OFFSET
      (s.oNFC.productInfoLength % 256) s).1.oNFC.productInfoLength =
      s.oNFC.productInfoLength := by
    rw [hreq]
  rw [writeProductInfo_eq, hd, hl]
  exact key

/-- A page whose stored bytes already equal the request data is not written: the
loop body leaves the firmware state and the list of pages written as they are. -/
theorem pageBody_skips (buffer : Nat → Nat) (i : Nat) (p : PageState) (hi : p.index < 256)
    (h : ∀ k, k < BYTES_IN_PAGE →
      p.sys.nfcMem ((i + k) % 65536) = buffer ((p.index + k) % 256)) :
    (pageBody buffer i p).pageWrites = p.pageWrites ∧ (pageBody buffer i p).sys = p.sys := by
  have hc := (page_count_wrap buffer i p hi).2 h
  unfold pageBody
  dsimp only
  rw [if_neg (fun hne => hne hc)]
  exact ⟨rfl, rfl⟩

/-! ## C25 — a page that holds the data already is not written -/

/-- C25.  The NFC memory of the model returns the bytes last written.  For every
request buffer, page address `i` and loop state: when the four bytes stored at
the page (device addresses `i .. i + 3`, in 16 bits) equal the next four bytes of
the request buffer, the loop body of the write functions calls no
`NFC_PageWrite` and leaves the firmware state as it is.  And for every state
`s`: when `Scheduler_writeInstant`, `Scheduler_writeBroadcast` or
`Scheduler_writeProductInfo` has serviced its request and is called again
directly afterwards (nothing changed the request in between, so the start
address, the length and the data are the same), the second call returns, writes
no page and leaves the firmware state as the first call left it. -/
theorem C25_second_service_writes_no_page (s : System) (buffer : Nat → Nat) (i : Nat)
    (p : PageState) (hi : p.index < 256) :
    ((∀ k, k < BYTES_IN_PAGE →
        p.sys.nfcMem ((i + k) % 65536) = buffer ((p.index + k) % 256)) →
      (pageBody buffer i p).pageWrites = p.pageWrites ∧ (pageBody buffer i p).sys = p.sys) ∧
    ((Scheduler_writeInstant s).1.halted = false →
      Scheduler_writeInstant (Scheduler_writeInstant s).1 =
        ((Scheduler_writeInstant s).1, [])) ∧
    ((Scheduler_writeBroadcast s).1.halted = false →
      Scheduler_writeBroadcast (Scheduler_writeBroadcast s).1 =
        ((Scheduler_writeBroadcast s).1, [])) ∧
    ((Scheduler_writeProductInfo s).1.halted = false →
      Scheduler_writeProductInfo (Scheduler_writeProductInfo s).1 =
        ((Scheduler_writeProductInfo s).1, [])) :=
  ⟨pageBody_skips buffer i p hi, writeInstant_twice s, writeBroadcast_twice s,
    writeProductInfo_twice s⟩

set_option maxRecDepth 100000 in
theorem C25_second_service_writes_no_page_witness :
    ((Scheduler_writeInstant (thenRequest systemStarted writeRegisterOneOwn)).2 = [0x22] ∧
      Scheduler_writeInstant
          (Scheduler_writeInstant (thenRequest systemStarted writeRegisterOneOwn)).1 =
        ((Scheduler_writeInstant (thenRequest systemStarted writeRegisterOneOwn)).1, [])) ∧
    ((Scheduler_writeBroadcast (thenRequest systemStarted writeRegisterSixteenBroadcast)).2 =
        [0x60] ∧
      Scheduler_writeBroadcast
          (Scheduler_writeBroadcast
            (thenRequest systemStarted writeRegisterSixteenBroadcast)).1 =
        ((Scheduler_writeBroadcast
          (thenRequest systemStarted writeRegisterSixteenBroadcast)).1, [])) ∧
    ((Scheduler_writeProductInfo (thenRequest systemStarted storeInfoSix)).2 = [0x20, 0x24] ∧
      Scheduler_writeProductInfo
          (Scheduler_writeProductInfo (thenRequest systemStarted storeInfoSix)).1 =
        ((Scheduler_writeProductInfo (thenRequest systemStarted storeInfoSix)).1, [])) ∧
    (pageBody (thenRequest systemStarted writeRegisterOneOwn).oNFC.update.nfcBuffer 0x22
        ⟨(Scheduler_writeInstant (thenRequest systemStarted writeRegisterOneOwn)).1, 0, []⟩).pageWrites
      = [] :=
  ⟨⟨by decide,
      (C25_second_service_writes_no_page (thenRequest systemStarted writeRegisterOneOwn)
        (fun _ => 0) 0 ⟨systemStarted, 0, []⟩ (by decide)).2.1 (by decide)⟩,
    ⟨by decide,
      (C25_second_service_writes_no_page
        (thenRequest systemStarted writeRegisterSixteenBroadcast)
        (fun _ => 0) 0 ⟨systemStarted, 0, []⟩ (by decide)).2.2.1 (by decide)⟩,
    ⟨by decide,
      (C25_second_service_writes_no_page (thenRequest systemStarted storeInfoSix)
        (fun _ => 0) 0 ⟨systemStarted, 0, []⟩ (by decide)).2.2.2 (by decide)⟩,
    ((C25_second_service_writes_no_page systemStarted
        (thenRequest systemStarted writeRegisterOneOwn).oNFC.update.nfcBuffer 0x22
        ⟨(Scheduler_writeInstant (thenRequest systemStarted writeRegisterOneOwn)).1, 0, []⟩
        (by decide)).1 (by decide)).1⟩

/-! ## The scheduler's choice of a request -/

theorem minTimeoutCheck_oNFC (s : System) : (Scheduler_minTimeoutCheck s).oNFC = s.oNFC := by
  unfold Scheduler_minTimeoutCheck
  dsimp only
  split_ifs <;> rfl

theorem minTimeoutCheck_halted (s : System) :
    (Scheduler_minTimeoutCheck s).halted = s.halted := by
  unfold Scheduler_minTimeoutCheck
  dsimp only
  split_ifs <;> rfl

theorem minTimeoutCheck_nfcMem (s : System) :
    (Scheduler_minTimeoutCheck s).nfcMem = s.nfcMem := by
  unfold Scheduler_minTimeoutCheck
  dsimp only
  split_ifs <;> rfl

theorem sameRequests_refl (a : NFC_STYP) : SameRequests a a := ⟨rfl, rfl, rfl, rfl⟩

theorem sameRequests_trans {a b c : NFC_STYP} (h1 : SameRequests a b) (h2 : SameRequests b c) :
    SameRequests a c :=
  ⟨h2.update.trans h1.update, h2.broadcast.trans h1.broadcast, h2.data.trans h1.data,
    h2.length.trans h1.length⟩

/-- A service whose pages end below the top of the address space returns. -/
theorem service_fits_returns (buffer : Nat → Nat) (a n : Nat) (s : System)
    (hfit : a + 4 * pagesOf n < 65536) :
    (serviceRequest buffer a n s).1.halted = s.halted := by
  rw [service_fits buffer a n s hfit]
  exact (pageRun_serviced buffer _ a ⟨s, 0, []⟩).halted

/-- The call of `Scheduler_manageTasks` with an Instant request pending whose
service returns: the Instant request is serviced and `instantWriteFLG` is
cleared. -/
theorem manageTasks_instant (s : System) (hh : s.halted = false)
    (hI : s.oNFC.instantWriteFLG = TRUE)
    (hr : (Scheduler_writeInstant (Scheduler_minTimeoutCheck s)).1.halted = false) :
    Scheduler_manageTasks s =
      ({ (Scheduler_writeInstant (Scheduler_minTimeoutCheck s)).1 with
          oNFC := { (Scheduler_writeInstant (Scheduler_minTimeoutCheck s)).1.oNFC with
            instantWriteFLG := FALSE } },
        (Scheduler_writeInstant (Scheduler_minTimeoutCheck s)).2) := by
  unfold Scheduler_manageTasks
  rw [if_neg (by rw [hh]; decide)]
  dsimp only
  rw [if_pos (by rw [minTimeoutCheck_oNFC]; exact hI), if_neg (by rw [hr]; decide)]

/-- The call of `Scheduler_manageTasks` with an Instant request pending whose
service never returns: the call never returns and no flag is cleared. -/
theorem manageTasks_instant_halts (s : System) (hh : s.halted = false)
    (hI : s.oNFC.instantWriteFLG = TRUE)
    (hr : (Scheduler_writeInstant (Scheduler_minTimeoutCheck s)).1.halted = true) :
    Scheduler_manageTasks s = Scheduler_writeInstant (Scheduler_minTimeoutCheck s) := by
  unfold Scheduler_manageTasks
  rw [if_neg (by rw [hh]; decide)]
  dsimp only
  rw [if_pos (by rw [minTimeoutCheck_oNFC]; exact hI), if_pos hr]

theorem manageTasks_productInfo (s : System) (hh : s.halted = false)
    (hI : s.oNFC.instantWriteFLG ≠ TRUE) (hP : s.oNFC.productInfoFLG = TRUE)
    (hr : (Scheduler_writeProductInfo (Scheduler_minTimeoutCheck s)).1.halted = false) :
    Scheduler_manageTasks s =
      ({ (Scheduler_writeProductInfo (Scheduler_minTimeoutCheck s)).1 with
          oNFC := { (Scheduler_writeProductInfo (Scheduler_minTimeoutCheck s)).1.oNFC with
            productInfoFLG := FALSE } },
        (Scheduler_writeProductInfo (Scheduler_minTimeoutCheck s)).2) := by
  unfold Scheduler_manageTasks
  rw [if_neg (by rw [hh]; decide)]
  dsimp only
  rw [if_neg (by rw [minTimeoutCheck_oNFC]; exact hI),
    if_pos (by rw [minTimeoutCheck_oNFC]; exact hP), if_neg (by rw [hr]; decide)]

theorem manageTasks_broadcast (s : System) (hh : s.halted = false)
    (hI : s.oNFC.instantWriteFLG ≠ TRUE) (hP : s.oNFC.productInfoFLG ≠ TRUE)
    (hB : s.oNFC.storeBroadcastFLG = TRUE)
    (hr : (Scheduler_writeBroadcast (Scheduler_minTimeoutCheck s)).1.halted = false) :
    Scheduler_manageTasks s =
      ({ (Scheduler_writeBroadcast (Scheduler_minTimeoutCheck s)).1 with
          oNFC := { clearBlockFlags (Scheduler_writeBroadcast (Scheduler_minTimeoutCheck s)).1.oNFC
            with storeBroadcastFLG := FALSE } },
        (Scheduler_writeBroadcast (Scheduler_minTimeoutCheck s)).2) := by
  unfold Scheduler_manageTasks
  rw [if_neg (by rw [hh]; decide)]
  dsimp only
  rw [if_neg (by rw [minTimeoutCheck_oNFC]; exact hI),
    if_neg (by rw [minTimeoutCheck_oNFC]; exact hP),
    if_pos (by rw [minTimeoutCheck_oNFC]; exact hB), if_neg (by rw [hr]; decide)]

theorem clearBlockFlags_requests (nfc : NFC_STYP) :
    SameRequests nfc (clearBlockFlags nfc) ∧
    (clearBlockFlags nfc).instantWriteFLG = nfc.instantWriteFLG ∧
    (clearBlockFlags nfc).productInfoFLG = nfc.productInfoFLG ∧
    (clearBlockFlags nfc).storeBroadcastFLG = nfc.storeBroadcastFLG := by
  unfold clearBlockFlags
  split_ifs <;> exact ⟨⟨rfl, rfl, rfl, rfl⟩, rfl, rfl, rfl⟩

/-- A service changes no request and no pending flag. -/
theorem service_flags (buffer : Nat → Nat) (a n : Nat) (s : System) :
    SameRequests s.oNFC (serviceRequest buffer a n s).1.oNFC ∧
    (serviceRequest buffer a n s).1.oNFC.instantWriteFLG = s.oNFC.instantWriteFLG ∧
    (serviceRequest buffer a n s).1.oNFC.productInfoFLG = s.oNFC.productInfoFLG ∧
    (serviceRequest buffer a n s).1.oNFC.storeBroadcastFLG = s.oNFC.storeBroadcastFLG := by
  rw [service_requests buffer a n s]
  exact ⟨⟨rfl, rfl, rfl, rfl⟩, rfl, rfl, rfl⟩

/-- The call of `Scheduler_manageTasks` with an Instant request pending whose
pages end below the top of the address space: the call returns, it has serviced
the Instant request and nothing else, `instantWriteFLG` is cleared and the two
other pending flags and all requests are as before. -/
theorem manageTasks_services_instant (s : System) (hh : s.halted = false)
    (hI : s.oNFC.instantWriteFLG = TRUE)
    (hfit : NFC_getUpdateBlkAddress s.oNFC + 4 * pagesOf s.oNFC.update.length < 65536) :
    (Scheduler_manageTasks s).1.halted = false ∧
    (Scheduler_manageTasks s).1.oNFC.instantWriteFLG = FALSE ∧
    (Scheduler_manageTasks s).1.oNFC.productInfoFLG = s.oNFC.productInfoFLG ∧
    (Scheduler_manageTasks s).1.oNFC.storeBroadcastFLG = s.oNFC.storeBroadcastFLG ∧
    SameRequests s.oNFC (Scheduler_manageTasks s).1.oNFC ∧
    (Scheduler_manageTasks s).2 = (Scheduler_writeInstant (Scheduler_minTimeoutCheck s)).2 ∧
    (Scheduler_manageTasks s).1.nfcMem =
      (Scheduler_writeInstant (Scheduler_minTimeoutCheck s)).1.nfcMem := by
  have hr : (Scheduler_writeInstant (Scheduler_minTimeoutCheck s)).1.halted = false := by
    rw [writeInstant_eq, service_fits_returns _ _ _ _ (by rw [minTimeoutCheck_oNFC]; exact hfit),
      minTimeoutCheck_halted, hh]
  have hf := service_flags (Scheduler_minTimeoutCheck s).oNFC.update.nfcBuffer
    (NFC_getUpdateBlkAddress (Scheduler_minTimeoutCheck s).oNFC)
    (Scheduler_minTimeoutCheck s).oNFC.update.length (Scheduler_minTimeoutCheck s)
  rw [← writeInstant_eq, minTimeoutCheck_oNFC] at hf
  rw [manageTasks_instant s hh hI hr]
  exact ⟨hr, rfl, hf.2.2.1, hf.2.2.2, ⟨hf.1.update, hf.1.broadcast, hf.1.data, hf.1.length⟩,
    rfl, rfl⟩

/-- The call of `Scheduler_manageTasks` with no Instant request and a
product-information request pending: the call returns, it has serviced the
product-information request and nothing else, `productInfoFLG` is cleared and
the two other pending flags and all requests are as before. -/
theorem manageTasks_services_productInfo (s : System) (hh : s.halted = false)
    (hI : s.oNFC.instantWriteFLG = FALSE) (hP : s.oNFC.productInfoFLG = TRUE) :
    (Scheduler_manageTasks s).1.halted = false ∧
    (Scheduler_manageTasks s).1.oNFC.instantWriteFLG = FALSE ∧
    (Scheduler_manageTasks s).1.oNFC.productInfoFLG = FALSE ∧
    (Scheduler_manageTasks s).1.oNFC.storeBroadcastFLG = s.oNFC.storeBroadcastFLG ∧
    SameRequests s.oNFC (Scheduler_manageTasks s).1.oNFC ∧
    (Scheduler_manageTasks s).2 =
      (Scheduler_writeProductInfo (Scheduler_minTimeoutCheck s)).2 ∧
    (Scheduler_manageTasks s).1.nfcMem =
      (Scheduler_writeProductInfo (Scheduler_minTimeoutCheck s)).1.nfcMem := by
  have hfit : ∀ n, BLOCK_NVM_OFFSET + 4 * pagesOf (n % 256) < 65536 := by
    intro n
    unfold pagesOf
    show 0x20 + 4 * ((n % 256 + 3) / 4) < 65536
    omega
  have hr : (Scheduler_writeProductInfo (Scheduler_minTimeoutCheck s)).1.halted = false := by
    rw [writeProductInfo_eq, service_fits_returns _ _ _ _ (hfit _), minTimeoutCheck_halted, hh]
  have hf := service_flags (Scheduler_minTimeoutCheck s).oNFC.productInfoData BLOCK_NVM_OFFSET
    ((Scheduler_minTimeoutCheck s).oNFC.productInfoLength % 256) (Scheduler_minTimeoutCheck s)
  rw [← writeProductInfo_eq, minTimeoutCheck_oNFC] at hf
  rw [manageTasks_productInfo s hh (by rw [hI]; decide) hP hr]
  exact ⟨hr, hf.2.1.trans hI, rfl, hf.2.2.2,
    ⟨hf.1.update, hf.1.broadcast, hf.1.data, hf.1.length⟩, rfl, rfl⟩

/-- The call of `Scheduler_manageTasks` with only a Broadcast request pending
whose pages end below the top of the address space: the call returns, it has
serviced the Broadcast request and nothing else, `storeBroadcastFLG` is cleared
and the two other pending flags and all requests are as before. -/
theorem manageTasks_services_broadcast (s : System) (hh : s.halted = false)
    (hI : s.oNFC.instantWriteFLG = FALSE) (hP : s.oNFC.productInfoFLG = FALSE)
    (hB : s.oNFC.storeBroadcastFLG = TRUE)
    (hfit : NFC_getBroadcastBlkAddress s.oNFC + 4 * pagesOf s.oNFC.broadcast.length < 65536) :
    (Scheduler_manageTasks s).1.halted = false ∧
    (Scheduler_manageTasks s).1.oNFC.instantWriteFLG = FALSE ∧
    (Scheduler_manageTasks s).1.oNFC.productInfoFLG = FALSE ∧
    (Scheduler_manageTasks s).1.oNFC.storeBroadcastFLG = FALSE ∧
    SameRequests s.oNFC (Scheduler_manageTasks s).1.oNFC ∧
    (Scheduler_manageTasks s).2 = (Scheduler_writeBroadcast (Scheduler_minTimeoutCheck s)).2 ∧
    (Scheduler_manageTasks s).1.nfcMem =
      (Scheduler_writeBroadcast (Scheduler_minTimeoutCheck s)).1.nfcMem := by
  have hr : (Scheduler_writeBroadcast (Scheduler_minTimeoutCheck s)).1.halted = false := by
    rw [writeBroadcast_eq,
      service_fits_returns _ _ _ _ (by rw [minTimeoutCheck_oNFC]; exact hfit),
      minTimeoutCheck_halted, hh]
  have hf := service_flags (Scheduler_minTimeoutCheck s).oNFC.broadcast.nfcBuffer
    (NFC_getBroadcastBlkAddress (Scheduler_minTimeoutCheck s).oNFC)
    (Scheduler_minTimeoutCheck s).oNFC.broadcast.length (Scheduler_minTimeoutCheck s)
  rw [← writeBroadcast_eq, minTimeoutCheck_oNFC] at hf
  have hc := clearBlockFlags_requests (Scheduler_writeBroadcast (Scheduler_minTimeoutCheck s)).1.oNFC
  rw [manageTasks_broadcast s hh (by rw [hI]; decide) (by rw [hP]; decide) hB hr]
  exact ⟨hr, hc.2.1.trans (hf.2.1.trans hI), hc.2.2.1.trans (hf.2.2.1.trans hP), rfl,
    ⟨hc.1.update.trans hf.1.update, hc.1.broadcast.trans hf.1.broadcast,
      hc.1.data.trans hf.1.data, hc.1.length.trans hf.1.length⟩, rfl, rfl⟩

/-- The priority order of the scheduler when nothing wraps.  With the three
pending flags set and the pages of the Instant and of the Broadcast request ending
below the top of the address space, three successive calls of
`Scheduler_manageTasks` return; the first services the Instant request, the
second the product-information request and the third the Broadcast request; the
pending flags after the calls are (0, 1, 1), (0, 0, 1) and (0, 0, 0). -/
theorem manageTasks_priority (s : System) (hh : s.halted = false)
    (hI : s.oNFC.instantWriteFLG = TRUE) (hP : s.oNFC.productInfoFLG = TRUE)
    (hB : s.oNFC.storeBroadcastFLG = TRUE)
    (hfI : NFC_getUpdateBlkAddress s.oNFC + 4 * pagesOf s.oNFC.update.length < 65536)
    (hfB : NFC_getBroadcastBlkAddress s.oNFC + 4 * pagesOf s.oNFC.broadcast.length < 65536) :
    ((Scheduler_manageTasks s).1.halted = false ∧
      (Scheduler_manageTasks s).2 = (Scheduler_writeInstant (Scheduler_minTimeoutCheck s)).2 ∧
      (Scheduler_manageTasks s).1.nfcMem =
        (Scheduler_writeInstant (Scheduler_minTimeoutCheck s)).1.nfcMem ∧
      (Scheduler_manageTasks s).1.oNFC.instantWriteFLG = FALSE ∧
      (Scheduler_manageTasks s).1.oNFC.productInfoFLG = TRUE ∧
      (Scheduler_manageTasks s).1.oNFC.storeBroadcastFLG = TRUE) ∧
    ((Scheduler_manageTasks (Scheduler_manageTasks s).1).1.halted = false ∧
      (Scheduler_manageTasks (Scheduler_manageTasks s).1).2 =
        (Scheduler_writeProductInfo
          (Scheduler_minTimeoutCheck (Scheduler_manageTasks s).1)).2 ∧
      (Scheduler_manageTasks (Scheduler_manageTasks s).1).1.nfcMem =
        (Scheduler_writeProductInfo
          (Scheduler_minTimeoutCheck (Scheduler_manageTasks s).1)).1.nfcMem ∧
      (Scheduler_manageTasks (Scheduler_manageTasks s).1).1.oNFC.instantWriteFLG = FALSE ∧
      (Scheduler_manageTasks (Scheduler_manageTasks s).1).1.oNFC.productInfoFLG = FALSE ∧
      (Scheduler_manageTasks (Scheduler_manageTasks s).1).1.oNFC.storeBroadcastFLG = TRUE) ∧
    ((Scheduler_manageTasks (Scheduler_manageTasks (Scheduler_manageTasks s).1).1).1.halted =
        false ∧
      (Scheduler_manageTasks (Scheduler_manageTasks (Scheduler_manageTasks s).1).1).2 =
        (Scheduler_writeBroadcast (Scheduler_minTimeoutCheck
          (Scheduler_manageTasks (Scheduler_manageTasks s).1).1)).2 ∧
      (Scheduler_manageTasks (Scheduler_manageTasks (Scheduler_manageTasks s).1).1).1.nfcMem =
        (Scheduler_writeBroadcast (Scheduler_minTimeoutCheck
          (Scheduler_manageTasks (Scheduler_manageTasks s).1).1)).1.nfcMem ∧
      (Scheduler_manageTasks
        (Scheduler_manageTasks (Scheduler_manageTasks s).1).1).1.oNFC.instantWriteFLG = FALSE ∧
      (Scheduler_manageTasks
        (Scheduler_manageTasks (Scheduler_manageTasks s).1).1).1.oNFC.productInfoFLG = FALSE ∧
      (Scheduler_manageTasks
        (Scheduler_manageTasks (Scheduler_manageTasks s).1).1).1.oNFC.storeBroadcastFLG =
          FALSE) := by
  have h1 := manageTasks_services_instant s hh hI hfI
  have h2 := manageTasks_services_productInfo (Scheduler_manageTasks s).1 h1.1 h1.2.1
    (h1.2.2.1.trans hP)
  have hr12 := sameRequests_trans h1.2.2.2.2.1 h2.2.2.2.2.1
  have h3 := manageTasks_services_broadcast (Scheduler_manageTasks (Scheduler_manageTasks s).1).1
    h2.1 h2.2.1 h2.2.2.1 (h2.2.2.2.1.trans (h1.2.2.2.1.trans hB))
    (by
      rw [broadcastBlkAddress_congr _ _ hr12.broadcast, hr12.broadcast]
      exact hfB)
  exact ⟨⟨h1.1, h1.2.2.2.2.2.1, h1.2.2.2.2.2.2, h1.2.1, h1.2.2.1.trans hP,
      h1.2.2.2.1.trans hB⟩,
    ⟨h2.1, h2.2.2.2.2.2.1, h2.2.2.2.2.2.2, h2.2.1, h2.2.2.1,
      h2.2.2.2.1.trans (h1.2.2.2.1.trans hB)⟩,
    ⟨h3.1, h3.2.2.2.2.2.1, h3.2.2.2.2.2.2, h3.2.1, h3.2.2.1, h3.2.2.2.1⟩⟩

/-- The call of `Scheduler_manageTasks` with an Instant request pending that ends
below the top of the address space but above the last page start: the call never
returns, and the pending flags and the requests stay as they are. -/
theorem manageTasks_instant_diverges (s : System) (hh : s.halted = false)
    (hI : s.oNFC.instantWriteFLG = TRUE)
    (h1 : NFC_getUpdateBlkAddress s.oNFC + s.oNFC.update.length < 65536)
    (h2 : 65532 + NFC_getUpdateBlkAddress s.oNFC % 4 <
      NFC_getUpdateBlkAddress s.oNFC + s.oNFC.update.length) :
    (Scheduler_manageTasks s).1.halted = true ∧
    (Scheduler_manageTasks s).1.oNFC.instantWriteFLG = TRUE ∧
    (Scheduler_manageTasks s).1.oNFC.productInfoFLG = s.oNFC.productInfoFLG ∧
    (Scheduler_manageTasks s).1.oNFC.storeBroadcastFLG = s.oNFC.storeBroadcastFLG ∧
    SameRequests s.oNFC (Scheduler_manageTasks s).1.oNFC := by
  have hr : (Scheduler_writeInstant (Scheduler_minTimeoutCheck s)).1.halted = true := by
    rw [writeInstant_eq]
    exact service_diverges _ _ _ _ (by rw [minTimeoutCheck_oNFC]; exact h1)
      (by rw [minTimeoutCheck_oNFC]; exact h2)
  have hf := service_flags (Scheduler_minTimeoutCheck s).oNFC.update.nfcBuffer
    (NFC_getUpdateBlkAddress (Scheduler_minTimeoutCheck s).oNFC)
    (Scheduler_minTimeoutCheck s).oNFC.update.length (Scheduler_minTimeoutCheck s)
  rw [← writeInstant_eq, minTimeoutCheck_oNFC] at hf
  rw [manageTasks_instant_halts s hh hI hr]
  exact ⟨hr, hf.2.1.trans hI, hf.2.2.1, hf.2.2.2, hf.1⟩

/-! ## C24 — the priority of the pending requests -/

set_option maxRecDepth 100000 in
/-- C24 (evaluation at the failing input).  Three valid requests arrive one after
the other, each after a silence: the store-product-information request
`storeInfoSix`, the broadcast write `writeRegisterSixteenBroadcast` and the write
`writeTopRegisterOwn` to the module address, whose register address `0x1C2E` is
register 32750; `MinSlave_manageMessages` runs after each (state
`threePending`).  The three pending flags are then set, and the Instant request starts at
`NFC_getUpdateBlkAddress = 65532` with length 2.  The first call of
`Scheduler_manageTasks` does not return: in `Scheduler_writeInstant` the 16-bit
loop variable goes from 65532 to 0 and stays below the limit 65534 for ever.  No
pending flag is cleared and no second or third call takes place.  With the three
requests `writeRegisterSixteenBroadcast`, `writeRegisterOneOwn` and
`storeInfoSix` (state `threePendingLow`) the three calls return and write the
pages of the Instant request (`0x22`), then of the product information (`0x20`,
`0x24`), then of the Broadcast request (`0x60`). -/
theorem C24_first_call_never_returns :
    ValidRequest systemStarted (spaced storeInfoSix) Usart.idle ∧
    ValidRequest systemStarted (spaced writeRegisterSixteenBroadcast) Usart.idle ∧
    ValidRequest systemStarted (spaced writeTopRegisterOwn) Usart.idle ∧
    threePending.halted = false ∧
    threePending.oNFC.instantWriteFLG = TRUE ∧
    threePending.oNFC.productInfoFLG = TRUE ∧
    threePending.oNFC.storeBroadcastFLG = TRUE ∧
    NFC_getUpdateBlkAddress threePending.oNFC = 65532 ∧
    threePending.oNFC.update.length = 2 ∧
    (Scheduler_manageTasks threePending).1.halted = true ∧
    (Scheduler_manageTasks threePending).1.oNFC.instantWriteFLG = TRUE ∧
    (Scheduler_manageTasks threePending).1.oNFC.productInfoFLG = TRUE ∧
    (Scheduler_manageTasks threePending).1.oNFC.storeBroadcastFLG = TRUE ∧
    (Scheduler_manageTasks threePendingLow).2 = [0x22] ∧
    (Scheduler_manageTasks (Scheduler_manageTasks threePendingLow).1).2 = [0x20, 0x24] ∧
    (Scheduler_manageTasks
      (Scheduler_manageTasks (Scheduler_manageTasks threePendingLow).1).1).2 = [0x60] := by
  have hh : threePending.halted = false := by decide
  have hI : threePending.oNFC.instantWriteFLG = TRUE := by decide
  have hP : threePending.oNFC.productInfoFLG = TRUE := by decide
  have hB : threePending.oNFC.storeBroadcastFLG = TRUE := by decide
  have ha : NFC_getUpdateBlkAddress threePending.oNFC = 65532 := by decide
  have hl : threePending.oNFC.update.length = 2 := by decide
  have hd := manageTasks_instant_diverges threePending hh hI (by rw [ha, hl]; decide)
    (by rw [ha, hl]; decide)
  exact ⟨by decide, by decide, by decide, hh, hI, hP, hB, ha, hl, hd.1, hd.2.1,
    hd.2.2.1.trans hP, hd.2.2.2.1.trans hB, by decide, by decide, by decide⟩

/-! ## C26 — what a service stores -/

set_option maxRecDepth 100000 in
/-- C26 (evaluation at the failing input).  The valid request `writeTopPageOwn`
(write-multiple-registers to the module address, register address `0x1C2E`, four
data bytes `0x11 0x22 0x33 0x44`) queues an Instant request with start address
`a = 65532` and length `n = 4`, so that `a + 4 * ceil (n / 4) = 65536`.  The
limit `address + length` of the page loop is 0 in 16 bits, the loop body never
runs: `Scheduler_writeInstant` writes no page and changes nothing, the store
bytes `a .. a + 3` are still 0 after `Scheduler_manageTasks` has serviced the
request and cleared `instantWriteFLG`.  For the request `writeTopRegisterOwn`
(same start address, length 2, again `a + 4 * ceil (n / 4) = 65536`) the service
never returns. -/
theorem C26_request_ending_at_top_not_stored :
    ValidRequest systemStarted (spaced writeTopPageOwn) Usart.idle ∧
    (thenRequest systemStarted writeTopPageOwn).oNFC.instantWriteFLG = TRUE ∧
    NFC_getUpdateBlkAddress (thenRequest systemStarted writeTopPageOwn).oNFC = 65532 ∧
    (thenRequest systemStarted writeTopPageOwn).oNFC.update.length = 4 ∧
    65532 + 4 * pagesOf 4 ≤ 65536 ∧
    (List.range 4).map (thenRequest systemStarted writeTopPageOwn).oNFC.update.nfcBuffer =
      [0x11, 0x22, 0x33, 0x44] ∧
    Scheduler_writeInstant (thenRequest systemStarted writeTopPageOwn) =
      (thenRequest systemStarted writeTopPageOwn, []) ∧
    (Scheduler_manageTasks (thenRequest systemStarted writeTopPageOwn)).2 = [] ∧
    (Scheduler_manageTasks (thenRequest systemStarted writeTopPageOwn)).1.oNFC.instantWriteFLG =
      FALSE ∧
    (Scheduler_manageTasks (thenRequest systemStarted writeTopPageOwn)).1.halted = false ∧
    (List.range 4).map (fun k =>
      (Scheduler_manageTasks (thenRequest systemStarted writeTopPageOwn)).1.nfcMem (65532 + k)) =
      [0, 0, 0, 0] ∧
    ValidRequest systemStarted (spaced writeTopRegisterOwn) Usart.idle ∧
    NFC_getUpdateBlkAddress (thenRequest systemStarted writeTopRegisterOwn).oNFC = 65532 ∧
    (thenRequest systemStarted writeTopRegisterOwn).oNFC.update.length = 2 ∧
    65532 + 4 * pagesOf 2 ≤ 65536 ∧
    (Scheduler_writeInstant (thenRequest systemStarted writeTopRegisterOwn)).1.halted = true := by
  have ha : NFC_getUpdateBlkAddress (thenRequest systemStarted writeTopPageOwn).oNFC = 65532 := by
    decide
  have hl : (thenRequest systemStarted writeTopPageOwn).oNFC.update.length = 4 := by decide
  have ha2 : NFC_getUpdateBlkAddress (thenRequest systemStarted writeTopRegisterOwn).oNFC =
      65532 := by decide
  have hl2 : (thenRequest systemStarted writeTopRegisterOwn).oNFC.update.length = 2 := by decide
  refine ⟨by decide, by decide, ha, hl, by decide, by decide, ?_, by decide, by decide,
    by decide, by decide, by decide, ha2, hl2, by decide, ?_⟩
  · rw [writeInstant_eq]
    exact service_wrapped _ _ _ _ (by rw [ha, hl]; decide)
  · rw [writeInstant_eq]
    exact service_diverges _ _ _ _ (by rw [ha2, hl2]; decide) (by rw [ha2, hl2]; decide)

/-! ## C28 — a second request of the same kind -/

/-- A valid write-multiple-registers request sent to the module address replaces
the pending Instant request, whatever it was: afterwards the request holds the
frame's register number `(R - 0x9C40) mod 2^16`, its byte count and its data
bytes, and `instantWriteFLG` is set. -/
theorem unicast_write_pending {s : System} {fr : List (Nat × Nat)} {hw : Usart}
    (v : ValidRequest s fr hw) (hfc : (frameBytes fr).getD 1 0 = MIN_FC16)
    (h2 : (frameBytes fr).getD 0 0 = NFC_SLAVE_ADDRESS) :
    (MinSlave_manageMessages (afterFrame s fr hw)).oNFC.update.registerNumber =
      sub16 ((frameBytes fr).getD 2 0 * 256 + (frameBytes fr).getD 3 0) 0x9C40 ∧
    (MinSlave_manageMessages (afterFrame s fr hw)).oNFC.update.length =
      (frameBytes fr).getD 6 0 ∧
    (∀ i, i < (frameBytes fr).getD 6 0 →
      (MinSlave_manageMessages (afterFrame s fr hw)).oNFC.update.nfcBuffer i =
        (frameBytes fr).getD (7 + i) 0) ∧
    (MinSlave_manageMessages (afterFrame s fr hw)).oNFC.instantWriteFLG = TRUE := by
  have hl : fr.length = (frameBytes fr).getD 6 0 + 9 := by
    rw [validRequest_length v]
    unfold requestLength
    rw [if_pos hfc]
  have r0 := atDispatch_rx v 0 (by omega)
  have r2 := atDispatch_rx v 2 (by omega)
  have r3 := atDispatch_rx v 3 (by omega)
  have r6 := atDispatch_rx v 6 (by omega)
  have hd : (atDispatch s fr hw).oMinSlave.uart.rxBuffer MODBUS_SLAVE_ADDRESS_INDEX =
      NFC_SLAVE_ADDRESS := by rw [← h2]; exact r0
  have hn : (atDispatch s fr hw).oMinSlave.uart.rxBuffer MODBUS_SLAVE_ADDRESS_INDEX ≠
      MODBUS_MASTER_BROADCAST := by rw [hd]; decide
  rw [handled_by v MIN_FC16 hfc _ dispatch_fc16, writeRegs_own_oNFC _ hn hd]
  refine ⟨?_, r6, ?_, rfl⟩
  · show modbusRegisterNumber _ = _
    rw [modbusRegisterNumber_eq _ (by rw [r2]; exact validRequest_byte v 2)
      (by rw [r3]; exact validRequest_byte v 3), r2, r3]
  · intro i hi
    show copyLoop _ 0 _ MODBUS_FC16_DATA_START_INDEX _ i = _
    rw [copyLoop_apply,
      if_pos ⟨Nat.zero_le _, by rw [Nat.zero_add]; exact lt_of_lt_of_eq hi r6.symm⟩]
    show (atDispatch s fr hw).oMinSlave.uart.rxBuffer (7 + i) = _
    exact atDispatch_rx v (7 + i) (by omega)

/-- A valid write-multiple-registers request sent to the broadcast address
replaces the pending Broadcast request, whatever it was: afterwards the request
holds the frame's byte count and data bytes, `storeBroadcastFLG` is set, and the
register number held is twice the frame's register number, in 16 bits. -/
theorem broadcast_write_pending {s : System} {fr : List (Nat × Nat)} {hw : Usart}
    (v : ValidRequest s fr hw) (hfc : (frameBytes fr).getD 1 0 = MIN_FC16)
    (h0 : (frameBytes fr).getD 0 0 = MODBUS_MASTER_BROADCAST) :
    (MinSlave_manageMessages (afterFrame s fr hw)).oNFC.broadcast.registerNumber =
      (sub16 ((frameBytes fr).getD 2 0 * 256 + (frameBytes fr).getD 3 0) 0x9C40 * 2) % 65536 ∧
    (MinSlave_manageMessages (afterFrame s fr hw)).oNFC.broadcast.length =
      (frameBytes fr).getD 6 0 ∧
    (∀ i, i < (frameBytes fr).getD 6 0 →
      (MinSlave_manageMessages (afterFrame s fr hw)).oNFC.broadcast.nfcBuffer i =
        (frameBytes fr).getD (7 + i) 0) ∧
    (MinSlave_manageMessages (afterFrame s fr hw)).oNFC.storeBroadcastFLG = TRUE := by
  have hl : fr.length = (frameBytes fr).getD 6 0 + 9 := by
    rw [validRequest_length v]
    unfold requestLength
    rw [if_pos hfc]
  have r0 := atDispatch_rx v 0 (by omega)
  have r2 := atDispatch_rx v 2 (by omega)
  have r3 := atDispatch_rx v 3 (by omega)
  have r6 := atDispatch_rx v 6 (by omega)
  have hd : (atDispatch s fr hw).oMinSlave.uart.rxBuffer MODBUS_SLAVE_ADDRESS_INDEX =
      MODBUS_MASTER_BROADCAST := by rw [← h0]; exact r0
  rw [handled_by v MIN_FC16 hfc _ dispatch_fc16, writeRegs_broadcast_oNFC _ hd]
  refine ⟨?_, r6, ?_, rfl⟩
  · show (modbusRegisterNumber _ * 2) % 65536 = _
    rw [modbusRegisterNumber_eq _ (by rw [r2]; exact validRequest_byte v 2)
      (by rw [r3]; exact validRequest_byte v 3), r2, r3]
  · intro i hi
    show copyLoop _ 0 _ MODBUS_FC16_DATA_START_INDEX _ i = _
    rw [copyLoop_apply,
      if_pos ⟨Nat.zero_le _, by rw [Nat.zero_add]; exact lt_of_lt_of_eq hi r6.symm⟩]
    show (atDispatch s fr hw).oMinSlave.uart.rxBuffer (7 + i) = _
    exact atDispatch_rx v (7 + i) (by omega)

set_option maxRecDepth 100000 in
/-- C28 (evaluation at the failing input).  Two valid broadcast writes arrive
before the scheduler runs, `writeRegisterOneBroadcast` (register address `0x9C41`)
and then `writeRegisterSixteenBroadcast` (register address `0x9C50`, that is
register 16, data bytes `0x12 0x34`).  The pending Broadcast request holds the
second frame's length 2 and data bytes, but its register number is 32, not 16;
one call of `Scheduler_manageTasks` then clears `storeBroadcastFLG`.  Two valid
writes to the module address arrive before the scheduler runs,
`writeRegisterOneOwn` and then `writeTopRegisterOwn` (register address `0x1C2E`,
that is register 32750, data bytes `0x12 0x34`).  The pending Instant request
holds the second frame's register number 32750, length 2 and data bytes, but the
call of `Scheduler_manageTasks` never returns and `instantWriteFLG` stays
set. -/
theorem C28_second_request_not_as_claimed :
    ValidRequest systemStarted (spaced writeRegisterOneBroadcast) Usart.idle ∧
    ValidRequest systemStarted (spaced writeRegisterSixteenBroadcast) Usart.idle ∧
    sub16 (0x9C * 256 + 0x50) 0x9C40 = 16 ∧
    twoBroadcastWrites.oNFC.storeBroadcastFLG = TRUE ∧
    twoBroadcastWrites.oNFC.broadcast.registerNumber = 32 ∧
    twoBroadcastWrites.oNFC.broadcast.length = 2 ∧
    (List.range 2).map twoBroadcastWrites.oNFC.broadcast.nfcBuffer = [0x12, 0x34] ∧
    (Scheduler_manageTasks twoBroadcastWrites).1.halted = false ∧
    (Scheduler_manageTasks twoBroadcastWrites).1.oNFC.storeBroadcastFLG = FALSE ∧
    ValidRequest systemStarted (spaced writeRegisterOneOwn) Usart.idle ∧
    ValidRequest systemStarted (spaced writeTopRegisterOwn) Usart.idle ∧
    sub16 (0x1C * 256 + 0x2E) 0x9C40 = 32750 ∧
    twoUnicastWrites.oNFC.instantWriteFLG = TRUE ∧
    twoUnicastWrites.oNFC.update.registerNumber = 32750 ∧
    twoUnicastWrites.oNFC.update.length = 2 ∧
    (List.range 2).map twoUnicastWrites.oNFC.update.nfcBuffer = [0x12, 0x34] ∧
    (Scheduler_manageTasks twoUnicastWrites).1.halted = true ∧
    (Scheduler_manageTasks twoUnicastWrites).1.oNFC.instantWriteFLG = TRUE := by
  have hh : twoUnicastWrites.halted = false := by decide
  have hI : twoUnicastWrites.oNFC.instantWriteFLG = TRUE := by decide
  have ha : NFC_getUpdateBlkAddress twoUnicastWrites.oNFC = 65532 := by decide
  have hl : twoUnicastWrites.oNFC.update.length = 2 := by decide
  have hd := manageTasks_instant_diverges twoUnicastWrites hh hI (by rw [ha, hl]; decide)
    (by rw [ha, hl]; decide)
  exact ⟨by decide, by decide, by decide, by decide, by decide, by decide, by decide,
    by decide, by decide, by decide, by decide, by decide, hI, by decide, hl, by decide,
    hd.1, hd.2.1⟩

/-! ## The algebra of the CRC: residue and error detection -/

theorem crcOf_bitSerial (bs : List Nat) (hb : ∀ b ∈ bs, b < 256) :
    crcOf bs = crcBitSerial 0xFFFF bs := by
  unfold crcOf
  have key : ∀ (l : List Nat) (seed : Nat), seed < 65536 → (∀ b ∈ l, b < 256) →
      get_crc_16 seed (fun i => l.getD i 0) l.length = crcBitSerial seed l := by
    intro l
    induction l with
    | nil => intro seed _ _; rfl
    | cons b l ih =>
      intro seed hs hl
      rw [get_crc_16_cons]
      show _ = crcBitSerial (crcBitSerialByte seed b) l
      rw [← crcByte_steps seed b hs (hl b (List.mem_cons_self _ _))]
      exact ih _ (crcByte_lt _ _) (fun x hx => hl x (List.mem_cons_of_mem _ hx))
  exact key bs 0xFFFF (by decide) hb

theorem crcBitSerial_append (s : Nat) (a b : List Nat) :
    crcBitSerial s (a ++ b) = crcBitSerial (crcBitSerial s a) b := by
  induction a generalizing s with
  | nil => rfl
  | cons x a ih => exact ih _

theorem crcBitStep_lt (x : Nat) (h : x < 65536) : crcBitStep x < 65536 := by
  have hs : x >>> 1 < 2 ^ 16 := by
    rw [Nat.shiftRight_eq_div_pow, Nat.pow_one]
    omega
  unfold crcBitStep
  split_ifs
  · exact Nat.xor_lt_two_pow hs (by decide)
  · exact hs

theorem crcBitSteps_lt (k x : Nat) (h : x < 65536) : crcBitSteps k x < 65536 := by
  induction k generalizing x with
  | zero => exact h
  | succ k ih => exact ih _ (crcBitStep_lt x h)

theorem crcBitSerial_lt (s : Nat) (l : List Nat) (hs : s < 65536) (hl : ∀ b ∈ l, b < 256) :
    crcBitSerial s l < 65536 := by
  induction l generalizing s with
  | nil => exact hs
  | cons b l ih =>
    have hb : b < 2 ^ 16 := by
      have := hl b (List.mem_cons_self _ _)
      omega
    exact ih _ (crcBitSteps_lt 8 _ (Nat.xor_lt_two_pow (show s < 2 ^ 16 from hs) hb))
      (fun x hx => hl x (List.mem_cons_of_mem _ hx))

/-- The bit step maps no 16-bit value but 0 to 0. -/
theorem crcBitStep_eq_zero (x : Nat) (h : x < 65536) (h0 : crcBitStep x = 0) : x = 0 := by
  have hs : x >>> 1 = x / 2 := by rw [Nat.shiftRight_eq_div_pow, Nat.pow_one]
  unfold crcBitStep at h0
  rw [hs] at h0
  split_ifs at h0 with hodd
  · have := Nat.xor_eq_zero.1 h0
    omega
  · omega

theorem crcBitSteps_eq_zero (k x : Nat) (h : x < 65536) (h0 : crcBitSteps k x = 0) : x = 0 := by
  induction k generalizing x with
  | zero => exact h0
  | succ k ih => exact crcBitStep_eq_zero x h (ih _ (crcBitStep_lt x h) h0)

/-- The bit steps are one to one on the 16-bit values. -/
theorem crcBitSteps_inj (k x y : Nat) (hx : x < 65536) (hy : y < 65536)
    (h : crcBitSteps k x = crcBitSteps k y) : x = y := by
  have hz : crcBitSteps k (x ^^^ y) = 0 := by
    rw [crcBitSteps_xor, h, Nat.xor_self]
  exact Nat.xor_eq_zero.1
    (crcBitSteps_eq_zero k _ (Nat.xor_lt_two_pow (show x < 2 ^ 16 from hx) hy) hz)

theorem crcBitSteps_zero (k : Nat) : crcBitSteps k 0 = 0 := by
  induction k with
  | zero => rfl
  | succ k ih => exact ih

/-- `k` bit steps bring a value whose low `k` bits are 0 down by `k` bits. -/
theorem crcBitSteps_shift (k h : Nat) : crcBitSteps k (2 ^ k * h) = h := by
  have := crcBitSteps_split k h 0 (Nat.two_pow_pos k)
  rw [Nat.add_zero, crcBitSteps_zero, Nat.xor_zero] at this
  exact this

theorem xor_low (k h l : Nat) (hl : l < 2 ^ k) : (2 ^ k * h) ^^^ l = 2 ^ k * h + l := by
  apply Nat.eq_of_testBit_eq
  intro j
  rw [Nat.testBit_xor, Nat.testBit_mul_pow_two, Nat.testBit_mul_pow_two_add h hl]
  by_cases hj : j < k
  · rw [if_pos hj]
    have : decide (j ≥ k) = false := by simp; exact hj
    rw [this]
    simp
  · rw [if_neg hj]
    have hle : k ≤ j := by omega
    have hlj : l.testBit j = false :=
      Nat.testBit_lt_two_pow (lt_of_lt_of_le hl (Nat.pow_le_pow_right (by decide) hle))
    have : decide (j ≥ k) = true := by simp; exact hle
    rw [this, hlj]
    simp

/-- The CRC of a byte sequence followed by two bytes `x`, `y`, as bit steps on
the CRC of the sequence. -/
theorem crcOf_two_more (m : List Nat) (x y : Nat) (hm : ∀ b ∈ m, b < 256) (hx : x < 256)
    (hy : y < 256) :
    crcOf (m ++ [x, y]) = crcBitSteps 8 (crcBitSteps 8 (crcOf m ^^^ x) ^^^ y) := by
  have hall : ∀ b ∈ m ++ [x, y], b < 256 := by
    intro b hb
    rcases List.mem_append.1 hb with h | h
    · exact hm b h
    · rcases List.mem_cons.1 h with h | h
      · rw [h]; exact hx
      · rw [List.mem_singleton.1 h]; exact hy
  rw [crcOf_bitSerial _ hall, crcBitSerial_append, ← crcOf_bitSerial m hm]
  rfl

/-- The residue of the CRC: a sequence followed by its CRC, low byte first, has
the CRC 0. -/
theorem crc_residue (m : List Nat) (hm : ∀ b ∈ m, b < 256) : crcOf (withCrc m) = 0 := by
  have hc := crcOf_lt m
  unfold withCrc
  rw [crcOf_two_more m _ _ hm (Nat.mod_lt _ (by decide)) (by omega)]
  have hsplit : crcOf m = 2 ^ 8 * (crcOf m / 256) ^^^ crcOf m % 256 := by
    rw [xor_low 8 (crcOf m / 256) (crcOf m % 256) (Nat.mod_lt _ (by decide))]
    exact (Nat.div_add_mod (crcOf m) 256).symm
  have h1 : crcOf m ^^^ crcOf m % 256 = 2 ^ 8 * (crcOf m / 256) := by
    nth_rewrite 1 [hsplit]
    rw [Nat.xor_cancel_right]
  rw [h1, crcBitSteps_shift, Nat.xor_self]
  exact crcBitSteps_zero 8

/-- A sequence of two or more items is its front followed by its last two
items. -/
theorem split_last_two (f : List Nat) (h2 : 2 ≤ f.length) :
    f = f.take (f.length - 2) ++ [f.getD (f.length - 2) 0, f.getD (f.length - 1) 0] := by
  have hd : f.drop (f.length - 2) = [f.getD (f.length - 2) 0, f.getD (f.length - 1) 0] := by
    apply List.ext_getElem
    · rw [List.length_drop]
      show f.length - (f.length - 2) = 2
      omega
    · intro i h1 h3
      have hi : i < 2 := h3
      rw [List.getElem_drop]
      rcases (show i = 0 ∨ i = 1 by omega) with rfl | rfl
      · show _ = f.getD (f.length - 2) 0
        rw [List.getD_eq_getElem f 0 (by omega)]
        rfl
      · show _ = f.getD (f.length - 1) 0
        rw [List.getD_eq_getElem f 0 (by omega)]
        congr 1
        omega
  rw [← hd, List.take_append_drop]

/-- The receiver's check on a byte sequence is the test of its CRC against 0. -/
theorem crcTrailerOk_iff_residue (f : List Nat) (h2 : 2 ≤ f.length) (hf : ∀ b ∈ f, b < 256) :
    crcTrailerOk f ↔ crcOf f = 0 := by
  have hm : ∀ b ∈ f.take (f.length - 2), b < 256 := fun b hb => hf b (List.mem_of_mem_take hb)
  have hx : f.getD (f.length - 2) 0 < 256 := by
    rw [List.getD_eq_getElem f 0 (by omega)]
    exact hf _ (List.getElem_mem _)
  have hy : f.getD (f.length - 1) 0 < 256 := by
    rw [List.getD_eq_getElem f 0 (by omega)]
    exact hf _ (List.getElem_mem _)
  have hc := crcOf_lt (f.take (f.length - 2))
  constructor
  · intro h
    have hlo : crcOf (f.take (f.length - 2)) % 256 = f.getD (f.length - 2) 0 := by
      rw [h.2]; omega
    have hhi : crcOf (f.take (f.length - 2)) / 256 = f.getD (f.length - 1) 0 := by
      rw [h.2]; omega
    have := crc_residue (f.take (f.length - 2)) hm
    unfold withCrc at this
    rw [hlo, hhi, ← split_last_two f h2] at this
    exact this
  · intro h
    refine ⟨h2, ?_⟩
    rw [split_last_two f h2, crcOf_two_more _ _ _ hm hx hy] at h
    have hy16 : f.getD (f.length - 1) 0 < 2 ^ 16 := by omega
    have hx16 : f.getD (f.length - 2) 0 < 2 ^ 16 := by omega
    have hin : crcOf (f.take (f.length - 2)) ^^^ f.getD (f.length - 2) 0 < 65536 :=
      Nat.xor_lt_two_pow (show _ < 2 ^ 16 from hc) hx16
    have h1 := crcBitSteps_eq_zero 8 _
      (Nat.xor_lt_two_pow (show _ < 2 ^ 16 from crcBitSteps_lt 8 _ hin) hy16) h
    have h2' := Nat.xor_eq_zero.1 h1
    have h3 : crcBitSteps 8 (crcOf (f.take (f.length - 2)) ^^^ f.getD (f.length - 2) 0) =
        crcBitSteps 8 (2 ^ 8 * f.getD (f.length - 1) 0) := by
      rw [crcBitSteps_shift]
      exact h2'
    have h4 := crcBitSteps_inj 8 _ _ hin (by omega) h3
    have h5 : crcOf (f.take (f.length - 2)) =
        2 ^ 8 * f.getD (f.length - 1) 0 ^^^ f.getD (f.length - 2) 0 := by
      rw [← h4, Nat.xor_cancel_right]
    rw [h5, xor_low 8 _ _ hx]
    omega

theorem crcBitSerial_xor (s d : Nat) (b : List Nat) :
    crcBitSerial (s ^^^ d) b = crcBitSerial s b ^^^ crcBitSteps (8 * b.length) d := by
  induction b generalizing s d with
  | nil => rfl
  | cons x b ih =>
    show crcBitSerial (crcBitSteps 8 (s ^^^ d ^^^ x)) b =
      crcBitSerial (crcBitSteps 8 (s ^^^ x)) b ^^^ crcBitSteps (8 * (b.length + 1)) d
    have e : s ^^^ d ^^^ x = (s ^^^ x) ^^^ d := by
      rw [Nat.xor_assoc, Nat.xor_comm d x, ← Nat.xor_assoc]
    have e2 : 8 * (b.length + 1) = 8 + 8 * b.length := by omega
    rw [e, crcBitSteps_xor, ih, e2, crcBitSteps_add]

theorem crcBitSerial_flip (s x e : Nat) (a b : List Nat) :
    crcBitSerial s (a ++ (x ^^^ e) :: b) =
      crcBitSerial s (a ++ x :: b) ^^^ crcBitSteps (8 * (b.length + 1)) e := by
  rw [crcBitSerial_append, crcBitSerial_append]
  show crcBitSerial (crcBitSteps 8 (crcBitSerial s a ^^^ (x ^^^ e))) b =
    crcBitSerial (crcBitSteps 8 (crcBitSerial s a ^^^ x)) b ^^^ _
  have e2 : 8 * (b.length + 1) = 8 + 8 * b.length := by omega
  rw [← Nat.xor_assoc, crcBitSteps_xor, crcBitSerial_xor, e2, crcBitSteps_add]

theorem flipBit_length (f : List Nat) (j k : Nat) : (flipBit f j k).length = f.length :=
  List.length_set _ _ _

theorem flipBit_bytes (f : List Nat) (j k : Nat) (hf : ∀ b ∈ f, b < 256) (hj : j < f.length)
    (hk : k < 8) : ∀ b ∈ flipBit f j k, b < 256 := by
  intro b hb
  rcases List.mem_or_eq_of_mem_set hb with h | h
  · exact hf b h
  · rw [h]
    have hx : f.getD j 0 < 2 ^ 8 := by
      rw [List.getD_eq_getElem f 0 hj]
      exact hf _ (List.getElem_mem _)
    have he : 2 ^ k < 2 ^ 8 := Nat.pow_lt_pow_right (by decide) hk
    exact Nat.xor_lt_two_pow hx he

/-- The CRC of a byte sequence with one bit inverted: the CRC of the sequence
XOR what the bit steps make of the inverted bit over the rest of the sequence. -/
theorem crcOf_flipBit (f : List Nat) (j k : Nat) (hf : ∀ b ∈ f, b < 256) (hj : j < f.length)
    (hk : k < 8) :
    crcOf (flipBit f j k) = crcOf f ^^^ crcBitSteps (8 * (f.length - j)) (2 ^ k) := by
  rw [crcOf_bitSerial _ (flipBit_bytes f j k hf hj hk), crcOf_bitSerial f hf]
  have hset : flipBit f j k =
      f.take j ++ (f.getD j 0 ^^^ 2 ^ k) :: f.drop (j + 1) := by
    unfold flipBit
    rw [List.set_eq_take_append_cons_drop, if_pos hj]
  have hf0 : f = f.take j ++ f.getD j 0 :: f.drop (j + 1) := by
    have h1 : f.drop j = f.getD j 0 :: f.drop (j + 1) := by
      rw [List.getD_eq_getElem f 0 hj]
      exact List.drop_eq_getElem_cons hj
    rw [← h1, List.take_append_drop]
  have hlen : (f.drop (j + 1)).length = f.length - j - 1 := by
    rw [List.length_drop]
    omega
  have e2 : 8 * (f.length - j) = 8 * ((f.drop (j + 1)).length + 1) := by rw [hlen]; omega
  rw [hset, crcBitSerial_flip, ← hf0, e2]

/-- One inverted bit in a byte sequence changes its CRC. -/
theorem crcOf_flipBit_ne (f : List Nat) (j k : Nat) (hf : ∀ b ∈ f, b < 256) (hj : j < f.length)
    (hk : k < 8) : crcOf (flipBit f j k) ≠ crcOf f := by
  rw [crcOf_flipBit f j k hf hj hk]
  intro h
  have h0 : crcBitSteps (8 * (f.length - j)) (2 ^ k) = 0 := by
    have := congrArg (fun z => crcOf f ^^^ z) h
    dsimp only at this
    rw [Nat.xor_cancel_left, Nat.xor_self] at this
    exact this
  have he : 2 ^ k < 2 ^ 16 := Nat.pow_lt_pow_right (by decide) (by omega)
  have := crcBitSteps_eq_zero _ _ he h0
  have hp := Nat.two_pow_pos k
  omega

theorem withCrc_bytes (m : List Nat) (hm : ∀ b ∈ m, b < 256) : ∀ b ∈ withCrc m, b < 256 := by
  have hc := crcOf_lt m
  intro b hb
  unfold withCrc at hb
  rcases List.mem_append.1 hb with h | h
  · exact hm b h
  · rcases List.mem_cons.1 h with h | h
    · rw [h]; omega
    · rw [List.mem_singleton.1 h]; omega

/-! ## C32 — the residue of the CRC -/

/-- C32.  For every byte sequence `m` with CRC `c = get_crc_16 (0xFFFF, m)`, the
CRC of `m` followed by `c mod 256` and `c div 256` is 0.  Conversely, for every
byte sequence `f` of two or more bytes, the receiver's check (the two last bytes
are the CRC of the bytes before them, low byte first) passes if and only if the
CRC of the whole of `f` is 0; this is so for the check of `MinUart_serviceRx` on
every receiver whose buffer holds `f` with `dataLength` the length of `f`. -/
theorem C32_crc_residue (m f : List Nat) (hm : ∀ b ∈ m, b < 256) (hf : ∀ b ∈ f, b < 256)
    (h2 : 2 ≤ f.length) :
    get_crc_16 0xFFFF (fun i => (m ++ [crcOf m % 256, crcOf m / 256]).getD i 0)
      (m.length + 2) = 0 ∧
    (crcTrailerOk f ↔ get_crc_16 0xFFFF (fun i => f.getD i 0) f.length = 0) ∧
    (∀ x : MinUart_STYP, f.length < 65536 → x.dataLength = f.length →
      (∀ i, i < f.length → x.rxBuffer i = f.getD i 0) →
      (MinUart_crcMatches x ↔ get_crc_16 0xFFFF x.rxBuffer x.dataLength = 0)) := by
  refine ⟨?_, crcTrailerOk_iff_residue f h2 hf, ?_⟩
  · have h := crc_residue m hm
    unfold withCrc crcOf at h
    rw [List.length_append] at h
    exact h
  · intro x hl hd hb
    rw [crcMatches_iff x f h2 hl hd hb, crcTrailerOk_iff_residue f h2 hf, hd,
      crc_of_buffer x.rxBuffer f hb]

theorem C32_crc_residue_witness :
    get_crc_16 0xFFFF
      (fun i => ([2, 3, 0x9C, 0x40, 0, 2] ++
        [crcOf [2, 3, 0x9C, 0x40, 0, 2] % 256, crcOf [2, 3, 0x9C, 0x40, 0, 2] / 256]).getD i 0)
      ([2, 3, 0x9C, 0x40, 0, 2].length + 2) = 0 ∧
    (crcTrailerOk [2, 3, 0x9C, 0x40, 0, 2, 235, 189] ↔
      get_crc_16 0xFFFF (fun i => [2, 3, 0x9C, 0x40, 0, 2, 235, 189].getD i 0)
        [2, 3, 0x9C, 0x40, 0, 2, 235, 189].length = 0) :=
  ⟨(C32_crc_residue [2, 3, 0x9C, 0x40, 0, 2] [2, 3, 0x9C, 0x40, 0, 2, 235, 189] (by decide)
      (by decide) (by decide)).1,
    (C32_crc_residue [2, 3, 0x9C, 0x40, 0, 2] [2, 3, 0x9C, 0x40, 0, 2, 235, 189] (by decide)
      (by decide) (by decide)).2.1⟩

/-! ## C33 — every single-bit error is detected -/

/-- C33.  For every byte sequence `m` and its frame `f = m ++ [CRC low, CRC high]`
with the CRC `get_crc_16 (0xFFFF, m)`: inverting any one bit (bit `k < 8` of the
byte at any position `j` of `f`, in the data or in the two CRC bytes) gives a
frame of the same length that the receiver's check rejects: its two last bytes
are not the CRC, low byte first, of the bytes before them.  The CRC of the
altered frame is not 0, the CRC of `f` is. -/
theorem C33_single_bit_error_detected (m : List Nat) (j k : Nat) (hm : ∀ b ∈ m, b < 256)
    (hj : j < (withCrc m).length) (hk : k < 8) :
    ¬ crcTrailerOk (flipBit (withCrc m) j k) ∧
    (flipBit (withCrc m) j k).length = m.length + 2 ∧
    crcTrailerOk (withCrc m) ∧
    crcOf (withCrc m) = 0 ∧ crcOf (flipBit (withCrc m) j k) ≠ 0 := by
  have hb := withCrc_bytes m hm
  have hl := withCrc_length m
  have h0 := crc_residue m hm
  have hne := crcOf_flipBit_ne (withCrc m) j k hb hj hk
  rw [h0] at hne
  have hl2 : 2 ≤ (flipBit (withCrc m) j k).length := by
    rw [flipBit_length, hl]
    omega
  refine ⟨?_, by rw [flipBit_length, hl], ?_, h0, hne⟩
  · intro h
    exact hne ((crcTrailerOk_iff_residue _ hl2 (flipBit_bytes _ j k hb hj hk)).1 h)
  · exact (crcTrailerOk_iff_residue _ (by rw [hl]; omega) hb).2 h0

set_option maxRecDepth 100000 in
theorem C33_single_bit_error_detected_witness :
    flipBit (withCrc [2, 3, 0x9C, 0x40, 0, 2]) 3 6 = [2, 3, 0x9C, 0x00, 0, 2, 235, 188] ∧
    ¬ crcTrailerOk (flipBit (withCrc [2, 3, 0x9C, 0x40, 0, 2]) 3 6) ∧
    ¬ crcTrailerOk (flipBit (withCrc [2, 3, 0x9C, 0x40, 0, 2]) 7 0) :=
  ⟨by decide,
    (C33_single_bit_error_detected [2, 3, 0x9C, 0x40, 0, 2] 3 6 (by decide) (by decide)
      (by decide)).1,
    (C33_single_bit_error_detected [2, 3, 0x9C, 0x40, 0, 2] 7 0 (by decide) (by decide)
      (by decide)).1⟩

/-! ## The passes of the page loop -/

theorem pagePasses_run (limit c : Nat) :
    ∀ (fuel i : Nat), c < fuel →
      (∀ j, j < c → (i + 4 * j) % 65536 < limit) → limit ≤ (i + 4 * c) % 65536 → i < 65536 →
      pagePasses limit fuel i = some c := by
  induction c with
  | zero =>
    intro fuel i hf _ hex hi
    obtain ⟨f, rfl⟩ : ∃ f, fuel = f + 1 := ⟨fuel - 1, by omega⟩
    show (if i < limit then _ else some 0) = some 0
    rw [if_neg (by omega)]
  | succ c ih =>
    intro fuel i hf hin hex hi
    obtain ⟨f, rfl⟩ : ∃ f, fuel = f + 1 := ⟨fuel - 1, by omega⟩
    have h0 := hin 0 (by omega)
    show (if i < limit then
      (pagePasses limit f ((i + BYTES_IN_PAGE) % 65536)).map (fun c => c + 1)
      else some 0) = some (c + 1)
    rw [if_pos (by omega), ih f _ (by omega) _ _ (Nat.mod_lt _ (by decide))]
    · rfl
    · intro j hj
      have := hin (j + 1) (by omega)
      show ((i + 4) % 65536 + 4 * j) % 65536 < limit
      omega
    · show limit ≤ ((i + 4) % 65536 + 4 * c) % 65536
      omega

theorem pagePasses_none (limit : Nat) :
    ∀ (fuel i : Nat), (∀ j, j < fuel → (i + 4 * j) % 65536 < limit) → i < 65536 →
      pagePasses limit fuel i = none := by
  intro fuel
  induction fuel with
  | zero => intro i _ _; rfl
  | succ f ih =>
    intro i hin hi
    have h0 := hin 0 (by omega)
    show (if i < limit then
      (pagePasses limit f ((i + BYTES_IN_PAGE) % 65536)).map (fun c => c + 1)
      else some 0) = none
    rw [if_pos (by omega), ih _ _ (Nat.mod_lt _ (by decide))]
    · rfl
    · intro j hj
      have := hin (j + 1) (by omega)
      show ((i + 4) % 65536 + 4 * j) % 65536 < limit
      omega

/-- The count of `pagePasses` is the number of times the page loop of the write
functions runs its body; without a count the loop has used up its passes. -/
theorem pageLoop_passes (buffer : Nat → Nat) (limit : Nat) :
    ∀ (fuel i : Nat) (p : PageState),
      (∀ c, pagePasses limit fuel i = some c →
        pageLoop buffer limit fuel i p = pageRun buffer c i p) ∧
      (pagePasses limit fuel i = none → (pageLoop buffer limit fuel i p).sys.halted = true) := by
  intro fuel
  induction fuel with
  | zero =>
    intro i p
    exact ⟨fun c h => absurd h (by show ¬ (none = some c); exact fun h => Option.noConfusion h),
      fun _ => rfl⟩
  | succ f ih =>
    intro i p
    by_cases hlt : i < limit
    · have e1 : pagePasses limit (f + 1) i =
          (pagePasses limit f ((i + BYTES_IN_PAGE) % 65536)).map (fun c => c + 1) := by
        show (if i < limit then _ else some 0) = _
        rw [if_pos hlt]
      have e2 : pageLoop buffer limit (f + 1) i p =
          pageLoop buffer limit f ((i + BYTES_IN_PAGE) % 65536) (pageBody buffer i p) := by
        show (if i < limit then _ else p) = _
        rw [if_pos hlt]
      rw [e1, e2]
      obtain ⟨ih1, ih2⟩ := ih ((i + BYTES_IN_PAGE) % 65536) (pageBody buffer i p)
      constructor
      · intro c hc
        cases hq : pagePasses limit f ((i + BYTES_IN_PAGE) % 65536) with
        | none => rw [hq] at hc; exact Option.noConfusion hc
        | some d =>
          rw [hq] at hc
          have hcd : d + 1 = c := Option.some.inj hc
          rw [ih1 d hq, ← hcd]
          rfl
      · intro hn
        cases hq : pagePasses limit f ((i + BYTES_IN_PAGE) % 65536) with
        | none => exact ih2 hq
        | some d => rw [hq] at hn; exact Option.noConfusion hn
    · have e1 : pagePasses limit (f + 1) i = some 0 := by
        show (if i < limit then _ else some 0) = _
        rw [if_neg hlt]
      have e2 : pageLoop buffer limit (f + 1) i p = p := by
        show (if i < limit then _ else p) = _
        rw [if_neg hlt]
      rw [e1, e2]
      constructor
      · intro c hc
        rw [← Option.some.inj hc]
        rfl
      · intro hn
        exact Option.noConfusion hn

/-- The passes of the page loop of a request of `n ≤ 255` bytes at the 16-bit
address `a`: `pagesOf n` when the pages of the request end below the top of the
address space, none at all when `a + n` reaches the top (the 16-bit limit is not
above `a`), and no end otherwise. -/
theorem pagePasses_spec (a n : Nat) (ha : a < 65536) (hn : n ≤ 255) :
    pagePasses ((a + n) % 65536) PAGE_LOOP_FUEL a =
      if a + 4 * pagesOf n < 65536 then some (pagesOf n)
      else if 65536 ≤ a + n then some 0
      else none := by
  unfold pagesOf
  by_cases h1 : a + 4 * ((n + 3) / 4) < 65536
  · rw [if_pos h1]
    exact pagePasses_run _ _ PAGE_LOOP_FUEL a (by show (n + 3) / 4 < 16385; omega)
      (by intro j hj; omega) (by omega) ha
  · rw [if_neg h1]
    by_cases h2 : 65536 ≤ a + n
    · rw [if_pos h2]
      exact pagePasses_run _ 0 PAGE_LOOP_FUEL a (by decide)
        (fun j hj => absurd hj (Nat.not_lt_zero _)) (by omega) ha
    · rw [if_neg h2]
      exact pagePasses_none _ PAGE_LOOP_FUEL a (by intro j _; omega) ha

/-- The passes counted by `instantPasses` are the passes of the page loop of
`Scheduler_writeInstant`; without a count the function never returns. -/
theorem writeInstant_passes (s : System) :
    (∀ c, instantPasses s = some c →
      Scheduler_writeInstant s =
        ((pageRun s.oNFC.update.nfcBuffer c (NFC_getUpdateBlkAddress s.oNFC) ⟨s, 0, []⟩).sys,
          (pageRun s.oNFC.update.nfcBuffer c (NFC_getUpdateBlkAddress s.oNFC)
            ⟨s, 0, []⟩).pageWrites)) ∧
    (instantPasses s = none → (Scheduler_writeInstant s).1.halted = true) := by
  obtain ⟨h1, h2⟩ := pageLoop_passes s.oNFC.update.nfcBuffer
    ((NFC_getUpdateBlkAddress s.oNFC + s.oNFC.update.length) % 65536) PAGE_LOOP_FUEL
    (NFC_getUpdateBlkAddress s.oNFC) ⟨s, 0, []⟩
  constructor
  · intro c hc
    show (_, _) = _
    rw [h1 c hc]
  · exact h2

theorem writeBroadcast_passes (s : System) :
    (∀ c, broadcastPasses s = some c →
      Scheduler_writeBroadcast s =
        ((pageRun s.oNFC.broadcast.nfcBuffer c (NFC_getBroadcastBlkAddress s.oNFC)
            ⟨s, 0, []⟩).sys,
          (pageRun s.oNFC.broadcast.nfcBuffer c (NFC_getBroadcastBlkAddress s.oNFC)
            ⟨s, 0, []⟩).pageWrites)) ∧
    (broadcastPasses s = none → (Scheduler_writeBroadcast s).1.halted = true) := by
  obtain ⟨h1, h2⟩ := pageLoop_passes s.oNFC.broadcast.nfcBuffer
    ((NFC_getBroadcastBlkAddress s.oNFC + s.oNFC.broadcast.length) % 65536) PAGE_LOOP_FUEL
    (NFC_getBroadcastBlkAddress s.oNFC) ⟨s, 0, []⟩
  constructor
  · intro c hc
    show (_, _) = _
    rw [h1 c hc]
  · exact h2

theorem writeProductInfo_passes (s : System) :
    (∀ c, productInfoPasses s = some c →
      Scheduler_writeProductInfo s =
        ((pageRun s.oNFC.productInfoData c BLOCK_NVM_OFFSET ⟨s, 0, []⟩).sys,
          (pageRun s.oNFC.productInfoData c BLOCK_NVM_OFFSET ⟨s, 0, []⟩).pageWrites)) ∧
    (productInfoPasses s = none → (Scheduler_writeProductInfo s).1.halted = true) := by
  obtain ⟨h1, h2⟩ := pageLoop_passes s.oNFC.productInfoData
    ((BLOCK_NVM_OFFSET + s.oNFC.productInfoLength % 256) % 65536) PAGE_LOOP_FUEL
    BLOCK_NVM_OFFSET ⟨s, 0, []⟩
  constructor
  · intro c hc
    show (_, _) = _
    rw [h1 c hc]
  · exact h2

/-- The page loop of `Scheduler_writeProductInfo` starts at `BLOCK_NVM_OFFSET` and
always ends after `ceil (length / 4)` passes. -/
theorem productInfoPasses_eq (s : System) :
    productInfoPasses s = some (pagesOf (s.oNFC.productInfoLength % 256)) := by
  unfold productInfoPasses
  rw [pagePasses_spec BLOCK_NVM_OFFSET _ (by decide)
    (by have := Nat.mod_lt s.oNFC.productInfoLength (show 0 < 256 by decide); omega)]
  rw [if_pos]
  unfold pagesOf
  have := Nat.mod_lt s.oNFC.productInfoLength (show 0 < 256 by decide)
  show 0x20 + 4 * ((s.oNFC.productInfoLength % 256 + 3) / 4) < 65536
  omega

/-! ## C38 — the end of the page loop -/

set_option maxRecDepth 100000 in
/-- C38 (evaluation at the failing input).  The valid request
`writeTopRegisterOwn` (write-multiple-registers to the module address, register
address `0x1C2E`, two data bytes) queues an Instant request with start address
65532 and length 2, so `ceil (length / 4) = 1`.  The 16-bit loop variable of
`Scheduler_writeInstant` goes 65532, 0, 4, ... and is below the limit 65534 at
every pass: the loop has no number of passes and the function never returns.
The valid broadcast request `writeTopRegisterBroadcast` (register address
`0xDC37`) does the same to `Scheduler_writeBroadcast`.  The valid request
`writeTopPageOwn` (start address 65532, length 4) gives the 16-bit limit 0: the
loop ends after 0 passes, not after `ceil (4 / 4) = 1`.  The loop of
`Scheduler_writeProductInfo`, which starts at `BLOCK_NVM_OFFSET`, ends after
`ceil (length / 4)` passes in every state. -/
theorem C38_page_loop_wraps_at_top :
    ValidRequest systemStarted (spaced writeTopRegisterOwn) Usart.idle ∧
    (thenRequest systemStarted writeTopRegisterOwn).oNFC.instantWriteFLG = TRUE ∧
    NFC_getUpdateBlkAddress (thenRequest systemStarted writeTopRegisterOwn).oNFC = 65532 ∧
    (thenRequest systemStarted writeTopRegisterOwn).oNFC.update.length = 2 ∧
    pagesOf 2 = 1 ∧
    instantPasses (thenRequest systemStarted writeTopRegisterOwn) = none ∧
    (Scheduler_writeInstant (thenRequest systemStarted writeTopRegisterOwn)).1.halted = true ∧
    ValidRequest systemStarted (spaced writeTopRegisterBroadcast) Usart.idle ∧
    (thenRequest systemStarted writeTopRegisterBroadcast).oNFC.storeBroadcastFLG = TRUE ∧
    NFC_getBroadcastBlkAddress (thenRequest systemStarted writeTopRegisterBroadcast).oNFC =
      65532 ∧
    (thenRequest systemStarted writeTopRegisterBroadcast).oNFC.broadcast.length = 2 ∧
    broadcastPasses (thenRequest systemStarted writeTopRegisterBroadcast) = none ∧
    (Scheduler_writeBroadcast
      (thenRequest systemStarted writeTopRegisterBroadcast)).1.halted = true ∧
    ValidRequest systemStarted (spaced writeTopPageOwn) Usart.idle ∧
    NFC_getUpdateBlkAddress (thenRequest systemStarted writeTopPageOwn).oNFC = 65532 ∧
    (thenRequest systemStarted writeTopPageOwn).oNFC.update.length = 4 ∧
    pagesOf 4 = 1 ∧
    instantPasses (thenRequest systemStarted writeTopPageOwn) = some 0 ∧
    (∀ s : System, productInfoPasses s = some (pagesOf (s.oNFC.productInfoLength % 256))) := by
  have ha : NFC_getUpdateBlkAddress (thenRequest systemStarted writeTopRegisterOwn).oNFC =
      65532 := by decide
  have hl : (thenRequest systemStarted writeTopRegisterOwn).oNFC.update.length = 2 := by decide
  have hb : NFC_getBroadcastBlkAddress
      (thenRequest systemStarted writeTopRegisterBroadcast).oNFC = 65532 := by decide
  have hbl : (thenRequest systemStarted writeTopRegisterBroadcast).oNFC.broadcast.length = 2 := by
    decide
  have hp : NFC_getUpdateBlkAddress (thenRequest systemStarted writeTopPageOwn).oNFC =
      65532 := by decide
  have hpl : (thenRequest systemStarted writeTopPageOwn).oNFC.update.length = 4 := by decide
  have e1 : instantPasses (thenRequest systemStarted writeTopRegisterOwn) = none := by
    unfold instantPasses
    rw [ha, hl, pagePasses_spec 65532 2 (by decide) (by decide)]
    decide
  have e2 : broadcastPasses (thenRequest systemStarted writeTopRegisterBroadcast) = none := by
    unfold broadcastPasses
    rw [hb, hbl, pagePasses_spec 65532 2 (by decide) (by decide)]
    decide
  have e3 : instantPasses (thenRequest systemStarted writeTopPageOwn) = some 0 := by
    unfold instantPasses
    rw [hp, hpl, pagePasses_spec 65532 4 (by decide) (by decide)]
    decide
  exact ⟨by decide, by decide, ha, hl, by decide, e1, (writeInstant_passes _).2 e1,
    by decide, by decide, hb, hbl, e2, (writeBroadcast_passes _).2 e2,
    by decide, hp, hpl, by decide, e3, productInfoPasses_eq⟩

/-! ## What the handlers leave of the receiver -/

theorem sendReply_usart (s : System) (p : Nat → Nat) (n : Nat) :
    (MinSlave_sendReplyPRIV s p n).usart = s.usart := by
  unfold MinSlave_sendReplyPRIV
  split_ifs <;> rfl

theorem replyRegisterRequest_receiver (d : System) :
    (ModbusSlave_replyRegisterRequestPRIV d).oMinSlave = d.oMinSlave ∧
    (ModbusSlave_replyRegisterRequestPRIV d).usart = d.usart := by
  unfold ModbusSlave_replyRegisterRequestPRIV
  dsimp only
  rw [sendReply_oMinSlave, sendReply_usart]
  exact ⟨rfl, rfl⟩

theorem discover_receiver (d : System) :
    (MinSlave_discoverPRIV d).oMinSlave = d.oMinSlave ∧
    (MinSlave_discoverPRIV d).usart = d.usart := by
  unfold MinSlave_discoverPRIV
  dsimp only
  rw [sendReply_oMinSlave, sendReply_usart]
  exact ⟨rfl, rfl⟩

theorem writeOneRegister_receiver (d : System) :
    (ModbusSlave_writeOneRegisterPRIV d).oMinSlave = d.oMinSlave ∧
    (ModbusSlave_writeOneRegisterPRIV d).usart = d.usart := by
  unfold ModbusSlave_writeOneRegisterPRIV
  dsimp only
  rw [sendReply_oMinSlave, sendReply_usart]
  exact ⟨rfl, rfl⟩

theorem writeRegisters_receiver (d : System) :
    (ModbusSlave_writeRegistersPRIV d).oMinSlave = d.oMinSlave ∧
    (ModbusSlave_writeRegistersPRIV d).usart = d.usart := by
  unfold ModbusSlave_writeRegistersPRIV
  dsimp only
  split_ifs
  · exact ⟨rfl, rfl⟩
  · rw [sendReply_oMinSlave, sendReply_usart]
    exact ⟨rfl, rfl⟩
  · exact ⟨rfl, rfl⟩

theorem getProductInfo_receiver (d : System) :
    (MinSlave_getProductInfoPRIV d).oMinSlave = d.oMinSlave ∧
    (MinSlave_getProductInfoPRIV d).usart = d.usart := by
  unfold MinSlave_getProductInfoPRIV
  dsimp only
  rw [sendReply_oMinSlave, sendReply_usart]
  exact ⟨rfl, rfl⟩

theorem slavePoll_receiver (d : System) :
    (MinSlave_slavePollPRIV d).oMinSlave.uart = d.oMinSlave.uart ∧
    (MinSlave_slavePollPRIV d).oMinSlave.communicationTimeoutCNTR =
      d.oMinSlave.communicationTimeoutCNTR ∧
    (MinSlave_slavePollPRIV d).usart = d.usart := by
  unfold MinSlave_slavePollPRIV
  dsimp only
  rw [sendReply_oMinSlave, sendReply_usart]
  unfold MinSlave_spSendRegistersPRIV MinSlave_spNothingToRespondPRIV minTxEnable
  dsimp only
  split_ifs <;> exact ⟨rfl, rfl, rfl⟩

theorem storeProductInfo_receiver (d : System) :
    (MinSlave_storeProductInfoPRIV d).oMinSlave.uart = d.oMinSlave.uart ∧
    (MinSlave_storeProductInfoPRIV d).oMinSlave.communicationTimeoutCNTR =
      d.oMinSlave.communicationTimeoutCNTR ∧
    (MinSlave_storeProductInfoPRIV d).usart = d.usart := by
  unfold MinSlave_storeProductInfoPRIV
  dsimp only
  split_ifs
  · exact ⟨rfl, rfl, rfl⟩
  · exact ⟨rfl, rfl, rfl⟩
  · rw [sendReply_oMinSlave, sendReply_usart]
    exact ⟨rfl, rfl, rfl⟩

/-- No handler of the function-code switch touches the receiver object, the
communication timeout or the hardware receive buffer. -/
theorem dispatch_receiver (d : System) :
    (MinSlave_dispatch d).oMinSlave.uart = d.oMinSlave.uart ∧
    (MinSlave_dispatch d).oMinSlave.communicationTimeoutCNTR =
      d.oMinSlave.communicationTimeoutCNTR ∧
    (MinSlave_dispatch d).usart = d.usart := by
  unfold MinSlave_dispatch
  dsimp only
  split_ifs
  · have h := replyRegisterRequest_receiver d
    rw [h.1, h.2]
    exact ⟨rfl, rfl, rfl⟩
  · have h := discover_receiver d
    rw [h.1, h.2]
    exact ⟨rfl, rfl, rfl⟩
  · have h := writeOneRegister_receiver d
    rw [h.1, h.2]
    exact ⟨rfl, rfl, rfl⟩
  · have h := writeRegisters_receiver d
    rw [h.1, h.2]
    exact ⟨rfl, rfl, rfl⟩
  · exact slavePoll_receiver d
  · have h := getProductInfo_receiver d
    rw [h.1, h.2]
    exact ⟨rfl, rfl, rfl⟩
  · exact storeProductInfo_receiver d
  · exact ⟨rfl, rfl, rfl⟩

/-! ## The length with which a frame is completed -/

theorem requestBytes_ge (c d : Nat) (hd : 4 ≤ d) : 4 ≤ (requestBytes c).getD d := by
  cases hr : requestBytes c with
  | none => exact hd
  | some n =>
    have := requestBytes_some c n hr
    simp only [Option.getD_some]
    omega

/-- The value of `dataLength` when the end-of-frame test is made for the byte `b`
fetched in the parsing state `v`. -/
theorem staged_dataLength (v : MinUart_STYP) (b : Nat) :
    (bumpIndex (MinUart_checkLength (MinUart_checkHeader (storeByte v b) b) b)).dataLength =
      if (if v.rxBufferIndex = 1 then b else v.functionCode) = MIN_FC16 ∧
          v.rxBufferIndex = MIN_FC16_BYTES_TO_RX_INDEX then b + 9
      else if (if v.rxBufferIndex = 1 then b else v.functionCode) = MIN_FC70_STORE_PRODUCT_INFO ∧
          v.rxBufferIndex = MIN_FC70_BYTES_TO_RX_INDEX then b
      else if v.rxBufferIndex = 1 then (requestBytes b).getD v.dataLength else v.dataLength := by
  simp only [bumpIndex_dataLength, checkLength_dataLength, checkHeader_dataLength,
    checkHeader_functionCode, checkHeader_rxBufferIndex, storeByte_dataLength,
    storeByte_rxBufferIndex, storeByte_functionCode]

/-- The length tested at the end-of-frame test is 4 or more, unless the byte is
the length byte (index 2) of a store-product-information request, which becomes
the length. -/
theorem staged_length (v : MinUart_STYP) (b : Nat) (h4 : 4 ≤ v.dataLength) :
    4 ≤ (bumpIndex (MinUart_checkLength (MinUart_checkHeader (storeByte v b) b) b)).dataLength ∨
    (v.functionCode = MIN_FC70_STORE_PRODUCT_INFO ∧ v.rxBufferIndex = 2 ∧
      (bumpIndex (MinUart_checkLength (MinUart_checkHeader (storeByte v b) b) b)).dataLength =
        b) := by
  rw [staged_dataLength]
  have hq := requestBytes_ge b v.dataLength h4
  by_cases h16 : (if v.rxBufferIndex = 1 then b else v.functionCode) = MIN_FC16 ∧
      v.rxBufferIndex = MIN_FC16_BYTES_TO_RX_INDEX
  · rw [if_pos h16]
    left
    omega
  · rw [if_neg h16]
    by_cases h70 : (if v.rxBufferIndex = 1 then b else v.functionCode) =
        MIN_FC70_STORE_PRODUCT_INFO ∧ v.rxBufferIndex = MIN_FC70_BYTES_TO_RX_INDEX
    · rw [if_pos h70]
      right
      have hi : v.rxBufferIndex = 2 := h70.2
      have hf := h70.1
      rw [if_neg (by omega)] at hf
      exact ⟨hf, hi, rfl⟩
    · rw [if_neg h70]
      left
      split_ifs
      · exact hq
      · exact h4

theorem parseLength_resync (u : MinUart_STYP) (h : ParseLength u) :
    ParseLength (MinUart_resync u) := by
  unfold ParseLength
  rw [resync_dataLength, resync_currentState]
  split_ifs
  · intro _; decide
  · exact h

theorem parseLength_parse (v : MinUart_STYP) (b : Nat) (h : ParseLength v)
    (hs : v.currentState = PARSE_INCOMING) (hi : v.rxBufferIndex < 65535) :
    ParseLength (MinUart_parseIncoming v b) := by
  rw [parseIncoming_eq]
  have h4 := h hs
  have hst := staged_length v b h4
  generalize hx : bumpIndex (MinUart_checkLength (MinUart_checkHeader (storeByte v b) b) b) = x
    at hst
  have hxi : x.rxBufferIndex = v.rxBufferIndex + 1 := by
    rw [← hx]
    simp only [bumpIndex_rxBufferIndex, checkLength_rxBufferIndex, checkHeader_rxBufferIndex,
      storeByte_rxBufferIndex]
    omega
  unfold ParseLength
  rw [checkComplete_dataLength, checkComplete_currentState]
  split_ifs with hc
  · intro h1; exact absurd h1 (by decide)
  · intro _
    rcases hst with h | ⟨_, h2, h3⟩
    · exact h
    · omega

theorem parseLength_service (hw : Usart) (u : MinUart_STYP) (h : ParseLength u)
    (inv : RxInv u) : ParseLength (MinUart_serviceRx hw u).2 := by
  by_cases hrx : 0 < hw.rxChars
  · rw [serviceRx_snd hw u hrx]
    have hv := parseLength_resync u h
    have hinv := rxInv_resync u inv
    unfold uartOnByte
    dsimp only
    split_ifs with h0 h1
    · intro hp
      exact absurd (h0.symm.trans hp) (by decide)
    · have := hinv.parsing h1
      have := hinv.length
      exact parseLength_parse _ _ hv h1 (by simp only [RX_BLOCK_BUFFER_SIZE] at *; omega)
    · exact hv
  · have herr : (USART_RxChar hw).1 ≠ 0 := by
      unfold USART_RxChar
      rw [if_neg (by omega)]
      exact Nat.one_ne_zero
    rw [serviceRx_error hw u herr]
    intro hp
    exact absurd (show (0 : Nat) = 1 from hp) (by decide)

theorem parseLength_reachable (u : MinUart_STYP) (h : Reachable u) : ParseLength u := by
  induction h with
  | defaults => intro hp; exact absurd hp (by decide)
  | init u _ _ => intro hp; exact absurd (show (0 : Nat) = 1 from hp) (by decide)
  | service u hw hr _ ih => exact parseLength_service hw u ih (rxInv_reachable u hr)
  | tick u _ ih =>
    unfold TCA0_OVF_uart
    split_ifs
    · exact ih
    · exact ih
  | consume u _ ih => exact ih

/-- The frame-complete branch in a reachable state: the length with which it is
taken is at most `RX_BLOCK_BUFFER_SIZE`, and it is 4 or more unless the byte
fetched is the length byte (index 2) of a store-product-information request, in
which case it is that byte. -/
theorem completeLength_bounds (hw : Usart) (u : MinUart_STYP) (h : Reachable u)
    (hb : hw.rxBuffer hw.tempIndex < 256) (d : Nat)
    (hc : MinUart_completeLength hw u = some d) :
    d ≤ RX_BLOCK_BUFFER_SIZE ∧
    (4 ≤ d ∨ ((MinUart_resync u).functionCode = MIN_FC70_STORE_PRODUCT_INFO ∧
      (MinUart_resync u).rxBufferIndex = 2 ∧ d = hw.rxBuffer hw.tempIndex)) := by
  have inv := rxInv_resync u (rxInv_reachable u h)
  have hp := parseLength_resync u (parseLength_reachable u h)
  unfold MinUart_completeLength at hc
  dsimp only at hc
  split_ifs at hc with he hs hcomp
  have hrx : 0 < hw.rxChars := by
    by_contra hn
    apply he
    unfold USART_RxChar
    rw [if_neg hn]
    exact Nat.one_ne_zero
  have hbyte : (USART_RxChar hw).2.1 = hw.rxBuffer hw.tempIndex := by
    unfold USART_RxChar
    rw [if_pos hrx]
  rw [hbyte] at hc
  have hd : d = (bumpIndex (MinUart_checkLength (MinUart_checkHeader
      (storeByte (MinUart_resync u) (hw.rxBuffer hw.tempIndex)) (hw.rxBuffer hw.tempIndex))
      (hw.rxBuffer hw.tempIndex))).dataLength := (Option.some.inj hc).symm
  have hst := staged_length (MinUart_resync u) (hw.rxBuffer hw.tempIndex) (hp hs)
  have hle := (rxInv_parse (MinUart_resync u) (hw.rxBuffer hw.tempIndex) inv hb hs).length
  rw [parseIncoming_eq, checkComplete_dataLength] at hle
  rw [← hd] at hst hle
  refine ⟨hle, ?_⟩
  rcases hst with h4 | ⟨h1, h2, h3⟩
  · exact Or.inl h4
  · exact Or.inr ⟨h1, h2, h3⟩

/-! ## Whole pages -/

/-- A service whose pages end below the top of the address space sets every byte
of the pages to the request buffer: byte `a + k` is cell `k` of the buffer for
every `k` below `4 * ceil (n / 4)`, also for the `k` from `n` on. -/
theorem service_whole_pages (buffer : Nat → Nat) (a n : Nat) (s : System) (hn : n ≤ 256)
    (hfit : a + 4 * pagesOf n < 65536) :
    ∀ k, k < 4 * pagesOf n → (serviceRequest buffer a n s).1.nfcMem (a + k) = buffer k := by
  intro k hk
  have hc2 : 4 * pagesOf n ≤ 256 := by unfold pagesOf; omega
  rw [service_fits buffer a n s hfit]
  dsimp only
  rw [pageRun_mem buffer _ a ⟨s, 0, []⟩ (show (0:Nat) < 256 by decide) (by omega),
    if_pos (by omega)]
  congr 1
  show (0 + (a + k - a)) % 256 = k
  omega

/-- A request whose length is a multiple of the page size modifies no byte
outside `[a, a + n)`, when it ends below the top of the address space. -/
theorem service_frame_whole (buffer : Nat → Nat) (a n : Nat) (s : System) (hn : n ≤ 256)
    (h4 : n % 4 = 0) (hfit : a + n < 65536) :
    ∀ x, x < a ∨ a + n ≤ x → (serviceRequest buffer a n s).1.nfcMem x = s.nfcMem x := by
  have hp : 4 * pagesOf n = n := by unfold pagesOf; omega
  intro x hx
  exact (service_stores buffer a n s hn (by omega)).2.2.1 x (by omega)

/-! ## The reply to a read-registers request -/

/-- The store indices of the read-registers handler stay inside `txBuf` when the
request asks for 125 registers or fewer. -/
theorem replyRegisterRequest_fits (d : System)
    (h : d.oMinSlave.uart.rxBuffer MODBUS_FC03_NUM_REG_INDEX ≤ 125) :
    ∀ i ∈ ModbusSlave_replyRegisterRequest_storeIndices d, i < NFC_MAX_MEM := by
  intro i hi
  unfold ModbusSlave_replyRegisterRequest_storeIndices at hi
  dsimp only at hi
  have hlen : (d.oMinSlave.uart.rxBuffer MODBUS_FC03_NUM_REG_INDEX * MIN_BYTES_PER_REG) % 256 =
      d.oMinSlave.uart.rxBuffer MODBUS_FC03_NUM_REG_INDEX * 2 := by
    show (d.oMinSlave.uart.rxBuffer MODBUS_FC03_NUM_REG_INDEX * 2) % 256 = _
    omega
  rw [hlen] at hi
  show i < 256
  rcases List.mem_append.1 hi with h1 | h1
  · rcases List.mem_append.1 h1 with h2 | h2
    · have : i = 0 ∨ i = 1 ∨ i = 2 := by
        simp only [List.mem_cons, List.mem_singleton, List.not_mem_nil, or_false] at h2
        exact h2
      omega
    · obtain ⟨k, hk, rfl⟩ := List.mem_map.1 h2
      have := List.mem_range.1 hk
      show 3 + k < 256
      omega
  · have : i = 3 + d.oMinSlave.uart.rxBuffer MODBUS_FC03_NUM_REG_INDEX * 2 ∨
        i = 3 + d.oMinSlave.uart.rxBuffer MODBUS_FC03_NUM_REG_INDEX * 2 + 1 := by
      simp only [List.mem_cons, List.mem_singleton, List.not_mem_nil, or_false] at h1
      exact h1
    omega

/-- The reply to a valid read-registers request for 125 registers or fewer: the
address byte, the function code, the byte count `2 c` and the `2 c` bytes that the
NFC memory holds from the address `2 r` on, `r = (R - 0x9C40) mod 2^16`, followed
by the CRC. -/
theorem read_registers_reply {s : System} {fr : List (Nat × Nat)} {hw : Usart}
    (v : ValidRequest s fr hw) (hfc : (frameBytes fr).getD 1 0 = MODBUS_FC03)
    (hn : (frameBytes fr).getD 5 0 ≤ 125) :
    (MinSlave_manageMessages (afterFrame s fr hw)).txSent =
      s.txSent ++ withCrc (readBody s.oMinSlave.uart.moduleAddress MIN_FC03 s.nfcMem
        ((sub16 ((frameBytes fr).getD 2 0 * 256 + (frameBytes fr).getD 3 0) 0x9C40 * 2) % 65536)
        ((frameBytes fr).getD 5 0 * 2)) := by
  have hl : fr.length = 8 :=
    fixed_length v MODBUS_FC03 8 hfc (by decide) (by decide) (by decide)
  have r2 := atDispatch_rx v 2 (by omega)
  have r3 := atDispatch_rx v 3 (by omega)
  have r5 : (atDispatch s fr hw).oMinSlave.uart.rxBuffer MODBUS_FC03_NUM_REG_INDEX =
      (frameBytes fr).getD 5 0 := atDispatch_rx v 5 (by omega)
  have hlen : ((frameBytes fr).getD 5 0 * MIN_BYTES_PER_REG) % 256 =
      (frameBytes fr).getD 5 0 * 2 := by
    show ((frameBytes fr).getD 5 0 * 2) % 256 = _
    omega
  rw [handled_by v MODBUS_FC03 hfc _ dispatch_fc03,
    readReply_txSent _ (by rw [r5, hlen]; omega), r5, hlen, atDispatch_addr v,
    modbusRegisterNumber_eq _ (by rw [r2]; exact validRequest_byte v 2)
      (by rw [r3]; exact validRequest_byte v 3), r2, r3]
  rfl

/-! ## A write with function 16 followed by a read with function 3 -/

theorem writeRegisters_store (d : System) :
    (ModbusSlave_writeRegistersPRIV d).nfcMem = d.nfcMem ∧
    (ModbusSlave_writeRegistersPRIV d).halted = d.halted := by
  unfold ModbusSlave_writeRegistersPRIV
  dsimp only
  split_ifs
  · exact ⟨rfl, rfl⟩
  · rw [sendReply_nfcMem, sendReply_halted _ _ _ (by decide)]
    exact ⟨rfl, rfl⟩
  · exact ⟨rfl, rfl⟩

/-- The NFC memory after a valid write-multiple-registers request to the module
address has been dispatched and `Scheduler_manageTasks` has serviced it, when the
pages of the request end below the top of the address space: byte
`HOLDING_REG_OFFSET + 2 r + k` is data byte `k` of the request for `k < N`, and
every byte below `HOLDING_REG_OFFSET + 2 r` is as before. -/
theorem serviced_write_store {s : System} {fr : List (Nat × Nat)} {hw : Usart}
    (v : ValidRequest s fr hw) (hfc : (frameBytes fr).getD 1 0 = MIN_FC16)
    (hown : (frameBytes fr).getD 0 0 = NFC_SLAVE_ADDRESS)
    (hfit : HOLDING_REG_OFFSET +
      2 * sub16 ((frameBytes fr).getD 2 0 * 256 + (frameBytes fr).getD 3 0) 0x9C40 +
      4 * pagesOf ((frameBytes fr).getD 6 0) < 65536) :
    (Scheduler_manageTasks (MinSlave_manageMessages (afterFrame s fr hw))).1.halted = false ∧
    (∀ k, k < (frameBytes fr).getD 6 0 →
      (Scheduler_manageTasks (MinSlave_manageMessages (afterFrame s fr hw))).1.nfcMem
        (HOLDING_REG_OFFSET +
          2 * sub16 ((frameBytes fr).getD 2 0 * 256 + (frameBytes fr).getD 3 0) 0x9C40 + k) =
        (frameBytes fr).getD (7 + k) 0) ∧
    (∀ x, x < HOLDING_REG_OFFSET +
        2 * sub16 ((frameBytes fr).getD 2 0 * 256 + (frameBytes fr).getD 3 0) 0x9C40 →
      (Scheduler_manageTasks (MinSlave_manageMessages (afterFrame s fr hw))).1.nfcMem x =
        s.nfcMem x) := by
  obtain ⟨hreg, hlen, hbuf, hflag⟩ := unicast_write_pending v hfc hown
  have hst := writeRegisters_store (atDispatch s fr hw)
  rw [← handled_by v MIN_FC16 hfc _ dispatch_fc16] at hst
  have hh : (MinSlave_manageMessages (afterFrame s fr hw)).halted = false := by
    rw [hst.2]
    exact v.running
  have hmem : (MinSlave_manageMessages (afterFrame s fr hw)).nfcMem = s.nfcMem := by
    rw [hst.1]
    rfl
  have haddr : NFC_getUpdateBlkAddress (MinSlave_manageMessages (afterFrame s fr hw)).oNFC =
      HOLDING_REG_OFFSET +
        2 * sub16 ((frameBytes fr).getD 2 0 * 256 + (frameBytes fr).getD 3 0) 0x9C40 := by
    unfold NFC_getUpdateBlkAddress
    rw [hreg, Nat.mul_comm, Nat.mod_eq_of_lt (by omega)]
  have hN : (frameBytes fr).getD 6 0 ≤ 256 := by
    have := validRequest_byte v 6
    omega
  have hm := manageTasks_services_instant _ hh hflag (by rw [haddr, hlen]; exact hfit)
  have hs := service_stores
    (Scheduler_minTimeoutCheck (MinSlave_manageMessages (afterFrame s fr hw))).oNFC.update.nfcBuffer
    (NFC_getUpdateBlkAddress
      (Scheduler_minTimeoutCheck (MinSlave_manageMessages (afterFrame s fr hw))).oNFC)
    (Scheduler_minTimeoutCheck (MinSlave_manageMessages (afterFrame s fr hw))).oNFC.update.length
    (Scheduler_minTimeoutCheck (MinSlave_manageMessages (afterFrame s fr hw)))
    (by rw [minTimeoutCheck_oNFC, hlen]; exact hN)
    (by rw [minTimeoutCheck_oNFC, haddr, hlen]; exact hfit)
  rw [← writeInstant_eq, ← hm.2.2.2.2.2.2, minTimeoutCheck_oNFC, minTimeoutCheck_nfcMem, haddr,
    hlen, hmem] at hs
  refine ⟨hm.1, ?_, ?_⟩
  · intro k hk
    rw [hs.2.1 k hk]
    exact hbuf k hk
  · intro x hx
    exact hs.2.2.1 x (Or.inl hx)

/-- What a master reads back.  A valid write-multiple-registers request to the
module address writes `N` bytes at the register address `R`; its pages end below
the top of the address space and `Scheduler_manageTasks` services it.  A valid
read-registers request for `N / 2` registers at the same `R` then yields the reply
`[address, 3, N]`, `N` data bytes and the CRC, in which data byte `i` is, for
`i < HOLDING_REG_OFFSET`, the byte that the NFC memory held at the address
`2 r + i` before the write, and for the `i` from `HOLDING_REG_OFFSET` on the
written byte `i - HOLDING_REG_OFFSET`. -/
theorem read_after_serviced_write (s t : System) (fr1 fr2 : List (Nat × Nat)) (hw1 hw2 : Usart)
    (v1 : ValidRequest s fr1 hw1) (hfc1 : (frameBytes fr1).getD 1 0 = MIN_FC16)
    (hown : (frameBytes fr1).getD 0 0 = NFC_SLAVE_ADDRESS)
    (hfit : HOLDING_REG_OFFSET +
      2 * sub16 ((frameBytes fr1).getD 2 0 * 256 + (frameBytes fr1).getD 3 0) 0x9C40 +
      4 * pagesOf ((frameBytes fr1).getD 6 0) < 65536)
    (hmem : t.nfcMem =
      (Scheduler_manageTasks (MinSlave_manageMessages (afterFrame s fr1 hw1))).1.nfcMem)
    (v2 : ValidRequest t fr2 hw2) (hfc2 : (frameBytes fr2).getD 1 0 = MODBUS_FC03)
    (hR : (frameBytes fr2).getD 2 0 = (frameBytes fr1).getD 2 0 ∧
      (frameBytes fr2).getD 3 0 = (frameBytes fr1).getD 3 0)
    (hc : (frameBytes fr2).getD 5 0 * 2 = (frameBytes fr1).getD 6 0)
    (hn : (frameBytes fr2).getD 5 0 ≤ 125) :
    (MinSlave_manageMessages (afterFrame t fr2 hw2)).txSent =
      t.txSent ++ withCrc
        ([t.oMinSlave.uart.moduleAddress, MIN_FC03, (frameBytes fr1).getD 6 0] ++
          (List.range ((frameBytes fr1).getD 6 0)).map fun i =>
            if i < HOLDING_REG_OFFSET then
              s.nfcMem
                (2 * sub16 ((frameBytes fr1).getD 2 0 * 256 + (frameBytes fr1).getD 3 0) 0x9C40
                  + i)
            else (frameBytes fr1).getD (7 + (i - HOLDING_REG_OFFSET)) 0) := by
  obtain ⟨-, hdata, hold⟩ := serviced_write_store v1 hfc1 hown hfit
  rw [read_registers_reply v2 hfc2 hn, hR.1, hR.2, hc]
  unfold readBody
  congr 3
  apply List.map_congr_left
  intro i hi
  have hi2 := List.mem_range.1 hi
  have hr : (sub16 ((frameBytes fr1).getD 2 0 * 256 + (frameBytes fr1).getD 3 0) 0x9C40 * 2) %
      65536 = 2 * sub16 ((frameBytes fr1).getD 2 0 * 256 + (frameBytes fr1).getD 3 0) 0x9C40 := by
    have h20 : HOLDING_REG_OFFSET = 0x20 := rfl
    rw [h20] at hfit
    omega
  have h6 := validRequest_byte v1 6
  have hpg : (frameBytes fr1).getD 6 0 ≤ 4 * pagesOf ((frameBytes fr1).getD 6 0) := by
    unfold pagesOf
    omega
  have h20 : HOLDING_REG_OFFSET = 0x20 := rfl
  rw [h20] at hfit hdata hold
  rw [hr, Nat.mod_eq_of_lt (by omega), hmem]
  by_cases hlt : i < HOLDING_REG_OFFSET
  · rw [if_pos hlt]
    rw [h20] at hlt
    exact hold _ (by omega)
  · rw [if_neg hlt]
    rw [h20] at hlt ⊢
    have := hdata (i - 0x20) (by omega)
    have e : 0x20 + 2 * sub16 ((frameBytes fr1).getD 2 0 * 256 + (frameBytes fr1).getD 3 0)
        0x9C40 + (i - 0x20) =
        2 * sub16 ((frameBytes fr1).getD 2 0 * 256 + (frameBytes fr1).getD 3 0) 0x9C40 + i := by
      omega
    rw [e] at this
    exact this

/-! ## C36 — the bytes that a service modifies -/

set_option maxRecDepth 100000 in
/-- C36 (evaluation at the failing input).  The NFC memory holds `0xFF` in every
byte.  The valid request `writeRegisterOneOwn` (write-multiple-registers to the
module address, register address `0x9C41`, two data bytes `0xAB 0xCD`) queues an
Instant request with start address `a = 0x22` and length `n = 2`.
`Scheduler_manageTasks` services it with one `NFC_PageWrite` at `0x22`: the bytes
`0x22` and `0x23` get the data, and the bytes `0x24` and `0x25`, outside
`[a, a + n)`, are changed from `0xFF` to 0, the content of the cells 2 and 3 of
the request buffer.  On the firmware that has stored `0x33 0x44` for the register
address `0x9C42` (`registerTwoStored`, bytes `0x24` and `0x25`), the same request
changes these two bytes to 0. -/
theorem C36_page_write_overwrites_neighbours :
    ValidRequest systemErased (spaced writeRegisterOneOwn) Usart.idle ∧
    NFC_getUpdateBlkAddress (thenRequest systemErased writeRegisterOneOwn).oNFC = 0x22 ∧
    (thenRequest systemErased writeRegisterOneOwn).oNFC.update.length = 2 ∧
    (List.range 6).map (fun k => (thenRequest systemErased writeRegisterOneOwn).nfcMem (0x22 + k))
      = [0xFF, 0xFF, 0xFF, 0xFF, 0xFF, 0xFF] ∧
    (Scheduler_manageTasks (thenRequest systemErased writeRegisterOneOwn)).1.halted = false ∧
    (Scheduler_manageTasks (thenRequest systemErased writeRegisterOneOwn)).2 = [0x22] ∧
    (List.range 6).map (fun k =>
      (Scheduler_manageTasks (thenRequest systemErased writeRegisterOneOwn)).1.nfcMem (0x22 + k))
      = [0xAB, 0xCD, 0, 0, 0xFF, 0xFF] ∧
    (List.range 4).map (fun k => registerTwoStored.nfcMem (0x22 + k)) = [0, 0, 0x33, 0x44] ∧
    NFC_getUpdateBlkAddress (thenRequest registerTwoStored writeRegisterOneOwn).oNFC = 0x22 ∧
    (thenRequest registerTwoStored writeRegisterOneOwn).oNFC.update.length = 2 ∧
    (Scheduler_manageTasks (thenRequest registerTwoStored writeRegisterOneOwn)).2 = [0x22] ∧
    (List.range 4).map (fun k =>
      (Scheduler_manageTasks (thenRequest registerTwoStored writeRegisterOneOwn)).1.nfcMem
        (0x22 + k)) = [0xAB, 0xCD, 0, 0] := by
  refine ⟨by decide, by decide, by decide, by decide, by decide, by decide, by decide,
    by decide, by decide, by decide, by decide, by decide⟩


/-! ## C37 — a register written with function 16 and read with function 3 -/

set_option maxRecDepth 100000 in
/-- C37 (evaluation at the failing input).  The valid request
`writeRegisterOneOwn` writes the two bytes `0xAB 0xCD` at the register address
`0x9C41`; `Scheduler_manageTasks` services it and stores them at the NFC addresses
`0x22` and `0x23` (`HOLDING_REG_OFFSET + 2 * 1`).  The valid request
`readRegisterOne` then reads one register at the same register address: the
handler reads from the NFC address `2 * 1 = 2` and replies `[2, 3, 2, 0, 0]` with
its CRC; the data bytes of the reply are `0 0`, not `0xAB 0xCD`. -/
theorem C37_read_misses_written_register :
    ValidRequest systemStarted (spaced writeRegisterOneOwn) Usart.idle ∧
    (thenRequest systemStarted writeRegisterOneOwn).txSent =
      withCrc [2, 16, 0x9C, 0x41, 0, 1] ∧
    registerOneStored.halted = false ∧
    registerOneStored.oNFC.instantWriteFLG = FALSE ∧
    registerOneStored.nfcMem 0x22 = 0xAB ∧ registerOneStored.nfcMem 0x23 = 0xCD ∧
    registerOneStored.nfcMem 2 = 0 ∧ registerOneStored.nfcMem 3 = 0 ∧
    ValidRequest registerOneStored (spaced readRegisterOne) Usart.idle ∧
    (thenRequest registerOneStored readRegisterOne).txSent =
      registerOneStored.txSent ++ withCrc [2, 3, 2, 0, 0] ∧
    (thenRequest registerOneStored readRegisterOne).txSent ≠
      registerOneStored.txSent ++ withCrc [2, 3, 2, 0xAB, 0xCD] := by
  refine ⟨by decide, by decide, by decide, by decide, by decide, by decide, by decide,
    by decide, by decide, by decide, by decide⟩


/-! ## C35 — the reply length in eight bits -/

set_option maxRecDepth 100000 in
/-- C35 (evaluation at the failing input).  The valid read-registers request
`readRequest126` asks for 126 registers.  The handler builds a reply of
`3 + 2 * 126 + 2 = 257` bytes: its stores to `txBuf` end with the two CRC cells
255 and 256, the last one past the `NFC_MAX_MEM = 256` cells of `txBuf`, and the
`uint8_t` `txLength` is `257 mod 256 = 1`, so that the single byte `2` is
transmitted.  A slave-poll request answered with a setpoint of 125 registers
(`MinSlave_setupSetpointChange (1, 2, pData, 125)`) builds `8 + 2 * 125 = 258`
bytes with the CRC in the cells 256 and 257 and transmits the 2 bytes `2, 65`.
With 125 registers the read reply has `3 + 250 + 2 = 255` bytes, all
transmitted. -/
theorem C35_reply_length_wraps :
    ValidRequest systemStarted (spaced readRequest126) Usart.idle ∧
    (frameBytes (spaced readRequest126)).getD MODBUS_FC03_NUM_REG_INDEX 0 = 126 ∧
    (thenRequest systemStarted readRequest126).txSent = [2] ∧
    (ModbusSlave_replyRegisterRequest_storeIndices
      (atDispatch systemStarted (spaced readRequest126) Usart.idle)).length = 257 ∧
    (ModbusSlave_replyRegisterRequest_storeIndices
      (atDispatch systemStarted (spaced readRequest126) Usart.idle)).getLast? = some 256 ∧
    ¬ 256 < NFC_MAX_MEM ∧
    ValidRequest (systemWithSetpoint 125) pollTimed Usart.idle ∧
    (systemWithSetpoint 125).oMinSlave.numRegsToChange = 125 ∧
    (MinSlave_manageMessages (afterFrame (systemWithSetpoint 125) pollTimed Usart.idle)).txSent =
      [2, 65] ∧
    (MinSlave_spSendRegisters_storeIndices
      (atDispatch (systemWithSetpoint 125) pollTimed Usart.idle)).getLast? = some 257 ∧
    (thenRequest systemStarted [2, 3, 0x9C, 0x40, 0, 125, 170, 92]).txSent.length = 255 := by
  refine ⟨by decide, by decide, by decide, by decide, by decide, by decide, by decide,
    by decide, by decide, by decide, by decide⟩


/-! ## C34 — the length of a completed frame -/

set_option maxRecDepth 100000 in
/-- C34 (evaluation at the failing input).  The receiver has taken the bytes
`2, 70` of a store-product-information request (`uartStoreInfoHeader`, a reachable
state: index 2, `dataLength` 105).  With the next byte `0`, the length byte at
index 2, `MinUart_serviceRx` sets `dataLength` to 0 and takes the frame-complete
branch (`3 >= 0`): the CRC length `dataLength - 2` is 65534 in 16 bits and the
trailing cells are 65535 and 65534, past the `RX_BLOCK_BUFFER_SIZE = 264` cells of
`rxBuffer`.  With the length byte `1` the branch is taken with `dataLength` 1:
CRC length 65535, trailing cells 0 and 65535.  With the length byte `2` the
branch is taken with `dataLength` 2. -/
theorem C34_short_store_info_frame_completes :
    Reachable uartStoreInfoHeader ∧
    uartStoreInfoHeader.currentState = PARSE_INCOMING ∧
    uartStoreInfoHeader.rxBufferIndex = 2 ∧
    uartStoreInfoHeader.functionCode = MIN_FC70_STORE_PRODUCT_INFO ∧
    MinUart_completeLength (rxPending 0) uartStoreInfoHeader = some 0 ∧
    sub16 0 2 = 65534 ∧ sub16 0 1 = 65535 ∧ ¬ sub16 0 2 < RX_BLOCK_BUFFER_SIZE ∧
    MinUart_completeLength (rxPending 1) uartStoreInfoHeader = some 1 ∧
    sub16 1 2 = 65535 ∧ ¬ sub16 1 2 < RX_BLOCK_BUFFER_SIZE ∧
    MinUart_completeLength (rxPending 2) uartStoreInfoHeader = some 2 ∧
    MinUart_completeLength (rxPending 3) uartStoreInfoHeader = some 3 ∧
    MinUart_completeLength (rxPending 4) uartStoreInfoHeader = none := by
  refine ⟨reachable_run _ _ Reachable.defaults, by decide, by decide, by decide, by decide,
    by decide, by decide, by decide, by decide, by decide, by decide, by decide, by decide,
    by decide⟩

/-! ## The cells of `txBuf` that the handlers change -/

theorem sendReply_txBuf (s : System) (p : Nat → Nat) (n : Nat) :
    (MinSlave_sendReplyPRIV s p n).txBuf = s.txBuf := by
  unfold MinSlave_sendReplyPRIV
  split_ifs <;> rfl

theorem not_mem_cells (h : List Nat) (off n a b k : Nat)
    (hk : k ∉ h ++ (List.range n).map (fun i => off + i) ++ [a, b]) :
    k ∉ h ∧ ¬ (off ≤ k ∧ k < off + n) ∧ k ≠ a ∧ k ≠ b := by
  refine ⟨fun hh => hk ?_, fun hh => hk ?_, fun hh => hk ?_, fun hh => hk ?_⟩
  · exact List.mem_append_left _ (List.mem_append_left _ hh)
  · refine List.mem_append_left _ (List.mem_append_right _ ?_)
    exact List.mem_map.2 ⟨k - off, List.mem_range.2 (by omega), by omega⟩
  · rw [hh]
    exact List.mem_append_right _ (List.mem_cons_self _ _)
  · rw [hh]
    exact List.mem_append_right _ (List.mem_cons_of_mem _ (List.mem_cons_self _ _))

theorem replyRegisterRequest_txBuf_outside (d : System) (k : Nat)
    (hk : k ∉ ModbusSlave_replyRegisterRequest_storeIndices d) :
    (ModbusSlave_replyRegisterRequestPRIV d).txBuf k = d.txBuf k := by
  obtain ⟨h0, h1, h2, h3⟩ := not_mem_cells _ _ _ _ _ _ hk
  have h00 : k ≠ 0 ∧ k ≠ 1 ∧ k ≠ 2 := by
    refine ⟨fun e => h0 ?_, fun e => h0 ?_, fun e => h0 ?_⟩ <;> rw [e] <;> decide
  unfold ModbusSlave_replyRegisterRequestPRIV
  dsimp only
  show (MinSlave_sendReplyPRIV _ _ _).txBuf k = _
  rw [sendReply_txBuf]
  show Function.update (Function.update (copyLoop _ _ _ _ _) _ _) _ _ k = _
  rw [Function.update_apply, if_neg h3, Function.update_apply, if_neg h2, copyLoop_apply,
    if_neg h1, Function.update_apply, if_neg h00.2.2, Function.update_apply, if_neg h00.2.1,
    Function.update_apply, if_neg h00.1]

theorem getProductInfo_txBuf_outside (d : System) (k : Nat)
    (hk : k ∉ MinSlave_getProductInfo_storeIndices d) :
    (MinSlave_getProductInfoPRIV d).txBuf k = d.txBuf k := by
  obtain ⟨h0, h1, h2, h3⟩ := not_mem_cells _ _ _ _ _ _ hk
  have h00 : k ≠ 0 ∧ k ≠ 1 ∧ k ≠ 2 := by
    refine ⟨fun e => h0 ?_, fun e => h0 ?_, fun e => h0 ?_⟩ <;> rw [e] <;> decide
  unfold MinSlave_getProductInfoPRIV
  dsimp only
  rw [sendReply_txBuf]
  show Function.update (Function.update (copyLoop _ _ _ _ _) _ _) _ _ k = _
  rw [Function.update_apply, if_neg h3, Function.update_apply, if_neg h2, copyLoop_apply,
    if_neg h1, Function.update_apply, if_neg h00.2.2, Function.update_apply, if_neg h00.2.1,
    Function.update_apply, if_neg h00.1]

theorem discover_txBuf_outside (d : System) (k : Nat)
    (hk : k ∉ MinSlave_discover_storeIndices d) :
    (MinSlave_discoverPRIV d).txBuf k = d.txBuf k := by
  obtain ⟨h0, h1, h2, h3⟩ := not_mem_cells _ _ _ _ _ _ hk
  have h00 : k ≠ 0 ∧ k ≠ 1 ∧ k ≠ 2 := by
    refine ⟨fun e => h0 ?_, fun e => h0 ?_, fun e => h0 ?_⟩ <;> rw [e] <;> decide
  unfold MinSlave_discoverPRIV
  dsimp only
  rw [sendReply_txBuf]
  show Function.update (Function.update (registerLoop _ _ _ _) _ _) _ _ k = _
  rw [Function.update_apply, if_neg h3, Function.update_apply, if_neg h2, registerLoop_apply,
    if_neg h1, Function.update_apply, if_neg h00.2.2, Function.update_apply, if_neg h00.2.1,
    Function.update_apply, if_neg h00.1]

theorem echo_txBuf_outside (t rx : Nat → Nat) (a b : Nat) (k : Nat)
    (hk : k ∉ List.range 6 ++ [6, 7]) :
    Function.update (Function.update (copyLoop t 0 rx 0 6) 6 a) 7 b k = t k := by
  have h8 : ¬ k < 8 := by
    intro h
    apply hk
    have : k = 0 ∨ k = 1 ∨ k = 2 ∨ k = 3 ∨ k = 4 ∨ k = 5 ∨ k = 6 ∨ k = 7 := by omega
    rcases this with e | e | e | e | e | e | e | e <;> rw [e] <;> decide
  rw [Function.update_apply, if_neg (by omega), Function.update_apply, if_neg (by omega),
    copyLoop_apply, if_neg (by omega)]

theorem writeOneRegister_txBuf_outside (d : System) (k : Nat)
    (hk : k ∉ ModbusSlave_writeOneRegister_storeIndices) :
    (ModbusSlave_writeOneRegisterPRIV d).txBuf k = d.txBuf k := by
  unfold ModbusSlave_writeOneRegisterPRIV
  dsimp only
  show (MinSlave_sendReplyPRIV _ _ _).txBuf k = _
  rw [sendReply_txBuf]
  exact echo_txBuf_outside d.txBuf _ _ _ k hk

theorem writeRegisters_txBuf_outside (d : System) (k : Nat)
    (hk : k ∉ ModbusSlave_writeRegisters_storeIndices d) :
    (ModbusSlave_writeRegistersPRIV d).txBuf k = d.txBuf k := by
  unfold ModbusSlave_writeRegisters_storeIndices at hk
  unfold ModbusSlave_writeRegistersPRIV
  dsimp only at hk ⊢
  split_ifs at hk ⊢ with h1 h2
  · rfl
  · show (MinSlave_sendReplyPRIV _ _ _).txBuf k = _
    rw [sendReply_txBuf]
    exact echo_txBuf_outside d.txBuf _ _ _ k hk
  · rfl

theorem storeProductInfo_txBuf_outside (d : System) (k : Nat)
    (hk : k ∉ MinSlave_storeProductInfo_storeIndices d) :
    (MinSlave_storeProductInfoPRIV d).txBuf k = d.txBuf k := by
  unfold MinSlave_storeProductInfo_storeIndices at hk
  unfold MinSlave_storeProductInfoPRIV
  dsimp only at hk ⊢
  split_ifs at hk ⊢ with h1 h2
  · rfl
  · rfl
  · have h6 : ¬ k < 6 := by
      intro h
      apply hk
      have : k = 0 ∨ k = 1 ∨ k = 2 ∨ k = 3 ∨ k = 4 ∨ k = 5 := by omega
      rcases this with e | e | e | e | e | e <;> rw [e] <;> decide
    rw [sendReply_txBuf]
    show Function.update (Function.update (Function.update (Function.update
      (copyLoop _ _ _ _ _) _ _) _ _) _ _) _ _ k = _
    rw [Function.update_apply, if_neg (by omega), Function.update_apply, if_neg (by omega),
      Function.update_apply, if_neg (by omega), Function.update_apply, if_neg (by omega),
      copyLoop_apply, if_neg (by omega)]

theorem slavePoll_txBuf_outside (d : System) (k : Nat)
    (hk : k ∉ MinSlave_slavePoll_storeIndices d) :
    (MinSlave_slavePollPRIV d).txBuf k = d.txBuf k := by
  unfold MinSlave_slavePoll_storeIndices at hk
  have h0 : k ≠ 0 := fun e => hk (by rw [e]; exact List.mem_append_left _ (by decide))
  have h1 : k ≠ 1 := fun e => hk (by rw [e]; exact List.mem_append_left _ (by decide))
  have hr := fun hh => hk (List.mem_append_right _ hh)
  unfold MinSlave_slavePollPRIV
  dsimp only
  rw [sendReply_txBuf]
  unfold MinSlave_spSendRegistersPRIV MinSlave_spNothingToRespondPRIV minTxEnable
  dsimp only
  by_cases hc : d.oMinSlave.changeDataFlag ≠ 0
  · rw [if_pos hc] at hr
    obtain ⟨g0, g1, g2, g3⟩ := not_mem_cells _ _ _ _ _ _ hr
    have g00 : k ≠ 2 ∧ k ≠ 3 ∧ k ≠ 4 ∧ k ≠ 5 := by
      refine ⟨fun e => g0 ?_, fun e => g0 ?_, fun e => g0 ?_, fun e => g0 ?_⟩ <;>
        rw [e] <;> decide
    split_ifs <;>
    · show Function.update (Function.update (registerLoop _ _ _ _) _ _) _ _ k = _
      rw [Function.update_apply, if_neg g3, Function.update_apply, if_neg g2,
        registerLoop_apply, if_neg g1, Function.update_apply, if_neg g00.2.2.2,
        Function.update_apply, if_neg g00.2.2.1, Function.update_apply, if_neg g00.2.1,
        Function.update_apply, if_neg g00.1, Function.update_apply, if_neg h1,
        Function.update_apply, if_neg h0]
  · rw [if_neg hc] at hr
    have g : k ≠ 2 ∧ k ≠ 3 ∧ k ≠ 4 := by
      refine ⟨fun e => hr ?_, fun e => hr ?_, fun e => hr ?_⟩ <;> rw [e] <;> decide
    split_ifs <;>
    · show Function.update (Function.update (Function.update _ _ _) _ _) _ _ k = _
      rw [Function.update_apply, if_neg g.2.2, Function.update_apply, if_neg g.2.1,
        Function.update_apply, if_neg g.1, Function.update_apply, if_neg h1,
        Function.update_apply, if_neg h0]

/-- The handler that the switch selects changes no cell of `txBuf` outside its
store indices. -/
theorem dispatch_txBuf_outside (d : System) (k : Nat)
    (hk : k ∉ MinSlave_dispatch_storeIndices d) :
    (MinSlave_dispatch d).txBuf k = d.txBuf k := by
  unfold MinSlave_dispatch_storeIndices at hk
  unfold MinSlave_dispatch
  dsimp only at hk ⊢
  split_ifs at hk ⊢
  · exact replyRegisterRequest_txBuf_outside d k hk
  · exact discover_txBuf_outside d k hk
  · exact writeOneRegister_txBuf_outside d k hk
  · exact writeRegisters_txBuf_outside d k hk
  · exact slavePoll_txBuf_outside d k hk
  · exact getProductInfo_txBuf_outside d k hk
  · exact storeProductInfo_txBuf_outside d k hk
  · rfl

/-! ## The checked dispatcher -/

theorem dispatch_checked_some (d : System) (h : MinSlave_dispatch_inBounds d) :
    MinSlave_dispatch_checked d = some (MinSlave_dispatch d) := by
  unfold MinSlave_dispatch_checked
  rw [if_pos h]

theorem dispatch_checked_none (d : System) (h : ¬ MinSlave_dispatch_inBounds d) :
    MinSlave_dispatch_checked d = none := by
  unfold MinSlave_dispatch_checked
  rw [if_neg h]

/-- Where the checked call has a result, it is the state that
`MinSlave_manageMessages` returns. -/
theorem manageMessages_checked_sound (s t : System)
    (h : MinSlave_manageMessages_checked s = some t) : MinSlave_manageMessages s = t := by
  unfold MinSlave_manageMessages_checked at h
  unfold MinSlave_manageMessages
  by_cases h1 : s.halted = true
  · rw [if_pos h1] at h ⊢
    exact Option.some.inj h
  · rw [if_neg h1] at h ⊢
    by_cases h2 : s.pMinSlaveSelf = false
    · rw [if_pos h2] at h ⊢
      exact Option.some.inj h
    · rw [if_neg h2] at h ⊢
      dsimp only at h ⊢
      by_cases h3 : (serviceRxLoop 256 s.usart s.oMinSlave.uart).2.processPacketFlag = FALSE
      · rw [if_pos h3] at h ⊢
        exact Option.some.inj h
      · rw [if_neg h3] at h ⊢
        unfold MinSlave_dispatch_checked at h
        split_ifs at h
        exact Option.some.inj h

theorem manageMessages_checked_valid {s : System} {fr : List (Nat × Nat)} {hw : Usart}
    (v : ValidRequest s fr hw) :
    MinSlave_manageMessages_checked (afterFrame s fr hw) =
      MinSlave_dispatch_checked (atDispatch s fr hw) := by
  have hfin := frame_received s.oMinSlave.uart fr v.countdown v.gaps v.framed
  have hp : ¬ (afterFrame s fr hw).oMinSlave.uart.processPacketFlag = FALSE := by
    show ¬ (rxRun s.oMinSlave.uart (frameEvents fr)).processPacketFlag = FALSE
    rw [hfin.2.2.2.2.2.2.1, if_pos v.crc]
    decide
  have h1 : ¬ ((afterFrame s fr hw).halted = true) := by
    show ¬ (s.halted = true)
    rw [v.running]
    decide
  have h2 : ¬ ((afterFrame s fr hw).pMinSlaveSelf = false) := by
    show ¬ (s.pMinSlaveSelf = false)
    rw [v.initialised]
    decide
  have hd : HardwareUart_GetCharsInRxBuf (afterFrame s fr hw).usart = 0 := v.drained
  unfold MinSlave_manageMessages_checked
  rw [if_neg h1, if_neg h2, serviceRxLoop_empty 256 _ _ hd]
  dsimp only
  rw [if_neg hp]
  rfl

/-- The checked call does nothing when the hardware buffer is empty and no packet
is flagged. -/
theorem manageMessages_checked_idle (s : System)
    (h : HardwareUart_GetCharsInRxBuf s.usart = 0)
    (hp : s.oMinSlave.uart.processPacketFlag = FALSE) :
    MinSlave_manageMessages_checked s = some s := by
  unfold MinSlave_manageMessages_checked
  split_ifs with h1 h2
  · rfl
  · rfl
  · rw [serviceRxLoop_empty 256 _ _ h]
    dsimp only
    rw [if_pos hp]

/-- A valid request whose handler keeps its array accesses inside the arrays is
consumed once.  The call of `MinSlave_manageMessages` has a defined result, in
which `processPacketFlag` is `FALSE` and `communicationTimeoutCNTR` is
`ONE_SECOND_TIME`; a second call, with no byte received in between, has that same
state as its result: it transmits nothing and changes neither `slaveRegisters`
nor any write request nor the NFC memory.  No cell past the `NFC_MAX_MEM` cells
of `txBuf` is changed. -/
theorem frame_consumed_once {s : System} {fr : List (Nat × Nat)} {hw : Usart}
    (v : ValidRequest s fr hw) (hin : MinSlave_dispatch_inBounds (atDispatch s fr hw)) :
    MinSlave_manageMessages_checked (afterFrame s fr hw) =
      some (MinSlave_manageMessages (afterFrame s fr hw)) ∧
    (MinSlave_manageMessages (afterFrame s fr hw)).oMinSlave.uart.processPacketFlag = FALSE ∧
    (MinSlave_manageMessages (afterFrame s fr hw)).oMinSlave.communicationTimeoutCNTR =
      ONE_SECOND_TIME ∧
    MinSlave_manageMessages_checked (MinSlave_manageMessages (afterFrame s fr hw)) =
      some (MinSlave_manageMessages (afterFrame s fr hw)) ∧
    MinSlave_manageMessages (MinSlave_manageMessages (afterFrame s fr hw)) =
      MinSlave_manageMessages (afterFrame s fr hw) ∧
    ∀ k, NFC_MAX_MEM ≤ k → (MinSlave_manageMessages (afterFrame s fr hw)).txBuf k = s.txBuf k := by
  have hd := dispatch_receiver (atDispatch s fr hw)
  have hout := dispatch_txBuf_outside (atDispatch s fr hw)
  rw [← manageMessages_valid v] at hd hout
  have hflag : (MinSlave_manageMessages (afterFrame s fr hw)).oMinSlave.uart.processPacketFlag =
      FALSE := by
    rw [hd.1]
    rfl
  have hdrained :
      HardwareUart_GetCharsInRxBuf (MinSlave_manageMessages (afterFrame s fr hw)).usart = 0 := by
    rw [hd.2.2]
    exact v.drained
  refine ⟨?_, hflag, ?_, manageMessages_checked_idle _ hdrained hflag,
    manageMessages_idle _ hdrained hflag, ?_⟩
  · rw [manageMessages_checked_valid v, dispatch_checked_some _ hin, manageMessages_valid v]
  · rw [hd.2.1]
    rfl
  · intro k hk
    rw [hout k (fun hmem => absurd (hin.1 k hmem) (by omega))]
    rfl

/-! ## C31 — a ready frame is consumed once -/

set_option maxRecDepth 100000 in
/-- C31 (evaluation at the failing input).  The valid read-registers request
`readRequest127` asks for 127 registers.  The switch selects
`ModbusSlave_replyRegisterRequestPRIV`, whose stores to `txBuf` include the cells
256, 257 and 258 (the last data byte and the two CRC bytes), past the
`NFC_MAX_MEM = 256` cells of the array; with an erased NFC memory the data byte
`0xFF` goes to the cell 256.  The call of `MinSlave_manageMessages` that
dispatches the frame has no defined result, and so no state is left from which a
second call could leave everything unchanged.  The request `readRequest125` for
125 registers is valid too and stays inside the arrays: the call has a result, in
which `processPacketFlag` is `FALSE` and `communicationTimeoutCNTR` is
`ONE_SECOND_TIME`, and the second call returns that same state. -/
theorem C31_frame_dispatch_overruns_txBuf :
    ValidRequest systemErased (spaced readRequest127) Usart.idle ∧
    (frameBytes (spaced readRequest127)).getD MODBUS_FC03_NUM_REG_INDEX 0 = 127 ∧
    (atDispatch systemErased (spaced readRequest127) Usart.idle).oMinSlave.uart.functionCode =
      MODBUS_FC03 ∧
    (MinSlave_dispatch_storeIndices
      (atDispatch systemErased (spaced readRequest127) Usart.idle)).filter
        (fun i => decide (NFC_MAX_MEM ≤ i)) = [256, 257, 258] ∧
    systemErased.txBuf 256 = 0 ∧
    (thenRequest systemErased readRequest127).txBuf 256 = 0xFF ∧
    ¬ MinSlave_dispatch_inBounds (atDispatch systemErased (spaced readRequest127) Usart.idle) ∧
    MinSlave_manageMessages_checked (afterFrame systemErased (spaced readRequest127) Usart.idle) =
      none ∧
    ValidRequest systemErased (spaced readRequest125) Usart.idle ∧
    MinSlave_dispatch_inBounds (atDispatch systemErased (spaced readRequest125) Usart.idle) ∧
    MinSlave_manageMessages_checked (afterFrame systemErased (spaced readRequest125) Usart.idle) =
      some (thenRequest systemErased readRequest125) ∧
    (thenRequest systemErased readRequest125).oMinSlave.uart.processPacketFlag = FALSE ∧
    (thenRequest systemErased readRequest125).oMinSlave.communicationTimeoutCNTR =
      ONE_SECOND_TIME ∧
    MinSlave_manageMessages_checked (thenRequest systemErased readRequest125) =
      some (thenRequest systemErased readRequest125) := by
  have v127 : ValidRequest systemErased (spaced readRequest127) Usart.idle := by decide
  have v125 : ValidRequest systemErased (spaced readRequest125) Usart.idle := by decide
  have out127 :
      ¬ MinSlave_dispatch_inBounds (atDispatch systemErased (spaced readRequest127) Usart.idle) := by
    decide
  have in125 :
      MinSlave_dispatch_inBounds (atDispatch systemErased (spaced readRequest125) Usart.idle) := by
    decide
  have h := frame_consumed_once v125 in125
  refine ⟨v127, by decide, by decide, by decide, by decide, by decide, out127, ?_,
    v125, in125, h.1, h.2.1, h.2.2.1, h.2.2.2.1⟩
  rw [manageMessages_checked_valid v127, dispatch_checked_none _ out127]

end NFCKey
